import Mathlib

/-!
# RPCSEC_GSS client authentication (net/sunrpc/auth_gss/auth_gss.c)

A shallow embedding of the credential / context / upcall state machine of
`auth_gss.c`.  Kernel objects live in heaps indexed by their address, a
nullable pointer is an `Option Nat`, and every C function that changes
state takes the world and returns the new one.

Conventions:
* `unsigned long` is 64 bits wide (the tree is an arm64 kernel), `u32` and
  `unsigned int` are 32 bits wide; both are natural numbers reduced
  explicitly where the C arithmetic can wrap.
* `atomic_t` reference counts are integers; they stay far from the ends of
  their range, so no reduction is applied to them.
* `kfree` and `call_rcu` are recorded in a `freed` mark on the object.
* wait queues (`rpc_wake_up_status`, `wake_up_all`, `rpc_sleep_on`) belong to
  the scheduler and leave no trace in the world.
-/

namespace AuthGss

/-! ## Constants -/

/-- Modulus of `unsigned long` and of pointers (64-bit kernel). -/
def ULONG_MOD : Nat := 2 ^ 64

/-- Modulus of `u32` / `unsigned int`. -/
def U32_MOD : Nat := 2 ^ 32

/-- The `errno` numbers used by `auth_gss.c` (asm-generic values). -/
def ENOENT : Int := 2
def EAGAIN : Int := 11
def ENOMEM : Int := 12
def EACCES : Int := 13
def EFAULT : Int := 14
def EBUSY : Int := 16
def EINVAL : Int := 22
def EFBIG : Int := 27
def EPIPE : Int := 32
def ENOSYS : Int := 38
def EKEYEXPIRED : Int := 127

/-- Line 64: `#define GSS_RETRY_EXPIRED 5`. -/
def GSS_RETRY_EXPIRED : Nat := 5

/-- Line 180: `#define GSSD_MIN_TIMEOUT (60 * 60)`. -/
def GSSD_MIN_TIMEOUT : Nat := 60 * 60

/-- Line 664: `#define MSG_BUF_MAXSIZE 1024`. -/
def MSG_BUF_MAXSIZE : Nat := 1024

/-- The value of `gc_proc` meaning ordinary data (`RPC_GSS_PROC_DATA`). -/
def RPC_GSS_PROC_DATA : Nat := 0

/-! ## Credential flags -/

/-- The bits of `cr_flags` that `auth_gss.c` names. -/
inductive CredBit where
  | RPCAUTH_CRED_NEW
  | RPCAUTH_CRED_UPTODATE
  | RPCAUTH_CRED_NEGATIVE
  deriving DecidableEq, Repr

/-- The word `cr_flags`: the three bits named in this file, and `rest`, the
other bits of the word taken together. -/
structure CrFlags where
  new : Bool
  uptodate : Bool
  negative : Bool
  rest : Nat
  deriving DecidableEq, Repr

/-- The kernel bit operation `test_bit(nr, &flags)`. -/
def test_bit (b : CredBit) (f : CrFlags) : Bool :=
  match b with
  | .RPCAUTH_CRED_NEW => f.new
  | .RPCAUTH_CRED_UPTODATE => f.uptodate
  | .RPCAUTH_CRED_NEGATIVE => f.negative

/-- The kernel bit operation `set_bit(nr, &flags)`. -/
def set_bit (b : CredBit) (f : CrFlags) : CrFlags :=
  match b with
  | .RPCAUTH_CRED_NEW => { f with new := true }
  | .RPCAUTH_CRED_UPTODATE => { f with uptodate := true }
  | .RPCAUTH_CRED_NEGATIVE => { f with negative := true }

/-- The kernel bit operation `clear_bit(nr, &flags)`. -/
def clear_bit (b : CredBit) (f : CrFlags) : CrFlags :=
  match b with
  | .RPCAUTH_CRED_NEW => { f with new := false }
  | .RPCAUTH_CRED_UPTODATE => { f with uptodate := false }
  | .RPCAUTH_CRED_NEGATIVE => { f with negative := false }

/-- The word `1UL << RPCAUTH_CRED_NEW`: the bit NEW and nothing else. -/
def CRED_NEW_ONLY : CrFlags :=
  { new := true, uptodate := false, negative := false, rest := 0 }

/-! ## Objects -/

/-- The fields of `struct gss_cl_ctx`. -/
structure gss_cl_ctx where
  count : Int
  gc_proc : Nat
  gc_seq : Nat
  gc_expiry : Nat
  gc_win : Nat
  gc_wire_ctx : List Nat
  gc_gss_ctx : Option Nat
  gc_acceptor : List Nat
  freed : Bool
  deriving DecidableEq, Repr

/-- The fields of `struct gss_cred` with those of its `gc_base`
(`struct rpc_cred`) that this file reads or writes. -/
structure gss_cred where
  cr_flags : CrFlags
  cr_uid : Nat
  gc_ctx : Option Nat
  gc_service : Nat
  gc_principal : Option String
  gc_upcall : Option Nat
  gc_upcall_timestamp : Nat
  freed : Bool
  deriving DecidableEq, Repr

/-- The fields of `struct gss_upcall_msg`.  `service` is `auth->service`,
`mech` is `auth->mech`, `errno` is `msg.errno`, `msg_inflight` is the value of
`rpc_msg_is_inflight(&msg)` and `msg_list_empty` that of
`list_empty(&msg.list)`, both maintained by the pipe file system. -/
structure gss_upcall_msg where
  count : Int
  uid : Nat
  service : Nat
  mech : Nat
  pipe : Nat
  errno : Int
  msg_inflight : Bool
  msg_list_empty : Bool
  ctx : Option Nat
  freed : Bool
  deriving DecidableEq, Repr

/-- The kernel state `auth_gss.c` works on.  `in_downcall p` is the pending
list of pipe `p`, first entry first; `pipe_version` and `pipe_users` are the
fields of the network namespace's `struct sunrpc_net`. -/
structure World where
  jiffies : Nat
  creds : Nat → gss_cred
  ctxs : Nat → gss_cl_ctx
  msgs : Nat → gss_upcall_msg
  in_downcall : Nat → List Nat
  pipe_version : Int
  pipe_users : Int

/-- Store `c` at credential address `cred`. -/
def World.setCred (W : World) (cred : Nat) (c : gss_cred) : World :=
  { W with creds := Function.update W.creds cred c }

/-- Store `c` at context address `ctx`. -/
def World.setCtx (W : World) (ctx : Nat) (c : gss_cl_ctx) : World :=
  { W with ctxs := Function.update W.ctxs ctx c }

/-- Store `m` at upcall address `msg`. -/
def World.setMsg (W : World) (msg : Nat) (m : gss_upcall_msg) : World :=
  { W with msgs := Function.update W.msgs msg m }

/-- Replace the pending list of pipe `pipe`. -/
def World.setList (W : World) (pipe : Nat) (l : List Nat) : World :=
  { W with in_downcall := Function.update W.in_downcall pipe l }

/-! ## Context references and the credential's context slot -/

/-- Lines 118-123: `gss_get_ctx`, `atomic_inc(&ctx->count)`. -/
def gss_get_ctx (W : World) (ctx : Nat) : World :=
  W.setCtx ctx { W.ctxs ctx with count := (W.ctxs ctx).count + 1 }

/-- Lines 1247-1251: `gss_free_ctx` hands the context to `call_rcu`. -/
def gss_free_ctx (W : World) (ctx : Nat) : World :=
  W.setCtx ctx { W.ctxs ctx with freed := true }

/-- Lines 125-130: `gss_put_ctx`, free on `atomic_dec_and_test`. -/
def gss_put_ctx (W : World) (ctx : Nat) : World :=
  let W1 := W.setCtx ctx { W.ctxs ctx with count := (W.ctxs ctx).count - 1 }
  if (W1.ctxs ctx).count = 0 then gss_free_ctx W1 ctx else W1

/-- Lines 137-149: `gss_cred_set_ctx`. -/
def gss_cred_set_ctx (W : World) (cred ctx : Nat) : World :=
  if !test_bit .RPCAUTH_CRED_NEW (W.creds cred).cr_flags then W
  else
    let W1 := gss_get_ctx W ctx
    let W2 := W1.setCred cred { W1.creds cred with gc_ctx := some ctx }
    let W3 := W2.setCred cred
      { W2.creds cred with
        cr_flags := set_bit .RPCAUTH_CRED_UPTODATE (W2.creds cred).cr_flags }
    W3.setCred cred
      { W3.creds cred with
        cr_flags := clear_bit .RPCAUTH_CRED_NEW (W3.creds cred).cr_flags }

/-- Lines 151-163: `gss_cred_get_ctx`, the context with a reference taken,
or NULL. -/
def gss_cred_get_ctx (W : World) (cred : Nat) : Option Nat × World :=
  match (W.creds cred).gc_ctx with
  | some ctx => (some ctx, gss_get_ctx W ctx)
  | none => (none, W)

/-! ## The pending list of a pipe -/

/-- The test of the loop of `__gss_find_upcall` (lines 319-322): `pos` has
the user id `uid` and its auth has the service `service`. -/
def upcall_matches (W : World) (uid service : Nat) (pos : Nat) : Bool :=
  (W.msgs pos).uid == uid && (W.msgs pos).service == service

/-- Lines 314-329: `__gss_find_upcall`, the first pending upcall of the pipe
with this user id and service, with a reference taken, or NULL. -/
def __gss_find_upcall (W : World) (pipe uid service : Nat) : Option Nat × World :=
  match (W.in_downcall pipe).find? (upcall_matches W uid service) with
  | some pos =>
      (some pos, W.setMsg pos { W.msgs pos with count := (W.msgs pos).count + 1 })
  | none => (none, W)

/-- Lines 335-350: `gss_add_msg`; `list_add` puts the new entry first. -/
def gss_add_msg (W : World) (gss_msg : Nat) : Nat × World :=
  let pipe := (W.msgs gss_msg).pipe
  match __gss_find_upcall W pipe (W.msgs gss_msg).uid (W.msgs gss_msg).service with
  | (none, W1) =>
      let W2 := W1.setMsg gss_msg
        { W1.msgs gss_msg with count := (W1.msgs gss_msg).count + 1 }
      (gss_msg, W2.setList pipe (gss_msg :: W2.in_downcall pipe))
  | (some old, W1) => (old, W1)

/-- The de-duplication invariant of a pipe: no two entries of its pending
list have the same user id and the same service. -/
def no_duplicate_upcall (W : World) (pipe : Nat) : Prop :=
  (W.in_downcall pipe).Pairwise
    (fun a b => ¬ ((W.msgs a).uid = (W.msgs b).uid ∧
                   (W.msgs a).service = (W.msgs b).service))

instance (W : World) (pipe : Nat) : Decidable (no_duplicate_upcall W pipe) := by
  unfold no_duplicate_upcall; infer_instance

/-! ## The outside of `auth_gss.c` -/

/-- What `auth_gss.c` takes from the rest of the kernel and from its
configuration.
* `HZ`: the tick rate;
* `gss_expired_cred_retry_delay`: the module parameter of line 65, an
  `unsigned int` whose default is `GSS_RETRY_EXPIRED`;
* `eshort`: the errno with which `simple_get_bytes` and
  `simple_get_netobj` report a payload that ends before the bytes asked for;
* `uid_valid`: `uid_valid(make_kuid(&init_user_ns, id))`;
* `kmemdup_ok p`: whether the `kmemdup` of the netobj found at address `p`
  gets memory;
* `gss_import_sec_context mech bytes`: the mechanism's import, its return
  value and the handle it leaves in `gc_gss_ctx`. -/
structure Env where
  HZ : Nat
  gss_expired_cred_retry_delay : Nat
  eshort : Int
  uid_valid : Nat → Bool
  kmemdup_ok : Nat → Bool
  gss_import_sec_context : Nat → List Nat → Int × Option Nat

/-- What the allocator and the user copy give to one call of
`gss_pipe_downcall`: the address `kmalloc` returns (or NULL), whether
`copy_from_user` copies everything, and the address `kzalloc` returns to
`gss_alloc_context` (or NULL). -/
structure DowncallAlloc where
  kmalloc : Option Nat
  copy_ok : Bool
  kzalloc : Option Nat

/-- A C function that may run into `BUG()`. -/
inductive Outcome (α : Type) where
  | ok (a : α)
  | bug
  deriving DecidableEq, Repr

/-! ## Reading the downcall buffer -/

/-- The kernel copy of a downcall: `bytes` stored from address `addr` on. -/
structure Buf where
  addr : Nat
  bytes : List Nat
  deriving DecidableEq, Repr

/-- The `len` bytes stored at address `p`. -/
def Buf.read (B : Buf) (p len : Nat) : List Nat :=
  (B.bytes.drop (p - B.addr)).take len

/-- A `u32` as `memcpy` reads it from memory (little-endian machine). -/
def get_u32 (bs : List Nat) : Nat :=
  (bs.foldr (fun b acc => b % 256 + 256 * acc) 0) % U32_MOD

/-- An `int` as `memcpy` reads it from memory (two's complement). -/
def get_s32 (bs : List Nat) : Int :=
  if get_u32 bs < 2 ^ 31 then (get_u32 bs : Int) else (get_u32 bs : Int) - 2 ^ 32

/-- The four bytes of a `u32` in memory order. -/
def put_u32 (v : Nat) : List Nat :=
  [v % 256, v / 256 % 256, v / 65536 % 256, v / 16777216 % 256]

/-- Modelled from the spec: `simple_get_bytes` of `auth_gss_internal.h` is
not among the sources.  It reads `len` bytes at `p` when they end at or
before `end`, and fails on a truncated payload; the bounds test is the one
`gss_fill_context` applies to the security context (lines 228-229), and the
errno of the failure is `E.eshort`. -/
def simple_get_bytes (E : Env) (B : Buf) (p endp len : Nat) :
    Except Int (List Nat × Nat) :=
  let q := (p + len) % ULONG_MOD
  if q > endp ∨ q < p then .error E.eshort else .ok (B.read p len, q)

/-- Modelled from the spec: `simple_get_netobj` of `auth_gss_internal.h` is
not among the sources.  A netobj is a 4-byte length prefix followed by that
many bytes, not padded; a length that runs past `end` is a truncated
payload, reported with `E.eshort` like a short read, and the bytes are
duplicated with `kmemdup`, which can fail with `-ENOMEM`. -/
def simple_get_netobj (E : Env) (B : Buf) (p endp : Nat) :
    Except Int (List Nat × Nat) :=
  match simple_get_bytes E B p endp 4 with
  | .error e => .error e
  | .ok (lb, p1) =>
      let len := get_u32 lb
      let q := (p1 + len) % ULONG_MOD
      if q > endp ∨ q < p1 then .error E.eshort
      else if len ≠ 0 ∧ E.kmemdup_ok p1 = false then .error (-ENOMEM)
      else .ok (B.read p1 len, q)

/-! ## Parsing a downcall into a context -/

/-- The context `gss_alloc_context` builds (lines 170-175): zeroed by
`kzalloc`, then `gc_proc = RPC_GSS_PROC_DATA`, `gc_seq = 1`, `count = 1`. -/
def ctx_fresh : gss_cl_ctx :=
  { count := 1, gc_proc := RPC_GSS_PROC_DATA, gc_seq := 1, gc_expiry := 0,
    gc_win := 0, gc_wire_ctx := [], gc_gss_ctx := none, gc_acceptor := [],
    freed := false }

/-- Lines 165-178: `gss_alloc_context`; `kz` is what `kzalloc` returns. -/
def gss_alloc_context (W : World) (kz : Option Nat) : Option Nat × World :=
  match kz with
  | none => (none, W)
  | some ctx => (some ctx, W.setCtx ctx ctx_fresh)

/-- Lines 181-257: `gss_fill_context`.  The result is the pointer after the
parsed bytes or the errno of the `ERR_PTR`, with the context as the parse
left it; `now` is `jiffies` and `mech` the mechanism `gm`. -/
def gss_fill_context (E : Env) (now : Nat) (mech : Nat) (B : Buf) (p endp : Nat)
    (c : gss_cl_ctx) : Except Int Nat × gss_cl_ctx :=
  match simple_get_bytes E B p endp 4 with
  | .error e => (.error e, c)
  | .ok (tb, p1) =>
    let timeout := if get_u32 tb = 0 then GSSD_MIN_TIMEOUT else get_u32 tb
    let c1 := { c with gc_expiry := (now + timeout * E.HZ) % ULONG_MOD }
    match simple_get_bytes E B p1 endp 4 with
    | .error e => (.error e, c1)
    | .ok (wb, p2) =>
      let c2 := { c1 with gc_win := get_u32 wb }
      if c2.gc_win = 0 then
        match simple_get_bytes E B p2 endp 4 with
        | .error e => (.error e, c2)
        | .ok (rb, _) =>
            if get_s32 rb = -EKEYEXPIRED then (.error (-EKEYEXPIRED), c2)
            else (.error (-EACCES), c2)
      else
        match simple_get_netobj E B p2 endp with
        | .error e => (.error e, c2)
        | .ok (wire, p3) =>
          let c3 := { c2 with gc_wire_ctx := wire }
          match simple_get_bytes E B p3 endp 4 with
          | .error e => (.error e, c3)
          | .ok (sb, p4) =>
            let seclen := get_u32 sb
            let q := (p4 + seclen) % ULONG_MOD
            if q > endp ∨ q < p4 then (.error (-EFAULT), c3)
            else
              let imp := E.gss_import_sec_context mech (B.read p4 seclen)
              let c4 := { c3 with gc_gss_ctx := imp.2 }
              if imp.1 < 0 then (.error imp.1, c4)
              else if q = endp then (.ok q, c4)
              else
                match simple_get_netobj E B q endp with
                | .error e => (.error e, c4)
                | .ok (acc, p5) => (.ok p5, { c4 with gc_acceptor := acc })

/-! ## Delivering a downcall -/

/-- The kernel list operation `list_del_init(&gss_msg->list)`: the entry
leaves the pending list it is on. -/
def list_del_init (W : World) (gss_msg : Nat) : World :=
  { W with in_downcall := fun p => (W.in_downcall p).filter (fun x => x != gss_msg) }

/-- The kernel list test `list_empty(&gss_msg->list)`: the upcall is not on
the pending list of its pipe. -/
def list_empty (W : World) (gss_msg : Nat) : Bool :=
  !(W.in_downcall (W.msgs gss_msg).pipe).contains gss_msg

/-- Lines 289-297: `put_pipe_version`; the last user resets the version. -/
def put_pipe_version (W : World) : World :=
  let W1 := { W with pipe_users := W.pipe_users - 1 }
  if W1.pipe_users = 0 then { W1 with pipe_version := -1 } else W1

/-- Lines 299-312: `gss_release_msg`.  The reference the upcall holds on its
auth (`gss_put_auth`) is outside the world. -/
def gss_release_msg (W : World) (gss_msg : Nat) : Outcome World :=
  let W1 := W.setMsg gss_msg { W.msgs gss_msg with count := (W.msgs gss_msg).count - 1 }
  if (W1.msgs gss_msg).count ≠ 0 then .ok W1
  else
    let W2 := put_pipe_version W1
    if !list_empty W2 gss_msg then .bug
    else
      let W3 := match (W2.msgs gss_msg).ctx with
        | some ctx => gss_put_ctx W2 ctx
        | none => W2
      .ok (W3.setMsg gss_msg { W3.msgs gss_msg with freed := true })

/-- Lines 352-359: `__gss_unhash_msg`. -/
def __gss_unhash_msg (W : World) (gss_msg : Nat) : World :=
  let W1 := list_del_init W gss_msg
  W1.setMsg gss_msg { W1.msgs gss_msg with count := (W1.msgs gss_msg).count - 1 }

/-- The test of the loop of `gss_find_downcall` (lines 654-657): `pos` has
the user id `uid` and its message is in flight. -/
def downcall_matches (W : World) (uid : Nat) (pos : Nat) : Bool :=
  (W.msgs pos).uid == uid && (W.msgs pos).msg_inflight

/-- Lines 649-662: `gss_find_downcall`, the first pending upcall of the pipe
for this user id that is in flight, with a reference taken, or NULL. -/
def gss_find_downcall (W : World) (pipe uid : Nat) : Option Nat × World :=
  match (W.in_downcall pipe).find? (downcall_matches W uid) with
  | some pos =>
      (some pos, W.setMsg pos { W.msgs pos with count := (W.msgs pos).count + 1 })
  | none => (none, W)

/-- Lines 743-749 of `gss_pipe_downcall`: the labels `err_release_msg` and
`err_put_ctx`, returning `err`. -/
def gss_pipe_downcall_release (W : World) (gss_msg ctx : Nat) (err : Int) :
    Outcome (Int × World) :=
  match gss_release_msg (__gss_unhash_msg W gss_msg) gss_msg with
  | .bug => .bug
  | .ok W1 => .ok (err, gss_put_ctx W1 ctx)

/-- Lines 715-749 of `gss_pipe_downcall`: what is done with the upcall
`gss_msg` found on the pending list of `pipe`, the payload lying from `p` to
`endp` and `ctx` being the context allocated for it. -/
def gss_pipe_downcall_deliver (E : Env) (W : World) (B : Buf) (p endp mlen : Nat)
    (ctx gss_msg : Nat) : Outcome (Int × World) :=
  let W1 := list_del_init W gss_msg
  let r := gss_fill_context E W1.jiffies (W1.msgs gss_msg).mech B p endp (W1.ctxs ctx)
  let W2 := W1.setCtx ctx r.2
  match r.1 with
  | .error e =>
      if e = -EACCES ∨ e = -EKEYEXPIRED then
        gss_pipe_downcall_release
          (W2.setMsg gss_msg { W2.msgs gss_msg with errno := e }) gss_msg ctx mlen
      else if e = -EFAULT ∨ e = -ENOMEM ∨ e = -EINVAL ∨ e = -ENOSYS then
        gss_pipe_downcall_release
          (W2.setMsg gss_msg { W2.msgs gss_msg with errno := -EAGAIN }) gss_msg ctx e
      else .bug
  | .ok _ =>
      let W3 := gss_get_ctx W2 ctx
      gss_pipe_downcall_release
        (W3.setMsg gss_msg { W3.msgs gss_msg with ctx := some ctx }) gss_msg ctx mlen

/-- Lines 666-755: `gss_pipe_downcall` on the pending list of `pipe`; `src`
is the user's message and `mlen` its length. -/
def gss_pipe_downcall (E : Env) (K : DowncallAlloc) (W : World) (pipe : Nat)
    (src : List Nat) : Outcome (Int × World) :=
  let mlen := src.length
  if mlen > MSG_BUF_MAXSIZE then .ok (-EFBIG, W)
  else
    match K.kmalloc with
    | none => .ok (-ENOMEM, W)
    | some buf =>
      if !K.copy_ok then .ok (-EFAULT, W)
      else
        let B : Buf := { addr := buf, bytes := src }
        let endp := (buf + mlen) % ULONG_MOD
        match simple_get_bytes E B buf endp 4 with
        | .error e => .ok (e, W)
        | .ok (idb, p) =>
          let uid := get_u32 idb
          if !E.uid_valid uid then .ok (-EINVAL, W)
          else
            match gss_alloc_context W K.kzalloc with
            | (none, W0) => .ok (-ENOMEM, W0)
            | (some ctx, W0) =>
              match gss_find_downcall W0 pipe uid with
              | (none, W1) => .ok (-ENOENT, gss_put_ctx W1 ctx)
              | (some gss_msg, W1) =>
                  gss_pipe_downcall_deliver E W1 B p endp mlen ctx gss_msg

/-! ## Bookkeeping set aside -/

/-- The content of a context, its reference count and `freed` mark set
aside. -/
def gss_cl_ctx.data (c : gss_cl_ctx) : gss_cl_ctx :=
  { c with count := 0, freed := false }

/-- The content of an upcall, its reference count and `freed` mark set
aside. -/
def gss_upcall_msg.data (m : gss_upcall_msg) : gss_upcall_msg :=
  { m with count := 0, freed := false }

/-! ## Refreshing a credential -/

/-- The difference `a - b` of two `unsigned long` values. -/
def ulong_sub (a b : Nat) : Nat :=
  (a % ULONG_MOD + ULONG_MOD - b % ULONG_MOD) % ULONG_MOD

/-- Modelled from the spec: the jiffies comparisons of `linux/jiffies.h` are
not among the sources.  They are the wrap-safe ones, on the sign of the
difference taken as a `long`: `time_after(a, b)` is `(long)(b - a) < 0`. -/
def time_after (a b : Nat) : Bool :=
  decide (2 ^ 63 ≤ ulong_sub b a)

/-- Modelled from the spec: `time_after_eq(a, b)` is `(long)(a - b) >= 0`. -/
def time_after_eq (a b : Nat) : Bool :=
  decide (ulong_sub a b < 2 ^ 63)

/-- Modelled from the spec: `time_before(a, b)` is `time_after(b, a)`. -/
def time_before (a b : Nat) : Bool :=
  time_after b a

/-- Modelled from the spec: `time_in_range_open(a, b, c)` is
`time_after_eq(a, b) && time_before(a, c)`, the range `[b, c)`. -/
def time_in_range_open (a b c : Nat) : Bool :=
  time_after_eq a b && time_before a c

/-- The length of the cooldown in ticks as line 1556 computes it,
`gss_expired_cred_retry_delay * HZ` in `unsigned int` arithmetic. -/
def retry_delay_ticks (E : Env) : Nat :=
  (E.gss_expired_cred_retry_delay * E.HZ) % U32_MOD

/-- Lines 1547-1562: `gss_cred_is_negative_entry`. -/
def gss_cred_is_negative_entry (E : Env) (W : World) (cred : Nat) : Int :=
  if test_bit .RPCAUTH_CRED_NEGATIVE (W.creds cred).cr_flags then
    let now := W.jiffies
    let begin := (W.creds cred).gc_upcall_timestamp
    let expire := (begin + retry_delay_ticks E) % ULONG_MOD
    if time_in_range_open now begin expire then 1 else 0
  else 0

/-- What `gss_refresh` calls once the cooldown has let the task through.
* `gss_lookup_cred W old`: the credential cache's answer to the lookup of
  `gss_renew_cred` (line 1539), a new credential or an errno;
* `put_rpccred W old`: dropping the reference to the old credential;
* `gss_refresh_upcall W cred`: the upcall path of lines 535-583, which sets
  up or joins an upcall for the task's credential and returns its status. -/
structure RefreshCalls where
  gss_lookup_cred : World → Nat → Except Int Nat × World
  put_rpccred : World → Nat → World
  gss_refresh_upcall : World → Nat → Int × World

/-- Lines 1525-1545: `gss_renew_cred`; the result is the status, the
task's `rq_cred` and the world. -/
def gss_renew_cred (X : RefreshCalls) (W : World) (oldcred : Nat) : Int × Nat × World :=
  match X.gss_lookup_cred W oldcred with
  | (.error e, W1) => (e, oldcred, W1)
  | (.ok new, W1) => (0, new, X.put_rpccred W1 oldcred)

/-- Lines 1576-1587 of `gss_refresh`: what follows the cooldown test. -/
def gss_refresh_checked (X : RefreshCalls) (W : World) (cred : Nat) : Int × Nat × World :=
  let fl := (W.creds cred).cr_flags
  if !test_bit .RPCAUTH_CRED_NEW fl && !test_bit .RPCAUTH_CRED_UPTODATE fl then
    match gss_renew_cred X W cred with
    | (ret, cred1, W1) =>
        if ret < 0 then (ret, cred1, W1)
        else if test_bit .RPCAUTH_CRED_NEW (W1.creds cred1).cr_flags then
          ((X.gss_refresh_upcall W1 cred1).1, cred1, (X.gss_refresh_upcall W1 cred1).2)
        else (ret, cred1, W1)
  else if test_bit .RPCAUTH_CRED_NEW fl then
    ((X.gss_refresh_upcall W cred).1, cred, (X.gss_refresh_upcall W cred).2)
  else (0, cred, W)

/-- Lines 1567-1588: `gss_refresh` for the task whose `rq_cred` is `cred`;
the result is the status, the task's `rq_cred` and the world. -/
def gss_refresh (E : Env) (X : RefreshCalls) (W : World) (cred : Nat) : Int × Nat × World :=
  if gss_cred_is_negative_entry E W cred ≠ 0 then (-EKEYEXPIRED, cred, W)
  else gss_refresh_checked X W cred

/-- Lines 374-390: `gss_handle_downcall_result`. -/
def gss_handle_downcall_result (W : World) (gss_cred gss_msg : Nat) : World :=
  let W1 :=
    if (W.msgs gss_msg).errno = 0 then
      match (W.msgs gss_msg).ctx with
      | none => W
      | some ctx =>
          gss_cred_set_ctx
            (W.setCred gss_cred
              { W.creds gss_cred with
                cr_flags := clear_bit .RPCAUTH_CRED_NEGATIVE (W.creds gss_cred).cr_flags })
            gss_cred ctx
    else if (W.msgs gss_msg).errno = -EKEYEXPIRED then
      W.setCred gss_cred
        { W.creds gss_cred with
          cr_flags := set_bit .RPCAUTH_CRED_NEGATIVE (W.creds gss_cred).cr_flags }
    else W
  W1.setCred gss_cred
    { W1.creds gss_cred with gc_upcall_timestamp := W1.jiffies, gc_upcall := none }

/-- Lines 392-405: `gss_upcall_callback` for the task whose `rq_cred` is
`cred`; the result is `tk_status`.  A credential without `gc_upcall` makes
the function dereference NULL. -/
def gss_upcall_callback (W : World) (cred : Nat) : Outcome (Int × World) :=
  match (W.creds cred).gc_upcall with
  | none => .bug
  | some gss_msg =>
      let W1 := gss_handle_downcall_result W cred gss_msg
      match gss_release_msg W1 gss_msg with
      | .bug => .bug
      | .ok W2 => .ok ((W1.msgs gss_msg).errno, W2)

/-- Lines 562-583 of `gss_refresh_upcall`: what the task does with the
upcall `gss_msg` that `gss_setup_upcall` gave it. -/
def gss_refresh_upcall_locked (W : World) (cred gss_msg : Nat) : Outcome (Int × World) :=
  let r : Int × World :=
    if (W.creds cred).gc_upcall ≠ none then (0, W)
    else if (W.msgs gss_msg).ctx = none ∧ (W.msgs gss_msg).errno ≥ 0 then
      let W1 := W.setCred cred { W.creds cred with gc_upcall := some gss_msg }
      (0, W1.setMsg gss_msg { W1.msgs gss_msg with count := (W1.msgs gss_msg).count + 1 })
    else
      let W1 := gss_handle_downcall_result W cred gss_msg
      ((W1.msgs gss_msg).errno, W1)
  match gss_release_msg r.2 gss_msg with
  | .bug => .bug
  | .ok W2 => .ok (r.1, W2)

/-- Lines 635-646 of `gss_create_upcall`: what the synchronous refresh does
once its wait loop has seen a context or an error on `gss_msg`. -/
def gss_create_upcall_done (W : World) (cred gss_msg : Nat) : Outcome (Int × World) :=
  let r : Int × World :=
    match (W.msgs gss_msg).ctx with
    | some ctx => (0, gss_cred_set_ctx W cred ctx)
    | none => ((W.msgs gss_msg).errno, W)
  match gss_release_msg r.2 gss_msg with
  | .bug => .bug
  | .ok W2 => .ok (r.1, W2)

/-! ## The life of a credential -/

/-- The fields of `struct auth_cred` that `gss_create_cred` reads. -/
structure auth_cred where
  uid : Nat
  principal : Option String
  machine_cred : Bool
  deriving DecidableEq, Repr

/-- Lines 1299-1329: `gss_create_cred`; `kz` is what `kzalloc` returns and
`service` is `gss_auth->service`.  `rpcauth_init_cred` copies the uid; the
reference taken on the auth is outside the world. -/
def gss_create_cred (W : World) (service : Nat) (acred : auth_cred) (kz : Option Nat) :
    Except Int Nat × World :=
  match kz with
  | none => (.error (-ENOMEM), W)
  | some cred =>
      (.ok cred,
       W.setCred cred
         { cr_flags := CRED_NEW_ONLY, cr_uid := acred.uid, gc_ctx := none,
           gc_service := service,
           gc_principal := if acred.machine_cred then acred.principal else none,
           gc_upcall := none, gc_upcall_timestamp := 0, freed := false })

/-- The statement `clear_bit(RPCAUTH_CRED_UPTODATE, &cred->cr_flags)` with
which `gss_marshal`, `gss_validate`, `gss_wrap_req_integ`,
`gss_wrap_req_priv`, `gss_unwrap_resp_integ` and `gss_unwrap_resp_priv`
answer `GSS_S_CONTEXT_EXPIRED` (lines 1512, 1627, 1693, 1800, 1887, 1912). -/
def clear_uptodate (W : World) (cred : Nat) : World :=
  W.setCred cred
    { W.creds cred with
      cr_flags := clear_bit .RPCAUTH_CRED_UPTODATE (W.creds cred).cr_flags }

/-- Lines 1267-1279: `gss_destroy_nullcred`.  The reference dropped on the
auth is outside the world. -/
def gss_destroy_nullcred (W : World) (cred : Nat) : World :=
  let ctx := (W.creds cred).gc_ctx
  let W1 := W.setCred cred { W.creds cred with gc_ctx := none }
  let W2 := W1.setCred cred { W1.creds cred with freed := true }
  match ctx with
  | some c => gss_put_ctx W2 c
  | none => W2

/-- The operations of `auth_gss.c` that write to a credential or read its
context slot. -/
inductive CredOp where
  | set_ctx (ctx : Nat)
  | downcall_result (gss_msg : Nat)
  | context_expired
  | get_ctx
  | destroy
  deriving DecidableEq, Repr

/-- The world after the operation `o` on the credential `cred`. -/
def CredOp.apply (cred : Nat) (W : World) : CredOp → World
  | .set_ctx ctx => gss_cred_set_ctx W cred ctx
  | .downcall_result gss_msg => gss_handle_downcall_result W cred gss_msg
  | .context_expired => clear_uptodate W cred
  | .get_ctx => (gss_cred_get_ctx W cred).2
  | .destroy => gss_destroy_nullcred W cred

/-- The worlds that follow `W` in the life of the credential `cred`: after
any number of operations on it that `allowed` admits, and of other events
(`other`: downcalls arriving, other credentials at work) that leave this
credential's record alone. -/
inductive cred_reaches (cred : Nat) (allowed : CredOp → Prop) : World → World → Prop where
  | refl (W : World) : cred_reaches cred allowed W W
  | op (W W1 : World) (o : CredOp) :
      cred_reaches cred allowed W W1 → allowed o →
      cred_reaches cred allowed W (o.apply cred W1)
  | other (W W1 W2 : World) :
      cred_reaches cred allowed W W1 → W2.creds cred = W1.creds cred →
      cred_reaches cred allowed W W2

/-! ## The pipe version of the network namespace -/

/-- Lines 274-287: `get_pipe_version`. -/
def get_pipe_version (W : World) : Int × World :=
  if W.pipe_version ≥ 0 then
    (W.pipe_version, { W with pipe_users := W.pipe_users + 1 })
  else (-EAGAIN, W)

/-- Lines 757-779: `gss_pipe_open`. -/
def gss_pipe_open (W : World) (new_version : Int) : Int × World :=
  if W.pipe_version < 0 then
    (0, { W with pipe_version := new_version, pipe_users := W.pipe_users + 1 })
  else if W.pipe_version ≠ new_version then (-EBUSY, W)
  else (0, { W with pipe_users := W.pipe_users + 1 })

/-- Lines 781-784: `gss_pipe_open_v0`. -/
def gss_pipe_open_v0 (W : World) : Int × World :=
  gss_pipe_open W 0

/-- Lines 786-789: `gss_pipe_open_v1`. -/
def gss_pipe_open_v1 (W : World) : Int × World :=
  gss_pipe_open W 1

/-- The operations on the pipe version: the two `open_pipe` methods,
`get_pipe_version` and `put_pipe_version`. -/
inductive PipeOp where
  | open_v0
  | open_v1
  | get
  | put
  deriving DecidableEq, Repr

/-- The return value of the operation and the world after it. -/
def PipeOp.apply (W : World) : PipeOp → Int × World
  | .open_v0 => gss_pipe_open_v0 W
  | .open_v1 => gss_pipe_open_v1 W
  | .get => get_pipe_version W
  | .put => (0, put_pipe_version W)

/-- Run a sequence of operations.  `held` counts the successful opens and
gets that no put has matched yet; a put with nothing to match is not part
of any run (`none`). -/
def pipe_run : List PipeOp → Nat → World → Option (Nat × World)
  | [], held, W => some (held, W)
  | .put :: ops, held, W =>
      if held = 0 then none else pipe_run ops (held - 1) (put_pipe_version W)
  | .open_v0 :: ops, held, W =>
      pipe_run ops (if (gss_pipe_open_v0 W).1 ≥ 0 then held + 1 else held)
        (gss_pipe_open_v0 W).2
  | .open_v1 :: ops, held, W =>
      pipe_run ops (if (gss_pipe_open_v1 W).1 ≥ 0 then held + 1 else held)
        (gss_pipe_open_v1 W).2
  | .get :: ops, held, W =>
      pipe_run ops (if (get_pipe_version W).1 ≥ 0 then held + 1 else held)
        (get_pipe_version W).2

/-- The comment of line 108, with the count of users tied to the
references handed out: `pipe_version >= 0` if and only if someone has a pipe
open. -/
def pipe_version_inv (W : World) (held : Nat) : Prop :=
  W.pipe_users = (held : Int) ∧ (W.pipe_version ≥ 0 ↔ W.pipe_users > 0)

instance (W : World) (held : Nat) : Decidable (pipe_version_inv W held) := by
  unfold pipe_version_inv; infer_instance

/-! ## Marshalling the credential -/

/-- The flavor number of RPCSEC_GSS on the wire (`RPC_AUTH_GSS`). -/
def RPC_AUTH_GSS : Nat := 6

/-- The version of the RPCSEC_GSS credential (`RPC_GSS_VERSION`). -/
def RPC_GSS_VERSION : Nat := 1

/-- The value of `gc_proc` asking the server to destroy the context. -/
def RPC_GSS_PROC_DESTROY : Nat := 3

/-- The services of `enum rpc_gss_svc`. -/
def RPC_GSS_SVC_NONE : Nat := 1
def RPC_GSS_SVC_INTEGRITY : Nat := 2
def RPC_GSS_SVC_PRIVACY : Nat := 3

/-- The major status values of the mechanism that `auth_gss.c` tests. -/
def GSS_S_COMPLETE : Nat := 0
def GSS_S_CONTEXT_EXPIRED : Nat := 786432

/-- The four bytes `htonl` leaves in memory for a 32-bit word: most
significant byte first. -/
def htonl (v : Nat) : List Nat :=
  [v / 16777216 % 256, v / 65536 % 256, v / 256 % 256, v % 256]

/-- The number of 32-bit words that hold `l` bytes (`XDR_QUADLEN`). -/
def XDR_QUADLEN (l : Nat) : Nat :=
  (l + 3) / 4

/-- Modelled from the spec: `xdr_encode_netobj` and `xdr_encode_opaque` of
`net/sunrpc/xdr.c` are not among the sources.  An XDR opaque is a 4-byte
length word followed by the data, padded with zero bytes to a multiple of
4. -/
def xdr_encode_opaque (data : List Nat) : List Nat :=
  htonl data.length ++ data ++ List.replicate (4 * XDR_QUADLEN data.length - data.length) 0

/-- What `gss_marshal` hands back: `ret`, the number of bytes by which the
returned pointer lies beyond `p` (or NULL), `written`, the bytes stored from
`p` on, and the `rq_seqno` recorded in the request. -/
structure MarshalResult where
  ret : Option Nat
  written : List Nat
  rq_seqno : Nat
  deriving DecidableEq, Repr

/-- Lines 1492-1496 of `gss_marshal`: the words that follow the length word
of the credential. -/
def gss_marshal_cred_body (c : gss_cl_ctx) (seqno service : Nat) : List Nat :=
  htonl RPC_GSS_VERSION ++ htonl c.gc_proc ++ htonl seqno ++ htonl service ++
  xdr_encode_opaque c.gc_wire_ctx

/-- Lines 1485-1497 of `gss_marshal`: the credential, with the length word
`(p - (cred_len + 1)) << 2` computed from the words written after it. -/
def gss_marshal_cred (c : gss_cl_ctx) (seqno service : Nat) : List Nat :=
  htonl RPC_AUTH_GSS ++
  htonl (((gss_marshal_cred_body c seqno service).length / 4) * 4) ++
  gss_marshal_cred_body c seqno service

/-- Lines 1469-1523: `gss_marshal` for a request whose credential is `cred`.
`hdr` holds the bytes of the request from the xid up to `p`, and
`gss_get_mic handle bytes` is the mechanism's checksum call: its major
status and the MIC it stores.  A credential without context makes the
function dereference NULL. -/
def gss_marshal (gss_get_mic : Option Nat → List Nat → Nat × List Nat)
    (W : World) (cred : Nat) (hdr : List Nat) : Outcome (MarshalResult × World) :=
  match gss_cred_get_ctx W cred with
  | (none, _) => .bug
  | (some ctx, W1) =>
    let seqno := (W1.ctxs ctx).gc_seq
    let W2 := W1.setCtx ctx { W1.ctxs ctx with gc_seq := (seqno + 1) % U32_MOD }
    let credb := gss_marshal_cred (W2.ctxs ctx) seqno (W2.creds cred).gc_service
    let mic := gss_get_mic (W2.ctxs ctx).gc_gss_ctx (hdr ++ credb)
    let flav := htonl RPC_AUTH_GSS
    if mic.1 = GSS_S_CONTEXT_EXPIRED then
      .ok ({ ret := some (credb ++ flav ++ xdr_encode_opaque mic.2).length,
             written := credb ++ flav ++ xdr_encode_opaque mic.2,
             rq_seqno := seqno },
           gss_put_ctx (clear_uptodate W2 cred) ctx)
    else if mic.1 ≠ 0 then
      .ok ({ ret := none, written := credb ++ flav, rq_seqno := seqno },
           gss_put_ctx W2 ctx)
    else
      .ok ({ ret := some (credb ++ flav ++ xdr_encode_opaque mic.2).length,
             written := credb ++ flav ++ xdr_encode_opaque mic.2,
             rq_seqno := seqno },
           gss_put_ctx W2 ctx)

/-- The errno of a rejected reply. -/
def EIO : Int := 5

/-- The receive buffer `rq_rcv_buf` as the unwrap functions see it: its
`len`, the length `head[0].iov_len` of its head, and `word off`, the 32-bit
word (in host order, as `ntohl` returns it) stored `off` bytes after
`head[0].iov_base`.  A pointer into the reply is the byte offset from
`head[0].iov_base`. -/
structure RcvBuf where
  len : Nat
  head_len : Nat
  word : Nat → Nat

/-- What the unwrap functions call outside `auth_gss.c`.
* `xdr_buf_subsegment buf base len`: the bytes of the segment, or `none`
  when the call returns nonzero;
* `xdr_buf_read_netobj buf offset`: the MIC read at the offset, or `none`
  when the call returns nonzero;
* `gss_verify_mic handle data mic`: the major status of the mechanism;
* `gss_unwrap handle offset buf`: the major status of the mechanism and the
  buffer as decryption leaves it. -/
structure UnwrapCalls where
  xdr_buf_subsegment : RcvBuf → Nat → Nat → Option (List Nat)
  xdr_buf_read_netobj : RcvBuf → Nat → Option (List Nat)
  gss_verify_mic : Option Nat → List Nat → List Nat → Nat
  gss_unwrap : Option Nat → Nat → RcvBuf → Nat × RcvBuf

/-- Lines 1856-1891: `gss_unwrap_resp_integ`.  The result is the status, the
pointer `*p` as the function leaves it, the receive buffer and the world. -/
def gss_unwrap_resp_integ (U : UnwrapCalls) (W : World) (cred ctx rq_seqno : Nat)
    (rcv : RcvBuf) (p : Nat) : Int × Nat × RcvBuf × World :=
  let integ_len := rcv.word p
  let p1 := p + 4
  if integ_len % 4 ≠ 0 then (- EIO, p1, rcv, W)
  else
    let data_offset := p1 % U32_MOD
    let mic_offset := (integ_len + data_offset) % U32_MOD
    if mic_offset > rcv.len then (- EIO, p1, rcv, W)
    else if rcv.word p1 ≠ rq_seqno then (- EIO, p1 + 4, rcv, W)
    else
      match U.xdr_buf_subsegment rcv data_offset
          ((mic_offset + U32_MOD - data_offset) % U32_MOD) with
      | none => (- EIO, p1 + 4, rcv, W)
      | some integ_buf =>
        match U.xdr_buf_read_netobj rcv mic_offset with
        | none => (- EIO, p1 + 4, rcv, W)
        | some mic =>
          let maj_stat := U.gss_verify_mic (W.ctxs ctx).gc_gss_ctx integ_buf mic
          let W1 := if maj_stat = GSS_S_CONTEXT_EXPIRED then clear_uptodate W cred else W
          if maj_stat ≠ GSS_S_COMPLETE then (- EIO, p1 + 4, rcv, W1)
          else (0, p1 + 4, rcv, W1)

/-- Lines 1893-1919: `gss_unwrap_resp_priv`.  The result is the status, the
pointer `*p` as the function leaves it, the receive buffer and the world. -/
def gss_unwrap_resp_priv (U : UnwrapCalls) (W : World) (cred ctx rq_seqno : Nat)
    (rcv : RcvBuf) (p : Nat) : Int × Nat × RcvBuf × World :=
  let opaque_len := rcv.word p
  let p1 := p + 4
  let offset := p1 % U32_MOD
  if (offset + opaque_len) % U32_MOD > rcv.len then (- EIO, p1, rcv, W)
  else
    let rcv1 : RcvBuf := { rcv with len := (offset + opaque_len) % U32_MOD }
    let un := U.gss_unwrap (W.ctxs ctx).gc_gss_ctx offset rcv1
    let W1 := if un.1 = GSS_S_CONTEXT_EXPIRED then clear_uptodate W cred else W
    if un.1 ≠ GSS_S_COMPLETE then (- EIO, p1, un.2, W1)
    else if un.2.word p1 ≠ rq_seqno then (- EIO, p1 + 4, un.2, W1)
    else (0, p1 + 4, un.2, W1)

/-- What `gss_unwrap_resp` hands back: its status, what the decode callback
produced if it was called, and `au_rslack`, an `unsigned int`, if it was
set. -/
structure UnwrapResult (δ : Type) where
  status : Int
  decoded : Option δ
  au_rslack : Option Int

/-- Lines 1921-1929 and 1963-1969 of `gss_unwrap_resp`: the labels
`out_decode` and `out`. -/
def gss_unwrap_resp_decode {δ : Type} (decode : RcvBuf → Nat → Int × δ) (W : World)
    (ctx : Nat) (rcv : RcvBuf) (p : Nat) (au_rslack : Option Int) :
    UnwrapResult δ × World :=
  ({ status := (decode rcv p).1, decoded := some (decode rcv p).2,
     au_rslack := au_rslack },
   gss_put_ctx W ctx)

/-- Lines 1931-1970: `gss_unwrap_resp` for a request with credential `cred`
and sequence number `rq_seqno`; `decode buf p` is the decode callback, its
status and the object it fills.  The sum of line 1961 is stored in the
`unsigned int` `au_rslack`, that is modulo 2^32.  A credential without
context makes the function dereference NULL. -/
def gss_unwrap_resp {δ : Type} (U : UnwrapCalls) (decode : RcvBuf → Nat → Int × δ)
    (W : World) (cred rq_seqno : Nat) (rcv : RcvBuf) (p : Nat) (au_verfsize : Int) :
    Outcome (UnwrapResult δ × World) :=
  match gss_cred_get_ctx W cred with
  | (none, _) => .bug
  | (some ctx, W1) =>
    if (W1.ctxs ctx).gc_proc ≠ RPC_GSS_PROC_DATA then
      .ok (gss_unwrap_resp_decode decode W1 ctx rcv p none)
    else
      let r : Int × Nat × RcvBuf × World :=
        if (W1.creds cred).gc_service = RPC_GSS_SVC_INTEGRITY then
          gss_unwrap_resp_integ U W1 cred ctx rq_seqno rcv p
        else if (W1.creds cred).gc_service = RPC_GSS_SVC_PRIVACY then
          gss_unwrap_resp_priv U W1 cred ctx rq_seqno rcv p
        else (0, p, rcv, W1)
      if r.1 ≠ 0 then
        .ok ({ status := r.1, decoded := none, au_rslack := none },
             gss_put_ctx r.2.2.2 ctx)
      else
        .ok (gss_unwrap_resp_decode decode r.2.2.2 ctx r.2.2.1 r.2.1
          (some ((au_verfsize + ((r.2.1 : Int) - (p : Int)) / 4
            + ((rcv.head_len : Int) - (r.2.2.1.head_len : Int))) % (U32_MOD : Int))))

/-! ## Closing a pipe -/

/-- The test of the loop of `gss_pipe_release` (line 802): the upcall `pos`
is taken when `list_empty(&gss_msg->msg.list)`, and passed over while its
message is still queued on the pipe. -/
def release_takes (W : World) (pos : Nat) : Bool :=
  (W.msgs pos).msg_list_empty

/-- Lines 798-811 of `gss_pipe_release`: the loop over the pending list,
started again after every upcall taken.  `fuel` bounds the number of
restarts; `none` means that the bound was reached. -/
def gss_pipe_release_pending : Nat → World → Nat → Option (Outcome World)
  | 0, _, _ => none
  | fuel + 1, W, pipe =>
    match (W.in_downcall pipe).find? (release_takes W) with
    | none => some (.ok W)
    | some gss_msg =>
      let W1 := W.setMsg gss_msg { W.msgs gss_msg with errno := -EPIPE }
      let W2 := W1.setMsg gss_msg
        { W1.msgs gss_msg with count := (W1.msgs gss_msg).count + 1 }
      match gss_release_msg (__gss_unhash_msg W2 gss_msg) gss_msg with
      | .bug => some .bug
      | .ok W3 => gss_pipe_release_pending fuel W3 pipe

/-- Lines 791-814: `gss_pipe_release` on the pending list of `pipe`.  Every
restart of the loop follows the removal of an entry, so one more restart
than the list has entries is enough. -/
def gss_pipe_release (W : World) (pipe : Nat) : Option (Outcome World) :=
  match gss_pipe_release_pending ((W.in_downcall pipe).length + 1) W pipe with
  | some (.ok W1) => some (.ok (put_pipe_version W1))
  | some .bug => some .bug
  | none => none

/-- The number of upcalls that `gss_pipe_release` takes from the pending
list `l` and whose only reference is the one of the pending list. -/
def release_frees (W : World) (l : List Nat) : Nat :=
  (l.filter (fun pos => release_takes W pos && decide ((W.msgs pos).count = 1))).length

/-! ### Credential matching and key expiry -/

/-- Line 66: the default of the module parameter `gss_key_expire_timeo`, in
seconds. -/
def GSS_KEY_EXPIRE_TIMEO : Nat := 240

/-- Lines 1403-1418: `gss_key_timeout`.  `gss_key_expire_timeo` is the module
parameter of line 67, an `unsigned int`, so its product with `HZ` is taken in
32 bits before it is added to the `unsigned long` `jiffies`.  The function
reads under the RCU lock and writes nothing: the world it returns is the one
it was given. -/
def gss_key_timeout (E : Env) (gss_key_expire_timeo : Nat) (W : World) (rc : Nat) :
    Int × World :=
  let timeout := (W.jiffies + (gss_key_expire_timeo * E.HZ) % U32_MOD) % ULONG_MOD
  match (W.creds rc).gc_ctx with
  | none => (-EACCES, W)
  | some ctx =>
    if time_after timeout (W.ctxs ctx).gc_expiry then (-EACCES, W) else (0, W)

/-- The two bits of `acred->ac_flags` that `gss_match` reads and writes. -/
structure AcFlags where
  RPC_CRED_NOTIFY_TIMEOUT : Bool
  RPC_CRED_KEY_EXPIRE_SOON : Bool
  deriving DecidableEq, Repr

/-- Lines 1449-1462 of `gss_match`, from the label `check_expire` on. -/
def gss_match_check_expire (E : Env) (gss_key_expire_timeo : Nat) (W : World)
    (ac_flags : AcFlags) (rc : Nat) (ret : Int) : Int × AcFlags :=
  if ret = 0 then (ret, ac_flags)
  else if ac_flags.RPC_CRED_NOTIFY_TIMEOUT
      && decide ((gss_key_timeout E gss_key_expire_timeo W rc).1 ≠ 0) then
    (ret, { ac_flags with RPC_CRED_NOTIFY_TIMEOUT := false,
                          RPC_CRED_KEY_EXPIRE_SOON := true })
  else (ret, ac_flags)

/-- Lines 1439-1462 of `gss_match`, from the label `out` on; `strcmp(...) == 0`
is equality of the two strings. -/
def gss_match_out (E : Env) (gss_key_expire_timeo : Nat) (W : World)
    (acred : auth_cred) (ac_flags : AcFlags) (rc : Nat) : Int × AcFlags :=
  match acred.principal with
  | some principal =>
    match (W.creds rc).gc_principal with
    | none => (0, ac_flags)
    | some gc_principal =>
      gss_match_check_expire E gss_key_expire_timeo W ac_flags rc
        (if principal = gc_principal then 1 else 0)
  | none =>
    if (W.creds rc).gc_principal ≠ none then (0, ac_flags)
    else
      gss_match_check_expire E gss_key_expire_timeo W ac_flags rc
        (if (W.creds rc).cr_uid = acred.uid then 1 else 0)

/-- Lines 1420-1463: `gss_match`; `ac_flags` is `acred->ac_flags`, returned
with the result.  The parameter `flags` is not used by the function. -/
def gss_match (E : Env) (gss_key_expire_timeo : Nat) (W : World)
    (acred : auth_cred) (ac_flags : AcFlags) (rc : Nat) : Int × AcFlags :=
  if test_bit .RPCAUTH_CRED_NEW (W.creds rc).cr_flags then
    gss_match_out E gss_key_expire_timeo W acred ac_flags rc
  else
    match (W.creds rc).gc_ctx with
    | none => (0, ac_flags)
    | some ctx =>
      if time_after W.jiffies (W.ctxs ctx).gc_expiry then (0, ac_flags)
      else if !test_bit .RPCAUTH_CRED_UPTODATE (W.creds rc).cr_flags then (0, ac_flags)
      else gss_match_out E gss_key_expire_timeo W acred ac_flags rc

/-! ### The text of a version 1 upcall -/

/-- Line 259: the size of `databuf`. -/
def UPCALL_BUF_LEN : Nat := 128

/-- Modelled from the spec: `scnprintf` of `lib/vsprintf.c` is not among the
sources.  Given the room `size` and the complete formatted text, it stores as
much of the text as fits in `size - 1` bytes, then a NUL, and returns the
number of bytes stored before the NUL; with no room it stores nothing.  The
value here is the bytes stored before the NUL, and the C return value is their
number. -/
def scnprintf (size : Nat) (text : List Char) : List Char :=
  if size = 0 then [] else text.take (size - 1)

/-- Modelled from the spec: the conversion `%d` applied to a `uid_t`: the 32
bits of the uid are printed as a signed decimal number. -/
def fmt_d (uid : Nat) : List Char :=
  if uid % U32_MOD < 2 ^ 31 then Nat.toDigits 10 (uid % U32_MOD)
  else "-".toList ++ Nat.toDigits 10 (U32_MOD - uid % U32_MOD)

/-- The two fields of `struct gss_api_mech` that the encoder reads;
`gm_upcall_enctypes` may be NULL. -/
structure gss_api_mech where
  gm_name : String
  gm_upcall_enctypes : Option String
  deriving DecidableEq, Repr

/-- The encoder's view of the message: the bytes stored in `databuf` so far
(`p` points just behind them), the room left `buflen`, and `msg.len`. -/
structure V1Buf where
  databuf : List Char
  buflen : Nat
  msg_len : Nat
  deriving DecidableEq, Repr

/-- The four statements `len = scnprintf(p, buflen, ...); buflen -= len;
p += len; gss_msg->msg.len += len;` of lines 431-434, 437-440 and 443-447. -/
def v1_put (s : V1Buf) (text : List Char) : V1Buf :=
  let len := scnprintf s.buflen text
  { databuf := s.databuf ++ len, buflen := s.buflen - len.length,
    msg_len := s.msg_len + len.length }

/-- Lines 417-460: `gss_encode_v1_msg`, for the mechanism `mech` and the uid
`uid` of the upcall.  The result is the return value with the final state of
the buffer. -/
def gss_encode_v1_msg (mech : gss_api_mech) (uid : Nat)
    (service_name target_name : Option String) : Int × V1Buf :=
  let len := scnprintf UPCALL_BUF_LEN
    ("mech=".toList ++ mech.gm_name.toList ++ " uid=".toList ++ fmt_d uid ++ " ".toList)
  let s0 : V1Buf :=
    { databuf := len, buflen := UPCALL_BUF_LEN - len.length, msg_len := len.length }
  let s1 := match target_name with
    | some t => v1_put s0 ("target=".toList ++ t.toList ++ " ".toList)
    | none => s0
  let s2 := match service_name with
    | some sv => v1_put s1 ("service=".toList ++ sv.toList ++ " ".toList)
    | none => s1
  let s3 := match mech.gm_upcall_enctypes with
    | some e => v1_put s2 ("enctypes=".toList ++ e.toList ++ " ".toList)
    | none => s2
  let len := scnprintf s3.buflen "\n".toList
  if len.length = 0 then (-ENOMEM, s3)
  else (0, { s3 with databuf := s3.databuf ++ len, msg_len := s3.msg_len + len.length })

/-- The pairs of a version 1 upcall as the encoder formats them, each one
followed by a space: `mech=<name> uid=<number> `, then `target=<string> `,
`service=<string> ` and `enctypes=<list> `, each only when its value is not
NULL. -/
def v1_pairs (mech : gss_api_mech) (uid : Nat)
    (service_name target_name : Option String) : List Char :=
  "mech=".toList ++ mech.gm_name.toList ++ " uid=".toList ++ fmt_d uid ++ " ".toList
  ++ (match target_name with
      | some t => "target=".toList ++ t.toList ++ " ".toList
      | none => [])
  ++ (match service_name with
      | some sv => "service=".toList ++ sv.toList ++ " ".toList
      | none => [])
  ++ (match mech.gm_upcall_enctypes with
      | some e => "enctypes=".toList ++ e.toList ++ " ".toList
      | none => [])

/-- The complete text of a version 1 upcall: the pairs and the newline. -/
def v1_text (mech : gss_api_mech) (uid : Nat)
    (service_name target_name : Option String) : List Char :=
  v1_pairs mech uid service_name target_name ++ "\n".toList

/-! ### The calls of the mechanism import -/

/-- Lines 181-257 once more: `gss_fill_context` together with the calls of
`gss_import_sec_context` it makes, each recorded as the pointer and the
length it is given (line 232).  The first component is `gss_fill_context`
itself. -/
def gss_fill_context_imports (E : Env) (now : Nat) (mech : Nat) (B : Buf) (p endp : Nat)
    (c : gss_cl_ctx) : (Except Int Nat × gss_cl_ctx) × List (Nat × Nat) :=
  match simple_get_bytes E B p endp 4 with
  | .error e => ((.error e, c), [])
  | .ok (tb, p1) =>
    let timeout := if get_u32 tb = 0 then GSSD_MIN_TIMEOUT else get_u32 tb
    let c1 := { c with gc_expiry := (now + timeout * E.HZ) % ULONG_MOD }
    match simple_get_bytes E B p1 endp 4 with
    | .error e => ((.error e, c1), [])
    | .ok (wb, p2) =>
      let c2 := { c1 with gc_win := get_u32 wb }
      if c2.gc_win = 0 then
        match simple_get_bytes E B p2 endp 4 with
        | .error e => ((.error e, c2), [])
        | .ok (rb, _) =>
            if get_s32 rb = -EKEYEXPIRED then ((.error (-EKEYEXPIRED), c2), [])
            else ((.error (-EACCES), c2), [])
      else
        match simple_get_netobj E B p2 endp with
        | .error e => ((.error e, c2), [])
        | .ok (wire, p3) =>
          let c3 := { c2 with gc_wire_ctx := wire }
          match simple_get_bytes E B p3 endp 4 with
          | .error e => ((.error e, c3), [])
          | .ok (sb, p4) =>
            let seclen := get_u32 sb
            let q := (p4 + seclen) % ULONG_MOD
            if q > endp ∨ q < p4 then ((.error (-EFAULT), c3), [])
            else
              let imp := E.gss_import_sec_context mech (B.read p4 seclen)
              let c4 := { c3 with gc_gss_ctx := imp.2 }
              if imp.1 < 0 then ((.error imp.1, c4), [(p4, seclen)])
              else if q = endp then ((.ok q, c4), [(p4, seclen)])
              else
                match simple_get_netobj E B q endp with
                | .error e => ((.error e, c4), [(p4, seclen)])
                | .ok (acc, p5) => ((.ok p5, { c4 with gc_acceptor := acc }), [(p4, seclen)])

/-! ### Destroying a credential -/

/-- Lines 1200-1224: `gss_destroying_context`.  The context is used without
a test, so a credential that is UPTODATE with a null context makes the
function dereference NULL.  `cr_ops` is not part of the credential record;
`null_call` stands for lines 1215-1222, the reference taken, the NULL call
sent with the context marked for destruction, and the reference put. -/
def gss_destroying_context (null_call : World → Nat → World) (W : World) (cred : Nat) :
    Outcome (Int × World) :=
  if test_bit .RPCAUTH_CRED_UPTODATE (W.creds cred).cr_flags = false then .ok (0, W)
  else
    match (W.creds cred).gc_ctx with
    | none => .bug
    | some ctx =>
      let W1 := W.setCtx ctx { W.ctxs ctx with gc_proc := RPC_GSS_PROC_DESTROY }
      .ok (1, null_call W1 cred)

/-- Lines 1281-1288: `gss_destroy_cred`. -/
def gss_destroy_cred (null_call : World → Nat → World) (W : World) (cred : Nat) :
    Outcome World :=
  match gss_destroying_context null_call W cred with
  | .bug => .bug
  | .ok (r, W1) => if r ≠ 0 then .ok W1 else .ok (gss_destroy_nullcred W1 cred)

/-! ## Wrapping a request -/

/-- A `struct kvec`: `iov_base`, `iov_len`, and `mem off`, the byte stored
`off` bytes after `iov_base`. -/
structure kvec where
  iov_base : Nat
  iov_len : Nat
  mem : Nat → Nat

/-- The bytes `bs` stored from offset `off` on. -/
def kvec.store (v : kvec) (off : Nat) (bs : List Nat) : kvec :=
  { v with mem := fun a => if off ≤ a ∧ a < off + bs.length then bs.getD (a - off) 0 else v.mem a }

/-- The send buffer, a `struct xdr_buf` with `head[0]` and `tail[0]`; `pages`
is the pointer to the page array.  `page_base`, `page_len`, `buflen` and
`len` are `unsigned int`.  A pointer into the head is the byte offset from
`head[0].iov_base`. -/
structure xdr_buf where
  head : kvec
  tail : kvec
  pages : Nat
  page_base : Nat
  page_len : Nat
  buflen : Nat
  len : Nat

/-- The fields of `struct rpc_rqst` that wrapping uses: `enc_page i` is the
entry `rq_enc_pages[i]` of the shadow page array and `rq_release_snd_buf`
tells whether the callback is set (to `priv_release_snd_buf`, the only
function this file stores there). -/
structure rpc_rqst where
  rq_seqno : Nat
  rq_snd_buf : xdr_buf
  rq_enc_pages : Option Nat
  enc_page : Nat → Option Nat
  rq_enc_pages_num : Int
  rq_release_snd_buf : Bool

/-- What `alloc_enc_pages` takes from outside: `PAGE_CACHE_SHIFT`, `kmalloc`
for the array, by size, and `alloc_page` by the index of the call. -/
structure EncAlloc where
  PAGE_CACHE_SHIFT : Nat
  kmalloc : Nat → Option Nat
  alloc_page : Nat → Option Nat

/-- What the wrap functions call outside `auth_gss.c`.
* `xdr_buf_subsegment buf base len`: the sub-buffer, or `none` when the call
  returns nonzero;
* `gss_get_mic handle buf`: the major status of the mechanism and the MIC it
  stores;
* `gss_wrap handle offset buf inpages`: the major status of the mechanism and
  the buffer as encryption leaves it;
* `page_address page` and `page_mem addr off`: the address of a page and the
  bytes found there. -/
structure WrapCalls where
  xdr_buf_subsegment : xdr_buf → Nat → Nat → Option xdr_buf
  gss_get_mic : Option Nat → xdr_buf → Nat × List Nat
  gss_wrap : Option Nat → Nat → xdr_buf → Nat → Nat × xdr_buf
  page_address : Nat → Nat
  page_mem : Nat → Nat → Nat

/-- A 32-bit unsigned value assigned to an `int`. -/
def int_of_u32 (v : Nat) : Int :=
  if v % U32_MOD < 2 ^ 31 then (v % U32_MOD : Nat) else ((v % U32_MOD : Nat) : Int) - 2 ^ 32

/-- Lines 1704-1713: `priv_release_snd_buf`; the pages and the array go back
to the allocator, outside the record. -/
def priv_release_snd_buf (rqstp : rpc_rqst) : rpc_rqst :=
  { rqstp with rq_release_snd_buf := false }

/-- Lines 1729-1731 of `alloc_enc_pages`: the number of shadow pages for a
send buffer with page data, `last - first + 1 + 1`. -/
def enc_pages_num (A : EncAlloc) (snd_buf : xdr_buf) : Int :=
  let first := int_of_u32 (snd_buf.page_base / 2 ^ A.PAGE_CACHE_SHIFT)
  let last := int_of_u32
    (((snd_buf.page_base + snd_buf.page_len + U32_MOD - 1) % U32_MOD) / 2 ^ A.PAGE_CACHE_SHIFT)
  last - first + 1 + 1

/-- Lines 1737-1748 of `alloc_enc_pages`: the loop that allocates the pages
and what follows it. -/
def alloc_enc_pages_fill (A : EncAlloc) (r2 : rpc_rqst) : Int × rpc_rqst :=
  match (List.range r2.rq_enc_pages_num.toNat).find? (fun i => (A.alloc_page i).isNone) with
  | some i =>
      (-EAGAIN,
       priv_release_snd_buf
         { r2 with
           enc_page := fun j => if j ≤ i then A.alloc_page j else r2.enc_page j,
           rq_enc_pages_num := i })
  | none =>
      (0,
       { r2 with
         enc_page := fun j =>
           if (j : Int) < r2.rq_enc_pages_num then A.alloc_page j else r2.enc_page j,
         rq_release_snd_buf := true })

/-- Lines 1715-1749: `alloc_enc_pages`. -/
def alloc_enc_pages (A : EncAlloc) (rqstp : rpc_rqst) : Int × rpc_rqst :=
  let r0 := if rqstp.rq_release_snd_buf then priv_release_snd_buf rqstp else rqstp
  if r0.rq_snd_buf.page_len = 0 then (0, { r0 with rq_enc_pages_num := 0 })
  else
    let r1 := { r0 with rq_enc_pages_num := enc_pages_num A r0.rq_snd_buf }
    match A.kmalloc ((r1.rq_enc_pages_num * 8) % (ULONG_MOD : Int)).toNat with
    | none => (-EAGAIN, { r1 with rq_enc_pages := none })
    | some arr => alloc_enc_pages_fill A { r1 with rq_enc_pages := some arr }

/-- The test "guess whether we're in the head or the tail" of lines 1682 and
1806. -/
def in_tail (snd_buf : xdr_buf) : Bool :=
  decide (snd_buf.page_len ≠ 0 ∨ snd_buf.tail.iov_len ≠ 0)

/-- Lines 1656-1702: `gss_wrap_req_integ`; `p` is the offset in the head at
which the body starts and `encode rqstp p` the request after
`gss_wrap_req_encode`.  The result is the status, the request and the
world. -/
def gss_wrap_req_integ (C : WrapCalls) (encode : rpc_rqst → Nat → rpc_rqst) (W : World)
    (cred ctx : Nat) (rqstp : rpc_rqst) (p : Nat) : Int × rpc_rqst × World :=
  let integ_len := p
  let offset := (p + 4) % U32_MOD
  let r1 := { rqstp with
    rq_snd_buf := { rqstp.rq_snd_buf with
      head := rqstp.rq_snd_buf.head.store (p + 4) (htonl rqstp.rq_seqno) } }
  let r2 := encode r1 (p + 8)
  let snd_buf := r2.rq_snd_buf
  match C.xdr_buf_subsegment snd_buf offset ((snd_buf.len + U32_MOD - offset) % U32_MOD) with
  | none => (- EIO, r2, W)
  | some integ_buf =>
    let snd1 := { snd_buf with head := snd_buf.head.store integ_len (htonl integ_buf.len) }
    let iov := if in_tail snd1 then snd1.tail else snd1.head
    let mic := C.gss_get_mic (W.ctxs ctx).gc_gss_ctx integ_buf
    let iov1 := iov.store (iov.iov_len + 4) mic.2
    let snd2 := if in_tail snd1 then { snd1 with tail := iov1 } else { snd1 with head := iov1 }
    if mic.1 = GSS_S_CONTEXT_EXPIRED ∨ mic.1 = 0 then
      let W1 := if mic.1 = GSS_S_CONTEXT_EXPIRED then clear_uptodate W cred else W
      let q := xdr_encode_opaque mic.2
      let iov2 := { iov.store iov.iov_len q with iov_len := iov.iov_len + q.length }
      let snd3 := if in_tail snd1 then { snd1 with tail := iov2 } else { snd1 with head := iov2 }
      (0, { r2 with rq_snd_buf := { snd3 with len := (snd3.len + q.length) % U32_MOD } }, W1)
    else (- EIO, { r2 with rq_snd_buf := snd2 }, W)

/-- The padding of line 1811: `3 - ((snd_buf->len - offset - 1) & 3)`, the
difference taken in 32 bits. -/
def priv_pad (len offset : Nat) : Nat :=
  3 - (((len + U32_MOD - offset % U32_MOD) % U32_MOD + U32_MOD - 1) % U32_MOD &&& 3)

/-- Lines 1804-1814 of `gss_wrap_req_priv`: the length word stored at
`opaque_len = p`, and the padding appended to the tail, or to the head when
there is neither page data nor a tail; `snd_buf` is the send buffer as
`gss_wrap` left it. -/
def priv_pad_append (snd_buf : xdr_buf) (p : Nat) : xdr_buf :=
  let offset := (p + 4) % U32_MOD
  let snd4 := { snd_buf with
    head := snd_buf.head.store p (htonl ((snd_buf.len + U32_MOD - offset) % U32_MOD)) }
  let pad := priv_pad snd4.len offset
  if in_tail snd4 then
    { snd4 with
      tail := { snd4.tail.store snd4.tail.iov_len (List.replicate pad 0) with
                iov_len := snd4.tail.iov_len + pad },
      len := (snd4.len + pad) % U32_MOD }
  else
    { snd4 with
      head := { snd4.head.store snd4.head.iov_len (List.replicate pad 0) with
                iov_len := snd4.head.iov_len + pad },
      len := (snd4.len + pad) % U32_MOD }

/-- Lines 1793-1816 of `gss_wrap_req_priv`: what follows the call of
`gss_wrap`, which returned the major status `w.1` and left the send buffer
`w.2`; `r3` is the request as `alloc_enc_pages` left it. -/
def gss_wrap_req_priv_finish (W : World) (cred : Nat) (r3 : rpc_rqst) (p : Nat)
    (w : Nat × xdr_buf) : Outcome (Int × rpc_rqst × World) :=
  if w.2.len > w.2.buflen then .bug
  else if w.1 = GSS_S_CONTEXT_EXPIRED ∨ w.1 = 0 then
    .ok (0, { r3 with rq_snd_buf := priv_pad_append w.2 p },
         if w.1 = GSS_S_CONTEXT_EXPIRED then clear_uptodate W cred else W)
  else .ok (- EIO, { r3 with rq_snd_buf := w.2 }, W)

/-- Lines 1751-1817: `gss_wrap_req_priv`.  With no page allocated and a tail
in use, line 1789 reads the entry before the page array; that read and
`BUG_ON` are the two ways not to return. -/
def gss_wrap_req_priv (C : WrapCalls) (A : EncAlloc) (encode : rpc_rqst → Nat → rpc_rqst)
    (W : World) (cred ctx : Nat) (rqstp : rpc_rqst) (p : Nat) :
    Outcome (Int × rpc_rqst × World) :=
  let offset := (p + 4) % U32_MOD
  let r1 := { rqstp with
    rq_snd_buf := { rqstp.rq_snd_buf with
      head := rqstp.rq_snd_buf.head.store (p + 4) (htonl rqstp.rq_seqno) } }
  let r2 := encode r1 (p + 8)
  let a := alloc_enc_pages A r2
  if a.1 ≠ 0 then .ok (a.1, a.2, W)
  else
    let r3 := a.2
    let snd_buf := r3.rq_snd_buf
    let first := int_of_u32 (snd_buf.page_base / 2 ^ A.PAGE_CACHE_SHIFT)
    let inpages := (((snd_buf.pages : Int) + 8 * first) % (ULONG_MOD : Int)).toNat
    let snd1 := { snd_buf with
      pages := r3.rq_enc_pages.getD 0,
      page_base :=
        (((snd_buf.page_base : Int) - first * 2 ^ A.PAGE_CACHE_SHIFT) % (U32_MOD : Int)).toNat }
    let moved : Option xdr_buf :=
      if in_tail snd1 then
        if r3.rq_enc_pages_num - 1 < 0 then none
        else
          match r3.enc_page (r3.rq_enc_pages_num - 1).toNat with
          | none => none
          | some page =>
            let tmp := C.page_address page
            some { snd1 with
              tail := { iov_base := tmp, iov_len := snd1.tail.iov_len,
                        mem := fun off =>
                          if off < snd1.tail.iov_len then snd1.tail.mem off
                          else C.page_mem tmp off } }
      else some snd1
    match moved with
    | none => .bug
    | some snd2 =>
      gss_wrap_req_priv_finish W cred r3 p
        (C.gss_wrap (W.ctxs ctx).gc_gss_ctx offset snd2 inpages)

/-- Lines 1819-1854: `gss_wrap_req` for a request whose credential is
`cred`.  A credential without context makes the function dereference
NULL. -/
def gss_wrap_req (C : WrapCalls) (A : EncAlloc) (encode : rpc_rqst → Nat → rpc_rqst)
    (W : World) (cred : Nat) (rqstp : rpc_rqst) (p : Nat) :
    Outcome (Int × rpc_rqst × World) :=
  match gss_cred_get_ctx W cred with
  | (none, _) => .bug
  | (some ctx, W1) =>
    if (W1.ctxs ctx).gc_proc ≠ RPC_GSS_PROC_DATA then
      .ok (0, encode rqstp p, gss_put_ctx W1 ctx)
    else
      let r : Outcome (Int × rpc_rqst × World) :=
        if (W1.creds cred).gc_service = RPC_GSS_SVC_NONE then .ok (0, encode rqstp p, W1)
        else if (W1.creds cred).gc_service = RPC_GSS_SVC_INTEGRITY then
          .ok (gss_wrap_req_integ C encode W1 cred ctx rqstp p)
        else if (W1.creds cred).gc_service = RPC_GSS_SVC_PRIVACY then
          gss_wrap_req_priv C A encode W1 cred ctx rqstp p
        else .ok (- EIO, rqstp, W1)
      match r with
      | .bug => .bug
      | .ok (status, rq, W2) => .ok (status, rq, gss_put_ctx W2 ctx)

/-- Lines 1597-1645: `gss_validate` on the verifier at offset `p` of the
reply.  `rpc_max_auth_size` is `RPC_MAX_AUTH_SIZE` and `gss_verify_mic
handle data buf off len` the major status of the mechanism for the MIC of
`len` bytes at `off`.  The result is the pointer returned or the errno of the
`ERR_PTR`, `au_verfsize` if it was set, and the world.  A credential without
context makes the function dereference NULL. -/
def gss_validate (rpc_max_auth_size : Nat)
    (gss_verify_mic : Option Nat → List Nat → RcvBuf → Nat → Nat → Nat)
    (W : World) (cred rq_seqno : Nat) (rcv : RcvBuf) (p : Nat) :
    Outcome (Except Int Nat × Option Nat × World) :=
  match gss_cred_get_ctx W cred with
  | (none, _) => .bug
  | (some ctx, W1) =>
    let flav := rcv.word p
    let len := rcv.word (p + 4)
    if len > rpc_max_auth_size then .ok (.error (- EIO), none, gss_put_ctx W1 ctx)
    else if flav ≠ RPC_AUTH_GSS then .ok (.error (- EIO), none, gss_put_ctx W1 ctx)
    else
      let maj_stat := gss_verify_mic (W1.ctxs ctx).gc_gss_ctx (htonl rq_seqno) rcv (p + 8) len
      let W2 := if maj_stat = GSS_S_CONTEXT_EXPIRED then clear_uptodate W1 cred else W1
      if maj_stat ≠ 0 then .ok (.error (-EACCES), none, gss_put_ctx W2 ctx)
      else
        .ok (.ok (p + 8 + 4 * XDR_QUADLEN len), some (XDR_QUADLEN len + 2),
             gss_put_ctx W2 ctx)

/-! ### The major status of the mechanism call -/

/-- The value that line 1510 of `gss_marshal` assigns to `maj_stat`; `none`
for a credential without context. -/
def gss_marshal_maj_stat (gss_get_mic : Option Nat → List Nat → Nat × List Nat)
    (W : World) (cred : Nat) (hdr : List Nat) : Option Nat :=
  match (W.creds cred).gc_ctx with
  | none => none
  | some ctx =>
    some (gss_get_mic (W.ctxs ctx).gc_gss_ctx
      (hdr ++ gss_marshal_cred (W.ctxs ctx) (W.ctxs ctx).gc_seq (W.creds cred).gc_service)).1

/-- The value that line 1625 of `gss_validate` assigns to `maj_stat`; `none`
when the function leaves before that line. -/
def gss_validate_maj_stat (rpc_max_auth_size : Nat)
    (gss_verify_mic : Option Nat → List Nat → RcvBuf → Nat → Nat → Nat)
    (W : World) (cred rq_seqno : Nat) (rcv : RcvBuf) (p : Nat) : Option Nat :=
  match (W.creds cred).gc_ctx with
  | none => none
  | some ctx =>
    if rcv.word (p + 4) > rpc_max_auth_size then none
    else if rcv.word p ≠ RPC_AUTH_GSS then none
    else some (gss_verify_mic (W.ctxs ctx).gc_gss_ctx (htonl rq_seqno) rcv (p + 8)
      (rcv.word (p + 4)))

/-- The value that line 1690 of `gss_wrap_req_integ` assigns to `maj_stat`;
`none` when `xdr_buf_subsegment` fails. -/
def gss_wrap_req_integ_maj_stat (C : WrapCalls) (encode : rpc_rqst → Nat → rpc_rqst)
    (W : World) (ctx : Nat) (rqstp : rpc_rqst) (p : Nat) : Option Nat :=
  let offset := (p + 4) % U32_MOD
  let r1 := { rqstp with
    rq_snd_buf := { rqstp.rq_snd_buf with
      head := rqstp.rq_snd_buf.head.store (p + 4) (htonl rqstp.rq_seqno) } }
  let r2 := encode r1 (p + 8)
  match C.xdr_buf_subsegment r2.rq_snd_buf offset
      ((r2.rq_snd_buf.len + U32_MOD - offset) % U32_MOD) with
  | none => none
  | some integ_buf => some (C.gss_get_mic (W.ctxs ctx).gc_gss_ctx integ_buf).1

/-- Lines 1766-1793 of `gss_wrap_req_priv`: what the call of `gss_wrap` at
line 1793 returns, its major status and the send buffer; `none` when the
function does not get to that line. -/
def gss_wrap_req_priv_wrapped (C : WrapCalls) (A : EncAlloc)
    (encode : rpc_rqst → Nat → rpc_rqst) (W : World) (ctx : Nat) (rqstp : rpc_rqst)
    (p : Nat) : Option (Nat × xdr_buf) :=
  let offset := (p + 4) % U32_MOD
  let r1 := { rqstp with
    rq_snd_buf := { rqstp.rq_snd_buf with
      head := rqstp.rq_snd_buf.head.store (p + 4) (htonl rqstp.rq_seqno) } }
  let r2 := encode r1 (p + 8)
  let a := alloc_enc_pages A r2
  if a.1 ≠ 0 then none
  else
    let r3 := a.2
    let snd_buf := r3.rq_snd_buf
    let first := int_of_u32 (snd_buf.page_base / 2 ^ A.PAGE_CACHE_SHIFT)
    let inpages := (((snd_buf.pages : Int) + 8 * first) % (ULONG_MOD : Int)).toNat
    let snd1 := { snd_buf with
      pages := r3.rq_enc_pages.getD 0,
      page_base :=
        (((snd_buf.page_base : Int) - first * 2 ^ A.PAGE_CACHE_SHIFT) % (U32_MOD : Int)).toNat }
    let moved : Option xdr_buf :=
      if in_tail snd1 then
        if r3.rq_enc_pages_num - 1 < 0 then none
        else
          match r3.enc_page (r3.rq_enc_pages_num - 1).toNat with
          | none => none
          | some page =>
            let tmp := C.page_address page
            some { snd1 with
              tail := { iov_base := tmp, iov_len := snd1.tail.iov_len,
                        mem := fun off =>
                          if off < snd1.tail.iov_len then snd1.tail.mem off
                          else C.page_mem tmp off } }
      else some snd1
    match moved with
    | none => none
    | some snd2 => some (C.gss_wrap (W.ctxs ctx).gc_gss_ctx offset snd2 inpages)

/-- The value that line 1793 of `gss_wrap_req_priv` assigns to `maj_stat`;
`none` when the function does not get to that line. -/
def gss_wrap_req_priv_maj_stat (C : WrapCalls) (A : EncAlloc)
    (encode : rpc_rqst → Nat → rpc_rqst) (W : World) (ctx : Nat) (rqstp : rpc_rqst)
    (p : Nat) : Option Nat :=
  (gss_wrap_req_priv_wrapped C A encode W ctx rqstp p).map Prod.fst

/-- The value that line 1885 of `gss_unwrap_resp_integ` assigns to
`maj_stat`; `none` when the function returns before that line. -/
def gss_unwrap_resp_integ_maj_stat (U : UnwrapCalls) (W : World) (ctx rq_seqno : Nat)
    (rcv : RcvBuf) (p : Nat) : Option Nat :=
  let integ_len := rcv.word p
  let p1 := p + 4
  if integ_len % 4 ≠ 0 then none
  else
    let data_offset := p1 % U32_MOD
    let mic_offset := (integ_len + data_offset) % U32_MOD
    if mic_offset > rcv.len then none
    else if rcv.word p1 ≠ rq_seqno then none
    else
      match U.xdr_buf_subsegment rcv data_offset
          ((mic_offset + U32_MOD - data_offset) % U32_MOD) with
      | none => none
      | some integ_buf =>
        match U.xdr_buf_read_netobj rcv mic_offset with
        | none => none
        | some mic => some (U.gss_verify_mic (W.ctxs ctx).gc_gss_ctx integ_buf mic)

/-- The value that line 1910 of `gss_unwrap_resp_priv` assigns to `maj_stat`;
`none` when the function returns before that line. -/
def gss_unwrap_resp_priv_maj_stat (U : UnwrapCalls) (W : World) (ctx : Nat)
    (rcv : RcvBuf) (p : Nat) : Option Nat :=
  let opaque_len := rcv.word p
  let offset := (p + 4) % U32_MOD
  if (offset + opaque_len) % U32_MOD > rcv.len then none
  else
    some (U.gss_unwrap (W.ctxs ctx).gc_gss_ctx offset
      { rcv with len := (offset + opaque_len) % U32_MOD }).1

/-- What a function with a mechanism call does to the credentials: `W1` is
the world it leaves, `maj_stat` the major status of its mechanism call
(`none` when there was no call) and `failed` says that it returned an
error.  On `GSS_S_CONTEXT_EXPIRED` the bit UPTODATE of `cred` is cleared and
nothing else changes; on every other status, and without a call, no
credential changes; a status that is neither `GSS_S_CONTEXT_EXPIRED` nor
`GSS_S_COMPLETE` makes the function fail. -/
def expired_frame (W : World) (cred : Nat) (maj_stat : Option Nat) (failed : Prop)
    (W1 : World) : Prop :=
  (maj_stat = some GSS_S_CONTEXT_EXPIRED →
    W1.creds = Function.update W.creds cred
      { W.creds cred with
        cr_flags := { (W.creds cred).cr_flags with uptodate := false } }) ∧
  (maj_stat ≠ some GSS_S_CONTEXT_EXPIRED → W1.creds = W.creds) ∧
  (∀ s, maj_stat = some s → s ≠ GSS_S_CONTEXT_EXPIRED → s ≠ GSS_S_COMPLETE → failed)

/-! ## The registry of authenticators -/

/-- The fields of `struct gss_auth` that the registry reads or writes:
`client`, `target_name` (its text, `none` for NULL), `au_flavor` and
`au_count` of its `rpc_auth`, and `hash`, the node of the hash table: the
bucket whose list holds the node, `none` for a node that is not hashed. -/
structure gss_auth where
  client : Nat
  au_flavor : Nat
  target_name : Option String
  au_count : Int
  hash : Option Nat
  deriving DecidableEq, Repr

/-- The fields of `struct rpc_auth_create_args`. -/
structure rpc_auth_create_args where
  pseudoflavor : Nat
  target_name : Option String
  deriving DecidableEq, Repr

/-- The registry: the memory that holds the authenticators, and
`gss_auth_hash_table`, the list of every bucket, first entry first. -/
structure Registry where
  auths : Nat → gss_auth
  gss_auth_hash_table : Nat → List Nat

/-- The kernel operation `atomic_inc_not_zero` on an `atomic_t`: whether it
incremented, and the counter afterwards, a 32-bit `int`. -/
def atomic_inc_not_zero (v : Int) : Bool × Int :=
  if v = 0 then (false, v) else (true, (v + 1 + 2 ^ 31) % 2 ^ 32 - 2 ^ 31)

/-- The kernel operation `hash_add(gss_auth_hash_table, &node->hash, key)`:
the node goes to the head of the bucket `hash_min key`. -/
def hash_add (hash_min : Nat → Nat) (R : Registry) (node key : Nat) : Registry :=
  { auths := Function.update R.auths node
      { R.auths node with hash := some (hash_min key) },
    gss_auth_hash_table := Function.update R.gss_auth_hash_table (hash_min key)
      (node :: R.gss_auth_hash_table (hash_min key)) }

/-- The kernel test `hash_hashed(&node->hash)`. -/
def hash_hashed (R : Registry) (node : Nat) : Bool :=
  (R.auths node).hash.isSome

/-- The kernel operation `hash_del(&node->hash)`. -/
def hash_del (R : Registry) (node : Nat) : Registry :=
  match (R.auths node).hash with
  | none => R
  | some b =>
    { auths := Function.update R.auths node { R.auths node with hash := none },
      gss_auth_hash_table := Function.update R.gss_auth_hash_table b
        ((R.gss_auth_hash_table b).erase node) }

/-- Lines 1135-1142 of `gss_auth_find_or_add_hashed`: whether the entry is
passed over for its target name.  Equal pointers are both NULL or the same
text; otherwise a NULL on either side or a nonzero `strcmp` passes over. -/
def target_name_differs (target_name args_target_name : Option String) : Bool :=
  match target_name, args_target_name with
  | none, none => false
  | none, some _ => true
  | some _, none => true
  | some x, some y => x != y

/-- The body of the loop of `gss_auth_find_or_add_hashed` (lines 1131-1145):
whether the entry `pos` ends the search.  It does when client, flavor and
target name agree and `atomic_inc_not_zero` takes a reference. -/
def auth_hash_matches (R : Registry) (args : rpc_auth_create_args) (clnt pos : Nat) : Bool :=
  (R.auths pos).client == clnt && (R.auths pos).au_flavor == args.pseudoflavor &&
  !target_name_differs (R.auths pos).target_name args.target_name &&
  (atomic_inc_not_zero (R.auths pos).au_count).1

/-- Lines 1118-1153: `gss_auth_find_or_add_hashed`; `hash_min` gives the
bucket of a hash value and `new` is the candidate, `none` for NULL.  The
result is the pointer returned and the registry. -/
def gss_auth_find_or_add_hashed (hash_min : Nat → Nat) (R : Registry)
    (args : rpc_auth_create_args) (clnt : Nat) (new : Option Nat) :
    Option Nat × Registry :=
  let hashval := clnt
  match (R.gss_auth_hash_table (hash_min hashval)).find? (auth_hash_matches R args clnt) with
  | some pos =>
      (some pos,
       { R with
         auths := Function.update R.auths pos
           ({ R.auths pos with
              au_count := (atomic_inc_not_zero (R.auths pos).au_count).2 }) })
  | none =>
      match new with
      | some n => (some n, hash_add hash_min R n hashval)
      | none => (none, R)

/-- Lines 974-1056: `gss_create_new`.  `made` stands for everything the
function obtains from outside (the module reference, `kmalloc`, `kstrdup`,
the mechanism and its service, the running daemon, the credential cache and
the two pipes): the address of the new `gss_auth`, or the errno of the step
that failed.  The new authenticator is not hashed and its `au_count` is 1. -/
def gss_create_new (made : Except Int Nat) (R : Registry) (args : rpc_auth_create_args)
    (clnt : Nat) : Except Int Nat × Registry :=
  match made with
  | .error err => (.error err, R)
  | .ok a =>
      (.ok a,
       { R with
         auths := Function.update R.auths a
           ({ client := clnt, au_flavor := args.pseudoflavor,
              target_name := args.target_name, au_count := 1, hash := none }) })

/-- Lines 1085-1107: `gss_destroy`, as far as the registry goes; the pipes,
the credential cache and the `kref` are outside the record. -/
def gss_destroy (R : Registry) (auth : Nat) : Registry :=
  if hash_hashed R auth then hash_del R auth else R

/-- Lines 1155-1172: `gss_create_hashed`.  The result is the pointer
returned (`none` for NULL) or the errno of the `ERR_PTR`, and the
registry. -/
def gss_create_hashed (hash_min : Nat → Nat) (made : Except Int Nat) (R : Registry)
    (args : rpc_auth_create_args) (clnt : Nat) : Except Int (Option Nat) × Registry :=
  match gss_auth_find_or_add_hashed hash_min R args clnt none with
  | (some a, R1) => (.ok (some a), R1)
  | (none, R1) =>
    match gss_create_new made R1 args clnt with
    | (.error err, R2) => (.error err, R2)
    | (.ok new, R2) =>
      let r := gss_auth_find_or_add_hashed hash_min R2 args clnt (some new)
      if r.1 ≠ some new then (.ok r.1, gss_destroy r.2 new) else (.ok r.1, r.2)

/-- The authenticator `a` is in the registry. -/
def registered (R : Registry) (a : Nat) : Prop :=
  ∃ b, a ∈ R.gss_auth_hash_table b

/-- The key of the authenticator `a` is `(clnt, args->pseudoflavor,
args->target_name)`, the target name compared by value and NULL equal to
NULL only. -/
def key_matches (R : Registry) (args : rpc_auth_create_args) (clnt a : Nat) : Prop :=
  (R.auths a).client = clnt ∧ (R.auths a).au_flavor = args.pseudoflavor ∧
  (R.auths a).target_name = args.target_name

/-- Two authenticators have the same key. -/
def same_key (x y : gss_auth) : Prop :=
  x.client = y.client ∧ x.au_flavor = y.au_flavor ∧ x.target_name = y.target_name

/-- No two authenticators of the registry have the same key. -/
def keys_unique (R : Registry) : Prop :=
  ∀ a1 a2, registered R a1 → registered R a2 →
    same_key (R.auths a1) (R.auths a2) → a1 = a2

/-- No two authenticators of the registry whose `au_count` is not zero have
the same key. -/
def live_keys_unique (R : Registry) : Prop :=
  ∀ a1 a2, registered R a1 → registered R a2 →
    (R.auths a1).au_count ≠ 0 → (R.auths a2).au_count ≠ 0 →
    same_key (R.auths a1) (R.auths a2) → a1 = a2

/-- Every authenticator of the registry is in the bucket of its client, where
`hash_add` of line 1148 puts it. -/
def in_own_bucket (hash_min : Nat → Nat) (R : Registry) : Prop :=
  ∀ b a, a ∈ R.gss_auth_hash_table b → b = hash_min (R.auths a).client

/-- The candidate handed to `gss_auth_find_or_add_hashed` is what
`gss_create_new` made for this client and these arguments: not in the
registry, with their key and a reference held. -/
def candidate_of (R : Registry) (args : rpc_auth_create_args) (clnt : Nat)
    (new : Option Nat) : Prop :=
  ∀ n, new = some n →
    ¬ registered R n ∧ key_matches R args clnt n ∧ (R.auths n).au_count ≠ 0

/-- What `made` gives is memory not in use: its address is not in the
registry. -/
def made_fresh (R : Registry) (made : Except Int Nat) : Prop :=
  ∀ a, made = .ok a → ¬ registered R a

/-- The registries that follow `R` by calls of `gss_create_new`,
`gss_auth_find_or_add_hashed`, `gss_create_hashed` and `gss_destroy`, in any
number and order, and by references on an authenticator taken and dropped
elsewhere (`count`): `au_count` changes, but never from zero to another
value. -/
inductive registry_reaches (hash_min : Nat → Nat) : Registry → Registry → Prop where
  | refl (R : Registry) : registry_reaches hash_min R R
  | create_new (R R1 : Registry) (made : Except Int Nat) (args : rpc_auth_create_args)
      (clnt : Nat) :
      registry_reaches hash_min R R1 → made_fresh R1 made →
      registry_reaches hash_min R (gss_create_new made R1 args clnt).2
  | find_or_add (R R1 : Registry) (args : rpc_auth_create_args) (clnt : Nat)
      (new : Option Nat) :
      registry_reaches hash_min R R1 → candidate_of R1 args clnt new →
      registry_reaches hash_min R (gss_auth_find_or_add_hashed hash_min R1 args clnt new).2
  | create (R R1 : Registry) (made : Except Int Nat) (args : rpc_auth_create_args)
      (clnt : Nat) :
      registry_reaches hash_min R R1 → made_fresh R1 made →
      registry_reaches hash_min R (gss_create_hashed hash_min made R1 args clnt).2
  | destroy (R R1 : Registry) (auth : Nat) :
      registry_reaches hash_min R R1 →
      registry_reaches hash_min R (gss_destroy R1 auth)
  | count (R R1 : Registry) (a : Nat) (c : Int) :
      registry_reaches hash_min R R1 → (c ≠ 0 → (R1.auths a).au_count ≠ 0) →
      registry_reaches hash_min R
        { R1 with auths := Function.update R1.auths a ({ R1.auths a with au_count := c }) }

/-! ## Concrete objects used to exercise the definitions -/

/-- A credential for uid 1000 in state NEW, without a context. -/
def cred_new : gss_cred :=
  { cr_flags := CRED_NEW_ONLY, cr_uid := 1000, gc_ctx := none, gc_service := 2,
    gc_principal := none, gc_upcall := none, gc_upcall_timestamp := 0,
    freed := false }

/-- A credential for uid 1000 that a refresh has brought up to date: NEW is
clear, UPTODATE is set and it holds the context at address 7. -/
def cred_uptodate : gss_cred :=
  { cred_new with
    cr_flags := { new := false, uptodate := true, negative := false, rest := 0 },
    gc_ctx := some 7 }

/-- An upcall for uid 1000 and service 2 on pipe 0, waiting for its
downcall; two references are held (the pending list and one waiter). -/
def msg_pending : gss_upcall_msg :=
  { count := 2, uid := 1000, service := 2, mech := 0, pipe := 0, errno := 0,
    msg_inflight := true, msg_list_empty := true, ctx := none, freed := false }

/-- A world in which every credential is NEW and no upcall is pending. -/
def W_new : World :=
  { jiffies := 5000, creds := fun _ => cred_new, ctxs := fun _ => ctx_fresh,
    msgs := fun _ => msg_pending, in_downcall := fun _ => [],
    pipe_version := 1, pipe_users := 1 }

/-- A world in which every credential is up to date with context 7. -/
def W_uptodate : World :=
  { W_new with creds := fun _ => cred_uptodate }

/-- The outside used to exercise the definitions: 100 ticks a second, the
default retry delay, short reads reported as `-EFAULT`, every uid valid but
`(uid_t)-1`, memory always available, and a mechanism that accepts every
security context. -/
def E0 : Env :=
  { HZ := 100, gss_expired_cred_retry_delay := GSS_RETRY_EXPIRED,
    eshort := -EFAULT, uid_valid := fun u => u != 4294967295,
    kmemdup_ok := fun _ => true,
    gss_import_sec_context := fun _ bs => (0, some bs.length) }

/-- The allocator gives the buffer at 4096 and the context at 42. -/
def K0 : DowncallAlloc :=
  { kmalloc := some 4096, copy_ok := true, kzalloc := some 42 }

/-- A world whose pipe 0 has the upcall 5 (uid 1000, service 2) pending;
the upcall 9 is for uid 2000. -/
def W_pending : World :=
  { W_new with
    msgs := fun a => if a = 9 then { msg_pending with uid := 2000 } else msg_pending,
    in_downcall := fun p => if p = 0 then [5] else [] }

/-- The success downcall of the first scenario of the specification after
its uid field (`put_u32 1000`): timeout 3600, window 128, wire context "CTXBYTES", security
context "SECRET01", acceptor "host@example". -/
def downcall_success_body : List Nat :=
  put_u32 3600 ++ put_u32 128 ++
  put_u32 8 ++ [67, 84, 88, 66, 89, 84, 69, 83] ++
  put_u32 8 ++ [83, 69, 67, 82, 69, 84, 48, 49] ++
  put_u32 12 ++ [104, 111, 115, 116, 64, 101, 120, 97, 109, 112, 108, 101]

/-- The error code -127 (`-EKEYEXPIRED`) as the downcall of the second
scenario of the specification carries it. -/
def downcall_expired_code : List Nat := [129, 255, 255, 255]

/-- The outside `E0` with a mechanism whose import fails with -1, an errno
`gss_pipe_downcall` has no case for. -/
def E_import_fails : Env :=
  { E0 with gss_import_sec_context := fun _ _ => (-1, none) }

/-- A downcall body cut off after its window field: timeout 3600, window
128, and nothing where the wire context should be. -/
def downcall_truncated_body : List Nat :=
  put_u32 3600 ++ put_u32 128

/-- A credential cache that has no other credential and an upcall path that
reports success without doing anything. -/
def X0 : RefreshCalls :=
  { gss_lookup_cred := fun W _ => (.error (-ENOMEM), W),
    put_rpccred := fun W _ => W,
    gss_refresh_upcall := fun W _ => (0, W) }

/-- A credential still NEW whose last upcall, completed at tick 4900, was
answered with `-EKEYEXPIRED`: NEGATIVE is set. -/
def cred_negative : gss_cred :=
  { cred_new with
    cr_flags := { new := true, uptodate := false, negative := true, rest := 0 },
    gc_upcall_timestamp := 4900 }

/-- A world at tick 5000 in which every credential is `cred_negative`. -/
def W_negative : World :=
  { W_new with creds := fun _ => cred_negative }

/-- An upcall for uid 1000 that gssd has answered with `-EKEYEXPIRED`; it
has left the pending list and its two waiters still hold it. -/
def msg_expired : gss_upcall_msg :=
  { msg_pending with errno := -EKEYEXPIRED }

/-- A world at tick 5000 in which every credential is NEW, never refreshed,
and every upcall has been answered with `-EKEYEXPIRED`. -/
def W_expired : World :=
  { W_new with msgs := fun _ => msg_expired }

/-- The request for a credential for uid 1000, not a machine credential. -/
def acred_user : auth_cred :=
  { uid := 1000, principal := none, machine_cred := false }

/-- The world `W_expired` after `gss_create_cred` has made the credential
at address 3. -/
def W_created : World :=
  (gss_create_cred W_expired 2 acred_user (some 3)).2

/-- A world in which no gss pipe has been opened yet. -/
def W_closed : World :=
  { W_new with pipe_version := -1, pipe_users := 0 }

/-- A mechanism whose checksum of any data is the four bytes 1, 2, 3, 4. -/
def mic_const : Option Nat → List Nat → Nat × List Nat :=
  fun _ _ => (GSS_S_COMPLETE, [1, 2, 3, 4])

/-- A world in which every credential is up to date with context 7, whose
wire context is the five bytes "CTXBY". -/
def W_wire : World :=
  { W_uptodate with ctxs := fun _ => { ctx_fresh with gc_wire_ctx := [67, 84, 88, 66, 89] } }

/-- Helpers of a mechanism that accepts everything: the segment and the
MIC are always there, every check succeeds and decryption leaves the buffer
as it is. -/
def U_accept : UnwrapCalls :=
  { xdr_buf_subsegment := fun _ _ _ => some [],
    xdr_buf_read_netobj := fun _ _ => some [],
    gss_verify_mic := fun _ _ _ => GSS_S_COMPLETE,
    gss_unwrap := fun _ _ b => (GSS_S_COMPLETE, b) }

/-- A reply of 64 bytes whose body starts at offset 24 with a length word of
8 followed by the sequence number 41. -/
def rcv_reply : RcvBuf :=
  { len := 64, head_len := 64,
    word := fun off => if off = 24 then 8 else if off = 28 then 41 else 0 }

/-- A decode callback that reports success and returns the offset it was
handed. -/
def decode_offset : RcvBuf → Nat → Int × Nat :=
  fun _ p => (0, p)

/-- The world `W_uptodate` with PRIVACY as the service of every
credential. -/
def W_privacy : World :=
  { W_uptodate with creds := fun _ => { cred_uptodate with gc_service := RPC_GSS_SVC_PRIVACY } }

/-- A world with three users of the pipe version whose pipe 0 has three
upcalls pending: 5, read by the daemon and awaited by a task; 6, read by the
daemon, its waiters gone, held by the pending list alone; 8, not yet read
and still queued on the pipe. -/
def W_release : World :=
  { W_new with
    msgs := fun a =>
      if a = 6 then { msg_pending with count := 1, uid := 2000 }
      else if a = 8 then { msg_pending with uid := 3000, msg_inflight := false,
                                            msg_list_empty := false }
      else msg_pending,
    in_downcall := fun p => if p = 0 then [5, 6, 8] else [],
    pipe_users := 3 }

/-- A world at tick 5000 in which the credential 1 belongs to uid 1000 and
carries the principal `nfs@server`, every other credential belongs to uid
1000 without a principal, and all are up to date with context 7, which
expires at tick 40000. -/
def W_match : World :=
  { W_uptodate with
    creds := fun a =>
      if a = 1 then { cred_uptodate with gc_principal := some "nfs@server" }
      else cred_uptodate,
    ctxs := fun _ => { ctx_fresh with gc_expiry := 40000 } }

/-- A request by uid 0 for the principal `nfs@server`. -/
def acred_principal : auth_cred :=
  { uid := 0, principal := some "nfs@server", machine_cred := true }

/-- No notification of key expiry asked for. -/
def ac_flags_none : AcFlags :=
  { RPC_CRED_NOTIFY_TIMEOUT := false, RPC_CRED_KEY_EXPIRE_SOON := false }

/-- The mechanism krb5 with its list of encryption types. -/
def mech_krb5 : gss_api_mech :=
  { gm_name := "krb5", gm_upcall_enctypes := some "18,17,16,23,3,1,2" }

/-- A mechanism whose name is 120 bytes long. -/
def mech_long : gss_api_mech :=
  { gm_name := String.mk (List.replicate 120 (Char.ofNat 120)),
    gm_upcall_enctypes := none }

/-- The outside `E0` with short reads reported as `-EINVAL`. -/
def E_short_einval : Env :=
  { E0 with eshort := -EINVAL }

/-- A downcall body whose security context is declared 100 bytes long with
only three bytes left: timeout 3600, window 128, wire context "CTXBYTES",
`sec_context_len` 100, "SEC". -/
def downcall_overrun_body : List Nat :=
  put_u32 3600 ++ put_u32 128 ++
  put_u32 8 ++ [67, 84, 88, 66, 89, 84, 69, 83] ++
  put_u32 100 ++ [83, 69, 67]

/-- A world whose pipe 0 has the upcall 5 (uid 1000, service 2) pending,
and in which the upcall 6, for the same uid with service 3, has just been
allocated. -/
def W_service3 : World :=
  { W_pending with
    msgs := fun a =>
      if a = 6 then { msg_pending with service := 3, count := 1 } else W_pending.msgs a }

/-- The world `W_service3` after `gss_add_msg` of the upcall 6. -/
def W_two_services : World :=
  (gss_add_msg W_service3 6).2

/-- A reply of 64 bytes whose body starts at offset 24 with the length word
4294967280. -/
def rcv_wrap : RcvBuf :=
  { len := 64, head_len := 64, word := fun off => if off = 24 then 4294967280 else 0 }

/-- An allocator for pages of 4096 bytes that always succeeds: the array at
8192, the page of call `i` at `100 + i`. -/
def A0 : EncAlloc :=
  { PAGE_CACHE_SHIFT := 12, kmalloc := fun _ => some 8192,
    alloc_page := fun i => some (100 + i) }

/-- An empty `kvec` at address 0. -/
def kvec0 : kvec :=
  { iov_base := 0, iov_len := 0, mem := fun _ => 0 }

/-- A request with sequence number 41 whose send buffer has a head of 40
bytes and `page_len` bytes of page data from `page_base` on. -/
def rq_pages (page_base page_len : Nat) : rpc_rqst :=
  { rq_seqno := 41,
    rq_snd_buf :=
      { head := { kvec0 with iov_len := 40 }, tail := kvec0, pages := 0,
        page_base := page_base, page_len := page_len, buflen := 16384,
        len := 40 + page_len },
    rq_enc_pages := none, enc_page := fun _ => none, rq_enc_pages_num := 0,
    rq_release_snd_buf := false }

/-- Helpers of a mechanism that wraps by adding 21 bytes to the tail without
touching the head: 16 where the tail is and 5 more, so that the wrapped
length is not a multiple of 4. -/
def C0 : WrapCalls :=
  { xdr_buf_subsegment := fun b _ len => some { b with len := len },
    gss_get_mic := fun _ _ => (GSS_S_COMPLETE, [1, 2, 3, 4]),
    gss_wrap := fun _ _ b _ =>
      (GSS_S_COMPLETE,
       { b with tail := { b.tail with iov_len := b.tail.iov_len + 21 }, len := b.len + 21 }),
    page_address := fun page => 4096 * page,
    page_mem := fun _ _ => 255 }

/-- An encode callback that appends nothing. -/
def encode_none : rpc_rqst → Nat → rpc_rqst :=
  fun r _ => r

/-- The request `rq_pages 0 100` as `gss_wrap_req_priv` leaves it when it
wraps from `p = 24` on with the helpers `C0`. -/
def rq_padded : rpc_rqst :=
  match gss_wrap_req_priv C0 A0 encode_none W_privacy 0 7 (rq_pages 0 100) 24 with
  | .ok (_, rq, _) => rq
  | .bug => rq_pages 0 100

/-- The world `W_privacy` in which every context carries the processing code
`RPC_GSS_PROC_DESTROY`. -/
def W_destroy : World :=
  { W_privacy with ctxs := fun _ => { ctx_fresh with gc_proc := RPC_GSS_PROC_DESTROY } }

/-- Helpers of a mechanism whose context has expired: the segment and the MIC
are there, and both the check and the decryption report
`GSS_S_CONTEXT_EXPIRED`. -/
def U_expired : UnwrapCalls :=
  { U_accept with
    gss_verify_mic := fun _ _ _ => GSS_S_CONTEXT_EXPIRED,
    gss_unwrap := fun _ _ b => (GSS_S_CONTEXT_EXPIRED, b) }

/-- A bucket function for a table of 16 buckets. -/
def hash16 : Nat → Nat :=
  fun v => v % 16

/-- The arguments of a create call for the pseudoflavor 390003 without
target name. -/
def args_krb5 : rpc_auth_create_args :=
  { pseudoflavor := 390003, target_name := none }

/-- The empty registry. -/
def R_empty : Registry :=
  { auths := fun _ =>
      { client := 0, au_flavor := 0, target_name := none, au_count := 0, hash := none },
    gss_auth_hash_table := fun _ => [] }

/-- A registry that holds one authenticator, at address 10, for the client 1
and the pseudoflavor 390003 without target name.  Its last reference has
been dropped, `au_count` is 0, and `gss_destroy` has not yet taken it out of
the table. -/
def R_dying : Registry :=
  { auths := fun a =>
      if a = 10 then
        { client := 1, au_flavor := 390003, target_name := none, au_count := 0,
          hash := some 1 }
      else R_empty.auths a,
    gss_auth_hash_table := fun b => if b = 1 then [10] else [] }

/-- The world `W_uptodate`, whose credentials have the service INTEGRITY, in
which every context carries the processing code `RPC_GSS_PROC_DESTROY`. -/
def W_destroy_integ : World :=
  { W_uptodate with ctxs := fun _ => { ctx_fresh with gc_proc := RPC_GSS_PROC_DESTROY } }

/-- The world `W_two_services` with the upcall 9, in flight for uid 2000, at
the head of the pending list of pipe 0, before the upcalls 6 and 5 of uid
1000. -/
def W_other_first : World :=
  { W_two_services with in_downcall := fun p => if p = 0 then [9, 6, 5] else [] }

/-! ## Theorems -/

/-! ### C1: `gss_cred_set_ctx` -/

theorem setCred_creds_same (W : World) (cred : Nat) (c : gss_cred) :
    (W.setCred cred c).creds cred = c := by
  simp [World.setCred]

theorem setCred_ctxs (W : World) (cred : Nat) (c : gss_cred) :
    (W.setCred cred c).ctxs = W.ctxs := rfl

theorem gss_get_ctx_creds (W : World) (ctx : Nat) :
    (gss_get_ctx W ctx).creds = W.creds := rfl

theorem gss_get_ctx_count (W : World) (ctx : Nat) :
    ((gss_get_ctx W ctx).ctxs ctx).count = (W.ctxs ctx).count + 1 := by
  simp [gss_get_ctx, World.setCtx]

/-- With NEW clear `gss_cred_set_ctx` returns the world it was given. -/
theorem gss_cred_set_ctx_not_new (W : World) (cred ctx : Nat)
    (h : test_bit .RPCAUTH_CRED_NEW (W.creds cred).cr_flags = false) :
    gss_cred_set_ctx W cred ctx = W := by
  simp [gss_cred_set_ctx, h]

/-- With NEW set `gss_cred_set_ctx` leaves this credential. -/
theorem gss_cred_set_ctx_new_cred (W : World) (cred ctx : Nat)
    (h : test_bit .RPCAUTH_CRED_NEW (W.creds cred).cr_flags = true) :
    (gss_cred_set_ctx W cred ctx).creds cred =
      { W.creds cred with
        gc_ctx := some ctx,
        cr_flags := clear_bit .RPCAUTH_CRED_NEW
          (set_bit .RPCAUTH_CRED_UPTODATE (W.creds cred).cr_flags) } := by
  simp [gss_cred_set_ctx, h, setCred_creds_same, World.setCred, gss_get_ctx_creds]

/-- With NEW set `gss_cred_set_ctx` changes the contexts as `gss_get_ctx`
does. -/
theorem gss_cred_set_ctx_new_ctxs (W : World) (cred ctx : Nat)
    (h : test_bit .RPCAUTH_CRED_NEW (W.creds cred).cr_flags = true) :
    (gss_cred_set_ctx W cred ctx).ctxs = (gss_get_ctx W ctx).ctxs := by
  simp [gss_cred_set_ctx, h, setCred_ctxs]

/-- After `gss_cred_set_ctx` the credential's NEW flag is clear. -/
theorem gss_cred_set_ctx_clears_new (W : World) (cred ctx : Nat) :
    test_bit .RPCAUTH_CRED_NEW ((gss_cred_set_ctx W cred ctx).creds cred).cr_flags
      = false := by
  cases h : test_bit .RPCAUTH_CRED_NEW (W.creds cred).cr_flags
  · rw [gss_cred_set_ctx_not_new W cred ctx h]; exact h
  · rw [gss_cred_set_ctx_new_cred W cred ctx h]; rfl

/-- C1 (as stated, refuted): on a credential whose NEW flag is clear and that
already holds context 7, `set_ctx(c, 1)` followed by `set_ctx(c, 2)` leaves
the credential holding 7, not 1. -/
theorem gss_cred_set_ctx_twice_counterexample :
    test_bit .RPCAUTH_CRED_NEW (W_uptodate.creds 0).cr_flags = false ∧
    ((gss_cred_set_ctx (gss_cred_set_ctx W_uptodate 0 1) 0 2).creds 0).gc_ctx
      = some 7 ∧
    ((gss_cred_set_ctx (gss_cred_set_ctx W_uptodate 0 1) 0 2).creds 0).gc_ctx
      ≠ some 1 := by
  decide

/-- C1 (amended): `gss_cred_set_ctx(cred, a)` changes nothing when NEW is
clear; when NEW is set, afterwards the credential's context is `a`, UPTODATE
is set, NEW is clear and the reference count of `a` has grown by exactly one,
and a following `gss_cred_set_ctx(cred, b)` leaves the credential holding
`a`.  For every credential the second of two calls is a no-op. -/
theorem gss_cred_set_ctx_contract (W : World) (cred a b : Nat) :
    (test_bit .RPCAUTH_CRED_NEW (W.creds cred).cr_flags = false →
      gss_cred_set_ctx W cred a = W) ∧
    (test_bit .RPCAUTH_CRED_NEW (W.creds cred).cr_flags = true →
      ((gss_cred_set_ctx W cred a).creds cred).gc_ctx = some a ∧
      test_bit .RPCAUTH_CRED_UPTODATE
        ((gss_cred_set_ctx W cred a).creds cred).cr_flags = true ∧
      test_bit .RPCAUTH_CRED_NEW
        ((gss_cred_set_ctx W cred a).creds cred).cr_flags = false ∧
      ((gss_cred_set_ctx W cred a).ctxs a).count = (W.ctxs a).count + 1 ∧
      ((gss_cred_set_ctx (gss_cred_set_ctx W cred a) cred b).creds cred).gc_ctx
        = some a) ∧
    gss_cred_set_ctx (gss_cred_set_ctx W cred a) cred b
      = gss_cred_set_ctx W cred a := by
  have hnoop : gss_cred_set_ctx (gss_cred_set_ctx W cred a) cred b
      = gss_cred_set_ctx W cred a :=
    gss_cred_set_ctx_not_new _ cred b (gss_cred_set_ctx_clears_new W cred a)
  refine ⟨gss_cred_set_ctx_not_new W cred a, fun h => ?_, hnoop⟩
  have hc := gss_cred_set_ctx_new_cred W cred a h
  refine ⟨by rw [hc], by rw [hc]; rfl, gss_cred_set_ctx_clears_new W cred a, ?_, ?_⟩
  · rw [gss_cred_set_ctx_new_ctxs W cred a h, gss_get_ctx_count]
  · rw [hnoop, hc]

/-- C1 exercised on a NEW credential with contexts 1 and 2. -/
theorem gss_cred_set_ctx_contract_witness :
    test_bit .RPCAUTH_CRED_NEW (W_new.creds 0).cr_flags = true ∧
    ((gss_cred_set_ctx W_new 0 1).creds 0).gc_ctx = some 1 ∧
    test_bit .RPCAUTH_CRED_UPTODATE
      ((gss_cred_set_ctx W_new 0 1).creds 0).cr_flags = true ∧
    test_bit .RPCAUTH_CRED_NEW
      ((gss_cred_set_ctx W_new 0 1).creds 0).cr_flags = false ∧
    ((gss_cred_set_ctx W_new 0 1).ctxs 1).count = (W_new.ctxs 1).count + 1 ∧
    ((gss_cred_set_ctx (gss_cred_set_ctx W_new 0 1) 0 2).creds 0).gc_ctx
      = some 1 :=
  ⟨by decide, (gss_cred_set_ctx_contract W_new 0 1 2).2.1 (by decide)⟩

/-! ### C2: `gss_add_msg` keeps the pending list free of duplicates -/

theorem setMsg_msgs_uid (W : World) (m x : Nat) (c : Int) :
    ((W.setMsg m { W.msgs m with count := c }).msgs x).uid = (W.msgs x).uid := by
  by_cases hx : x = m
  · subst hx; simp [World.setMsg]
  · simp [World.setMsg, Function.update_noteq hx]

theorem setMsg_msgs_service (W : World) (m x : Nat) (c : Int) :
    ((W.setMsg m { W.msgs m with count := c }).msgs x).service
      = (W.msgs x).service := by
  by_cases hx : x = m
  · subst hx; simp [World.setMsg]
  · simp [World.setMsg, Function.update_noteq hx]

/-- Changing reference counts does not touch the invariant. -/
theorem no_duplicate_upcall_congr (W W1 : World) (pipe : Nat)
    (hl : W1.in_downcall pipe = W.in_downcall pipe)
    (hu : ∀ x, (W1.msgs x).uid = (W.msgs x).uid)
    (hs : ∀ x, (W1.msgs x).service = (W.msgs x).service) :
    no_duplicate_upcall W1 pipe ↔ no_duplicate_upcall W pipe := by
  unfold no_duplicate_upcall
  rw [hl]
  simp only [hu, hs]

/-- What `__gss_find_upcall` does when nothing matches. -/
theorem gss_find_upcall_none (W : World) (pipe uid service : Nat)
    (h : ∀ pos ∈ W.in_downcall pipe, upcall_matches W uid service pos = false) :
    __gss_find_upcall W pipe uid service = (none, W) := by
  have hf : (W.in_downcall pipe).find? (upcall_matches W uid service) = none := by
    rw [List.find?_eq_none]
    intro pos hpos
    simp [h pos hpos]
  simp [__gss_find_upcall, hf]

/-- What `__gss_find_upcall` does when some entry matches. -/
theorem gss_find_upcall_some (W : World) (pipe uid service : Nat)
    (h : ∃ pos ∈ W.in_downcall pipe, upcall_matches W uid service pos = true) :
    ∃ old, old ∈ W.in_downcall pipe ∧ upcall_matches W uid service old = true ∧
      __gss_find_upcall W pipe uid service =
        (some old,
         W.setMsg old { W.msgs old with count := (W.msgs old).count + 1 }) := by
  cases hf : (W.in_downcall pipe).find? (upcall_matches W uid service) with
  | none =>
      rw [List.find?_eq_none] at hf
      obtain ⟨pos, hpos, hm⟩ := h
      exact absurd hm (hf pos hpos)
  | some old =>
      refine ⟨old, List.mem_of_find?_eq_some hf, List.find?_some hf, ?_⟩
      simp [__gss_find_upcall, hf]

/-- C2: `gss_add_msg` preserves, for every pipe, the invariant that no two
pending upcalls have the same (uid, service).  When no pending entry of the
candidate's pipe has its uid and service, the candidate is returned, put
first on the list and its reference count grows by one; when some entry has,
the list is unchanged and such an entry is returned with its reference count
grown by one. -/
theorem gss_add_msg_dedup (W : World) (gss_msg : Nat) :
    (∀ pipe, no_duplicate_upcall W pipe →
      no_duplicate_upcall (gss_add_msg W gss_msg).2 pipe) ∧
    ((∀ pos ∈ W.in_downcall (W.msgs gss_msg).pipe,
        ¬ ((W.msgs pos).uid = (W.msgs gss_msg).uid ∧
           (W.msgs pos).service = (W.msgs gss_msg).service)) →
      (gss_add_msg W gss_msg).1 = gss_msg ∧
      (gss_add_msg W gss_msg).2.in_downcall (W.msgs gss_msg).pipe
        = gss_msg :: W.in_downcall (W.msgs gss_msg).pipe ∧
      ((gss_add_msg W gss_msg).2.msgs gss_msg).count
        = (W.msgs gss_msg).count + 1) ∧
    ((∃ pos ∈ W.in_downcall (W.msgs gss_msg).pipe,
        (W.msgs pos).uid = (W.msgs gss_msg).uid ∧
        (W.msgs pos).service = (W.msgs gss_msg).service) →
      (gss_add_msg W gss_msg).1 ∈ W.in_downcall (W.msgs gss_msg).pipe ∧
      (W.msgs (gss_add_msg W gss_msg).1).uid = (W.msgs gss_msg).uid ∧
      (W.msgs (gss_add_msg W gss_msg).1).service = (W.msgs gss_msg).service ∧
      (gss_add_msg W gss_msg).2.in_downcall = W.in_downcall ∧
      ((gss_add_msg W gss_msg).2.msgs (gss_add_msg W gss_msg).1).count
        = (W.msgs (gss_add_msg W gss_msg).1).count + 1) := by
  have key : ∀ pos, upcall_matches W (W.msgs gss_msg).uid (W.msgs gss_msg).service pos
      = true ↔ ((W.msgs pos).uid = (W.msgs gss_msg).uid ∧
                (W.msgs pos).service = (W.msgs gss_msg).service) := by
    intro pos; simp [upcall_matches]
  by_cases hex : ∃ pos ∈ W.in_downcall (W.msgs gss_msg).pipe,
      upcall_matches W (W.msgs gss_msg).uid (W.msgs gss_msg).service pos = true
  · -- an entry matches: the list stays, only a count changes
    obtain ⟨old, hmem, hm, hfind⟩ := gss_find_upcall_some W _ _ _ hex
    have hres : gss_add_msg W gss_msg =
        (old, W.setMsg old { W.msgs old with count := (W.msgs old).count + 1 }) := by
      simp [gss_add_msg, hfind]
    rw [hres]
    refine ⟨fun pipe hinv => ?_, fun hno => ?_, fun _ => ?_⟩
    · exact (no_duplicate_upcall_congr W
        (W.setMsg old { W.msgs old with count := (W.msgs old).count + 1 }) pipe rfl
        (fun x => setMsg_msgs_uid W old x _)
        (fun x => setMsg_msgs_service W old x _)).2 hinv
    · exact absurd ((key old).1 hm) (hno old hmem)
    · refine ⟨hmem, ((key old).1 hm).1, ((key old).1 hm).2, rfl, ?_⟩
      simp [World.setMsg]
  · -- nothing matches: the candidate goes first
    have hnone : ∀ pos ∈ W.in_downcall (W.msgs gss_msg).pipe,
        upcall_matches W (W.msgs gss_msg).uid (W.msgs gss_msg).service pos = false := by
      intro pos hpos
      cases hm : upcall_matches W (W.msgs gss_msg).uid (W.msgs gss_msg).service pos
      · rfl
      · exact absurd ⟨pos, hpos, hm⟩ hex
    have hfind := gss_find_upcall_none W _ _ _ hnone
    have hres : gss_add_msg W gss_msg =
        (gss_msg,
         (W.setMsg gss_msg
            { W.msgs gss_msg with count := (W.msgs gss_msg).count + 1 }).setList
           (W.msgs gss_msg).pipe (gss_msg :: W.in_downcall (W.msgs gss_msg).pipe)) := by
      simp [gss_add_msg, hfind, World.setMsg]
    rw [hres]
    refine ⟨fun pipe hinv => ?_, fun _ => ?_, fun hsome => ?_⟩
    · unfold no_duplicate_upcall
      simp only [World.setList]
      have hu : ∀ x, ((W.setMsg gss_msg
          { W.msgs gss_msg with count := (W.msgs gss_msg).count + 1 }).msgs x).uid
          = (W.msgs x).uid := fun x => setMsg_msgs_uid W gss_msg x _
      have hs : ∀ x, ((W.setMsg gss_msg
          { W.msgs gss_msg with count := (W.msgs gss_msg).count + 1 }).msgs x).service
          = (W.msgs x).service := fun x => setMsg_msgs_service W gss_msg x _
      simp only [hu, hs]
      by_cases hp : pipe = (W.msgs gss_msg).pipe
      · subst hp
        simp only [Function.update_same, List.pairwise_cons]
        refine ⟨fun pos hpos hk => ?_, hinv⟩
        have hf := hnone pos hpos
        rw [(key pos).2 ⟨hk.1.symm, hk.2.symm⟩] at hf
        exact absurd hf (by simp)
      · rw [Function.update_noteq hp]
        exact hinv
    · refine ⟨rfl, by simp [World.setList, World.setMsg], by simp [World.setList, World.setMsg]⟩
    · obtain ⟨pos, hpos, hk⟩ := hsome
      have := hnone pos hpos
      rw [(key pos).2 hk] at this
      exact absurd this (by simp)

/-- C2 exercised on the pipe with upcall 5 (uid 1000) pending: adding the
upcall 9 (uid 2000) keeps the invariant and puts 9 first; adding the upcall
7 (uid 1000 again) leaves the list alone and returns 5. -/
theorem gss_add_msg_dedup_witness :
    (no_duplicate_upcall W_pending 0 ∧
      no_duplicate_upcall (gss_add_msg W_pending 9).2 0) ∧
    ((∀ pos ∈ W_pending.in_downcall (W_pending.msgs 9).pipe,
        ¬ ((W_pending.msgs pos).uid = (W_pending.msgs 9).uid ∧
           (W_pending.msgs pos).service = (W_pending.msgs 9).service)) ∧
      (gss_add_msg W_pending 9).1 = 9 ∧
      (gss_add_msg W_pending 9).2.in_downcall (W_pending.msgs 9).pipe
        = 9 :: W_pending.in_downcall (W_pending.msgs 9).pipe ∧
      ((gss_add_msg W_pending 9).2.msgs 9).count = (W_pending.msgs 9).count + 1) ∧
    ((∃ pos ∈ W_pending.in_downcall (W_pending.msgs 7).pipe,
        (W_pending.msgs pos).uid = (W_pending.msgs 7).uid ∧
        (W_pending.msgs pos).service = (W_pending.msgs 7).service) ∧
      (gss_add_msg W_pending 7).1 ∈ W_pending.in_downcall (W_pending.msgs 7).pipe ∧
      (W_pending.msgs (gss_add_msg W_pending 7).1).uid = (W_pending.msgs 7).uid ∧
      (W_pending.msgs (gss_add_msg W_pending 7).1).service = (W_pending.msgs 7).service ∧
      (gss_add_msg W_pending 7).2.in_downcall = W_pending.in_downcall ∧
      ((gss_add_msg W_pending 7).2.msgs (gss_add_msg W_pending 7).1).count
        = (W_pending.msgs (gss_add_msg W_pending 7).1).count + 1) :=
  ⟨⟨by decide, (gss_add_msg_dedup W_pending 9).1 0 (by decide)⟩,
   ⟨by decide, (gss_add_msg_dedup W_pending 9).2.1 (by decide)⟩,
   ⟨⟨5, by decide, by decide⟩,
    (gss_add_msg_dedup W_pending 7).2.2 ⟨5, by decide, by decide⟩⟩⟩

/-! ### Reading the downcall buffer -/

/-- A field that lies inside the buffer is read as it stands. -/
theorem simple_get_bytes_append (E : Env) (buf : Nat) (pre x post : List Nat)
    (hfit : buf + (pre ++ x ++ post).length < ULONG_MOD) :
    simple_get_bytes E { addr := buf, bytes := pre ++ x ++ post }
        (buf + pre.length) (buf + (pre ++ x ++ post).length) x.length
      = .ok (x, buf + pre.length + x.length) := by
  have hlen : (pre ++ x ++ post).length = pre.length + x.length + post.length := by
    simp only [List.length_append]
  have hq : (buf + pre.length + x.length) % ULONG_MOD = buf + pre.length + x.length := by
    apply Nat.mod_eq_of_lt; omega
  have hread : ({ addr := buf, bytes := pre ++ x ++ post } : Buf).read
      (buf + pre.length) x.length = x := by
    simp [Buf.read, List.append_assoc]
  unfold simple_get_bytes
  simp only [hq, hread]
  rw [if_neg]
  omega

/-! ### What reference counting leaves alone -/

theorem gss_get_ctx_msgs (W : World) (ctx : Nat) :
    (gss_get_ctx W ctx).msgs = W.msgs := rfl

theorem gss_get_ctx_in_downcall (W : World) (ctx : Nat) :
    (gss_get_ctx W ctx).in_downcall = W.in_downcall := rfl

theorem gss_get_ctx_data (W : World) (ctx x : Nat) :
    ((gss_get_ctx W ctx).ctxs x).data = (W.ctxs x).data := by
  by_cases hx : x = ctx
  · subst hx; simp [gss_get_ctx, World.setCtx, gss_cl_ctx.data]
  · simp [gss_get_ctx, World.setCtx, Function.update_noteq hx]

theorem gss_put_ctx_msgs (W : World) (ctx : Nat) :
    (gss_put_ctx W ctx).msgs = W.msgs := by
  unfold gss_put_ctx gss_free_ctx
  dsimp only
  split <;> rfl

theorem gss_put_ctx_in_downcall (W : World) (ctx : Nat) :
    (gss_put_ctx W ctx).in_downcall = W.in_downcall := by
  unfold gss_put_ctx gss_free_ctx
  dsimp only
  split <;> rfl

theorem gss_put_ctx_creds (W : World) (ctx : Nat) :
    (gss_put_ctx W ctx).creds = W.creds := by
  unfold gss_put_ctx gss_free_ctx
  dsimp only
  split <;> rfl

theorem gss_put_ctx_data (W : World) (ctx x : Nat) :
    ((gss_put_ctx W ctx).ctxs x).data = (W.ctxs x).data := by
  unfold gss_put_ctx gss_free_ctx
  dsimp only
  by_cases hx : x = ctx
  · subst hx; split <;> simp [World.setCtx, gss_cl_ctx.data]
  · split <;> simp [World.setCtx, Function.update_noteq hx]

theorem put_pipe_version_msgs (W : World) : (put_pipe_version W).msgs = W.msgs := by
  unfold put_pipe_version; dsimp only; split <;> rfl

theorem put_pipe_version_in_downcall (W : World) :
    (put_pipe_version W).in_downcall = W.in_downcall := by
  unfold put_pipe_version; dsimp only; split <;> rfl

theorem put_pipe_version_ctxs (W : World) : (put_pipe_version W).ctxs = W.ctxs := by
  unfold put_pipe_version; dsimp only; split <;> rfl

theorem put_pipe_version_creds (W : World) : (put_pipe_version W).creds = W.creds := by
  unfold put_pipe_version; dsimp only; split <;> rfl

/-- What `gss_release_msg` does to an upcall that is on no pending list: it
does not reach `BUG_ON`, and changes reference counts and `freed` marks
only. -/
theorem gss_release_msg_unhashed (W : World) (m : Nat)
    (h : m ∉ W.in_downcall (W.msgs m).pipe) :
    ∃ W1, gss_release_msg W m = .ok W1 ∧
      W1.in_downcall = W.in_downcall ∧ W1.creds = W.creds ∧
      (∀ x, (W1.msgs x).data = (W.msgs x).data) ∧
      (∀ x, x ≠ m → W1.msgs x = W.msgs x) ∧
      (∀ x, (W1.ctxs x).data = (W.ctxs x).data) := by
  unfold gss_release_msg
  dsimp only
  split
  · refine ⟨_, rfl, rfl, rfl, fun x => ?_, fun x hx => ?_, fun x => rfl⟩
    · by_cases hx : x = m
      · subst hx; simp [World.setMsg, gss_upcall_msg.data]
      · simp [World.setMsg, Function.update_noteq hx]
    · simp [World.setMsg, Function.update_noteq hx]
  · have hle : list_empty (put_pipe_version
        (W.setMsg m { W.msgs m with count := (W.msgs m).count - 1 })) m = true := by
      simp [list_empty, put_pipe_version_msgs, put_pipe_version_in_downcall,
        World.setMsg, h]
    rw [hle]
    simp only [Bool.not_true, Bool.false_eq_true, if_false]
    refine ⟨_, rfl, ?_, ?_, fun x => ?_, fun x hx => ?_, fun x => ?_⟩
    · cases hc : ((put_pipe_version
          (W.setMsg m { W.msgs m with count := (W.msgs m).count - 1 })).msgs m).ctx <;>
        simp [World.setMsg, gss_put_ctx_in_downcall, put_pipe_version_in_downcall]
    · cases hc : ((put_pipe_version
          (W.setMsg m { W.msgs m with count := (W.msgs m).count - 1 })).msgs m).ctx <;>
        simp [World.setMsg, gss_put_ctx_creds, put_pipe_version_creds]
    · cases hc : ((put_pipe_version
          (W.setMsg m { W.msgs m with count := (W.msgs m).count - 1 })).msgs m).ctx <;>
      · by_cases hx : x = m
        · subst hx
          simp [World.setMsg, gss_put_ctx_msgs, put_pipe_version_msgs,
            gss_upcall_msg.data]
        · simp [World.setMsg, gss_put_ctx_msgs, put_pipe_version_msgs,
            Function.update_noteq hx]
    · cases hc : ((put_pipe_version
          (W.setMsg m { W.msgs m with count := (W.msgs m).count - 1 })).msgs m).ctx <;>
        simp [World.setMsg, gss_put_ctx_msgs, put_pipe_version_msgs,
          Function.update_noteq hx]
    · cases hc : ((put_pipe_version
          (W.setMsg m { W.msgs m with count := (W.msgs m).count - 1 })).msgs m).ctx <;>
        simp [World.setMsg, gss_put_ctx_data, put_pipe_version_ctxs]

/-! ### The release labels of `gss_pipe_downcall` -/

theorem list_del_init_not_mem (W : World) (m p : Nat) :
    m ∉ (list_del_init W m).in_downcall p := by
  simp [list_del_init]

/-- Unlinking an entry that is already unlinked changes nothing. -/
theorem list_del_init_twice (W W1 : World) (m : Nat)
    (h : W1.in_downcall = (list_del_init W m).in_downcall) :
    (list_del_init W1 m).in_downcall = (list_del_init W m).in_downcall := by
  funext p
  simp [list_del_init, h, List.filter_filter]

/-- `__gss_unhash_msg` takes the upcall off the pending list and changes
its reference count, nothing else. -/
theorem gss_unhash_msg_spec (W : World) (m : Nat) :
    (__gss_unhash_msg W m).in_downcall = (list_del_init W m).in_downcall ∧
    (__gss_unhash_msg W m).creds = W.creds ∧
    (__gss_unhash_msg W m).ctxs = W.ctxs ∧
    (∀ x, ((__gss_unhash_msg W m).msgs x).data = (W.msgs x).data) ∧
    (∀ x, x ≠ m → (__gss_unhash_msg W m).msgs x = W.msgs x) := by
  refine ⟨rfl, rfl, rfl, fun x => ?_, fun x hx => ?_⟩
  · by_cases hx : x = m
    · subst hx; simp [__gss_unhash_msg, World.setMsg, gss_upcall_msg.data, list_del_init]
    · simp [__gss_unhash_msg, World.setMsg, Function.update_noteq hx, list_del_init]
  · simp [__gss_unhash_msg, World.setMsg, Function.update_noteq hx, list_del_init]

/-- The labels `err_release_msg` and `err_put_ctx` never reach `BUG_ON`;
they return `err`, take the upcall off the pending list and otherwise change
reference counts and `freed` marks only. -/
theorem gss_pipe_downcall_release_ok (W : World) (m ctx : Nat) (err : Int) :
    ∃ W1, gss_pipe_downcall_release W m ctx err = .ok (err, W1) ∧
      W1.in_downcall = (list_del_init W m).in_downcall ∧ W1.creds = W.creds ∧
      (∀ x, (W1.msgs x).data = (W.msgs x).data) ∧
      (∀ x, x ≠ m → W1.msgs x = W.msgs x) ∧
      (∀ x, (W1.ctxs x).data = (W.ctxs x).data) := by
  obtain ⟨hl, hc, hx, hd, hne⟩ := gss_unhash_msg_spec W m
  have hnot : m ∉ (__gss_unhash_msg W m).in_downcall ((__gss_unhash_msg W m).msgs m).pipe := by
    rw [hl]; exact list_del_init_not_mem W m _
  obtain ⟨W1, hrel, hl1, hc1, hd1, hne1, hx1⟩ :=
    gss_release_msg_unhashed (__gss_unhash_msg W m) m hnot
  refine ⟨gss_put_ctx W1 ctx, ?_, ?_, ?_, fun x => ?_, fun x hxm => ?_, fun x => ?_⟩
  · simp [gss_pipe_downcall_release, hrel]
  · rw [gss_put_ctx_in_downcall, hl1, hl]
  · rw [gss_put_ctx_creds, hc1, hc]
  · rw [gss_put_ctx_msgs, hd1, hd]
  · rw [gss_put_ctx_msgs, hne1 x hxm, hne x hxm]
  · rw [gss_put_ctx_data, hx1, hx]

/-! ### C3 to C6: `gss_pipe_downcall` -/

/-- The three ways `gss_pipe_downcall` goes on after `gss_fill_context`
(lines 719-741), `r` being what `gss_fill_context` returned. -/
theorem gss_pipe_downcall_deliver_spec (E : Env) (W : World) (B : Buf)
    (p endp mlen ctx m : Nat) :
    (∀ q, (gss_fill_context E W.jiffies (W.msgs m).mech B p endp (W.ctxs ctx)).1 = .ok q →
      ∃ W1, gss_pipe_downcall_deliver E W B p endp mlen ctx m = .ok ((mlen : Int), W1) ∧
        W1.in_downcall = (list_del_init W m).in_downcall ∧
        (W1.msgs m).data = ({ W.msgs m with ctx := some ctx } : gss_upcall_msg).data ∧
        (∀ x, x ≠ m → W1.msgs x = W.msgs x) ∧
        (W1.ctxs ctx).data =
          (gss_fill_context E W.jiffies (W.msgs m).mech B p endp (W.ctxs ctx)).2.data) ∧
    (∀ e, (gss_fill_context E W.jiffies (W.msgs m).mech B p endp (W.ctxs ctx)).1 = .error e →
      (e = -EACCES ∨ e = -EKEYEXPIRED →
        ∃ W1, gss_pipe_downcall_deliver E W B p endp mlen ctx m = .ok ((mlen : Int), W1) ∧
          W1.in_downcall = (list_del_init W m).in_downcall ∧
          (W1.msgs m).data = ({ W.msgs m with errno := e } : gss_upcall_msg).data ∧
          (∀ x, x ≠ m → W1.msgs x = W.msgs x)) ∧
      (e = -EFAULT ∨ e = -ENOMEM ∨ e = -EINVAL ∨ e = -ENOSYS →
        ∃ W1, gss_pipe_downcall_deliver E W B p endp mlen ctx m = .ok (e, W1) ∧
          W1.in_downcall = (list_del_init W m).in_downcall ∧
          (W1.msgs m).data = ({ W.msgs m with errno := -EAGAIN } : gss_upcall_msg).data ∧
          (∀ x, x ≠ m → W1.msgs x = W.msgs x)) ∧
      (¬ (e = -EACCES ∨ e = -EKEYEXPIRED) →
        ¬ (e = -EFAULT ∨ e = -ENOMEM ∨ e = -EINVAL ∨ e = -ENOSYS) →
        gss_pipe_downcall_deliver E W B p endp mlen ctx m = .bug)) := by
  have hj : (list_del_init W m).jiffies = W.jiffies := rfl
  have hm : (list_del_init W m).msgs = W.msgs := rfl
  have hc : (list_del_init W m).ctxs = W.ctxs := rfl
  refine ⟨fun q hq => ?_, fun e he => ⟨fun h1 => ?_, fun h2 => ?_, fun h1 h2 => ?_⟩⟩
  · obtain ⟨W1, hrel, hl, _, hd, hne, hx⟩ := gss_pipe_downcall_release_ok
      ((gss_get_ctx ((list_del_init W m).setCtx ctx
          (gss_fill_context E W.jiffies (W.msgs m).mech B p endp (W.ctxs ctx)).2) ctx).setMsg m
        { (W.msgs m) with ctx := some ctx }) m ctx mlen
    refine ⟨W1, ?_, ?_, ?_, fun x hxm => ?_, ?_⟩
    · rw [← hrel]
      simp [gss_pipe_downcall_deliver, hj, hm, hc, hq, gss_get_ctx_msgs, World.setCtx]
    · rw [hl]; exact list_del_init_twice W _ m rfl
    · rw [hd]; simp [World.setMsg]
    · rw [hne x hxm]; simp [World.setMsg, Function.update_noteq hxm, gss_get_ctx_msgs,
        World.setCtx, hm]
    · rw [hx]
      simp only [World.setMsg]
      rw [gss_get_ctx_data]
      simp [World.setCtx]
  · obtain ⟨W1, hrel, hl, _, hd, hne, _⟩ := gss_pipe_downcall_release_ok
      (((list_del_init W m).setCtx ctx
          (gss_fill_context E W.jiffies (W.msgs m).mech B p endp (W.ctxs ctx)).2).setMsg m
        { (W.msgs m) with errno := e }) m ctx mlen
    refine ⟨W1, ?_, ?_, ?_, fun x hxm => ?_⟩
    · rw [← hrel]
      simp [gss_pipe_downcall_deliver, hj, hm, hc, he, h1, World.setCtx]
    · rw [hl]; exact list_del_init_twice W _ m rfl
    · rw [hd]; simp [World.setMsg]
    · rw [hne x hxm]; simp [World.setMsg, Function.update_noteq hxm, World.setCtx, hm]
  · have hn1 : ¬ (e = -EACCES ∨ e = -EKEYEXPIRED) := by
      rcases h2 with h | h | h | h <;> subst h <;> decide
    obtain ⟨W1, hrel, hl, _, hd, hne, _⟩ := gss_pipe_downcall_release_ok
      (((list_del_init W m).setCtx ctx
          (gss_fill_context E W.jiffies (W.msgs m).mech B p endp (W.ctxs ctx)).2).setMsg m
        { (W.msgs m) with errno := -EAGAIN }) m ctx e
    refine ⟨W1, ?_, ?_, ?_, fun x hxm => ?_⟩
    · rw [← hrel]
      simp [gss_pipe_downcall_deliver, hj, hm, hc, he, hn1, h2, World.setCtx]
    · rw [hl]; exact list_del_init_twice W _ m rfl
    · rw [hd]; simp [World.setMsg]
    · rw [hne x hxm]; simp [World.setMsg, Function.update_noteq hxm, World.setCtx, hm]
  · simp [gss_pipe_downcall_deliver, hj, hm, hc, he, h1, h2]

/-- The world in which `gss_pipe_downcall` turns to the upcall `m` it found:
the context `ctx` is allocated and a reference to `m` is taken. -/
theorem gss_find_downcall_some (W : World) (pipe uid m : Nat)
    (h : (W.in_downcall pipe).find? (downcall_matches W uid) = some m) :
    gss_find_downcall W pipe uid =
      (some m, W.setMsg m { W.msgs m with count := (W.msgs m).count + 1 }) := by
  simp [gss_find_downcall, h]

theorem gss_find_downcall_none (W : World) (pipe uid : Nat)
    (h : (W.in_downcall pipe).find? (downcall_matches W uid) = none) :
    gss_find_downcall W pipe uid = (none, W) := by
  simp [gss_find_downcall, h]

/-- The first field of a downcall that fits the address space is read as it
stands. -/
theorem simple_get_bytes_uid (E : Env) (buf : Nat) (idb body : List Nat)
    (hid : idb.length = 4) (hfit : buf + (idb ++ body).length < ULONG_MOD) :
    simple_get_bytes E { addr := buf, bytes := idb ++ body } buf
        ((buf + (idb ++ body).length) % ULONG_MOD) 4
      = .ok (idb, buf + 4) := by
  have h := simple_get_bytes_append E buf [] idb body (by simpa using hfit)
  rw [Nat.mod_eq_of_lt hfit]
  simpa [hid] using h

/-- How `gss_pipe_downcall` reaches the upcall it delivers to. -/
theorem gss_pipe_downcall_reach (E : Env) (K : DowncallAlloc) (W : World)
    (pipe : Nat) (idb body : List Nat) (buf ctx m : Nat)
    (hlen : (idb ++ body).length ≤ MSG_BUF_MAXSIZE)
    (hbuf : K.kmalloc = some buf) (hcopy : K.copy_ok = true)
    (hctx : K.kzalloc = some ctx)
    (hfit : buf + (idb ++ body).length < ULONG_MOD)
    (hid : idb.length = 4) (huid : E.uid_valid (get_u32 idb) = true)
    (hfind : (W.in_downcall pipe).find? (downcall_matches W (get_u32 idb)) = some m) :
    gss_pipe_downcall E K W pipe (idb ++ body) =
      gss_pipe_downcall_deliver E
        ((W.setCtx ctx ctx_fresh).setMsg m { W.msgs m with count := (W.msgs m).count + 1 })
        { addr := buf, bytes := idb ++ body } (buf + 4) (buf + (idb ++ body).length)
        (idb ++ body).length ctx m := by
  have hrd := simple_get_bytes_uid E buf idb body hid hfit
  have hfind1 : gss_find_downcall (W.setCtx ctx ctx_fresh) pipe (get_u32 idb) =
      (some m, (W.setCtx ctx ctx_fresh).setMsg m
        { W.msgs m with count := (W.msgs m).count + 1 }) :=
    gss_find_downcall_some (W.setCtx ctx ctx_fresh) pipe _ m hfind
  unfold gss_pipe_downcall
  simp only [Nat.not_lt.2 hlen, if_false, hbuf, hcopy, Bool.not_true, Bool.false_eq_true,
    hrd, huid, hctx, gss_alloc_context, hfind1]
  rw [Nat.mod_eq_of_lt hfit]

/-- Whatever `gss_pipe_downcall` returns without reaching an upcall, it
leaves every upcall, every pending list and every credential as it was. -/
theorem gss_pipe_downcall_cases (E : Env) (K : DowncallAlloc) (W : World)
    (pipe : Nat) (src : List Nat) :
    (∃ r W1, gss_pipe_downcall E K W pipe src = .ok (r, W1) ∧
      W1.msgs = W.msgs ∧ W1.in_downcall = W.in_downcall ∧ W1.creds = W.creds) ∨
    (∃ buf idb p ctx m, K.kmalloc = some buf ∧ K.kzalloc = some ctx ∧
      simple_get_bytes E { addr := buf, bytes := src } buf
        ((buf + src.length) % ULONG_MOD) 4 = .ok (idb, p) ∧
      (W.in_downcall pipe).find? (downcall_matches W (get_u32 idb)) = some m ∧
      gss_pipe_downcall E K W pipe src =
        gss_pipe_downcall_deliver E
          ((W.setCtx ctx ctx_fresh).setMsg m
            { W.msgs m with count := (W.msgs m).count + 1 })
          { addr := buf, bytes := src } p ((buf + src.length) % ULONG_MOD)
          src.length ctx m) := by
  unfold gss_pipe_downcall
  dsimp only
  split
  · exact Or.inl ⟨_, _, rfl, rfl, rfl, rfl⟩
  · cases hb : K.kmalloc with
    | none => exact Or.inl ⟨_, _, rfl, rfl, rfl, rfl⟩
    | some buf =>
      dsimp only
      split
      · exact Or.inl ⟨_, _, rfl, rfl, rfl, rfl⟩
      · cases hr : simple_get_bytes E { addr := buf, bytes := src } buf
            ((buf + src.length) % ULONG_MOD) 4 with
        | error e => exact Or.inl ⟨_, _, rfl, rfl, rfl, rfl⟩
        | ok v =>
          obtain ⟨idb, p⟩ := v
          dsimp only
          split
          · exact Or.inl ⟨_, _, rfl, rfl, rfl, rfl⟩
          · cases hk : K.kzalloc with
            | none => exact Or.inl ⟨_, _, rfl, rfl, rfl, rfl⟩
            | some ctx =>
              simp only [gss_alloc_context]
              cases hf : (W.in_downcall pipe).find? (downcall_matches W (get_u32 idb)) with
              | none =>
                have hfind1 := gss_find_downcall_none (W.setCtx ctx ctx_fresh) pipe
                  (get_u32 idb) hf
                rw [hfind1]
                exact Or.inl ⟨_, _, rfl, gss_put_ctx_msgs _ _, gss_put_ctx_in_downcall _ _,
                  gss_put_ctx_creds _ _⟩
              | some m =>
                have hfind1 := gss_find_downcall_some (W.setCtx ctx ctx_fresh) pipe
                  (get_u32 idb) m hf
                rw [hfind1]
                exact Or.inr ⟨buf, idb, p, ctx, m, rfl, rfl, hr, hf, rfl⟩

/-- The world `gss_pipe_downcall` delivers in differs from the one it was
called in by the fresh context and one reference count. -/
theorem gss_pipe_downcall_world (W : World) (ctx m : Nat) :
    ((W.setCtx ctx ctx_fresh).setMsg m
        { W.msgs m with count := (W.msgs m).count + 1 }).jiffies = W.jiffies ∧
    (((W.setCtx ctx ctx_fresh).setMsg m
        { W.msgs m with count := (W.msgs m).count + 1 }).msgs m).mech = (W.msgs m).mech ∧
    ((W.setCtx ctx ctx_fresh).setMsg m
        { W.msgs m with count := (W.msgs m).count + 1 }).ctxs ctx = ctx_fresh ∧
    (∀ p, (list_del_init ((W.setCtx ctx ctx_fresh).setMsg m
        { W.msgs m with count := (W.msgs m).count + 1 }) m).in_downcall p
      = (W.in_downcall p).filter (fun x => x != m)) ∧
    (∀ x, x ≠ m → ((W.setCtx ctx ctx_fresh).setMsg m
        { W.msgs m with count := (W.msgs m).count + 1 }).msgs x = W.msgs x) := by
  refine ⟨rfl, by simp [World.setMsg], by simp [World.setMsg, World.setCtx],
    fun p => rfl, fun x hx => by simp [World.setMsg, World.setCtx, Function.update_noteq hx]⟩

/-- C3: `gss_pipe_downcall` with a well-formed success payload (one that
`gss_fill_context` accepts) for the user id `u` of its first four bytes.  If
the pending list of the pipe holds an in-flight upcall for `u`, the call
returns the message length, the first such upcall has left the pending list,
the newly imported context is attached to it and every other upcall is as it
was; if it holds none, the call returns `-ENOENT` and pending lists and
upcalls are unchanged. -/
theorem gss_pipe_downcall_success (E : Env) (K : DowncallAlloc) (W : World)
    (pipe : Nat) (idb body : List Nat) (buf ctx : Nat)
    (hlen : (idb ++ body).length ≤ MSG_BUF_MAXSIZE)
    (hbuf : K.kmalloc = some buf) (hcopy : K.copy_ok = true)
    (hctx : K.kzalloc = some ctx)
    (hfit : buf + (idb ++ body).length < ULONG_MOD)
    (hid : idb.length = 4) (huid : E.uid_valid (get_u32 idb) = true)
    (hfill : ∀ mech, ∃ q,
      (gss_fill_context E W.jiffies mech { addr := buf, bytes := idb ++ body }
        (buf + 4) (buf + (idb ++ body).length) ctx_fresh).1 = .ok q) :
    ((∃ x ∈ W.in_downcall pipe,
        (W.msgs x).uid = get_u32 idb ∧ (W.msgs x).msg_inflight = true) →
      ∃ m W1, m ∈ W.in_downcall pipe ∧
        (W.msgs m).uid = get_u32 idb ∧ (W.msgs m).msg_inflight = true ∧
        gss_pipe_downcall E K W pipe (idb ++ body)
          = .ok (((idb ++ body).length : Int), W1) ∧
        W1.in_downcall pipe = (W.in_downcall pipe).filter (fun x => x != m) ∧
        m ∉ W1.in_downcall pipe ∧
        (W1.msgs m).ctx = some ctx ∧
        (W1.ctxs ctx).data =
          (gss_fill_context E W.jiffies (W.msgs m).mech
            { addr := buf, bytes := idb ++ body } (buf + 4)
            (buf + (idb ++ body).length) ctx_fresh).2.data ∧
        (∀ x, x ≠ m → W1.msgs x = W.msgs x)) ∧
    ((∀ x ∈ W.in_downcall pipe,
        ¬ ((W.msgs x).uid = get_u32 idb ∧ (W.msgs x).msg_inflight = true)) →
      ∃ W1, gss_pipe_downcall E K W pipe (idb ++ body) = .ok (-ENOENT, W1) ∧
        W1.in_downcall = W.in_downcall ∧ W1.msgs = W.msgs) := by
  have key : ∀ x, downcall_matches W (get_u32 idb) x = true ↔
      ((W.msgs x).uid = get_u32 idb ∧ (W.msgs x).msg_inflight = true) := by
    intro x; simp [downcall_matches]
  constructor
  · rintro ⟨x, hx, hxm⟩
    cases hf : (W.in_downcall pipe).find? (downcall_matches W (get_u32 idb)) with
    | none =>
        rw [List.find?_eq_none] at hf
        exact absurd ((key x).2 hxm) (hf x hx)
    | some m =>
        have hmem := List.mem_of_find?_eq_some hf
        have hmatch := (key m).1 (List.find?_some hf)
        obtain ⟨hj, hmech, hc0, hlist, hothers⟩ := gss_pipe_downcall_world W ctx m
        obtain ⟨q, hq⟩ := hfill (W.msgs m).mech
        have hspec := (gss_pipe_downcall_deliver_spec E
          ((W.setCtx ctx ctx_fresh).setMsg m
            { W.msgs m with count := (W.msgs m).count + 1 })
          { addr := buf, bytes := idb ++ body } (buf + 4) (buf + (idb ++ body).length)
          (idb ++ body).length ctx m).1
        rw [hj, hmech, hc0] at hspec
        obtain ⟨W1, hres, hl, hd, hne, hcx⟩ := hspec q hq
        refine ⟨m, W1, hmem, hmatch.1, hmatch.2, ?_, ?_, ?_, ?_, hcx, fun y hy => ?_⟩
        · rw [gss_pipe_downcall_reach E K W pipe idb body buf ctx m hlen hbuf hcopy hctx
            hfit hid huid hf, hres]
        · rw [hl, hlist]
        · rw [hl, hlist]; simp
        · have := congrArg gss_upcall_msg.ctx hd
          simpa [gss_upcall_msg.data] using this
        · rw [hne y hy, hothers y hy]
  · intro hnone
    have hf : (W.in_downcall pipe).find? (downcall_matches W (get_u32 idb)) = none := by
      rw [List.find?_eq_none]
      intro x hx hm
      exact hnone x hx ((key x).1 hm)
    have hrd := simple_get_bytes_uid E buf idb body hid hfit
    have hfind1 := gss_find_downcall_none (W.setCtx ctx ctx_fresh) pipe (get_u32 idb) hf
    refine ⟨gss_put_ctx (W.setCtx ctx ctx_fresh) ctx, ?_, ?_, ?_⟩
    · unfold gss_pipe_downcall
      simp only [Nat.not_lt.2 hlen, if_false, hbuf, hcopy, Bool.not_true,
        Bool.false_eq_true, hrd, huid, hctx, gss_alloc_context, hfind1]
    · rw [gss_put_ctx_in_downcall]; rfl
    · rw [gss_put_ctx_msgs]; rfl

/-- C3 exercised on the success downcall of the specification's first
scenario, delivered to the pipe on which upcall 5 is pending for uid 1000. -/
theorem gss_pipe_downcall_success_witness :
    ((put_u32 1000 ++ downcall_success_body).length ≤ MSG_BUF_MAXSIZE ∧
      K0.kmalloc = some 4096 ∧ K0.copy_ok = true ∧ K0.kzalloc = some 42 ∧
      4096 + (put_u32 1000 ++ downcall_success_body).length < ULONG_MOD ∧
      (put_u32 1000).length = 4 ∧ E0.uid_valid (get_u32 (put_u32 1000)) = true ∧
      (∃ x ∈ W_pending.in_downcall 0,
        (W_pending.msgs x).uid = get_u32 (put_u32 1000) ∧
        (W_pending.msgs x).msg_inflight = true)) ∧
    ∃ m W1, m ∈ W_pending.in_downcall 0 ∧
      (W_pending.msgs m).uid = get_u32 (put_u32 1000) ∧
      (W_pending.msgs m).msg_inflight = true ∧
      gss_pipe_downcall E0 K0 W_pending 0 (put_u32 1000 ++ downcall_success_body)
        = .ok (((put_u32 1000 ++ downcall_success_body).length : Int), W1) ∧
      W1.in_downcall 0 = (W_pending.in_downcall 0).filter (fun x => x != m) ∧
      m ∉ W1.in_downcall 0 ∧
      (W1.msgs m).ctx = some 42 ∧
      (W1.ctxs 42).data =
        (gss_fill_context E0 W_pending.jiffies (W_pending.msgs m).mech
          { addr := 4096, bytes := put_u32 1000 ++ downcall_success_body } (4096 + 4)
          (4096 + (put_u32 1000 ++ downcall_success_body).length) ctx_fresh).2.data ∧
      (∀ x, x ≠ m → W1.msgs x = W_pending.msgs x) :=
  ⟨⟨by decide, rfl, rfl, rfl, by decide, rfl, by decide, 5, by decide, by decide⟩,
   (gss_pipe_downcall_success E0 K0 W_pending 0 (put_u32 1000) downcall_success_body
      4096 42 (by decide) rfl rfl rfl (by decide) rfl (by decide)
      (fun _ => ⟨4096 + 52, rfl⟩)).1 ⟨5, by decide, by decide⟩⟩

/-! ### The error frame of a downcall -/

/-- The timeout and window fields of a downcall that fits the address space
are read as they stand. -/
theorem simple_get_bytes_header (E : Env) (buf : Nat) (idb tb wb rest : List Nat)
    (hid : idb.length = 4) (htb : tb.length = 4) (hwb : wb.length = 4)
    (hfit : buf + (idb ++ tb ++ wb ++ rest).length < ULONG_MOD) :
    simple_get_bytes E { addr := buf, bytes := idb ++ tb ++ wb ++ rest } (buf + 4)
        (buf + (idb ++ tb ++ wb ++ rest).length) 4 = .ok (tb, buf + 8) ∧
    simple_get_bytes E { addr := buf, bytes := idb ++ tb ++ wb ++ rest } (buf + 8)
        (buf + (idb ++ tb ++ wb ++ rest).length) 4 = .ok (wb, buf + 12) := by
  have h1 := simple_get_bytes_append E buf idb tb (wb ++ rest)
    (by simpa [List.append_assoc] using hfit)
  have h2 := simple_get_bytes_append E buf (idb ++ tb) wb rest hfit
  constructor
  · simpa [List.append_assoc, hid, htb, Nat.add_assoc] using h1
  · simpa [List.append_assoc, hid, htb, hwb, Nat.add_assoc] using h2

/-- With a zero window `gss_fill_context` goes to the error code and never
returns a pointer. -/
theorem gss_fill_context_window_zero (E : Env) (now mech : Nat) (B : Buf)
    (p endp p1 p2 : Nat) (tb wb : List Nat) (c : gss_cl_ctx)
    (h1 : simple_get_bytes E B p endp 4 = .ok (tb, p1))
    (h2 : simple_get_bytes E B p1 endp 4 = .ok (wb, p2))
    (hw : get_u32 wb = 0) :
    (gss_fill_context E now mech B p endp c).1 =
      match simple_get_bytes E B p2 endp 4 with
      | .error e => .error e
      | .ok (rb, _) =>
          if get_s32 rb = -EKEYEXPIRED then .error (-EKEYEXPIRED) else .error (-EACCES) := by
  unfold gss_fill_context
  simp only [h1, h2, hw, if_true]
  cases simple_get_bytes E B p2 endp 4 with
  | error e => rfl
  | ok v =>
      obtain ⟨rb, q⟩ := v
      dsimp only
      split <;> rfl

/-- When `gss_fill_context` fails, no upcall's context slot changes. -/
theorem gss_pipe_downcall_deliver_error_ctx (E : Env) (W : World) (B : Buf)
    (p endp mlen ctx m : Nat) (e r : Int) (W1 : World)
    (he : (gss_fill_context E W.jiffies (W.msgs m).mech B p endp (W.ctxs ctx)).1 = .error e)
    (hres : gss_pipe_downcall_deliver E W B p endp mlen ctx m = .ok (r, W1)) :
    ∀ x, (W1.msgs x).ctx = (W.msgs x).ctx := by
  obtain ⟨hacc, hretry, hbug⟩ := (gss_pipe_downcall_deliver_spec E W B p endp mlen ctx m).2 e he
  have hfrom : ∀ (W2 : World) (e2 : Int),
      (W2.msgs m).data = ({ W.msgs m with errno := e2 } : gss_upcall_msg).data →
      (∀ x, x ≠ m → W2.msgs x = W.msgs x) → ∀ x, (W2.msgs x).ctx = (W.msgs x).ctx := by
    intro W2 e2 hd hne x
    by_cases hx : x = m
    · subst hx
      have := congrArg gss_upcall_msg.ctx hd
      simpa [gss_upcall_msg.data] using this
    · rw [hne x hx]
  by_cases h1 : e = -EACCES ∨ e = -EKEYEXPIRED
  · obtain ⟨W2, h2, _, hd, hne⟩ := hacc h1
    rw [hres] at h2
    cases h2
    exact hfrom W1 e hd hne
  · by_cases h3 : e = -EFAULT ∨ e = -ENOMEM ∨ e = -EINVAL ∨ e = -ENOSYS
    · obtain ⟨W2, h2, _, hd, hne⟩ := hretry h3
      rw [hres] at h2
      cases h2
      exact hfrom W1 (-EAGAIN) hd hne
    · rw [hbug h1 h3] at hres
      cases hres

/-- C4: a downcall whose window field is zero never produces a live
context.  Whatever bytes follow the window (an error code, a truncated one
or none), `gss_fill_context` returns an error, and whenever
`gss_pipe_downcall` returns, the context slot of every upcall, the matched
one included, is what it was before the call: null if it was null. -/
theorem gss_downcall_window_zero (E : Env) (K : DowncallAlloc) (W : World)
    (pipe : Nat) (idb tb wb rest : List Nat)
    (hid : idb.length = 4) (htb : tb.length = 4) (hwb : wb.length = 4)
    (hw : get_u32 wb = 0)
    (hfit : ∀ buf, K.kmalloc = some buf →
      buf + (idb ++ tb ++ wb ++ rest).length < ULONG_MOD) :
    (∀ buf now mech c, K.kmalloc = some buf →
      ∃ e, (gss_fill_context E now mech { addr := buf, bytes := idb ++ tb ++ wb ++ rest }
        (buf + 4) (buf + (idb ++ tb ++ wb ++ rest).length) c).1 = .error e) ∧
    (∀ r W1, gss_pipe_downcall E K W pipe (idb ++ tb ++ wb ++ rest) = .ok (r, W1) →
      ∀ x, (W1.msgs x).ctx = (W.msgs x).ctx) := by
  have hfillerr : ∀ buf now mech c, K.kmalloc = some buf →
      ∃ e, (gss_fill_context E now mech { addr := buf, bytes := idb ++ tb ++ wb ++ rest }
        (buf + 4) (buf + (idb ++ tb ++ wb ++ rest).length) c).1 = .error e := by
    intro buf now mech c hb
    obtain ⟨h1, h2⟩ := simple_get_bytes_header E buf idb tb wb rest hid htb hwb (hfit buf hb)
    rw [gss_fill_context_window_zero E now mech _ _ _ _ _ tb wb c h1 h2 hw]
    cases simple_get_bytes E { addr := buf, bytes := idb ++ tb ++ wb ++ rest } (buf + 12)
        (buf + (idb ++ tb ++ wb ++ rest).length) 4 with
    | error e => exact ⟨e, rfl⟩
    | ok v =>
        obtain ⟨rb, q⟩ := v
        dsimp only
        split
        · exact ⟨_, rfl⟩
        · exact ⟨_, rfl⟩
  refine ⟨hfillerr, fun r W1 hres x => ?_⟩
  rcases gss_pipe_downcall_cases E K W pipe (idb ++ tb ++ wb ++ rest) with
    ⟨r2, W2, h2, hm, _, _⟩ | ⟨buf, idb2, p, ctx, m, hb, hk, hrd, hf, hreach⟩
  · rw [hres] at h2
    cases h2
    rw [hm]
  · have hfit1 := hfit buf hb
    have hrd1 := simple_get_bytes_uid E buf idb (tb ++ wb ++ rest) hid
      (by simpa [List.append_assoc] using hfit1)
    simp only [List.append_assoc] at hrd hrd1 hreach hres hfit1
    rw [hrd1] at hrd
    cases hrd
    rw [Nat.mod_eq_of_lt hfit1] at hreach
    obtain ⟨hj, hmech, hc0, _, hothers⟩ := gss_pipe_downcall_world W ctx m
    obtain ⟨e, he⟩ := hfillerr buf W.jiffies (W.msgs m).mech ctx_fresh hb
    simp only [List.append_assoc] at he
    rw [hreach] at hres
    have hctx := gss_pipe_downcall_deliver_error_ctx E _ _ _ _ _ ctx m e r W1
      (by rw [hj, hmech, hc0]; exact he) hres x
    rw [hctx]
    by_cases hx : x = m
    · subst hx; simp [World.setMsg]
    · rw [hothers x hx]

/-- C4 exercised on a downcall for uid 1000 that stops right after its zero
window, the error code missing. -/
theorem gss_downcall_window_zero_witness :
    ((put_u32 1000).length = 4 ∧ (put_u32 0).length = 4 ∧ get_u32 (put_u32 0) = 0 ∧
      (∀ buf, K0.kmalloc = some buf →
        buf + (put_u32 1000 ++ put_u32 0 ++ put_u32 0 ++ []).length < ULONG_MOD)) ∧
    (∀ buf now mech c, K0.kmalloc = some buf →
      ∃ e, (gss_fill_context E0 now mech
        { addr := buf, bytes := put_u32 1000 ++ put_u32 0 ++ put_u32 0 ++ [] }
        (buf + 4) (buf + (put_u32 1000 ++ put_u32 0 ++ put_u32 0 ++ []).length) c).1
          = .error e) ∧
    (∀ r W1, gss_pipe_downcall E0 K0 W_pending 0
        (put_u32 1000 ++ put_u32 0 ++ put_u32 0 ++ []) = .ok (r, W1) →
      ∀ x, (W1.msgs x).ctx = (W_pending.msgs x).ctx) :=
  ⟨⟨rfl, rfl, by decide, fun buf h => by
      have hb : buf = 4096 := by simpa [K0] using h.symm
      subst hb; decide⟩,
   gss_downcall_window_zero E0 K0 W_pending 0 (put_u32 1000) (put_u32 0) (put_u32 0) []
     rfl rfl rfl (by decide) (fun buf h => by
      have hb : buf = 4096 := by simpa [K0] using h.symm
      subst hb; decide)⟩

/-- C5: a downcall whose window field is zero and is followed by a readable
32-bit error code `e`.  `gss_fill_context` returns `-EKEYEXPIRED` if
`e = -EKEYEXPIRED` and `-EACCES` for every other value; `gss_pipe_downcall`
records exactly that error in the `errno` of the upcall it matched and
returns the message length. -/
theorem gss_downcall_error_code (E : Env) (K : DowncallAlloc) (W : World)
    (pipe : Nat) (idb tb wb eb rest : List Nat) (buf ctx m : Nat)
    (hid : idb.length = 4) (htb : tb.length = 4) (hwb : wb.length = 4)
    (heb : eb.length = 4) (hw : get_u32 wb = 0)
    (hfit : buf + (idb ++ tb ++ wb ++ eb ++ rest).length < ULONG_MOD) :
    (∀ now mech c,
      (gss_fill_context E now mech { addr := buf, bytes := idb ++ tb ++ wb ++ eb ++ rest }
        (buf + 4) (buf + (idb ++ tb ++ wb ++ eb ++ rest).length) c).1
      = .error (if get_s32 eb = -EKEYEXPIRED then -EKEYEXPIRED else -EACCES)) ∧
    ((idb ++ tb ++ wb ++ eb ++ rest).length ≤ MSG_BUF_MAXSIZE →
      K.kmalloc = some buf → K.copy_ok = true → K.kzalloc = some ctx →
      E.uid_valid (get_u32 idb) = true →
      (W.in_downcall pipe).find? (downcall_matches W (get_u32 idb)) = some m →
      ∃ W1, gss_pipe_downcall E K W pipe (idb ++ tb ++ wb ++ eb ++ rest)
          = .ok (((idb ++ tb ++ wb ++ eb ++ rest).length : Int), W1) ∧
        (W1.msgs m).errno =
          (if get_s32 eb = -EKEYEXPIRED then -EKEYEXPIRED else -EACCES) ∧
        (W1.msgs m).ctx = (W.msgs m).ctx ∧
        m ∉ W1.in_downcall pipe) := by
  have hfill : ∀ now mech c,
      (gss_fill_context E now mech { addr := buf, bytes := idb ++ tb ++ wb ++ eb ++ rest }
        (buf + 4) (buf + (idb ++ tb ++ wb ++ eb ++ rest).length) c).1
      = .error (if get_s32 eb = -EKEYEXPIRED then -EKEYEXPIRED else -EACCES) := by
    intro now mech c
    have hfit1 : buf + (idb ++ tb ++ wb ++ (eb ++ rest)).length < ULONG_MOD := by
      simpa [List.append_assoc] using hfit
    obtain ⟨h1, h2⟩ := simple_get_bytes_header E buf idb tb wb (eb ++ rest) hid htb hwb hfit1
    have h3 := simple_get_bytes_append E buf (idb ++ tb ++ wb) eb rest hfit
    have h3' : simple_get_bytes E { addr := buf, bytes := idb ++ tb ++ wb ++ eb ++ rest }
        (buf + 12) (buf + (idb ++ tb ++ wb ++ eb ++ rest).length) 4
        = .ok (eb, buf + 16) := by
      simpa [List.append_assoc, hid, htb, hwb, heb, Nat.add_assoc] using h3
    simp only [List.append_assoc] at h1 h2 h3' ⊢
    rw [gss_fill_context_window_zero E now mech _ _ _ _ _ tb wb c h1 h2 hw, h3']
    dsimp only
    split <;> rfl
  refine ⟨hfill, fun hlen hbuf hcopy hctx huid hfind => ?_⟩
  have hassoc : idb ++ tb ++ wb ++ eb ++ rest = idb ++ (tb ++ wb ++ eb ++ rest) := by
    simp [List.append_assoc]
  obtain ⟨hj, hmech, hc0, hlist, _⟩ := gss_pipe_downcall_world W ctx m
  have hreach := gss_pipe_downcall_reach E K W pipe idb (tb ++ wb ++ eb ++ rest) buf ctx m
    (by rw [← hassoc]; exact hlen) hbuf hcopy hctx (by rw [← hassoc]; exact hfit) hid huid hfind
  rw [← hassoc] at hreach
  have he := hfill W.jiffies (W.msgs m).mech ctx_fresh
  have hspec := ((gss_pipe_downcall_deliver_spec E
    ((W.setCtx ctx ctx_fresh).setMsg m { W.msgs m with count := (W.msgs m).count + 1 })
    { addr := buf, bytes := idb ++ tb ++ wb ++ eb ++ rest } (buf + 4)
    (buf + (idb ++ tb ++ wb ++ eb ++ rest).length)
    (idb ++ tb ++ wb ++ eb ++ rest).length ctx m).2 _
      (by rw [hj, hmech, hc0]; exact he)).1
  have hcat : (if get_s32 eb = -EKEYEXPIRED then -EKEYEXPIRED else -EACCES) = -EACCES ∨
      (if get_s32 eb = -EKEYEXPIRED then -EKEYEXPIRED else -EACCES) = -EKEYEXPIRED := by
    split
    · exact Or.inr rfl
    · exact Or.inl rfl
  obtain ⟨W1, hres, hl, hd, _⟩ := hspec hcat
  refine ⟨W1, by rw [hreach, hres], ?_, ?_, ?_⟩
  · have := congrArg gss_upcall_msg.errno hd
    simpa [gss_upcall_msg.data] using this
  · have := congrArg gss_upcall_msg.ctx hd
    simpa [gss_upcall_msg.data, World.setMsg] using this
  · rw [hl, hlist]; simp

/-- C5 exercised on the error downcall of the specification's second
scenario: uid 1000, timeout 0, window 0, error code -127. -/
theorem gss_downcall_error_code_witness :
    ((put_u32 1000).length = 4 ∧ (put_u32 0).length = 4 ∧
      downcall_expired_code.length = 4 ∧ get_u32 (put_u32 0) = 0 ∧
      4096 + (put_u32 1000 ++ put_u32 0 ++ put_u32 0 ++ downcall_expired_code ++ []).length
        < ULONG_MOD ∧
      (put_u32 1000 ++ put_u32 0 ++ put_u32 0 ++ downcall_expired_code ++ []).length
        ≤ MSG_BUF_MAXSIZE ∧
      K0.kmalloc = some 4096 ∧ K0.copy_ok = true ∧ K0.kzalloc = some 42 ∧
      E0.uid_valid (get_u32 (put_u32 1000)) = true ∧
      (W_pending.in_downcall 0).find? (downcall_matches W_pending (get_u32 (put_u32 1000)))
        = some 5) ∧
    ∃ W1, gss_pipe_downcall E0 K0 W_pending 0
        (put_u32 1000 ++ put_u32 0 ++ put_u32 0 ++ downcall_expired_code ++ [])
        = .ok (((put_u32 1000 ++ put_u32 0 ++ put_u32 0 ++ downcall_expired_code ++ []).length
            : Int), W1) ∧
      (W1.msgs 5).errno =
        (if get_s32 downcall_expired_code = -EKEYEXPIRED then -EKEYEXPIRED else -EACCES) ∧
      (W1.msgs 5).ctx = (W_pending.msgs 5).ctx ∧
      5 ∉ W1.in_downcall 0 :=
  ⟨⟨rfl, rfl, rfl, by decide, by decide, by decide, rfl, rfl, rfl, by decide, by decide⟩,
   (gss_downcall_error_code E0 K0 W_pending 0 (put_u32 1000) (put_u32 0) (put_u32 0)
      downcall_expired_code [] 4096 42 5 rfl rfl rfl rfl (by decide) (by decide)).2
      (by decide) rfl rfl rfl (by decide) (by decide)⟩

/-- C6: how `gss_pipe_downcall` sorts the errors of `gss_fill_context` for
the upcall `m` it matched.  `-EFAULT`, `-ENOMEM`, `-EINVAL` and `-ENOSYS`
set the upcall's `errno` to `-EAGAIN`; `-EACCES` and `-EKEYEXPIRED` are
stored as they are; every other value reaches `BUG()`.  In every case that
does not abort the upcall has left the pending list and its context slot is
what it was. -/
theorem gss_pipe_downcall_categorises (E : Env) (K : DowncallAlloc) (W : World)
    (pipe : Nat) (idb body : List Nat) (buf ctx m : Nat) (e : Int)
    (hlen : (idb ++ body).length ≤ MSG_BUF_MAXSIZE)
    (hbuf : K.kmalloc = some buf) (hcopy : K.copy_ok = true)
    (hctx : K.kzalloc = some ctx)
    (hfit : buf + (idb ++ body).length < ULONG_MOD)
    (hid : idb.length = 4) (huid : E.uid_valid (get_u32 idb) = true)
    (hfind : (W.in_downcall pipe).find? (downcall_matches W (get_u32 idb)) = some m)
    (he : (gss_fill_context E W.jiffies (W.msgs m).mech { addr := buf, bytes := idb ++ body }
        (buf + 4) (buf + (idb ++ body).length) ctx_fresh).1 = .error e) :
    (e = -EFAULT ∨ e = -ENOMEM ∨ e = -EINVAL ∨ e = -ENOSYS →
      ∃ W1, gss_pipe_downcall E K W pipe (idb ++ body) = .ok (e, W1) ∧
        (W1.msgs m).errno = -EAGAIN ∧ m ∉ W1.in_downcall pipe ∧
        (W1.msgs m).ctx = (W.msgs m).ctx) ∧
    (e = -EACCES ∨ e = -EKEYEXPIRED →
      ∃ W1, gss_pipe_downcall E K W pipe (idb ++ body)
          = .ok (((idb ++ body).length : Int), W1) ∧
        (W1.msgs m).errno = e ∧ m ∉ W1.in_downcall pipe ∧
        (W1.msgs m).ctx = (W.msgs m).ctx) ∧
    (¬ (e = -EFAULT ∨ e = -ENOMEM ∨ e = -EINVAL ∨ e = -ENOSYS) →
      ¬ (e = -EACCES ∨ e = -EKEYEXPIRED) →
      gss_pipe_downcall E K W pipe (idb ++ body) = .bug) := by
  obtain ⟨hj, hmech, hc0, hlist, _⟩ := gss_pipe_downcall_world W ctx m
  have hreach := gss_pipe_downcall_reach E K W pipe idb body buf ctx m hlen hbuf hcopy hctx
    hfit hid huid hfind
  obtain ⟨hacc, hretry, hbug⟩ := (gss_pipe_downcall_deliver_spec E
    ((W.setCtx ctx ctx_fresh).setMsg m { W.msgs m with count := (W.msgs m).count + 1 })
    { addr := buf, bytes := idb ++ body } (buf + 4) (buf + (idb ++ body).length)
    (idb ++ body).length ctx m).2 e (by rw [hj, hmech, hc0]; exact he)
  refine ⟨fun h => ?_, fun h => ?_, fun h1 h2 => ?_⟩
  · obtain ⟨W1, hres, hl, hd, _⟩ := hretry h
    refine ⟨W1, by rw [hreach, hres], ?_, ?_, ?_⟩
    · have := congrArg gss_upcall_msg.errno hd
      simpa [gss_upcall_msg.data] using this
    · rw [hl, hlist]; simp
    · have := congrArg gss_upcall_msg.ctx hd
      simpa [gss_upcall_msg.data, World.setMsg] using this
  · obtain ⟨W1, hres, hl, hd, _⟩ := hacc h
    refine ⟨W1, by rw [hreach, hres], ?_, ?_, ?_⟩
    · have := congrArg gss_upcall_msg.errno hd
      simpa [gss_upcall_msg.data] using this
    · rw [hl, hlist]; simp
    · have := congrArg gss_upcall_msg.ctx hd
      simpa [gss_upcall_msg.data, World.setMsg] using this
  · rw [hreach, hbug h2 h1]

/-- C6 exercised twice for the upcall 5 pending for uid 1000: a downcall cut
off after its window field (`gss_fill_context` fails with `-EFAULT`, the
upcall gets `-EAGAIN`), and a complete one whose import fails with -1
(`BUG()`). -/
theorem gss_pipe_downcall_categorises_witness :
    ((gss_fill_context E0 W_pending.jiffies (W_pending.msgs 5).mech
        { addr := 4096, bytes := put_u32 1000 ++ downcall_truncated_body } (4096 + 4)
        (4096 + (put_u32 1000 ++ downcall_truncated_body).length) ctx_fresh).1
        = .error (-EFAULT) ∧
      ∃ W1, gss_pipe_downcall E0 K0 W_pending 0 (put_u32 1000 ++ downcall_truncated_body)
          = .ok (-EFAULT, W1) ∧
        (W1.msgs 5).errno = -EAGAIN ∧ 5 ∉ W1.in_downcall 0 ∧
        (W1.msgs 5).ctx = (W_pending.msgs 5).ctx) ∧
    ((gss_fill_context E_import_fails W_pending.jiffies (W_pending.msgs 5).mech
        { addr := 4096, bytes := put_u32 1000 ++ downcall_success_body } (4096 + 4)
        (4096 + (put_u32 1000 ++ downcall_success_body).length) ctx_fresh).1
        = .error (-1) ∧
      gss_pipe_downcall E_import_fails K0 W_pending 0
        (put_u32 1000 ++ downcall_success_body) = .bug) :=
  ⟨⟨rfl,
    (gss_pipe_downcall_categorises E0 K0 W_pending 0 (put_u32 1000)
      downcall_truncated_body 4096 42 5 (-EFAULT) (by decide) rfl rfl rfl (by decide) rfl
      (by decide) (by decide) rfl).1 (Or.inl rfl)⟩,
   ⟨rfl,
    (gss_pipe_downcall_categorises E_import_fails K0 W_pending 0 (put_u32 1000)
      downcall_success_body 4096 42 5 (-1) (by decide) rfl rfl rfl (by decide) rfl
      (by decide) (by decide) rfl).2.2 (by decide) (by decide)⟩⟩

/-! ### C7: the cooldown of a negative credential -/

/-- The range test of `gss_cred_is_negative_entry` in terms of the ticks
elapsed since the timestamp: it holds exactly while fewer than the delay
have elapsed. -/
theorem time_in_range_open_cooldown (now t d : Nat) (hd : d < U32_MOD) :
    time_in_range_open now t ((t + d) % ULONG_MOD) = true ↔ ulong_sub now t < d := by
  simp only [time_in_range_open, time_after_eq, time_before, time_after, ulong_sub,
    ULONG_MOD, U32_MOD, Bool.and_eq_true, decide_eq_true_eq] at *
  norm_num at *
  omega

theorem gss_cred_is_negative_entry_eq (E : Env) (W : World) (cred : Nat) :
    gss_cred_is_negative_entry E W cred =
      if test_bit .RPCAUTH_CRED_NEGATIVE (W.creds cred).cr_flags = true ∧
          ulong_sub W.jiffies (W.creds cred).gc_upcall_timestamp < retry_delay_ticks E
      then 1 else 0 := by
  have hd : retry_delay_ticks E < U32_MOD := Nat.mod_lt _ (by decide)
  have h := time_in_range_open_cooldown W.jiffies (W.creds cred).gc_upcall_timestamp
    (retry_delay_ticks E) hd
  unfold gss_cred_is_negative_entry
  by_cases hn : test_bit .RPCAUTH_CRED_NEGATIVE (W.creds cred).cr_flags = true
  · by_cases hr : ulong_sub W.jiffies (W.creds cred).gc_upcall_timestamp < retry_delay_ticks E
    · simp [hn, hr, h.2 hr]
    · have : time_in_range_open W.jiffies (W.creds cred).gc_upcall_timestamp
          (((W.creds cred).gc_upcall_timestamp + retry_delay_ticks E) % ULONG_MOD) = false := by
        cases hc : time_in_range_open W.jiffies (W.creds cred).gc_upcall_timestamp
          (((W.creds cred).gc_upcall_timestamp + retry_delay_ticks E) % ULONG_MOD)
        · rfl
        · exact absurd (h.1 hc) hr
      simp [hn, hr, this]
  · simp [hn]

/-- C7: the cooldown of a negative credential.  With NEGATIVE set and fewer
ticks elapsed since the upcall timestamp `t` than the retry delay (the
difference `now - t` and the product `gss_expired_cred_retry_delay * HZ`
taken as the C code takes them), `gss_refresh` returns `-EKEYEXPIRED` and the
world, no upcall set up, is the one it was called in.  Once the delay has
elapsed, and for every credential without NEGATIVE, the cooldown test is 0
and `gss_refresh` goes on to the rest of its body.  Where nothing wraps,
"fewer ticks than the delay" is `t <= now < t + delay * HZ`, and the
default delay of 5 gives `5 * HZ` ticks. -/
theorem gss_refresh_negative_cooldown (E : Env) (X : RefreshCalls) (W : World)
    (cred : Nat) :
    (test_bit .RPCAUTH_CRED_NEGATIVE (W.creds cred).cr_flags = true →
      ulong_sub W.jiffies (W.creds cred).gc_upcall_timestamp < retry_delay_ticks E →
      gss_refresh E X W cred = (-EKEYEXPIRED, cred, W)) ∧
    (retry_delay_ticks E ≤ ulong_sub W.jiffies (W.creds cred).gc_upcall_timestamp →
      gss_cred_is_negative_entry E W cred = 0 ∧
      gss_refresh E X W cred = gss_refresh_checked X W cred) ∧
    (test_bit .RPCAUTH_CRED_NEGATIVE (W.creds cred).cr_flags = false →
      gss_cred_is_negative_entry E W cred = 0 ∧
      gss_refresh E X W cred = gss_refresh_checked X W cred) ∧
    (W.jiffies < ULONG_MOD →
      (W.creds cred).gc_upcall_timestamp + E.gss_expired_cred_retry_delay * E.HZ
        < ULONG_MOD →
      E.gss_expired_cred_retry_delay * E.HZ < U32_MOD →
      (ulong_sub W.jiffies (W.creds cred).gc_upcall_timestamp < retry_delay_ticks E ↔
        ((W.creds cred).gc_upcall_timestamp ≤ W.jiffies ∧
          W.jiffies < (W.creds cred).gc_upcall_timestamp
            + E.gss_expired_cred_retry_delay * E.HZ))) ∧
    (E.gss_expired_cred_retry_delay = GSS_RETRY_EXPIRED → 5 * E.HZ < U32_MOD →
      retry_delay_ticks E = 5 * E.HZ) := by
  have heq := gss_cred_is_negative_entry_eq E W cred
  refine ⟨fun hn hr => ?_, fun hr => ?_, fun hn => ?_, fun hnow hsum hprod => ?_,
    fun hdef hlt => ?_⟩
  · have h1 : gss_cred_is_negative_entry E W cred = 1 := by rw [heq, if_pos ⟨hn, hr⟩]
    simp [gss_refresh, h1]
  · have h0 : gss_cred_is_negative_entry E W cred = 0 := by
      rw [heq, if_neg (fun h => absurd h.2 (Nat.not_lt.2 hr))]
    exact ⟨h0, by simp [gss_refresh, h0]⟩
  · have h0 : gss_cred_is_negative_entry E W cred = 0 := by
      rw [heq, if_neg (fun h => by rw [hn] at h; exact absurd h.1 (by simp))]
    exact ⟨h0, by simp [gss_refresh, h0]⟩
  · have hd : retry_delay_ticks E = E.gss_expired_cred_retry_delay * E.HZ :=
      Nat.mod_eq_of_lt hprod
    rw [hd]
    generalize E.gss_expired_cred_retry_delay * E.HZ = d at hsum hprod ⊢
    simp only [ulong_sub, ULONG_MOD, U32_MOD] at *
    norm_num at *
    omega
  · unfold retry_delay_ticks
    rw [hdef]
    exact Nat.mod_eq_of_lt hlt

/-- C7 exercised at tick 5000 on a credential marked NEGATIVE at tick 4900,
with 100 ticks a second and the default delay: 100 of the 500 ticks have
elapsed and the refresh is rejected. -/
theorem gss_refresh_negative_cooldown_witness :
    (test_bit .RPCAUTH_CRED_NEGATIVE (W_negative.creds 0).cr_flags = true ∧
      ulong_sub W_negative.jiffies (W_negative.creds 0).gc_upcall_timestamp
        < retry_delay_ticks E0) ∧
    gss_refresh E0 X0 W_negative 0 = (-EKEYEXPIRED, 0, W_negative) :=
  ⟨⟨by decide, by decide⟩,
   (gss_refresh_negative_cooldown E0 X0 W_negative 0).1 (by decide) (by decide)⟩

/-! ### C8: an expired key and the two refresh variants -/

/-- The asynchronous variant: whatever the credential, once
`gss_handle_downcall_result` has seen `-EKEYEXPIRED` on the upcall the
credential has NEGATIVE set and the current tick as its timestamp. -/
theorem gss_handle_downcall_result_expired (W : World) (cred gss_msg : Nat)
    (h : (W.msgs gss_msg).errno = -EKEYEXPIRED) :
    test_bit .RPCAUTH_CRED_NEGATIVE
      ((gss_handle_downcall_result W cred gss_msg).creds cred).cr_flags = true ∧
    ((gss_handle_downcall_result W cred gss_msg).creds cred).gc_upcall_timestamp
      = W.jiffies := by
  have h0 : (W.msgs gss_msg).errno ≠ 0 := by rw [h]; decide
  unfold gss_handle_downcall_result
  simp only [if_neg h0, if_pos h]
  simp [World.setCred, test_bit, set_bit]

/-- C8 (code at the failing input): a NEW credential, never refreshed, whose
upcall was answered with `-EKEYEXPIRED` at tick 5000.  The synchronous
variant (`gss_create_upcall`) returns `-EKEYEXPIRED` and leaves NEGATIVE
clear and the timestamp at 0; on the same input the asynchronous variant
(`gss_refresh_upcall`, and `gss_upcall_callback` for a task parked on the
upcall) returns `-EKEYEXPIRED` with NEGATIVE set and the timestamp 5000. -/
theorem gss_create_upcall_expired_not_negative :
    (∃ W1, gss_create_upcall_done W_expired 0 5 = .ok (-EKEYEXPIRED, W1) ∧
      test_bit .RPCAUTH_CRED_NEGATIVE (W1.creds 0).cr_flags = false ∧
      (W1.creds 0).gc_upcall_timestamp = 0 ∧ W_expired.jiffies = 5000) ∧
    (∃ W1, gss_refresh_upcall_locked W_expired 0 5 = .ok (-EKEYEXPIRED, W1) ∧
      test_bit .RPCAUTH_CRED_NEGATIVE (W1.creds 0).cr_flags = true ∧
      (W1.creds 0).gc_upcall_timestamp = 5000) ∧
    (∃ W1, gss_upcall_callback
        (W_expired.setCred 0 { W_expired.creds 0 with gc_upcall := some 5 }) 0
        = .ok (-EKEYEXPIRED, W1) ∧
      test_bit .RPCAUTH_CRED_NEGATIVE (W1.creds 0).cr_flags = true ∧
      (W1.creds 0).gc_upcall_timestamp = 5000) := by
  refine ⟨⟨_, rfl, ?_, ?_, ?_⟩, ⟨_, rfl, ?_, ?_⟩, ⟨_, rfl, ?_, ?_⟩⟩ <;> decide

/-! ### C9 and C10: the credential's NEW flag and its context slot -/

/-- What one call of `gss_cred_set_ctx` does to NEW and the context slot:
nothing, or it clears NEW while installing `ctx` and setting UPTODATE. -/
theorem gss_cred_set_ctx_shape (W : World) (cred ctx : Nat) :
    (test_bit .RPCAUTH_CRED_NEW (W.creds cred).cr_flags = false ∧
      gss_cred_set_ctx W cred ctx = W) ∨
    (test_bit .RPCAUTH_CRED_NEW (W.creds cred).cr_flags = true ∧
      test_bit .RPCAUTH_CRED_NEW ((gss_cred_set_ctx W cred ctx).creds cred).cr_flags = false ∧
      ((gss_cred_set_ctx W cred ctx).creds cred).gc_ctx = some ctx ∧
      test_bit .RPCAUTH_CRED_UPTODATE
        ((gss_cred_set_ctx W cred ctx).creds cred).cr_flags = true) := by
  cases h : test_bit .RPCAUTH_CRED_NEW (W.creds cred).cr_flags
  · exact Or.inl ⟨rfl, gss_cred_set_ctx_not_new W cred ctx h⟩
  · have hc := gss_cred_set_ctx_new_cred W cred ctx h
    exact Or.inr ⟨rfl, gss_cred_set_ctx_clears_new W cred ctx, by rw [hc], by rw [hc]; rfl⟩

/-- Reading the context slot changes no credential. -/
theorem gss_cred_get_ctx_creds (W : World) (cred : Nat) :
    (gss_cred_get_ctx W cred).2.creds = W.creds := by
  unfold gss_cred_get_ctx
  split <;> rfl

/-- What one operation other than `destroy` does to NEW and the context
slot of the credential: it keeps both, or it clears NEW while installing a
context and setting UPTODATE, and then through `gss_cred_set_ctx`. -/
theorem cred_op_shape (W : World) (cred : Nat) (o : CredOp) (ho : o ≠ .destroy) :
    (test_bit .RPCAUTH_CRED_NEW ((o.apply cred W).creds cred).cr_flags
        = test_bit .RPCAUTH_CRED_NEW (W.creds cred).cr_flags ∧
      ((o.apply cred W).creds cred).gc_ctx = (W.creds cred).gc_ctx) ∨
    (test_bit .RPCAUTH_CRED_NEW (W.creds cred).cr_flags = true ∧
      test_bit .RPCAUTH_CRED_NEW ((o.apply cred W).creds cred).cr_flags = false ∧
      (∃ ctx, ((o.apply cred W).creds cred).gc_ctx = some ctx ∧
        (o = .set_ctx ctx ∨ ∃ gss_msg, o = .downcall_result gss_msg ∧
          (W.msgs gss_msg).errno = 0 ∧ (W.msgs gss_msg).ctx = some ctx)) ∧
      test_bit .RPCAUTH_CRED_UPTODATE ((o.apply cred W).creds cred).cr_flags = true) := by
  cases o with
  | set_ctx ctx =>
      rcases gss_cred_set_ctx_shape W cred ctx with ⟨_, h⟩ | ⟨h1, h2, h3, h4⟩
      · left; simp only [CredOp.apply]; rw [h]; exact ⟨rfl, rfl⟩
      · right; exact ⟨h1, h2, ⟨ctx, h3, Or.inl rfl⟩, h4⟩
  | downcall_result gss_msg =>
      simp only [CredOp.apply, gss_handle_downcall_result]
      by_cases he : (W.msgs gss_msg).errno = 0
      · simp only [if_pos he]
        cases hc : (W.msgs gss_msg).ctx with
        | none => left; simp [World.setCred, test_bit]
        | some ctx =>
            rcases gss_cred_set_ctx_shape
              (W.setCred cred
                { W.creds cred with
                  cr_flags := clear_bit .RPCAUTH_CRED_NEGATIVE (W.creds cred).cr_flags })
              cred ctx with ⟨_, h⟩ | ⟨h1, h2, h3, h4⟩
            · left
              simp only [h]
              simp [World.setCred, test_bit, clear_bit]
            · right
              refine ⟨?_, ?_, ⟨ctx, ?_, Or.inr ⟨gss_msg, rfl, he, hc⟩⟩, ?_⟩
              · simpa [World.setCred, test_bit, clear_bit] using h1
              · simpa [World.setCred, test_bit] using h2
              · simpa [World.setCred] using h3
              · simpa [World.setCred, test_bit] using h4
      · simp only [if_neg he]
        left
        by_cases hk : (W.msgs gss_msg).errno = -EKEYEXPIRED
        · simp [if_pos hk, World.setCred, test_bit, set_bit]
        · simp [if_neg hk, World.setCred, test_bit]
  | context_expired =>
      left; simp [CredOp.apply, clear_uptodate, World.setCred, test_bit, clear_bit]
  | get_ctx =>
      left
      simp [CredOp.apply, gss_cred_get_ctx_creds]
  | destroy => exact absurd rfl ho

/-- `gss_destroy_nullcred` empties the context slot and leaves the flags. -/
theorem gss_destroy_nullcred_cred (W : World) (cred : Nat) :
    ((gss_destroy_nullcred W cred).creds cred).gc_ctx = none ∧
    ((gss_destroy_nullcred W cred).creds cred).cr_flags = (W.creds cred).cr_flags := by
  unfold gss_destroy_nullcred
  cases (W.creds cred).gc_ctx with
  | none => simp [World.setCred]
  | some c => simp [World.setCred, gss_put_ctx_creds]

/-- Once NEW is clear it stays clear and the context slot keeps its value,
as long as the credential is not destroyed. -/
theorem cred_reaches_keeps_ctx (cred : Nat) (W W1 : World)
    (hreach : cred_reaches cred (fun o => o ≠ .destroy) W W1)
    (hnew : test_bit .RPCAUTH_CRED_NEW (W.creds cred).cr_flags = false) :
    test_bit .RPCAUTH_CRED_NEW (W1.creds cred).cr_flags = false ∧
    (W1.creds cred).gc_ctx = (W.creds cred).gc_ctx := by
  induction hreach with
  | refl => exact ⟨hnew, rfl⟩
  | op W1 o _ hall ih =>
      obtain ⟨ih1, ih2⟩ := ih
      rcases cred_op_shape W1 cred o hall with ⟨h1, h2⟩ | ⟨h1, _⟩
      · exact ⟨by rw [h1, ih1], by rw [h2, ih2]⟩
      · rw [ih1] at h1; exact absurd h1 (by simp)
  | other W1 W2 _ heq ih =>
      rw [heq]; exact ih

/-- In every world that follows a world where NEW implies a null context,
NEW implies a null context. -/
theorem cred_reaches_new_null (cred : Nat) (W W1 : World)
    (hreach : cred_reaches cred (fun _ => True) W W1)
    (h0 : test_bit .RPCAUTH_CRED_NEW (W.creds cred).cr_flags = true →
      (W.creds cred).gc_ctx = none) :
    test_bit .RPCAUTH_CRED_NEW (W1.creds cred).cr_flags = true →
      (W1.creds cred).gc_ctx = none := by
  induction hreach with
  | refl => exact h0
  | op W1 o _ _ ih =>
      intro hn
      by_cases ho : o = .destroy
      · subst ho
        exact (gss_destroy_nullcred_cred W1 cred).1
      · rcases cred_op_shape W1 cred o ho with ⟨h1, h2⟩ | ⟨_, h2, _⟩
        · rw [h2]; exact ih (by rw [← h1]; exact hn)
        · rw [hn] at h2; exact absurd h2 (by simp)
  | other W1 W2 _ heq ih =>
      rw [heq]; exact ih

/-- C9: the credential `gss_create_cred` returns has flags exactly {NEW} and
a null context; in every world that follows through `gss_cred_set_ctx`,
`gss_handle_downcall_result`, the clearing of UPTODATE, reads of the context
slot, `gss_destroy_nullcred` and events that leave the credential alone, a
credential whose NEW flag is set has a null context; and an operation that
finds NEW set and leaves it clear has installed a context and set UPTODATE,
through `gss_cred_set_ctx` (called directly or by
`gss_handle_downcall_result` for a successful upcall). -/
theorem cred_new_has_null_ctx :
    (∀ (W : World) (service : Nat) (acred : auth_cred) (cred : Nat),
      (gss_create_cred W service acred (some cred)).1 = .ok cred ∧
      ((gss_create_cred W service acred (some cred)).2.creds cred).cr_flags
        = CRED_NEW_ONLY ∧
      ((gss_create_cred W service acred (some cred)).2.creds cred).gc_ctx = none) ∧
    (∀ (W0 W : World) (service : Nat) (acred : auth_cred) (cred : Nat),
      cred_reaches cred (fun _ => True)
        (gss_create_cred W0 service acred (some cred)).2 W →
      test_bit .RPCAUTH_CRED_NEW (W.creds cred).cr_flags = true →
      (W.creds cred).gc_ctx = none) ∧
    (∀ (W : World) (cred : Nat) (o : CredOp),
      test_bit .RPCAUTH_CRED_NEW (W.creds cred).cr_flags = true →
      test_bit .RPCAUTH_CRED_NEW ((o.apply cred W).creds cred).cr_flags = false →
      ∃ ctx, ((o.apply cred W).creds cred).gc_ctx = some ctx ∧
        test_bit .RPCAUTH_CRED_UPTODATE ((o.apply cred W).creds cred).cr_flags = true ∧
        (o = .set_ctx ctx ∨ ∃ gss_msg, o = .downcall_result gss_msg ∧
          (W.msgs gss_msg).errno = 0 ∧ (W.msgs gss_msg).ctx = some ctx)) := by
  have hcreate : ∀ (W : World) (service : Nat) (acred : auth_cred) (cred : Nat),
      (gss_create_cred W service acred (some cred)).1 = .ok cred ∧
      ((gss_create_cred W service acred (some cred)).2.creds cred).cr_flags
        = CRED_NEW_ONLY ∧
      ((gss_create_cred W service acred (some cred)).2.creds cred).gc_ctx = none := by
    intro W service acred cred
    simp [gss_create_cred, World.setCred]
  refine ⟨hcreate, fun W0 W service acred cred hreach => ?_, fun W cred o hn hc => ?_⟩
  · exact cred_reaches_new_null cred _ W hreach (fun _ => (hcreate W0 service acred cred).2.2)
  · by_cases ho : o = .destroy
    · subst ho
      have hf := (gss_destroy_nullcred_cred W cred).2
      simp only [CredOp.apply] at hc
      rw [hf, hn] at hc
      exact absurd hc (by simp)
    · rcases cred_op_shape W cred o ho with ⟨h1, _⟩ | ⟨_, _, ⟨ctx, h3, h4⟩, h5⟩
      · rw [h1, hn] at hc; exact absurd hc (by simp)
      · exact ⟨ctx, h3, h5, h4⟩

/-- C9 exercised on the credential 3 created in a world whose upcalls were
answered with `-EKEYEXPIRED`: after `gss_handle_downcall_result` for upcall
5 the credential is still NEW (and now NEGATIVE) and its context is null. -/
theorem cred_new_has_null_ctx_witness :
    test_bit .RPCAUTH_CRED_NEW
      (((CredOp.downcall_result 5).apply 3 W_created).creds 3).cr_flags = true ∧
    (((CredOp.downcall_result 5).apply 3 W_created).creds 3).gc_ctx = none :=
  ⟨by decide,
   cred_new_has_null_ctx.2.1 W_expired _ 2 acred_user 3
     (cred_reaches.op _ _ (.downcall_result 5) (cred_reaches.refl _) trivial)
     (by decide)⟩

/-- Reading the context slot returns what the credential holds. -/
theorem gss_cred_get_ctx_fst (W : World) (cred : Nat) :
    (gss_cred_get_ctx W cred).1 = (W.creds cred).gc_ctx := by
  unfold gss_cred_get_ctx
  split <;> simp_all

/-- C10 (as stated, refuted): on a NEW credential `set_ctx(C, 1)` installs
context 1; after the following `set_ctx(C, 2)` has returned, `get_ctx(C)`
returns 1, which is neither 2 nor a context installed by a later
`set_ctx`. -/
theorem gss_cred_get_ctx_later_set_ctx_counterexample :
    (gss_cred_get_ctx (gss_cred_set_ctx W_new 0 1) 0).1 = some 1 ∧
    (gss_cred_get_ctx (gss_cred_set_ctx (gss_cred_set_ctx W_new 0 1) 0 2) 0).1 = some 1 ∧
    (gss_cred_get_ctx (gss_cred_set_ctx (gss_cred_set_ctx W_new 0 1) 0 2) 0).1 ≠ some 2 := by
  decide

/-- C10 (amended): after `gss_cred_set_ctx(C, ctx)` has returned, every
subsequent `gss_cred_get_ctx(C)` returns, until `C` is destroyed, `ctx` if
the NEW flag of `C` was set when `gss_cred_set_ctx` was called, and the
context `C` already held if it was clear; no later `gss_cred_set_ctx`
replaces it.  After `gss_destroy_nullcred` the slot is null. -/
theorem gss_cred_get_ctx_after_set_ctx (W0 W : World) (cred ctx : Nat)
    (hreach : cred_reaches cred (fun o => o ≠ .destroy) (gss_cred_set_ctx W0 cred ctx) W) :
    (test_bit .RPCAUTH_CRED_NEW (W0.creds cred).cr_flags = true →
      (gss_cred_get_ctx W cred).1 = some ctx) ∧
    (test_bit .RPCAUTH_CRED_NEW (W0.creds cred).cr_flags = false →
      (gss_cred_get_ctx W cred).1 = (W0.creds cred).gc_ctx) ∧
    (gss_cred_get_ctx (gss_destroy_nullcred W cred) cred).1 = none := by
  have hkeep := cred_reaches_keeps_ctx cred _ W hreach (gss_cred_set_ctx_clears_new W0 cred ctx)
  refine ⟨fun hn => ?_, fun hn => ?_, ?_⟩
  · rw [gss_cred_get_ctx_fst, hkeep.2, gss_cred_set_ctx_new_cred W0 cred ctx hn]
  · rw [gss_cred_get_ctx_fst, hkeep.2, gss_cred_set_ctx_not_new W0 cred ctx hn]
  · rw [gss_cred_get_ctx_fst]
    exact (gss_destroy_nullcred_cred W cred).1

/-- C10 exercised on a NEW credential: context 1 is installed, then a
second `gss_cred_set_ctx` offers context 2 and UPTODATE is cleared; the
credential still returns 1. -/
theorem gss_cred_get_ctx_after_set_ctx_witness :
    test_bit .RPCAUTH_CRED_NEW (W_new.creds 0).cr_flags = true ∧
    (gss_cred_get_ctx
      (CredOp.context_expired.apply 0
        ((CredOp.set_ctx 2).apply 0 (gss_cred_set_ctx W_new 0 1))) 0).1 = some 1 :=
  ⟨by decide,
   (gss_cred_get_ctx_after_set_ctx W_new _ 0 1
     (cred_reaches.op _ _ .context_expired
       (cred_reaches.op _ _ (.set_ctx 2) (cred_reaches.refl _) (by decide))
       (by decide))).1 (by decide)⟩

/-! ### C13 and C14: the pipe version -/

/-- C13: `gss_pipe_open(new_version)`.  With `pipe_version < 0` the version
becomes `new_version`, `pipe_users` grows by one and 0 is returned; with
`pipe_version == new_version` the version stays, `pipe_users` grows by one
and 0 is returned; with `pipe_version >= 0` different from `new_version`,
`-EBUSY` is returned and the world is unchanged.  Nothing but the two fields
is ever written. -/
theorem gss_pipe_open_contract (W : World) (new_version : Int) :
    (W.pipe_version < 0 →
      (gss_pipe_open W new_version).1 = 0 ∧
      (gss_pipe_open W new_version).2.pipe_version = new_version ∧
      (gss_pipe_open W new_version).2.pipe_users = W.pipe_users + 1) ∧
    (W.pipe_version = new_version →
      (gss_pipe_open W new_version).1 = 0 ∧
      (gss_pipe_open W new_version).2.pipe_version = W.pipe_version ∧
      (gss_pipe_open W new_version).2.pipe_users = W.pipe_users + 1) ∧
    (W.pipe_version ≥ 0 → W.pipe_version ≠ new_version →
      gss_pipe_open W new_version = (-EBUSY, W)) ∧
    (gss_pipe_open W new_version).2 =
      { W with pipe_version := (gss_pipe_open W new_version).2.pipe_version,
               pipe_users := (gss_pipe_open W new_version).2.pipe_users } := by
  refine ⟨fun h => ?_, fun h => ?_, fun h1 h2 => ?_, ?_⟩
  · simp [gss_pipe_open, h]
  · by_cases hneg : W.pipe_version < 0
    · simp [gss_pipe_open, hneg, h]
    · simp [gss_pipe_open, hneg, h]
  · simp [gss_pipe_open, Int.not_lt.2 h1, h2]
  · unfold gss_pipe_open
    split
    · rfl
    · split <;> rfl

/-- C13 exercised: the first open of the v1 pipe sets the version, a second
open of the v1 pipe only counts, an open of the v0 pipe is refused. -/
theorem gss_pipe_open_contract_witness :
    (W_closed.pipe_version < 0 ∧
      (gss_pipe_open W_closed 1).1 = 0 ∧
      (gss_pipe_open W_closed 1).2.pipe_version = 1 ∧
      (gss_pipe_open W_closed 1).2.pipe_users = W_closed.pipe_users + 1) ∧
    (W_new.pipe_version = 1 ∧
      (gss_pipe_open W_new 1).1 = 0 ∧
      (gss_pipe_open W_new 1).2.pipe_version = W_new.pipe_version ∧
      (gss_pipe_open W_new 1).2.pipe_users = W_new.pipe_users + 1) ∧
    (W_new.pipe_version ≥ 0 ∧ W_new.pipe_version ≠ 0 ∧
      gss_pipe_open W_new 0 = (-EBUSY, W_new)) :=
  ⟨⟨by decide, (gss_pipe_open_contract W_closed 1).1 (by decide)⟩,
   ⟨rfl, (gss_pipe_open_contract W_new 1).2.1 rfl⟩,
   ⟨by decide, by decide, (gss_pipe_open_contract W_new 0).2.2.1 (by decide) (by decide)⟩⟩

theorem put_pipe_version_fields (W : World) :
    (put_pipe_version W).pipe_users = W.pipe_users - 1 ∧
    (put_pipe_version W).pipe_version
      = if W.pipe_users - 1 = 0 then -1 else W.pipe_version := by
  unfold put_pipe_version
  dsimp only
  split <;> exact ⟨rfl, rfl⟩

theorem gss_pipe_open_fields (W : World) (nv : Int) :
    (W.pipe_version < 0 ∧ (gss_pipe_open W nv).1 = 0 ∧
      (gss_pipe_open W nv).2.pipe_version = nv ∧
      (gss_pipe_open W nv).2.pipe_users = W.pipe_users + 1) ∨
    (0 ≤ W.pipe_version ∧ W.pipe_version ≠ nv ∧ (gss_pipe_open W nv).1 = -EBUSY ∧
      (gss_pipe_open W nv).2 = W) ∨
    (0 ≤ W.pipe_version ∧ W.pipe_version = nv ∧ (gss_pipe_open W nv).1 = 0 ∧
      (gss_pipe_open W nv).2.pipe_version = W.pipe_version ∧
      (gss_pipe_open W nv).2.pipe_users = W.pipe_users + 1) := by
  unfold gss_pipe_open
  by_cases h1 : W.pipe_version < 0
  · left; simp [h1]
  · by_cases h2 : W.pipe_version = nv
    · right; right
      rw [if_neg h1, if_neg (not_not.2 h2)]
      exact ⟨Int.not_lt.1 h1, h2, rfl, rfl, rfl⟩
    · right; left
      rw [if_neg h1, if_pos h2]
      exact ⟨Int.not_lt.1 h1, h2, rfl, rfl⟩

theorem get_pipe_version_fields (W : World) :
    (0 ≤ W.pipe_version ∧ (get_pipe_version W).1 = W.pipe_version ∧
      (get_pipe_version W).2.pipe_version = W.pipe_version ∧
      (get_pipe_version W).2.pipe_users = W.pipe_users + 1) ∨
    (W.pipe_version < 0 ∧ (get_pipe_version W).1 = -EAGAIN ∧
      (get_pipe_version W).2 = W) := by
  unfold get_pipe_version
  by_cases h1 : W.pipe_version ≥ 0
  · left; rw [if_pos h1]; exact ⟨h1, rfl, rfl, rfl⟩
  · right; rw [if_neg h1]; exact ⟨Int.not_le.1 h1, rfl, rfl⟩

/-- One step keeps the invariant of the pipe version. -/
theorem pipe_version_inv_put (W : World) (held : Nat) (h : pipe_version_inv W held)
    (hheld : held ≠ 0) : pipe_version_inv (put_pipe_version W) (held - 1) := by
  obtain ⟨hu, hv⟩ := h
  obtain ⟨h1, h2⟩ := put_pipe_version_fields W
  unfold pipe_version_inv
  rw [h1, h2]
  have hcast : ((held - 1 : Nat) : Int) = (held : Int) - 1 := by omega
  refine ⟨by omega, ?_⟩
  split
  · constructor
    · intro h; omega
    · intro h; omega
  · constructor
    · intro _; omega
    · intro _; exact hv.2 (by omega)

theorem pipe_version_inv_open (W : World) (held : Nat) (nv : Int) (hnv : 0 ≤ nv)
    (h : pipe_version_inv W held) :
    pipe_version_inv (gss_pipe_open W nv).2
      (if (gss_pipe_open W nv).1 ≥ 0 then held + 1 else held) := by
  obtain ⟨hu, hv⟩ := h
  unfold pipe_version_inv
  rcases gss_pipe_open_fields W nv with ⟨h0, h1, h2, h3⟩ | ⟨h0, _, h1, h2⟩ | ⟨h0, _, h1, h2, h3⟩
  · rw [h1, h2, h3, if_pos (le_refl _)]
    have : ¬ (W.pipe_users > 0) := fun hp => by have := hv.2 hp; omega
    refine ⟨by push_cast; omega, ?_⟩
    constructor
    · intro _; omega
    · intro _; exact hnv
  · rw [h1, h2, if_neg (by decide)]
    exact ⟨hu, hv⟩
  · rw [h1, h2, h3, if_pos (le_refl _)]
    have := hv.1 h0
    refine ⟨by push_cast; omega, ?_⟩
    constructor
    · intro _; omega
    · intro _; exact h0

theorem pipe_version_inv_get (W : World) (held : Nat) (h : pipe_version_inv W held) :
    pipe_version_inv (get_pipe_version W).2
      (if (get_pipe_version W).1 ≥ 0 then held + 1 else held) := by
  obtain ⟨hu, hv⟩ := h
  unfold pipe_version_inv
  rcases get_pipe_version_fields W with ⟨h0, h1, h2, h3⟩ | ⟨h0, h1, h2⟩
  · rw [h1, h2, h3, if_pos h0]
    have := hv.1 h0
    refine ⟨by push_cast; omega, ?_⟩
    constructor
    · intro _; omega
    · intro _; exact h0
  · rw [h1, h2, if_neg (by decide)]
    exact ⟨hu, hv⟩

/-- Every run keeps the invariant of the pipe version. -/
theorem pipe_run_inv (ops : List PipeOp) :
    ∀ (held : Nat) (W : World) (held1 : Nat) (W1 : World),
      pipe_version_inv W held → pipe_run ops held W = some (held1, W1) →
      pipe_version_inv W1 held1 := by
  induction ops with
  | nil =>
      intro held W held1 W1 hinv hrun
      simp only [pipe_run, Option.some.injEq, Prod.mk.injEq] at hrun
      obtain ⟨h1, h2⟩ := hrun
      subst h1; subst h2; exact hinv
  | cons o ops ih =>
      intro held W held1 W1 hinv hrun
      cases o with
      | open_v0 =>
          simp only [pipe_run] at hrun
          exact ih _ _ _ _ (pipe_version_inv_open W held 0 (by decide) hinv) hrun
      | open_v1 =>
          simp only [pipe_run] at hrun
          exact ih _ _ _ _ (pipe_version_inv_open W held 1 (by decide) hinv) hrun
      | get =>
          simp only [pipe_run] at hrun
          exact ih _ _ _ _ (pipe_version_inv_get W held hinv) hrun
      | put =>
          simp only [pipe_run] at hrun
          by_cases hh : held = 0
          · simp [hh] at hrun
          · simp only [hh, if_false] at hrun
            exact ih _ _ _ _ (pipe_version_inv_put W held hinv hh) hrun

/-- C14: from `pipe_version = -1`, `pipe_users = 0`, every run of
`gss_pipe_open`, `get_pipe_version` and `put_pipe_version` in which each put
matches an earlier successful open or get keeps "`pipe_version >= 0` if and
only if `pipe_users > 0`", and `pipe_users` is the number of references
handed out and not yet put.  While `pipe_users > 0`, a step either leaves
`pipe_version` as it is with `pipe_users` still positive, or it is the put
of the last user, which resets the version to -1.  With no user, an open
sets the version to that of the pipe opened. -/
theorem pipe_version_invariant (W0 : World) (h0v : W0.pipe_version = -1)
    (h0u : W0.pipe_users = 0) :
    (∀ (ops : List PipeOp) (held : Nat) (W : World),
      pipe_run ops 0 W0 = some (held, W) →
      (W.pipe_version ≥ 0 ↔ W.pipe_users > 0) ∧ W.pipe_users = (held : Int)) ∧
    (∀ (ops : List PipeOp) (held : Nat) (W : World) (o : PipeOp),
      pipe_run ops 0 W0 = some (held, W) → W.pipe_users > 0 →
      ((o.apply W).2.pipe_users > 0 ∧ (o.apply W).2.pipe_version = W.pipe_version) ∨
      (o = .put ∧ W.pipe_users = 1 ∧ (o.apply W).2.pipe_users = 0 ∧
        (o.apply W).2.pipe_version = -1)) ∧
    (∀ (ops : List PipeOp) (held : Nat) (W : World),
      pipe_run ops 0 W0 = some (held, W) → W.pipe_users = 0 →
      W.pipe_version < 0 ∧
      (gss_pipe_open_v0 W).2.pipe_version = 0 ∧ (gss_pipe_open_v1 W).2.pipe_version = 1 ∧
      (gss_pipe_open_v0 W).2.pipe_users = 1 ∧ (gss_pipe_open_v1 W).2.pipe_users = 1) := by
  have hinv0 : pipe_version_inv W0 0 := by
    unfold pipe_version_inv
    constructor
    · rw [h0u]; rfl
    · rw [h0v, h0u]; decide
  have hreach : ∀ (ops : List PipeOp) (held : Nat) (W : World),
      pipe_run ops 0 W0 = some (held, W) → pipe_version_inv W held :=
    fun ops held W h => pipe_run_inv ops 0 W0 held W hinv0 h
  refine ⟨fun ops held W h => ⟨(hreach ops held W h).2, (hreach ops held W h).1⟩,
    fun ops held W o h hpos => ?_, fun ops held W h hz => ?_⟩
  · obtain ⟨hu, hv⟩ := hreach ops held W h
    have hver := hv.2 hpos
    cases o with
    | open_v0 =>
        left
        simp only [PipeOp.apply, gss_pipe_open_v0]
        rcases gss_pipe_open_fields W 0 with ⟨h0, _⟩ | ⟨_, _, _, h2⟩ | ⟨_, _, _, h2, h3⟩
        · omega
        · rw [h2]; exact ⟨hpos, rfl⟩
        · rw [h2, h3]; exact ⟨by omega, rfl⟩
    | open_v1 =>
        left
        simp only [PipeOp.apply, gss_pipe_open_v1]
        rcases gss_pipe_open_fields W 1 with ⟨h0, _⟩ | ⟨_, _, _, h2⟩ | ⟨_, _, _, h2, h3⟩
        · omega
        · rw [h2]; exact ⟨hpos, rfl⟩
        · rw [h2, h3]; exact ⟨by omega, rfl⟩
    | get =>
        left
        simp only [PipeOp.apply]
        rcases get_pipe_version_fields W with ⟨_, _, h2, h3⟩ | ⟨h0, _⟩
        · rw [h2, h3]; exact ⟨by omega, rfl⟩
        · omega
    | put =>
        simp only [PipeOp.apply]
        obtain ⟨h1, h2⟩ := put_pipe_version_fields W
        rw [h1, h2]
        by_cases hone : W.pipe_users = 1
        · right
          refine ⟨trivial, hone, by omega, ?_⟩
          rw [if_pos (by omega)]
        · left
          refine ⟨by omega, ?_⟩
          rw [if_neg (by omega)]
  · obtain ⟨hu, hv⟩ := hreach ops held W h
    have hneg : W.pipe_version < 0 := by
      by_contra hc
      have := hv.1 (Int.not_lt.1 hc)
      omega
    refine ⟨hneg, ?_, ?_, ?_, ?_⟩
    · rcases gss_pipe_open_fields W 0 with ⟨_, _, h2, _⟩ | ⟨h0, _⟩ | ⟨h0, _⟩
      · exact h2
      · omega
      · omega
    · rcases gss_pipe_open_fields W 1 with ⟨_, _, h2, _⟩ | ⟨h0, _⟩ | ⟨h0, _⟩
      · exact h2
      · omega
      · omega
    · rcases gss_pipe_open_fields W 0 with ⟨_, _, _, h3⟩ | ⟨h0, _⟩ | ⟨h0, _⟩
      · show (gss_pipe_open W 0).2.pipe_users = 1
        rw [h3]; omega
      · omega
      · omega
    · rcases gss_pipe_open_fields W 1 with ⟨_, _, _, h3⟩ | ⟨h0, _⟩ | ⟨h0, _⟩
      · show (gss_pipe_open W 1).2.pipe_users = 1
        rw [h3]; omega
      · omega
      · omega

/-- C14 exercised on the run open v1, get, put from a world with no pipe
open: one reference is left, the version is 1, and the put of that last
reference resets it. -/
theorem pipe_version_invariant_witness :
    (W_closed.pipe_version = -1 ∧ W_closed.pipe_users = 0 ∧
      pipe_run [.open_v1, .get, .put] 0 W_closed
        = some (1, (gss_pipe_open_v1 W_closed).2)) ∧
    ((gss_pipe_open_v1 W_closed).2.pipe_version ≥ 0 ↔
        (gss_pipe_open_v1 W_closed).2.pipe_users > 0) ∧
    (gss_pipe_open_v1 W_closed).2.pipe_users = ((1 : Nat) : Int) :=
  ⟨⟨rfl, rfl, rfl⟩,
   (pipe_version_invariant W_closed rfl rfl).1 [.open_v1, .get, .put] 1
     (gss_pipe_open_v1 W_closed).2 rfl⟩

/-! ### C11 and C18: `gss_marshal` -/

theorem gss_put_ctx_gc_seq (W : World) (ctx x : Nat) :
    ((gss_put_ctx W ctx).ctxs x).gc_seq = (W.ctxs x).gc_seq := by
  have h := congrArg gss_cl_ctx.gc_seq (gss_put_ctx_data W ctx x)
  simpa [gss_cl_ctx.data] using h

/-- One call of `gss_marshal` on a credential that holds the context `ctx`:
it returns, records the counter of the context as `rq_seqno`, leaves the
counter one higher in 32-bit arithmetic, keeps the context in the
credential, and stores the credential of lines 1485-1497 first. -/
theorem gss_marshal_step (mic : Option Nat → List Nat → Nat × List Nat) (W : World)
    (cred ctx : Nat) (hdr : List Nat) (hctx : (W.creds cred).gc_ctx = some ctx) :
    ∃ r W1, gss_marshal mic W cred hdr = .ok (r, W1) ∧
      r.rq_seqno = (W.ctxs ctx).gc_seq ∧
      (W1.ctxs ctx).gc_seq = ((W.ctxs ctx).gc_seq + 1) % U32_MOD ∧
      (W1.creds cred).gc_ctx = some ctx ∧
      ∃ tail, r.written =
        gss_marshal_cred (W.ctxs ctx) (W.ctxs ctx).gc_seq (W.creds cred).gc_service ++ tail := by
  have hget : gss_cred_get_ctx W cred = (some ctx, gss_get_ctx W ctx) := by
    simp [gss_cred_get_ctx, hctx]
  have hseq : ((gss_get_ctx W ctx).ctxs ctx).gc_seq = (W.ctxs ctx).gc_seq := by
    simp [gss_get_ctx, World.setCtx]
  have hcred : ∀ (s : Nat),
      gss_marshal_cred
        ((((gss_get_ctx W ctx).setCtx ctx
          { (gss_get_ctx W ctx).ctxs ctx with gc_seq := s })).ctxs ctx)
        (W.ctxs ctx).gc_seq
        (((gss_get_ctx W ctx).setCtx ctx
          { (gss_get_ctx W ctx).ctxs ctx with gc_seq := s }).creds cred).gc_service
      = gss_marshal_cred (W.ctxs ctx) (W.ctxs ctx).gc_seq (W.creds cred).gc_service := by
    intro s
    simp [gss_marshal_cred, gss_marshal_cred_body, gss_get_ctx, World.setCtx]
  unfold gss_marshal
  rw [hget]
  simp only [hseq, hcred]
  split
  · refine ⟨_, _, rfl, rfl, ?_, ?_, ⟨_, by simp only [List.append_assoc]; rfl⟩⟩
    · rw [gss_put_ctx_gc_seq]
      simp [clear_uptodate, World.setCred, World.setCtx]
    · rw [gss_put_ctx_creds]
      simp [clear_uptodate, World.setCred, World.setCtx, gss_get_ctx, hctx]
  · split
    · refine ⟨_, _, rfl, rfl, ?_, ?_, ⟨_, rfl⟩⟩
      · rw [gss_put_ctx_gc_seq]
        simp [World.setCtx]
      · rw [gss_put_ctx_creds]
        simp [World.setCtx, gss_get_ctx, hctx]
    · refine ⟨_, _, rfl, rfl, ?_, ?_, ⟨_, by simp only [List.append_assoc]; rfl⟩⟩
      · rw [gss_put_ctx_gc_seq]
        simp [World.setCtx]
      · rw [gss_put_ctx_creds]
        simp [World.setCtx, gss_get_ctx, hctx]

/-- The words after the length word of the credential take
`20 + 4 * ceil(len / 4)` bytes, `len` being the length of the wire
context. -/
theorem gss_marshal_cred_body_length (c : gss_cl_ctx) (seqno service : Nat) :
    (gss_marshal_cred_body c seqno service).length
      = 20 + 4 * XDR_QUADLEN c.gc_wire_ctx.length := by
  simp only [gss_marshal_cred_body, xdr_encode_opaque, htonl, XDR_QUADLEN,
    List.length_append, List.length_replicate, List.length_cons, List.length_nil]
  omega

/-- C18: `gss_marshal` stores, as big-endian 32-bit words and in this order,
`RPC_AUTH_GSS`, the credential length, `RPC_GSS_VERSION` (1), the context's
processing code, the sequence number just assigned to the request, the
credential's service, and the wire context as an XDR opaque (length word,
data, zero bytes up to a multiple of 4).  The credential length is the
number of bytes from the end of the length word to the end of the padded
wire context, `20 + 4 * ceil(len / 4)` for a wire context of `len` bytes. -/
theorem gss_marshal_cred_layout (mic : Option Nat → List Nat → Nat × List Nat)
    (W : World) (cred ctx : Nat) (hdr : List Nat)
    (hctx : (W.creds cred).gc_ctx = some ctx) :
    (∃ r W1 tail, gss_marshal mic W cred hdr = .ok (r, W1) ∧
      r.rq_seqno = (W.ctxs ctx).gc_seq ∧
      r.written =
        htonl RPC_AUTH_GSS ++
        htonl (20 + 4 * XDR_QUADLEN (W.ctxs ctx).gc_wire_ctx.length) ++
        (htonl RPC_GSS_VERSION ++ htonl (W.ctxs ctx).gc_proc ++ htonl r.rq_seqno ++
          htonl (W.creds cred).gc_service ++
          (htonl (W.ctxs ctx).gc_wire_ctx.length ++ (W.ctxs ctx).gc_wire_ctx ++
            List.replicate
              (4 * XDR_QUADLEN (W.ctxs ctx).gc_wire_ctx.length
                - (W.ctxs ctx).gc_wire_ctx.length) 0)) ++
        tail) ∧
    (∀ seqno,
      (htonl RPC_GSS_VERSION ++ htonl (W.ctxs ctx).gc_proc ++ htonl seqno ++
        htonl (W.creds cred).gc_service ++
        (htonl (W.ctxs ctx).gc_wire_ctx.length ++ (W.ctxs ctx).gc_wire_ctx ++
          List.replicate
            (4 * XDR_QUADLEN (W.ctxs ctx).gc_wire_ctx.length
              - (W.ctxs ctx).gc_wire_ctx.length) 0)).length
        = 20 + 4 * XDR_QUADLEN (W.ctxs ctx).gc_wire_ctx.length) ∧
    (W.ctxs ctx).gc_wire_ctx.length ≤ 4 * XDR_QUADLEN (W.ctxs ctx).gc_wire_ctx.length ∧
    4 * XDR_QUADLEN (W.ctxs ctx).gc_wire_ctx.length < (W.ctxs ctx).gc_wire_ctx.length + 4 ∧
    RPC_GSS_VERSION = 1 := by
  obtain ⟨r, W1, hres, hseq, _, _, tail, htail⟩ := gss_marshal_step mic W cred ctx hdr hctx
  have hlen := gss_marshal_cred_body_length (W.ctxs ctx) (W.ctxs ctx).gc_seq
    (W.creds cred).gc_service
  refine ⟨⟨r, W1, tail, hres, hseq, ?_⟩, fun seqno => ?_, ?_, ?_, rfl⟩
  · rw [htail, hseq]
    unfold gss_marshal_cred
    rw [hlen]
    have hdiv : (20 + 4 * XDR_QUADLEN (W.ctxs ctx).gc_wire_ctx.length) / 4 * 4
        = 20 + 4 * XDR_QUADLEN (W.ctxs ctx).gc_wire_ctx.length := by omega
    rw [hdiv]
    rfl
  · exact gss_marshal_cred_body_length (W.ctxs ctx) seqno (W.creds cred).gc_service
  · unfold XDR_QUADLEN; omega
  · unfold XDR_QUADLEN; omega

/-- C18 exercised on a credential with service 2 whose context has the
five-byte wire context "CTXBY": the credential length is 28. -/
theorem gss_marshal_cred_layout_witness :
    (W_wire.creds 0).gc_ctx = some 7 ∧
    20 + 4 * XDR_QUADLEN (W_wire.ctxs 7).gc_wire_ctx.length = 28 ∧
    ∃ r W1 tail, gss_marshal mic_const W_wire 0 [0, 0, 0, 1] = .ok (r, W1) ∧
      r.rq_seqno = (W_wire.ctxs 7).gc_seq ∧
      r.written =
        htonl RPC_AUTH_GSS ++
        htonl (20 + 4 * XDR_QUADLEN (W_wire.ctxs 7).gc_wire_ctx.length) ++
        (htonl RPC_GSS_VERSION ++ htonl (W_wire.ctxs 7).gc_proc ++ htonl r.rq_seqno ++
          htonl (W_wire.creds 0).gc_service ++
          (htonl (W_wire.ctxs 7).gc_wire_ctx.length ++ (W_wire.ctxs 7).gc_wire_ctx ++
            List.replicate
              (4 * XDR_QUADLEN (W_wire.ctxs 7).gc_wire_ctx.length
                - (W_wire.ctxs 7).gc_wire_ctx.length) 0)) ++
        tail :=
  ⟨rfl, by decide, (gss_marshal_cred_layout mic_const W_wire 0 7 [0, 0, 0, 1] rfl).1⟩

/-! ### C12: the sequence number of a reply -/

/-- `gss_unwrap_resp_integ` returns 0 or `-EIO`, and 0 only for a reply
whose sequence number is the request's. -/
theorem gss_unwrap_resp_integ_status (U : UnwrapCalls) (W : World)
    (cred ctx rq_seqno : Nat) (rcv : RcvBuf) (p : Nat) :
    ((gss_unwrap_resp_integ U W cred ctx rq_seqno rcv p).1 = 0 ∧
      rcv.word (p + 4) = rq_seqno) ∨
    (gss_unwrap_resp_integ U W cred ctx rq_seqno rcv p).1 = - EIO := by
  unfold gss_unwrap_resp_integ
  dsimp only
  split
  · exact Or.inr rfl
  · split
    · exact Or.inr rfl
    · split
      · exact Or.inr rfl
      · rename_i hseq
        split
        · exact Or.inr rfl
        · split
          · exact Or.inr rfl
          · split
            · exact Or.inr rfl
            · exact Or.inl ⟨rfl, not_not.1 hseq⟩

/-- `gss_unwrap_resp_priv` returns 0 or `-EIO`, and 0 only for a reply that
passed the length check and whose sequence number, read after decryption, is
the request's. -/
theorem gss_unwrap_resp_priv_status (U : UnwrapCalls) (W : World)
    (cred ctx rq_seqno : Nat) (rcv : RcvBuf) (p : Nat) :
    ((gss_unwrap_resp_priv U W cred ctx rq_seqno rcv p).1 = 0 ∧
      (U.gss_unwrap (W.ctxs ctx).gc_gss_ctx ((p + 4) % U32_MOD)
        { rcv with len := ((p + 4) % U32_MOD + rcv.word p) % U32_MOD }).2.word (p + 4)
        = rq_seqno) ∨
    (gss_unwrap_resp_priv U W cred ctx rq_seqno rcv p).1 = - EIO := by
  unfold gss_unwrap_resp_priv
  dsimp only
  split
  · exact Or.inr rfl
  · split
    · exact Or.inr rfl
    · split
      · exact Or.inr rfl
      · rename_i hseq
        exact Or.inl ⟨rfl, not_not.1 hseq⟩

/-- C12, counterexample: the context of the credential carries the
processing code `RPC_GSS_PROC_DESTROY`.  The reply holds the sequence number
41 where the request's `rq_seqno` is 42, and the service of the credential is
INTEGRITY (`W_destroy_integ`) or PRIVACY (`W_destroy`).  `gss_unwrap_resp`
does not reject the reply: it goes to `out_decode` (lines 1944-1945), calls
the decode callback and returns its status, 0. -/
theorem gss_unwrap_resp_not_data_seqno_counterexample :
    (W_destroy_integ.creds 0).gc_service = RPC_GSS_SVC_INTEGRITY ∧
    (W_destroy.creds 0).gc_service = RPC_GSS_SVC_PRIVACY ∧
    (W_destroy_integ.ctxs 7).gc_proc = RPC_GSS_PROC_DESTROY ∧
    (W_destroy.ctxs 7).gc_proc = RPC_GSS_PROC_DESTROY ∧
    rcv_reply.word (24 + 4) ≠ 42 ∧
    (∃ W1, gss_unwrap_resp U_accept decode_offset W_destroy_integ 0 42 rcv_reply 24 2
      = .ok ({ status := 0, decoded := some 24, au_rslack := none }, W1)) ∧
    (∃ W1, gss_unwrap_resp U_accept decode_offset W_destroy 0 42 rcv_reply 24 2
      = .ok ({ status := 0, decoded := some 24, au_rslack := none }, W1)) :=
  ⟨rfl, rfl, rfl, rfl, by decide, ⟨_, rfl⟩, ⟨_, rfl⟩⟩

/-- C12, amended: `gss_unwrap_resp_integ` returns `-EIO` whenever the word
after the length differs from `rq_seqno`, and `gss_unwrap_resp_priv` returns
`-EIO` whenever that word, read after decryption, differs.  For a credential
whose context carries the processing code DATA, `gss_unwrap_resp` under
INTEGRITY or PRIVACY then returns `-EIO` without calling the decode
callback.  For a context with another processing code the reply is not
unwrapped, whatever the service and whatever the reply holds:
`gss_unwrap_resp` calls the decode callback on the reply as it stands and
returns its status. -/
theorem gss_unwrap_resp_seqno_mismatch {δ : Type} (U : UnwrapCalls)
    (decode : RcvBuf → Nat → Int × δ) (W : World) (cred ctx rq_seqno : Nat)
    (rcv : RcvBuf) (p : Nat) (au_verfsize : Int)
    (hctx : (W.creds cred).gc_ctx = some ctx) :
    (rcv.word (p + 4) ≠ rq_seqno →
      (gss_unwrap_resp_integ U W cred ctx rq_seqno rcv p).1 = - EIO) ∧
    ((U.gss_unwrap (W.ctxs ctx).gc_gss_ctx ((p + 4) % U32_MOD)
        { rcv with len := ((p + 4) % U32_MOD + rcv.word p) % U32_MOD }).2.word (p + 4)
        ≠ rq_seqno →
      (gss_unwrap_resp_priv U W cred ctx rq_seqno rcv p).1 = - EIO) ∧
    ((W.ctxs ctx).gc_proc = RPC_GSS_PROC_DATA →
      (W.creds cred).gc_service = RPC_GSS_SVC_INTEGRITY →
      rcv.word (p + 4) ≠ rq_seqno →
      ∃ W1, gss_unwrap_resp U decode W cred rq_seqno rcv p au_verfsize
        = .ok ({ status := - EIO, decoded := none, au_rslack := none }, W1)) ∧
    ((W.ctxs ctx).gc_proc = RPC_GSS_PROC_DATA →
      (W.creds cred).gc_service = RPC_GSS_SVC_PRIVACY →
      (U.gss_unwrap (W.ctxs ctx).gc_gss_ctx ((p + 4) % U32_MOD)
        { rcv with len := ((p + 4) % U32_MOD + rcv.word p) % U32_MOD }).2.word (p + 4)
        ≠ rq_seqno →
      ∃ W1, gss_unwrap_resp U decode W cred rq_seqno rcv p au_verfsize
        = .ok ({ status := - EIO, decoded := none, au_rslack := none }, W1)) ∧
    ((W.ctxs ctx).gc_proc ≠ RPC_GSS_PROC_DATA →
      gss_unwrap_resp U decode W cred rq_seqno rcv p au_verfsize
        = .ok ({ status := (decode rcv p).1, decoded := some (decode rcv p).2,
                 au_rslack := none },
               gss_put_ctx (gss_get_ctx W ctx) ctx)) := by
  have hinteg : ∀ (W2 : World), rcv.word (p + 4) ≠ rq_seqno →
      (gss_unwrap_resp_integ U W2 cred ctx rq_seqno rcv p).1 = - EIO := by
    intro W2 hne
    rcases gss_unwrap_resp_integ_status U W2 cred ctx rq_seqno rcv p with ⟨_, h⟩ | h
    · exact absurd h hne
    · exact h
  have hpriv : ∀ (W2 : World),
      (W2.ctxs ctx).gc_gss_ctx = (W.ctxs ctx).gc_gss_ctx →
      (U.gss_unwrap (W.ctxs ctx).gc_gss_ctx ((p + 4) % U32_MOD)
        { rcv with len := ((p + 4) % U32_MOD + rcv.word p) % U32_MOD }).2.word (p + 4)
        ≠ rq_seqno →
      (gss_unwrap_resp_priv U W2 cred ctx rq_seqno rcv p).1 = - EIO := by
    intro W2 hh hne
    rcases gss_unwrap_resp_priv_status U W2 cred ctx rq_seqno rcv p with ⟨_, h⟩ | h
    · rw [hh] at h; exact absurd h hne
    · exact h
  have hget : gss_cred_get_ctx W cred = (some ctx, gss_get_ctx W ctx) := by
    simp [gss_cred_get_ctx, hctx]
  have hhandle : ((gss_get_ctx W ctx).ctxs ctx).gc_gss_ctx = (W.ctxs ctx).gc_gss_ctx := by
    simp [gss_get_ctx, World.setCtx]
  have hne5 : (- EIO : Int) ≠ 0 := by decide
  refine ⟨hinteg W, hpriv W rfl, fun hproc hsvc hne => ?_, fun hproc hsvc hne => ?_,
    fun hproc => ?_⟩
  · have hproc1 : ((gss_get_ctx W ctx).ctxs ctx).gc_proc = RPC_GSS_PROC_DATA := by
      simp [gss_get_ctx, World.setCtx, hproc]
    have hst := hinteg (gss_get_ctx W ctx) hne
    have hsvc1 : ((gss_get_ctx W ctx).creds cred).gc_service = RPC_GSS_SVC_INTEGRITY := hsvc
    refine ⟨gss_put_ctx
      (gss_unwrap_resp_integ U (gss_get_ctx W ctx) cred ctx rq_seqno rcv p).2.2.2 ctx, ?_⟩
    unfold gss_unwrap_resp
    rw [hget]
    simp only [hproc1, ne_eq, not_true_eq_false, if_false, hsvc1, if_true, hst, hne5,
      not_false_eq_true]
  · have hproc1 : ((gss_get_ctx W ctx).ctxs ctx).gc_proc = RPC_GSS_PROC_DATA := by
      simp [gss_get_ctx, World.setCtx, hproc]
    have hst := hpriv (gss_get_ctx W ctx) hhandle hne
    have hsvc1 : ((gss_get_ctx W ctx).creds cred).gc_service = RPC_GSS_SVC_PRIVACY := hsvc
    have hni : ¬ (RPC_GSS_SVC_PRIVACY = RPC_GSS_SVC_INTEGRITY) := by decide
    refine ⟨gss_put_ctx
      (gss_unwrap_resp_priv U (gss_get_ctx W ctx) cred ctx rq_seqno rcv p).2.2.2 ctx, ?_⟩
    unfold gss_unwrap_resp
    rw [hget]
    simp only [hproc1, ne_eq, not_true_eq_false, if_false, hsvc1, hni, if_true, hst, hne5,
      not_false_eq_true]
  · have hp : ((gss_get_ctx W ctx).ctxs ctx).gc_proc ≠ RPC_GSS_PROC_DATA := by
      simpa [gss_get_ctx, World.setCtx] using hproc
    unfold gss_unwrap_resp
    rw [hget]
    dsimp only
    rw [if_pos hp]
    rfl

/-- C12 exercised on a reply that carries the sequence number 41 for a
request whose `rq_seqno` is 42, on a DATA context under INTEGRITY (every
credential of `W_uptodate` has service 2) and under PRIVACY: both are
rejected. -/
theorem gss_unwrap_resp_seqno_mismatch_witness :
    ((W_uptodate.creds 0).gc_ctx = some 7 ∧
      (W_uptodate.ctxs 7).gc_proc = RPC_GSS_PROC_DATA ∧
      (W_uptodate.creds 0).gc_service = RPC_GSS_SVC_INTEGRITY ∧
      rcv_reply.word (24 + 4) ≠ 42 ∧
      (W_privacy.creds 0).gc_service = RPC_GSS_SVC_PRIVACY) ∧
    (∃ W1, gss_unwrap_resp U_accept decode_offset W_uptodate 0 42 rcv_reply 24 2
      = .ok ({ status := - EIO, decoded := none, au_rslack := none }, W1)) ∧
    (∃ W1, gss_unwrap_resp U_accept decode_offset W_privacy 0 42 rcv_reply 24 2
      = .ok ({ status := - EIO, decoded := none, au_rslack := none }, W1)) :=
  ⟨⟨rfl, rfl, rfl, by decide, rfl⟩,
   (gss_unwrap_resp_seqno_mismatch U_accept decode_offset W_uptodate 0 7 42 rcv_reply 24 2
      rfl).2.2.1 rfl rfl (by decide),
   (gss_unwrap_resp_seqno_mismatch U_accept decode_offset W_privacy 0 7 42 rcv_reply 24 2
      rfl).2.2.2.1 rfl rfl (by decide)⟩

/-! ### C15: `gss_pipe_release` -/

theorem gss_put_ctx_pipe (W : World) (ctx : Nat) :
    (gss_put_ctx W ctx).pipe_users = W.pipe_users ∧
    (gss_put_ctx W ctx).pipe_version = W.pipe_version := by
  unfold gss_put_ctx gss_free_ctx
  dsimp only
  split <;> exact ⟨rfl, rfl⟩

/-- What `gss_release_msg` does to the pipe version when the upcall is on no
pending list: nothing unless it drops the last reference, and then what
`put_pipe_version` does. -/
theorem gss_release_msg_pipe (W : World) (m : Nat)
    (h : m ∉ W.in_downcall (W.msgs m).pipe) :
    ∃ W1, gss_release_msg W m = .ok W1 ∧
      W1.pipe_users = (if (W.msgs m).count = 1 then W.pipe_users - 1 else W.pipe_users) ∧
      W1.pipe_version =
        (if (W.msgs m).count = 1 then
          (if W.pipe_users - 1 = 0 then -1 else W.pipe_version)
         else W.pipe_version) := by
  unfold gss_release_msg
  dsimp only
  by_cases hc : (W.msgs m).count = 1
  · have hz : ((W.setMsg m { W.msgs m with count := (W.msgs m).count - 1 }).msgs m).count = 0 := by
      simp [World.setMsg, hc]
    rw [if_neg (not_not.2 hz)]
    have hle : list_empty (put_pipe_version
        (W.setMsg m { W.msgs m with count := (W.msgs m).count - 1 })) m = true := by
      simp [list_empty, put_pipe_version_msgs, put_pipe_version_in_downcall,
        World.setMsg, h]
    rw [hle]
    simp only [Bool.not_true, Bool.false_eq_true, if_false, if_pos hc]
    obtain ⟨hu, hv⟩ := put_pipe_version_fields
      (W.setMsg m { W.msgs m with count := (W.msgs m).count - 1 })
    refine ⟨_, rfl, ?_, ?_⟩
    · cases hctx : ((put_pipe_version
          (W.setMsg m { W.msgs m with count := (W.msgs m).count - 1 })).msgs m).ctx with
      | none => exact hu
      | some c =>
          show (gss_put_ctx _ c).pipe_users = _
          rw [(gss_put_ctx_pipe _ c).1]; exact hu
    · cases hctx : ((put_pipe_version
          (W.setMsg m { W.msgs m with count := (W.msgs m).count - 1 })).msgs m).ctx with
      | none => exact hv
      | some c =>
          show (gss_put_ctx _ c).pipe_version = _
          rw [(gss_put_ctx_pipe _ c).2]; exact hv
  · have hz : ((W.setMsg m { W.msgs m with count := (W.msgs m).count - 1 }).msgs m).count ≠ 0 := by
      simp only [World.setMsg, Function.update_same]
      omega
    rw [if_pos hz]
    simp only [if_neg hc]
    exact ⟨_, rfl, rfl, rfl⟩

/-- One round of the loop of `gss_pipe_release` for the upcall `m`: it does
not reach `BUG_ON`; the upcall has `errno = -EPIPE` and has left the pending
lists, every other upcall is as it was, and the pipe version has lost a user
exactly when the upcall had no reference but the pending list's. -/
theorem gss_pipe_release_round (W : World) (m : Nat) :
    ∃ W3, gss_release_msg
        (__gss_unhash_msg
          ((W.setMsg m { W.msgs m with errno := -EPIPE }).setMsg m
            { (W.setMsg m { W.msgs m with errno := -EPIPE }).msgs m with
              count := ((W.setMsg m { W.msgs m with errno := -EPIPE }).msgs m).count + 1 })
          m) m = .ok W3 ∧
      W3.in_downcall = (list_del_init W m).in_downcall ∧
      (∀ x, x ≠ m → W3.msgs x = W.msgs x) ∧
      (W3.msgs m).errno = -EPIPE ∧
      W3.pipe_users = (if (W.msgs m).count = 1 then W.pipe_users - 1 else W.pipe_users) ∧
      W3.pipe_version =
        (if (W.msgs m).count = 1 then
          (if W.pipe_users - 1 = 0 then -1 else W.pipe_version)
         else W.pipe_version) := by
  generalize hW2 : (W.setMsg m { W.msgs m with errno := -EPIPE }).setMsg m
      { (W.setMsg m { W.msgs m with errno := -EPIPE }).msgs m with
        count := ((W.setMsg m { W.msgs m with errno := -EPIPE }).msgs m).count + 1 } = W2
  have h2m : W2.msgs m = { W.msgs m with errno := -EPIPE, count := (W.msgs m).count + 1 } := by
    rw [← hW2]; simp [World.setMsg]
  have h2x : ∀ x, x ≠ m → W2.msgs x = W.msgs x := by
    intro x hx; rw [← hW2]; simp [World.setMsg, Function.update_noteq hx]
  have h2l : W2.in_downcall = W.in_downcall := by rw [← hW2]; rfl
  have h2u : W2.pipe_users = W.pipe_users := by rw [← hW2]; rfl
  have h2v : W2.pipe_version = W.pipe_version := by rw [← hW2]; rfl
  obtain ⟨hl, _, _, hd, hne⟩ := gss_unhash_msg_spec W2 m
  have hnot : m ∉ (__gss_unhash_msg W2 m).in_downcall ((__gss_unhash_msg W2 m).msgs m).pipe := by
    rw [hl]; exact list_del_init_not_mem W2 m _
  obtain ⟨W3, hrel, hl3, _, hd3, hne3, _⟩ := gss_release_msg_unhashed (__gss_unhash_msg W2 m) m hnot
  obtain ⟨W3', hrel', hu3, hv3⟩ := gss_release_msg_pipe (__gss_unhash_msg W2 m) m hnot
  have heq : W3' = W3 := by
    rw [hrel] at hrel'
    exact (Outcome.ok.inj hrel').symm
  subst heq
  have hcount : ((__gss_unhash_msg W2 m).msgs m).count = (W.msgs m).count := by
    simp [__gss_unhash_msg, World.setMsg, list_del_init, h2m]
  have hpu : (__gss_unhash_msg W2 m).pipe_users = W.pipe_users := h2u
  have hpv : (__gss_unhash_msg W2 m).pipe_version = W.pipe_version := h2v
  refine ⟨W3', hrel, ?_, fun x hx => ?_, ?_, ?_, ?_⟩
  · rw [hl3, hl]
    funext p
    simp [list_del_init, h2l]
  · rw [hne3 x hx, hne x hx, h2x x hx]
  · have h1 := congrArg gss_upcall_msg.errno (hd3 m)
    have h2 := congrArg gss_upcall_msg.errno (hd m)
    simp only [gss_upcall_msg.data] at h1 h2
    rw [h1, h2, h2m]
  · rw [hu3, hcount, hpu]
  · rw [hv3, hcount, hpu, hpv]

/-- Counting the entries that satisfy `q` in a list without repetition: the
entry `m` counts for one if it satisfies `q`, the others are those of the
list without `m`. -/
theorem filter_length_without (q : Nat → Bool) (m : Nat) :
    ∀ (l : List Nat), m ∈ l → l.Nodup →
      (l.filter q).length
        = (if q m = true then 1 else 0) + ((l.filter (fun x => x != m)).filter q).length := by
  intro l
  induction l with
  | nil => intro hm; simp at hm
  | cons a l ih =>
      intro hm hnd
      rw [List.nodup_cons] at hnd
      by_cases ha : a = m
      · subst ha
        have hself : l.filter (fun x => x != a) = l := by
          rw [List.filter_eq_self]
          intro x hx
          have : x ≠ a := fun h => hnd.1 (h ▸ hx)
          simp [this]
        have hhead : (a :: l).filter (fun x => x != a) = l := by
          rw [List.filter_cons]
          simp [hself]
        rw [hhead, List.filter_cons]
        by_cases hq : q a = true
        · simp [hq]; omega
        · simp [hq]
      · have hm' : m ∈ l := by
          rcases List.mem_cons.1 hm with h | h
          · exact absurd h.symm ha
          · exact h
        have ih' := ih hm' hnd.2
        have hhead : (a :: l).filter (fun x => x != m)
            = a :: l.filter (fun x => x != m) := by
          rw [List.filter_cons]
          simp [ha]
        rw [hhead, List.filter_cons, List.filter_cons]
        by_cases hq : q a = true
        · simp only [hq, if_true, List.length_cons]
          omega
        · simp only [hq, if_false]
          exact ih'

/-- The loop of `gss_pipe_release` on a pending list without repetition,
with more fuel than the list is long: it ends without `BUG_ON`; what stays
on the list are the upcalls whose message is still queued, every other one
has `errno = -EPIPE`, no other upcall is changed, and the pipe version has
lost one user for every upcall freed. -/
theorem gss_pipe_release_pending_spec (pipe : Nat) :
    ∀ (fuel : Nat) (W : World),
      (W.in_downcall pipe).length < fuel → (W.in_downcall pipe).Nodup →
      ∃ W1, gss_pipe_release_pending fuel W pipe = some (.ok W1) ∧
        W1.in_downcall pipe
          = (W.in_downcall pipe).filter (fun x => !release_takes W x) ∧
        (∀ x, x ∈ W.in_downcall pipe → release_takes W x = true →
          (W1.msgs x).errno = -EPIPE) ∧
        (∀ x, ¬ (x ∈ W.in_downcall pipe ∧ release_takes W x = true) →
          W1.msgs x = W.msgs x) ∧
        W1.pipe_users = W.pipe_users - (release_frees W (W.in_downcall pipe) : Int) ∧
        (W.pipe_users > (release_frees W (W.in_downcall pipe) : Int) →
          W1.pipe_version = W.pipe_version) := by
  intro fuel
  induction fuel with
  | zero => intro W h; omega
  | succ fuel ih =>
      intro W hlen hnd
      unfold gss_pipe_release_pending
      cases hfind : (W.in_downcall pipe).find? (release_takes W) with
      | none =>
          have hall : ∀ x ∈ W.in_downcall pipe, release_takes W x = false := by
            intro x hx
            have := List.find?_eq_none.1 hfind x hx
            simpa using this
          have hrf : release_frees W (W.in_downcall pipe) = 0 := by
            unfold release_frees
            rw [List.length_eq_zero, List.filter_eq_nil_iff]
            intro x hx
            simp [hall x hx]
          refine ⟨W, rfl, ?_, ?_, fun _ _ => rfl, ?_, fun _ => rfl⟩
          · symm
            rw [List.filter_eq_self]
            intro x hx
            simp [hall x hx]
          · intro x hx ht
            rw [hall x hx] at ht
            exact absurd ht (by simp)
          · rw [hrf]; simp
      | some m =>
          have hmem : m ∈ W.in_downcall pipe := List.mem_of_find?_eq_some hfind
          have htake : release_takes W m = true := List.find?_some hfind
          obtain ⟨W3, hrel, hl3, hx3, he3, hu3, hv3⟩ := gss_pipe_release_round W m
          dsimp only
          rw [hrel]
          dsimp only
          have hL3 : W3.in_downcall pipe
              = (W.in_downcall pipe).filter (fun x => x != m) := by
            rw [hl3]; rfl
          have hlt : (W3.in_downcall pipe).length < fuel := by
            have h1 : ((W.in_downcall pipe).filter (fun x => x != m)).length
                < (W.in_downcall pipe).length := by
              apply List.length_filter_lt_length_iff_exists.2
              exact ⟨m, hmem, by simp⟩
            rw [hL3]; omega
          have hnd3 : (W3.in_downcall pipe).Nodup := by
            rw [hL3]; exact hnd.filter _
          obtain ⟨W1, hrun, hl1, he1, hx1, hu1, hv1⟩ := ih W3 hlt hnd3
          have htk : ∀ x, x ≠ m → release_takes W3 x = release_takes W x := by
            intro x hx
            unfold release_takes
            rw [hx3 x hx]
          have hne : ∀ x, x ∈ W3.in_downcall pipe → x ≠ m := by
            intro x hx
            rw [hL3] at hx
            have := (List.mem_filter.1 hx).2
            simpa using this
          have hrf3 : release_frees W3 (W3.in_downcall pipe)
              = release_frees W ((W.in_downcall pipe).filter (fun x => x != m)) := by
            unfold release_frees
            rw [← hL3]
            congr 1
            apply List.filter_congr
            intro x hx
            rw [htk x (hne x hx), hx3 x (hne x hx)]
          have hcnt : (release_frees W (W.in_downcall pipe) : Int)
              = (if (W.msgs m).count = 1 then 1 else 0)
                + (release_frees W3 (W3.in_downcall pipe) : Int) := by
            rw [hrf3]
            unfold release_frees
            rw [filter_length_without _ m (W.in_downcall pipe) hmem hnd]
            simp only [htake, Bool.true_and, decide_eq_true_eq]
            push_cast
            split <;> rfl
          refine ⟨W1, hrun, ?_, ?_, ?_, ?_, ?_⟩
          · rw [hl1, hL3, List.filter_filter]
            apply List.filter_congr
            intro x hx
            by_cases hxm : x = m
            · subst hxm; simp [htake]
            · simp [hxm, htk x hxm]
          · intro x hx ht
            by_cases hxm : x = m
            · subst hxm
              have hnot : ¬ (x ∈ W3.in_downcall pipe ∧ release_takes W3 x = true) := by
                intro h
                exact hne x h.1 rfl
              rw [hx1 x hnot]; exact he3
            · have hx3mem : x ∈ W3.in_downcall pipe := by
                rw [hL3]
                exact List.mem_filter.2 ⟨hx, by simp [hxm]⟩
              exact he1 x hx3mem (by rw [htk x hxm]; exact ht)
          · intro x hnot
            have hxm : x ≠ m := fun h => hnot (h ▸ ⟨hmem, htake⟩)
            have hnot3 : ¬ (x ∈ W3.in_downcall pipe ∧ release_takes W3 x = true) := by
              intro h
              apply hnot
              refine ⟨?_, by rw [← htk x hxm]; exact h.2⟩
              have := h.1
              rw [hL3] at this
              exact (List.mem_filter.1 this).1
            rw [hx1 x hnot3, hx3 x hxm]
          · rw [hu1, hu3, hcnt]
            split <;> omega
          · intro hgt
            rw [hcnt] at hgt
            have hnn : (0 : Int) ≤ (release_frees W3 (W3.in_downcall pipe) : Int) :=
              Int.ofNat_nonneg _
            have hgt3 : W3.pipe_users > (release_frees W3 (W3.in_downcall pipe) : Int) := by
              rw [hu3]
              split at hgt <;> split <;> omega
            rw [hv1 hgt3, hv3]
            by_cases hc : (W.msgs m).count = 1
            · rw [if_pos hc] at hgt
              rw [if_pos hc, if_neg (by omega)]
            · rw [if_neg hc]

/-- C15, counterexample: a pipe with three pending upcalls and three users of
the pipe version is closed.  Upcall 8, whose message is still queued on the
pipe, keeps `errno = 0` and stays on the pending list, and `pipe_users` goes
from 3 to 1, not to 2: upcall 6 was held by the pending list alone and gave
up its own use of the pipe version when it was freed. -/
theorem gss_pipe_release_keeps_queued_counterexample :
    W_release.in_downcall 0 = [5, 6, 8] ∧ W_release.pipe_users = 3 ∧
    ∃ W1, gss_pipe_release W_release 0 = some (.ok W1) ∧
      (W1.msgs 8).errno = 0 ∧ W1.in_downcall 0 = [8] ∧
      (W1.msgs 5).errno = -EPIPE ∧ (W1.msgs 6).errno = -EPIPE ∧
      (W1.msgs 6).freed = true ∧
      W1.pipe_users = 1 ∧ W1.pipe_version = 1 :=
  ⟨rfl, rfl, _, rfl, rfl, rfl, rfl, rfl, rfl, rfl, rfl⟩

/-- C15, amended: on a pending list without repetition `gss_pipe_release`
ends without reaching `BUG_ON`.  Afterwards the list holds exactly the
upcalls whose message was still queued on the pipe, and these are unchanged;
every other upcall that was on the list has `errno = -EPIPE` and is off the
list; no upcall that was not on the list is changed.  `pipe_users` has
dropped by one plus one for every upcall freed because the list held its last
reference; `pipe_version` is -1 when the count has reached zero and is
unchanged while the count stays positive. -/
theorem gss_pipe_release_contract (W : World) (pipe : Nat)
    (hnd : (W.in_downcall pipe).Nodup) :
    ∃ W1, gss_pipe_release W pipe = some (.ok W1) ∧
      W1.in_downcall pipe
        = (W.in_downcall pipe).filter (fun x => !release_takes W x) ∧
      (∀ x, x ∈ W.in_downcall pipe → release_takes W x = true →
        (W1.msgs x).errno = -EPIPE ∧ x ∉ W1.in_downcall pipe) ∧
      (∀ x, ¬ (x ∈ W.in_downcall pipe ∧ release_takes W x = true) →
        W1.msgs x = W.msgs x) ∧
      W1.pipe_users
        = W.pipe_users - 1 - (release_frees W (W.in_downcall pipe) : Int) ∧
      (W1.pipe_users = 0 → W1.pipe_version = -1) ∧
      (0 < W1.pipe_users → W1.pipe_version = W.pipe_version) := by
  obtain ⟨W0, hrun, hl, he, hx, hu, hv⟩ :=
    gss_pipe_release_pending_spec pipe ((W.in_downcall pipe).length + 1) W
      (Nat.lt_succ_self _) hnd
  obtain ⟨hpu, hpv⟩ := put_pipe_version_fields W0
  refine ⟨put_pipe_version W0, ?_, ?_, ?_, ?_, ?_, ?_, ?_⟩
  · unfold gss_pipe_release
    rw [hrun]
  · rw [put_pipe_version_in_downcall, hl]
  · intro x hmem ht
    constructor
    · rw [put_pipe_version_msgs]; exact he x hmem ht
    · rw [put_pipe_version_in_downcall, hl]
      intro h
      have := (List.mem_filter.1 h).2
      simp [ht] at this
  · intro x hnot
    rw [put_pipe_version_msgs]; exact hx x hnot
  · rw [hpu, hu]; omega
  · intro h0
    rw [hpv, if_pos (by rw [← hpu]; exact h0)]
  · intro hpos
    rw [hpv, if_neg (by rw [← hpu]; omega)]
    apply hv
    rw [hpu, hu] at hpos
    omega

theorem gss_pipe_release_contract_witness :
    (W_release.in_downcall 0).Nodup ∧
    ∃ W1, gss_pipe_release W_release 0 = some (.ok W1) ∧
      W1.in_downcall 0
        = (W_release.in_downcall 0).filter (fun x => !release_takes W_release x) ∧
      (∀ x, x ∈ W_release.in_downcall 0 → release_takes W_release x = true →
        (W1.msgs x).errno = -EPIPE ∧ x ∉ W1.in_downcall 0) ∧
      (∀ x, ¬ (x ∈ W_release.in_downcall 0 ∧ release_takes W_release x = true) →
        W1.msgs x = W_release.msgs x) ∧
      W1.pipe_users
        = W_release.pipe_users - 1
          - (release_frees W_release (W_release.in_downcall 0) : Int) ∧
      (W1.pipe_users = 0 → W1.pipe_version = -1) ∧
      (0 < W1.pipe_users → W1.pipe_version = W_release.pipe_version) :=
  ⟨by decide, gss_pipe_release_contract W_release 0 (by decide)⟩


/-! ### C17: `gss_key_timeout` -/

/-- C17: `gss_key_timeout` returns `-EACCES` exactly when the credential has
no context or `jiffies + gss_key_expire_timeo * HZ` is after the context's
`gc_expiry`; otherwise it returns 0; it leaves the world, and so the
credential, as it was.  The sum is the one line 1408 computes and "after" is
`time_after`; where nothing wraps this is `gc_expiry < jiffies +
gss_key_expire_timeo * HZ`. -/
theorem gss_key_timeout_contract (E : Env) (gss_key_expire_timeo : Nat) (W : World)
    (rc : Nat) :
    ((gss_key_timeout E gss_key_expire_timeo W rc).1 = -EACCES ↔
      ((W.creds rc).gc_ctx = none ∨
        ∃ ctx, (W.creds rc).gc_ctx = some ctx ∧
          time_after ((W.jiffies + (gss_key_expire_timeo * E.HZ) % U32_MOD) % ULONG_MOD)
            (W.ctxs ctx).gc_expiry = true)) ∧
    ((gss_key_timeout E gss_key_expire_timeo W rc).1 ≠ -EACCES →
      (gss_key_timeout E gss_key_expire_timeo W rc).1 = 0) ∧
    (gss_key_timeout E gss_key_expire_timeo W rc).2 = W ∧
    (∀ ctx, (W.creds rc).gc_ctx = some ctx →
      W.jiffies + gss_key_expire_timeo * E.HZ < 2 ^ 63 →
      gss_key_expire_timeo * E.HZ < U32_MOD →
      (W.ctxs ctx).gc_expiry < 2 ^ 63 →
      ((gss_key_timeout E gss_key_expire_timeo W rc).1 = -EACCES ↔
        (W.ctxs ctx).gc_expiry < W.jiffies + gss_key_expire_timeo * E.HZ)) := by
  unfold gss_key_timeout
  dsimp only
  cases hctx : (W.creds rc).gc_ctx with
  | none =>
      refine ⟨?_, ?_, rfl, ?_⟩
      · simp
      · intro h; exact absurd rfl h
      · intro ctx h; cases h
  | some c =>
      dsimp only
      by_cases ht : time_after ((W.jiffies + (gss_key_expire_timeo * E.HZ) % U32_MOD) % ULONG_MOD)
          (W.ctxs c).gc_expiry = true
      · rw [if_pos ht]
        refine ⟨?_, ?_, rfl, ?_⟩
        · simp [ht]
        · intro h; exact absurd rfl h
        · intro ctx h h1 h2 h3
          cases h
          refine ⟨fun _ => ?_, fun _ => rfl⟩
          simp only [time_after, ulong_sub, decide_eq_true_eq] at ht
          unfold ULONG_MOD U32_MOD at *
          norm_num at *
          omega
      · rw [if_neg ht]
        refine ⟨?_, ?_, rfl, ?_⟩
        · simp [ht, EACCES]
        · intro _; rfl
        · intro ctx h h1 h2 h3
          cases h
          refine ⟨fun h => ?_, fun h => ?_⟩
          · simp [EACCES] at h
          · exfalso
            apply ht
            simp only [time_after, ulong_sub, decide_eq_true_eq]
            unfold ULONG_MOD U32_MOD at *
            norm_num at *
            omega

theorem gss_key_timeout_contract_witness :
    (gss_key_timeout E0 GSS_KEY_EXPIRE_TIMEO W_match 2).1 = 0 ∧
    (gss_key_timeout E0 GSS_KEY_EXPIRE_TIMEO W_uptodate 2).1 = -EACCES ∧
    (gss_key_timeout E0 GSS_KEY_EXPIRE_TIMEO W_new 2).1 = -EACCES ∧
    ((gss_key_timeout E0 GSS_KEY_EXPIRE_TIMEO W_match 2).1 = -EACCES ↔
      (W_match.ctxs 7).gc_expiry
        < W_match.jiffies + GSS_KEY_EXPIRE_TIMEO * E0.HZ) :=
  ⟨by decide, by decide, by decide,
   (gss_key_timeout_contract E0 GSS_KEY_EXPIRE_TIMEO W_match 2).2.2.2 7 rfl
     (by decide) (by decide) (by decide)⟩

/-! ### C16: `gss_match` -/

theorem gss_match_check_expire_fst (E : Env) (t : Nat) (W : World) (f : AcFlags)
    (rc : Nat) (ret : Int) :
    (gss_match_check_expire E t W f rc ret).1 = ret := by
  unfold gss_match_check_expire
  split
  · rfl
  · split <;> rfl

/-- The result of `gss_match` from the label `out` on: 1 exactly when the
identities agree, otherwise 0. -/
theorem gss_match_out_fst (E : Env) (t : Nat) (W : World) (acred : auth_cred)
    (f : AcFlags) (rc : Nat) :
    ((gss_match_out E t W acred f rc).1 = 1 ↔
      ((∃ p, acred.principal = some p ∧ (W.creds rc).gc_principal = some p) ∨
       (acred.principal = none ∧ (W.creds rc).gc_principal = none ∧
         (W.creds rc).cr_uid = acred.uid))) ∧
    ((gss_match_out E t W acred f rc).1 ≠ 1 → (gss_match_out E t W acred f rc).1 = 0) := by
  unfold gss_match_out
  cases hp : acred.principal with
  | some p =>
      cases hq : (W.creds rc).gc_principal with
      | none => simp
      | some q =>
          dsimp only
          rw [gss_match_check_expire_fst]
          by_cases hpq : p = q
          · simp [hpq]
          · have hqp : ¬ q = p := fun h => hpq h.symm
            simp [hpq, hqp]
  | none =>
      cases hq : (W.creds rc).gc_principal with
      | some q => simp
      | none =>
          dsimp only
          rw [if_neg (by simp), gss_match_check_expire_fst]
          by_cases hu : (W.creds rc).cr_uid = acred.uid
          · simp [hu]
          · simp [hu]

/-- C16, counterexample: a request by uid 0 for the principal `nfs@server`
matches the credential 1, which carries that principal but belongs to uid
1000: `gss_match` returns 1 although the user ids differ. -/
theorem gss_match_principal_ignores_uid_counterexample :
    (gss_match E0 GSS_KEY_EXPIRE_TIMEO W_match acred_principal ac_flags_none 1).1 = 1 ∧
    (W_match.creds 1).cr_uid ≠ acred_principal.uid ∧
    acred_principal.principal = (W_match.creds 1).gc_principal := by
  decide

/-- C16, amended: `gss_match` returns 1 or 0.  It returns 1 exactly when the
credential is eligible (in state NEW, or up to date with a context that
`jiffies` is not after the expiry of) and the identities agree: when `acred`
asks for a principal, the credential stores the identical string, the user
ids not being compared; when it asks for none, the credential stores none and
its user id equals that of `acred`.  So it returns 0 for every credential
not in state NEW whose context has expired. -/
theorem gss_match_contract (E : Env) (gss_key_expire_timeo : Nat) (W : World)
    (acred : auth_cred) (ac_flags : AcFlags) (rc : Nat) :
    ((gss_match E gss_key_expire_timeo W acred ac_flags rc).1 = 1 ↔
      ((test_bit .RPCAUTH_CRED_NEW (W.creds rc).cr_flags = true ∨
        (∃ ctx, (W.creds rc).gc_ctx = some ctx ∧
          time_after W.jiffies (W.ctxs ctx).gc_expiry = false ∧
          test_bit .RPCAUTH_CRED_UPTODATE (W.creds rc).cr_flags = true)) ∧
       ((∃ p, acred.principal = some p ∧ (W.creds rc).gc_principal = some p) ∨
        (acred.principal = none ∧ (W.creds rc).gc_principal = none ∧
          (W.creds rc).cr_uid = acred.uid)))) ∧
    ((gss_match E gss_key_expire_timeo W acred ac_flags rc).1 ≠ 1 →
      (gss_match E gss_key_expire_timeo W acred ac_flags rc).1 = 0) ∧
    (∀ ctx, test_bit .RPCAUTH_CRED_NEW (W.creds rc).cr_flags = false →
      (W.creds rc).gc_ctx = some ctx →
      time_after W.jiffies (W.ctxs ctx).gc_expiry = true →
      (gss_match E gss_key_expire_timeo W acred ac_flags rc).1 = 0) := by
  obtain ⟨hout, hout0⟩ := gss_match_out_fst E gss_key_expire_timeo W acred ac_flags rc
  unfold gss_match
  by_cases hnew : test_bit .RPCAUTH_CRED_NEW (W.creds rc).cr_flags = true
  · rw [if_pos hnew]
    refine ⟨?_, hout0, ?_⟩
    · rw [hout]; simp [hnew]
    · intro ctx h; rw [hnew] at h; cases h
  · rw [if_neg hnew]
    cases hctx : (W.creds rc).gc_ctx with
    | none => simp [hnew]
    | some c =>
        dsimp only
        by_cases ht : time_after W.jiffies (W.ctxs c).gc_expiry = true
        · rw [if_pos ht]
          simp [hnew, ht]
        · rw [if_neg ht]
          by_cases hup : test_bit .RPCAUTH_CRED_UPTODATE (W.creds rc).cr_flags = true
          · simp only [hup, Bool.not_true, Bool.false_eq_true, if_false]
            refine ⟨?_, hout0, ?_⟩
            · rw [hout]; simp [hnew, ht, hup]
            · intro ctx _ h1 h2
              cases h1
              exact absurd h2 ht
          · simp [hnew, hup]

theorem gss_match_contract_witness :
    (gss_match E0 GSS_KEY_EXPIRE_TIMEO W_match acred_user ac_flags_none 2).1 = 1 ∧
    (gss_match E0 GSS_KEY_EXPIRE_TIMEO W_match acred_user ac_flags_none 1).1 = 0 ∧
    (gss_match E0 GSS_KEY_EXPIRE_TIMEO W_uptodate acred_user ac_flags_none 2).1 = 0 :=
  ⟨by decide, by decide,
   (gss_match_contract E0 GSS_KEY_EXPIRE_TIMEO W_uptodate acred_user ac_flags_none 2).2.2
     7 (by decide) rfl (by decide)⟩


/-! ### C19, C20: `gss_encode_v1_msg` -/

/-- One formatted piece more: if the buffer holds the first 127 bytes of the
text `T` formatted so far, with `buflen` and `msg.len` in step, then after
`text` it holds the first 127 bytes of `T ++ text`, again in step. -/
theorem v1_put_inv (T text : List Char) (s : V1Buf)
    (h1 : s.databuf = T.take 127) (h2 : s.buflen = 128 - s.databuf.length)
    (h3 : s.msg_len = s.databuf.length) :
    (v1_put s text).databuf = (T ++ text).take 127 ∧
    (v1_put s text).buflen = 128 - (v1_put s text).databuf.length ∧
    (v1_put s text).msg_len = (v1_put s text).databuf.length := by
  have hlen : s.databuf.length = min 127 T.length := by rw [h1, List.length_take]
  have hne : s.buflen ≠ 0 := by omega
  have hw : scnprintf s.buflen text = text.take (127 - T.length) := by
    unfold scnprintf
    rw [if_neg hne, h2, hlen]
    congr 1
    omega
  have hwl : (scnprintf s.buflen text).length ≤ 127 - T.length := by
    rw [hw, List.length_take]; omega
  unfold v1_put
  dsimp only
  refine ⟨?_, ?_, ?_⟩
  · rw [hw, h1, List.take_append_eq_append_take]
  · rw [List.length_append, h2]; omega
  · rw [List.length_append, h3]

/-- The end of `gss_encode_v1_msg`: with the first 127 bytes of the pairs `T`
in the buffer, the newline is stored and 0 returned when `T` has at most 126
bytes, and otherwise nothing is stored and `-ENOMEM` returned. -/
theorem v1_newline (T : List Char) (s : V1Buf)
    (h1 : s.databuf = T.take 127) (h2 : s.buflen = 128 - s.databuf.length)
    (h3 : s.msg_len = s.databuf.length) :
    (if (scnprintf s.buflen "\n".toList).length = 0 then (-ENOMEM, s)
     else ((0 : Int), { s with databuf := s.databuf ++ scnprintf s.buflen "\n".toList,
                               msg_len := s.msg_len + (scnprintf s.buflen "\n".toList).length }))
    = if T.length ≤ 126 then
        ((0 : Int), { databuf := T ++ "\n".toList, buflen := 128 - T.length,
                      msg_len := T.length + 1 })
      else (-ENOMEM, { databuf := T.take 127, buflen := 1, msg_len := 127 }) := by
  have hlen : s.databuf.length = min 127 T.length := by rw [h1, List.length_take]
  by_cases hT : T.length ≤ 126
  · have hb : s.buflen = 128 - T.length := by omega
    have hw : scnprintf s.buflen "\n".toList = "\n".toList := by
      unfold scnprintf
      rw [if_neg (by omega)]
      apply List.take_of_length_le
      show 1 ≤ s.buflen - 1
      omega
    have hd : s.databuf = T := by
      rw [h1]; exact List.take_of_length_le (by omega)
    rw [hw, if_pos hT, if_neg (by decide)]
    cases s
    simp only at hd hb h3
    subst hd
    simp [hb, h3]
  · have hb : s.buflen = 1 := by omega
    have hw : scnprintf s.buflen "\n".toList = [] := by
      unfold scnprintf
      rw [hb]
      rfl
    rw [hw, if_neg hT]
    simp only [List.length_nil, if_true]
    cases s
    simp only at h1 hb h3 hlen
    simp [h1, hb, h3]
    omega

/-- What `gss_encode_v1_msg` returns, for every input: when the pairs take at
most 126 bytes, 0 with the pairs and the newline in the buffer; otherwise
`-ENOMEM`. -/
theorem gss_encode_v1_msg_eq (mech : gss_api_mech) (uid : Nat)
    (service_name target_name : Option String) :
    gss_encode_v1_msg mech uid service_name target_name
      = if (v1_pairs mech uid service_name target_name).length ≤ 126 then
          ((0 : Int),
            { databuf := v1_pairs mech uid service_name target_name ++ "\n".toList,
              buflen := 128 - (v1_pairs mech uid service_name target_name).length,
              msg_len := (v1_pairs mech uid service_name target_name).length + 1 })
        else
          (-ENOMEM,
            { databuf := (v1_pairs mech uid service_name target_name).take 127,
              buflen := 1, msg_len := 127 }) := by
  have h0 : ∀ head : List Char,
      (⟨scnprintf UPCALL_BUF_LEN head, UPCALL_BUF_LEN - (scnprintf UPCALL_BUF_LEN head).length,
        (scnprintf UPCALL_BUF_LEN head).length⟩ : V1Buf).databuf = head.take 127 ∧
      (⟨scnprintf UPCALL_BUF_LEN head, UPCALL_BUF_LEN - (scnprintf UPCALL_BUF_LEN head).length,
        (scnprintf UPCALL_BUF_LEN head).length⟩ : V1Buf).buflen
        = 128 - (⟨scnprintf UPCALL_BUF_LEN head,
            UPCALL_BUF_LEN - (scnprintf UPCALL_BUF_LEN head).length,
            (scnprintf UPCALL_BUF_LEN head).length⟩ : V1Buf).databuf.length ∧
      (⟨scnprintf UPCALL_BUF_LEN head, UPCALL_BUF_LEN - (scnprintf UPCALL_BUF_LEN head).length,
        (scnprintf UPCALL_BUF_LEN head).length⟩ : V1Buf).msg_len
        = (⟨scnprintf UPCALL_BUF_LEN head,
            UPCALL_BUF_LEN - (scnprintf UPCALL_BUF_LEN head).length,
            (scnprintf UPCALL_BUF_LEN head).length⟩ : V1Buf).databuf.length := by
    intro head
    exact ⟨rfl, rfl, rfl⟩
  unfold gss_encode_v1_msg
  dsimp only
  obtain ⟨gm_name, enc⟩ := mech
  have step := fun (T text : List Char) (s : V1Buf)
      (h : s.databuf = T.take 127 ∧ s.buflen = 128 - s.databuf.length ∧
        s.msg_len = s.databuf.length) => v1_put_inv T text s h.1 h.2.1 h.2.2
  have fin := fun (T : List Char) (s : V1Buf)
      (h : s.databuf = T.take 127 ∧ s.buflen = 128 - s.databuf.length ∧
        s.msg_len = s.databuf.length) => v1_newline T s h.1 h.2.1 h.2.2
  have fin0 := fun (T d : List Char) (b m : Nat)
      (h : d = T.take 127 ∧ b = 128 - d.length ∧ m = d.length) =>
      v1_newline T ⟨d, b, m⟩ h.1 h.2.1 h.2.2
  cases target_name <;> cases service_name <;> cases enc <;>
    simp only [v1_pairs, List.append_nil]
  · exact fin0 _ _ _ _ ⟨rfl, rfl, rfl⟩
  · exact fin _ _ (step _ _ _ (h0 _))
  · exact fin _ _ (step _ _ _ (h0 _))
  · exact fin _ _ (step _ _ _ (step _ _ _ (h0 _)))
  · exact fin _ _ (step _ _ _ (h0 _))
  · exact fin _ _ (step _ _ _ (step _ _ _ (h0 _)))
  · exact fin _ _ (step _ _ _ (step _ _ _ (h0 _)))
  · exact fin _ _ (step _ _ _ (step _ _ _ (step _ _ _ (h0 _))))

/-- The pairs always end in a space: every pair is formatted with one behind
it, the last one too. -/
theorem v1_pairs_ends_in_space (mech : gss_api_mech) (uid : Nat)
    (service_name target_name : Option String) :
    ∃ body, v1_pairs mech uid service_name target_name = body ++ " ".toList := by
  obtain ⟨gm_name, enc⟩ := mech
  cases target_name <;> cases service_name <;> cases enc <;>
    simp only [v1_pairs, List.append_nil] <;>
    first
    | exact ⟨_, rfl⟩
    | exact ⟨_, (List.append_assoc _ _ _).symm⟩

/-- C19, counterexample: for the mechanism krb5, uid 1000, no target, the
service name `integrity` and the encryption types `18,17,16,23,3,1,2` the
encoder returns 0 with 65 bytes that end in a space and a newline; the text
with the newline directly behind the last pair has 64 bytes and is not what
the buffer holds. -/
theorem gss_encode_v1_msg_trailing_space_counterexample :
    (gss_encode_v1_msg mech_krb5 1000 (some "integrity") none).1 = 0 ∧
    (gss_encode_v1_msg mech_krb5 1000 (some "integrity") none).2.databuf
      = "mech=krb5 uid=1000 service=integrity enctypes=18,17,16,23,3,1,2 \n".toList ∧
    (gss_encode_v1_msg mech_krb5 1000 (some "integrity") none).2.databuf
      ≠ "mech=krb5 uid=1000 service=integrity enctypes=18,17,16,23,3,1,2\n".toList ∧
    (gss_encode_v1_msg mech_krb5 1000 (some "integrity") none).2.msg_len = 65 := by
  decide

/-- C19, amended: when the complete text is shorter than the 128 bytes of the
buffer, `gss_encode_v1_msg` returns 0 and the buffer holds exactly
`mech=<name> uid=<number> `, then `target=<string> `, `service=<string> ` and
`enctypes=<list> `, each only when its value is not NULL, then a newline:
every pair is followed by one space, so a space stands before the newline.
`msg.len` is the length of that text.  The number is the uid in decimal, and
for a uid below 2^31 it has no sign. -/
theorem gss_encode_v1_msg_text (mech : gss_api_mech) (uid : Nat)
    (service_name target_name : Option String)
    (hfit : (v1_text mech uid service_name target_name).length < UPCALL_BUF_LEN) :
    (gss_encode_v1_msg mech uid service_name target_name).1 = 0 ∧
    (gss_encode_v1_msg mech uid service_name target_name).2.databuf
      = v1_text mech uid service_name target_name ∧
    (gss_encode_v1_msg mech uid service_name target_name).2.msg_len
      = (v1_text mech uid service_name target_name).length ∧
    (∃ body, (gss_encode_v1_msg mech uid service_name target_name).2.databuf
      = body ++ " \n".toList) ∧
    (uid < 2 ^ 31 → fmt_d uid = Nat.toDigits 10 uid) := by
  have hlen : (v1_pairs mech uid service_name target_name).length ≤ 126 := by
    have h : (v1_text mech uid service_name target_name).length
        = (v1_pairs mech uid service_name target_name).length + 1 := by
      unfold v1_text; rw [List.length_append]; rfl
    unfold UPCALL_BUF_LEN at hfit
    omega
  rw [gss_encode_v1_msg_eq, if_pos hlen]
  refine ⟨rfl, rfl, ?_, ?_, ?_⟩
  · unfold v1_text; rw [List.length_append]; rfl
  · obtain ⟨body, hb⟩ := v1_pairs_ends_in_space mech uid service_name target_name
    refine ⟨body, ?_⟩
    show v1_pairs mech uid service_name target_name ++ "\n".toList = _
    rw [hb, List.append_assoc]
    rfl
  · intro hu
    have hmod : uid % U32_MOD = uid := Nat.mod_eq_of_lt (by unfold U32_MOD; omega)
    unfold fmt_d
    rw [hmod, if_pos hu]

theorem gss_encode_v1_msg_text_witness :
    (v1_text mech_krb5 1000 (some "integrity") none).length < UPCALL_BUF_LEN ∧
    (gss_encode_v1_msg mech_krb5 1000 (some "integrity") none).1 = 0 ∧
    (gss_encode_v1_msg mech_krb5 1000 (some "integrity") none).2.databuf
      = v1_text mech_krb5 1000 (some "integrity") none ∧
    (gss_encode_v1_msg mech_krb5 1000 (some "integrity") none).2.msg_len
      = (v1_text mech_krb5 1000 (some "integrity") none).length ∧
    (∃ body, (gss_encode_v1_msg mech_krb5 1000 (some "integrity") none).2.databuf
      = body ++ " \n".toList) ∧
    (1000 < 2 ^ 31 → fmt_d 1000 = Nat.toDigits 10 1000) :=
  ⟨by decide, gss_encode_v1_msg_text mech_krb5 1000 (some "integrity") none (by decide)⟩

/-- C20: for every mechanism, uid, target, service name and list of
encryption types, `gss_encode_v1_msg` returns `-ENOMEM` when the complete
text, newline included, is longer than the 128 bytes of the buffer; when it
returns 0, `msg.len` is at most 128 and is the length of the complete text,
which is what the buffer holds, ending in the newline.  It returns 0 or
`-ENOMEM`, the former exactly when the complete text is shorter than the
buffer, and it never stores more than 127 bytes before the NUL. -/
theorem gss_encode_v1_msg_no_truncation (mech : gss_api_mech) (uid : Nat)
    (service_name target_name : Option String) :
    (UPCALL_BUF_LEN < (v1_text mech uid service_name target_name).length →
      (gss_encode_v1_msg mech uid service_name target_name).1 = -ENOMEM) ∧
    ((gss_encode_v1_msg mech uid service_name target_name).1 = 0 →
      (gss_encode_v1_msg mech uid service_name target_name).2.msg_len ≤ UPCALL_BUF_LEN ∧
      (gss_encode_v1_msg mech uid service_name target_name).2.msg_len
        = (v1_text mech uid service_name target_name).length ∧
      (gss_encode_v1_msg mech uid service_name target_name).2.databuf
        = v1_text mech uid service_name target_name ∧
      ∃ body, (gss_encode_v1_msg mech uid service_name target_name).2.databuf
        = body ++ "\n".toList) ∧
    ((gss_encode_v1_msg mech uid service_name target_name).1 = 0 ↔
      (v1_text mech uid service_name target_name).length < UPCALL_BUF_LEN) ∧
    ((gss_encode_v1_msg mech uid service_name target_name).1 ≠ 0 →
      (gss_encode_v1_msg mech uid service_name target_name).1 = -ENOMEM) ∧
    (gss_encode_v1_msg mech uid service_name target_name).2.databuf.length
      < UPCALL_BUF_LEN := by
  have h : (v1_text mech uid service_name target_name).length
      = (v1_pairs mech uid service_name target_name).length + 1 := by
    unfold v1_text; rw [List.length_append]; rfl
  rw [gss_encode_v1_msg_eq]
  unfold UPCALL_BUF_LEN
  by_cases hlen : (v1_pairs mech uid service_name target_name).length ≤ 126
  · rw [if_pos hlen]
    refine ⟨fun hgt => ?_, fun _ => ⟨?_, ?_, rfl, ⟨_, rfl⟩⟩, ?_, fun hne => absurd rfl hne, ?_⟩
    · omega
    · show (v1_pairs mech uid service_name target_name).length + 1 ≤ 128
      omega
    · exact h.symm
    · constructor
      · intro _; omega
      · intro _; rfl
    · show (v1_pairs mech uid service_name target_name ++ "\n".toList).length < 128
      rw [List.length_append]
      show (v1_pairs mech uid service_name target_name).length + 1 < 128
      omega
  · rw [if_neg hlen]
    have hne : (-ENOMEM : Int) ≠ 0 := by decide
    refine ⟨fun _ => rfl, fun h0 => absurd h0 hne, ?_, fun _ => rfl, ?_⟩
    · constructor
      · intro h0; exact absurd h0 hne
      · intro hlt; omega
    · show ((v1_pairs mech uid service_name target_name).take 127).length < 128
      rw [List.length_take]
      omega

theorem v1_text_mech_long_length :
    UPCALL_BUF_LEN < (v1_text mech_long 1000 none none).length := by
  have h : (Nat.toDigits 10 1000).length = 4 := by decide
  simp [v1_text, v1_pairs, mech_long, UPCALL_BUF_LEN, fmt_d, U32_MOD, h]

theorem gss_encode_v1_msg_no_truncation_witness :
    UPCALL_BUF_LEN < (v1_text mech_long 1000 none none).length ∧
    (gss_encode_v1_msg mech_long 1000 none none).1 = -ENOMEM ∧
    (gss_encode_v1_msg mech_krb5 1000 none none).2.databuf
      = "mech=krb5 uid=1000 enctypes=18,17,16,23,3,1,2 \n".toList :=
  ⟨v1_text_mech_long_length,
   (gss_encode_v1_msg_no_truncation mech_long 1000 none none).1 v1_text_mech_long_length,
   by decide⟩


/-! ### C21: invalid uid and truncated payloads -/

/-- A failure of `gss_fill_context` with one of the four errors the switch
of `gss_pipe_downcall` retries is what the downcall returns, the upcall
getting `-EAGAIN` and leaving the pending list. -/
theorem gss_pipe_downcall_fill_error_retry (E : Env) (K : DowncallAlloc) (W : World)
    (pipe : Nat) (idb body : List Nat) (buf ctx m : Nat) (e : Int)
    (hlen : (idb ++ body).length ≤ MSG_BUF_MAXSIZE)
    (hbuf : K.kmalloc = some buf) (hcopy : K.copy_ok = true)
    (hctx : K.kzalloc = some ctx)
    (hfit : buf + (idb ++ body).length < ULONG_MOD)
    (hid : idb.length = 4) (huid : E.uid_valid (get_u32 idb) = true)
    (hfind : (W.in_downcall pipe).find? (downcall_matches W (get_u32 idb)) = some m)
    (he : (gss_fill_context E W.jiffies (W.msgs m).mech { addr := buf, bytes := idb ++ body }
        (buf + 4) (buf + (idb ++ body).length) ctx_fresh).1 = .error e)
    (h4 : e = -EFAULT ∨ e = -ENOMEM ∨ e = -EINVAL ∨ e = -ENOSYS) :
    ∃ W1, gss_pipe_downcall E K W pipe (idb ++ body) = .ok (e, W1) ∧
      (W1.msgs m).errno = -EAGAIN ∧ m ∉ W1.in_downcall pipe := by
  obtain ⟨hj, hmech, hc0, hlist, _⟩ := gss_pipe_downcall_world W ctx m
  have hreach := gss_pipe_downcall_reach E K W pipe idb body buf ctx m hlen hbuf hcopy hctx
    hfit hid huid hfind
  obtain ⟨_, hretry, _⟩ := (gss_pipe_downcall_deliver_spec E
    ((W.setCtx ctx ctx_fresh).setMsg m { W.msgs m with count := (W.msgs m).count + 1 })
    { addr := buf, bytes := idb ++ body } (buf + 4) (buf + (idb ++ body).length)
    (idb ++ body).length ctx m).2 e (by rw [hj, hmech, hc0]; exact he)
  obtain ⟨W1, hres, hl, hd, _⟩ := hretry h4
  refine ⟨W1, by rw [hreach, hres], ?_, ?_⟩
  · have := congrArg gss_upcall_msg.errno hd
    simpa [gss_upcall_msg.data] using this
  · rw [hl, hlist]; simp

/-- A security context declared longer than the bytes left makes
`gss_fill_context` fail with `-EFAULT`, whatever the errno of a short read,
with the context as the wire context left it: nothing was imported. -/
theorem gss_fill_context_seclen_overrun (E : Env) (now mech : Nat) (B : Buf)
    (p endp p1 p2 p3 p4 : Nat) (tb wb wire sb : List Nat) (c : gss_cl_ctx)
    (h1 : simple_get_bytes E B p endp 4 = .ok (tb, p1))
    (h2 : simple_get_bytes E B p1 endp 4 = .ok (wb, p2))
    (hw : get_u32 wb ≠ 0)
    (h3 : simple_get_netobj E B p2 endp = .ok (wire, p3))
    (h4 : simple_get_bytes E B p3 endp 4 = .ok (sb, p4))
    (hover : (p4 + get_u32 sb) % ULONG_MOD > endp ∨ (p4 + get_u32 sb) % ULONG_MOD < p4) :
    gss_fill_context E now mech B p endp c =
      (.error (-EFAULT),
        { c with
          gc_expiry := (now + (if get_u32 tb = 0 then GSSD_MIN_TIMEOUT else get_u32 tb) * E.HZ)
            % ULONG_MOD,
          gc_win := get_u32 wb, gc_wire_ctx := wire }) := by
  unfold gss_fill_context
  simp only [h1, h2, h3, h4, hw, if_false, hover, if_true]

/-- C21, counterexample: a downcall for uid 1000, for which the upcall 5 is
pending, declares a security context of 100 bytes with three bytes left.
Even where a short read is reported as `-EINVAL`, `gss_pipe_downcall`
returns `-EFAULT`, not `-EINVAL`. -/
theorem gss_pipe_downcall_truncated_efault_counterexample :
    (∃ W1, gss_pipe_downcall E_short_einval K0 W_pending 0
        (put_u32 1000 ++ downcall_overrun_body) = .ok (-EFAULT, W1)) ∧
    (-EFAULT : Int) ≠ -EINVAL :=
  ⟨⟨_, rfl⟩, by decide⟩

/-- A payload that ends inside the timeout or the window field makes
`gss_fill_context` fail with the errno of a short read. -/
theorem gss_fill_context_header_short (E : Env) (now mech : Nat) (B : Buf)
    (p endp : Nat) (c : gss_cl_ctx) (hp : p ≤ endp)
    (hshort : endp < p + 8) :
    (gss_fill_context E now mech B p endp c).1 = .error E.eshort := by
  by_cases h1 : (p + 4) % ULONG_MOD > endp ∨ (p + 4) % ULONG_MOD < p
  · have hr1 : simple_get_bytes E B p endp 4 = .error E.eshort := by
      simp only [simple_get_bytes, h1, if_true]
    unfold gss_fill_context
    simp only [hr1]
  · have hq : (p + 4) % ULONG_MOD = p + 4 := by
      unfold ULONG_MOD at *
      omega
    have h2 : (p + 4 + 4) % ULONG_MOD > endp ∨ (p + 4 + 4) % ULONG_MOD < p + 4 := by
      unfold ULONG_MOD at *
      omega
    have h1q : ¬ (p + 4 > endp ∨ p + 4 < p) := by rw [hq] at h1; exact h1
    have hr1 : simple_get_bytes E B p endp 4 = .ok (B.read p 4, p + 4) := by
      simp only [simple_get_bytes, hq, h1q, if_false]
    have hr2 : simple_get_bytes E B (p + 4) endp 4 = .error E.eshort := by
      simp only [simple_get_bytes, h2, if_true]
    unfold gss_fill_context
    simp only [hr1, hr2]

/-- A wire context whose length word runs past the end of the payload makes
`gss_fill_context` fail with the errno of a short read. -/
theorem gss_fill_context_netobj_overrun (E : Env) (now mech : Nat) (B : Buf)
    (p endp p1 p2 p3 : Nat) (tb wb lb : List Nat) (c : gss_cl_ctx)
    (h1 : simple_get_bytes E B p endp 4 = .ok (tb, p1))
    (h2 : simple_get_bytes E B p1 endp 4 = .ok (wb, p2))
    (hw : get_u32 wb ≠ 0)
    (h3 : simple_get_bytes E B p2 endp 4 = .ok (lb, p3))
    (hover : (p3 + get_u32 lb) % ULONG_MOD > endp ∨ (p3 + get_u32 lb) % ULONG_MOD < p3) :
    (gss_fill_context E now mech B p endp c).1 = .error E.eshort := by
  unfold gss_fill_context
  simp only [h1, h2, hw, if_false, simple_get_netobj, h3, hover, if_true]

/-- C21, amended: `gss_pipe_downcall` returns `-EINVAL` for a payload whose
uid is invalid, nothing else being touched.  A truncated payload fails with
the error of the read that ran short.  Too short for the uid field, it
returns the errno `simple_get_bytes` reports.  With a valid uid, a context
allocated and an upcall in flight for the uid: a payload that ends inside
the timeout or window field, or whose wire context runs past the end, again
returns that errno, and a `sec_context_len` that exceeds the bytes left
returns `-EFAULT`; in the three cases the upcall gets `-EAGAIN` and leaves
the pending list.  (The switch of `gss_pipe_downcall` has cases for
`-EFAULT`, `-ENOMEM`, `-EINVAL` and `-ENOSYS`; the errno of a short read is
taken to be one of them.) -/
theorem gss_pipe_downcall_invalid_or_truncated (E : Env) (K : DowncallAlloc) (W : World)
    (pipe : Nat) (idb body : List Nat) (buf : Nat)
    (hlen : (idb ++ body).length ≤ MSG_BUF_MAXSIZE)
    (hbuf : K.kmalloc = some buf) (hcopy : K.copy_ok = true)
    (hfit : buf + (idb ++ body).length < ULONG_MOD)
    (hid : idb.length = 4) :
    (E.uid_valid (get_u32 idb) = false →
      gss_pipe_downcall E K W pipe (idb ++ body) = .ok (-EINVAL, W)) ∧
    (∀ src : List Nat, src.length < 4 → buf + src.length < ULONG_MOD →
      gss_pipe_downcall E K W pipe src = .ok (E.eshort, W)) ∧
    (∀ ctx m : Nat, E.uid_valid (get_u32 idb) = true → K.kzalloc = some ctx →
      (W.in_downcall pipe).find? (downcall_matches W (get_u32 idb)) = some m →
      (E.eshort = -EFAULT ∨ E.eshort = -ENOMEM ∨ E.eshort = -EINVAL ∨ E.eshort = -ENOSYS →
        body.length < 8 →
        ∃ W1, gss_pipe_downcall E K W pipe (idb ++ body) = .ok (E.eshort, W1) ∧
          (W1.msgs m).errno = -EAGAIN ∧ m ∉ W1.in_downcall pipe) ∧
      (E.eshort = -EFAULT ∨ E.eshort = -ENOMEM ∨ E.eshort = -EINVAL ∨ E.eshort = -ENOSYS →
        ∀ (p1 p2 p3 : Nat) (tb wb lb : List Nat),
        simple_get_bytes E { addr := buf, bytes := idb ++ body } (buf + 4)
          (buf + (idb ++ body).length) 4 = .ok (tb, p1) →
        simple_get_bytes E { addr := buf, bytes := idb ++ body } p1
          (buf + (idb ++ body).length) 4 = .ok (wb, p2) →
        get_u32 wb ≠ 0 →
        simple_get_bytes E { addr := buf, bytes := idb ++ body } p2
          (buf + (idb ++ body).length) 4 = .ok (lb, p3) →
        ((p3 + get_u32 lb) % ULONG_MOD > buf + (idb ++ body).length ∨
          (p3 + get_u32 lb) % ULONG_MOD < p3) →
        ∃ W1, gss_pipe_downcall E K W pipe (idb ++ body) = .ok (E.eshort, W1) ∧
          (W1.msgs m).errno = -EAGAIN ∧ m ∉ W1.in_downcall pipe) ∧
      (∀ (p1 p2 p3 p4 : Nat) (tb wb wire sb : List Nat),
        simple_get_bytes E { addr := buf, bytes := idb ++ body } (buf + 4)
          (buf + (idb ++ body).length) 4 = .ok (tb, p1) →
        simple_get_bytes E { addr := buf, bytes := idb ++ body } p1
          (buf + (idb ++ body).length) 4 = .ok (wb, p2) →
        get_u32 wb ≠ 0 →
        simple_get_netobj E { addr := buf, bytes := idb ++ body } p2
          (buf + (idb ++ body).length) = .ok (wire, p3) →
        simple_get_bytes E { addr := buf, bytes := idb ++ body } p3
          (buf + (idb ++ body).length) 4 = .ok (sb, p4) →
        ((p4 + get_u32 sb) % ULONG_MOD > buf + (idb ++ body).length ∨
          (p4 + get_u32 sb) % ULONG_MOD < p4) →
        ∃ W1, gss_pipe_downcall E K W pipe (idb ++ body) = .ok (-EFAULT, W1) ∧
          (W1.msgs m).errno = -EAGAIN ∧ m ∉ W1.in_downcall pipe)) := by
  refine ⟨fun hinv => ?_, fun src hsrc hsfit => ?_, fun ctx m huid hctx hfind => ⟨?_, ?_, ?_⟩⟩
  · unfold gss_pipe_downcall
    simp only [if_neg (Nat.not_lt.2 hlen), hbuf, hcopy, Bool.not_true, Bool.false_eq_true,
      if_false, simple_get_bytes_uid E buf idb body hid hfit, hinv, Bool.not_false,
      if_true]
  · have hmod : (buf + src.length) % ULONG_MOD = buf + src.length := Nat.mod_eq_of_lt hsfit
    have hmax : ¬ src.length > MSG_BUF_MAXSIZE := by unfold MSG_BUF_MAXSIZE; omega
    have hq : (buf + 4) % ULONG_MOD > buf + src.length ∨ (buf + 4) % ULONG_MOD < buf := by
      unfold ULONG_MOD at *
      omega
    unfold gss_pipe_downcall
    simp only [if_neg hmax, hbuf, hcopy, Bool.not_true, Bool.false_eq_true, if_false, hmod,
      simple_get_bytes, hq, if_true]
  · intro h4 hshort
    refine gss_pipe_downcall_fill_error_retry E K W pipe idb body buf ctx m E.eshort hlen hbuf
      hcopy hctx hfit hid huid hfind ?_ h4
    apply gss_fill_context_header_short
    · rw [List.length_append, hid]; omega
    · rw [List.length_append, hid]; omega
  · intro h4 p1 p2 p3 tb wb lb h1 h2 hw h3 hover
    exact gss_pipe_downcall_fill_error_retry E K W pipe idb body buf ctx m E.eshort hlen hbuf
      hcopy hctx hfit hid huid hfind
      (gss_fill_context_netobj_overrun E _ _ _ _ _ p1 p2 p3 tb wb lb _ h1 h2 hw h3 hover) h4
  · intro p1 p2 p3 p4 tb wb wire sb h1 h2 hw h3 h4 hover
    refine gss_pipe_downcall_fill_error_retry E K W pipe idb body buf ctx m (-EFAULT) hlen hbuf
      hcopy hctx hfit hid huid hfind ?_ (Or.inl rfl)
    rw [gss_fill_context_seclen_overrun E _ _ _ _ _ p1 p2 p3 p4 tb wb wire sb _ h1 h2 hw h3 h4
      hover]

/-- C21 exercised: a downcall whose uid is `(uid_t)-1` returns `-EINVAL`;
one of two bytes returns the errno of a short read; the one for uid 1000
with a security context declared too long returns `-EFAULT` and the upcall 5
gets `-EAGAIN`. -/
theorem gss_pipe_downcall_invalid_or_truncated_witness :
    gss_pipe_downcall E0 K0 W_pending 0 (put_u32 4294967295 ++ downcall_success_body)
      = .ok (-EINVAL, W_pending) ∧
    gss_pipe_downcall E0 K0 W_pending 0 [232, 3] = .ok (E0.eshort, W_pending) ∧
    (∃ W1, gss_pipe_downcall E0 K0 W_pending 0 (put_u32 1000 ++ downcall_overrun_body)
        = .ok (-EFAULT, W1) ∧
      (W1.msgs 5).errno = -EAGAIN ∧ 5 ∉ W1.in_downcall 0) :=
  ⟨(gss_pipe_downcall_invalid_or_truncated E0 K0 W_pending 0 (put_u32 4294967295)
      downcall_success_body 4096 (by decide) rfl rfl (by decide) rfl).1 (by decide),
   (gss_pipe_downcall_invalid_or_truncated E0 K0 W_pending 0 (put_u32 4294967295)
      downcall_success_body 4096 (by decide) rfl rfl (by decide) rfl).2.1 [232, 3]
      (by decide) (by decide),
   ((gss_pipe_downcall_invalid_or_truncated E0 K0 W_pending 0 (put_u32 1000)
      downcall_overrun_body 4096 (by decide) rfl rfl (by decide) rfl).2.2 42 5
      (by decide) rfl (by decide)).2.2 4104 4108 4120 4124 (put_u32 3600) (put_u32 128)
      [67, 84, 88, 66, 89, 84, 69, 83] (put_u32 100) rfl rfl (by decide) rfl rfl
      (by decide)⟩


/-! ### C29: `gss_find_downcall` and the service -/

/-- The entry `gss_find_downcall` stops at is the first of the pending list
that is in flight for the uid, wherever it stands in the list. -/
theorem find_downcall_first_match (W : World) (pipe uid m2 : Nat) (pre rest : List Nat)
    (hlist : W.in_downcall pipe = pre ++ m2 :: rest)
    (hpre : ∀ x ∈ pre, ¬ ((W.msgs x).uid = uid ∧ (W.msgs x).msg_inflight = true))
    (hu2 : (W.msgs m2).uid = uid) (hf2 : (W.msgs m2).msg_inflight = true) :
    (W.in_downcall pipe).find? (downcall_matches W uid) = some m2 := by
  have hmatch : downcall_matches W uid m2 = true := by
    simp [downcall_matches, hu2, hf2]
  have hnone : pre.find? (downcall_matches W uid) = none := by
    rw [List.find?_eq_none]
    intro x hx hmx
    apply hpre x hx
    simpa [downcall_matches] using hmx
  rw [hlist, List.find?_append, hnone, Option.none_or, List.find?_cons_of_pos _ hmatch]

/-- C29: `gss_add_msg` admits a second upcall for a user id that already has
one pending with another service, and puts it first.  `gss_find_downcall`
looks at the user id and at whether the message is in flight, not at the
service: its result is the same in every world with the same pending list,
user ids and in-flight marks, whatever the services are.  Wherever it stands
in the pending list, the first entry that is in flight for the uid of the
downcall (no entry before it is) is the one found, `gss_pipe_downcall`
delivers the context to it and takes it off the list, and every other entry
of the list, a later one for the same uid among them, stays pending,
unchanged. -/
theorem gss_find_downcall_ignores_service (E : Env) (K : DowncallAlloc) (W : World)
    (pipe : Nat) (idb body : List Nat) (buf ctx m2 : Nat) (pre rest : List Nat)
    (hlist : W.in_downcall pipe = pre ++ m2 :: rest)
    (hpre : ∀ x ∈ pre,
      ¬ ((W.msgs x).uid = get_u32 idb ∧ (W.msgs x).msg_inflight = true))
    (hu2 : (W.msgs m2).uid = get_u32 idb) (hf2 : (W.msgs m2).msg_inflight = true)
    (hlen : (idb ++ body).length ≤ MSG_BUF_MAXSIZE)
    (hbuf : K.kmalloc = some buf) (hcopy : K.copy_ok = true)
    (hctx : K.kzalloc = some ctx)
    (hfit : buf + (idb ++ body).length < ULONG_MOD)
    (hid : idb.length = 4) (huid : E.uid_valid (get_u32 idb) = true)
    (hfill : ∃ q,
      (gss_fill_context E W.jiffies (W.msgs m2).mech { addr := buf, bytes := idb ++ body }
        (buf + 4) (buf + (idb ++ body).length) ctx_fresh).1 = .ok q) :
    (∀ (W0 : World) (old new : Nat),
      old ∈ W0.in_downcall (W0.msgs new).pipe →
      (W0.msgs old).uid = (W0.msgs new).uid →
      (∀ pos ∈ W0.in_downcall (W0.msgs new).pipe,
        ¬ ((W0.msgs pos).uid = (W0.msgs new).uid ∧
           (W0.msgs pos).service = (W0.msgs new).service)) →
      (gss_add_msg W0 new).1 = new ∧
      (gss_add_msg W0 new).2.in_downcall (W0.msgs new).pipe
        = new :: W0.in_downcall (W0.msgs new).pipe ∧
      old ∈ (gss_add_msg W0 new).2.in_downcall (W0.msgs new).pipe ∧
      (W0.msgs old).service ≠ (W0.msgs new).service) ∧
    (∀ (W2 : World) (uid : Nat), W2.in_downcall pipe = W.in_downcall pipe →
      (∀ x, (W2.msgs x).uid = (W.msgs x).uid ∧
        (W2.msgs x).msg_inflight = (W.msgs x).msg_inflight) →
      (gss_find_downcall W2 pipe uid).1 = (gss_find_downcall W pipe uid).1) ∧
    (gss_find_downcall W pipe (get_u32 idb)).1 = some m2 ∧
    (∃ W1, gss_pipe_downcall E K W pipe (idb ++ body)
        = .ok (((idb ++ body).length : Int), W1) ∧
      (W1.msgs m2).ctx = some ctx ∧ m2 ∉ W1.in_downcall pipe ∧
      ∀ m1, m1 ∈ W.in_downcall pipe → m1 ≠ m2 →
        m1 ∈ W1.in_downcall pipe ∧ W1.msgs m1 = W.msgs m1) := by
  have hfind : (W.in_downcall pipe).find? (downcall_matches W (get_u32 idb)) = some m2 :=
    find_downcall_first_match W pipe (get_u32 idb) m2 pre rest hlist hpre hu2 hf2
  refine ⟨fun W0 old new hold huid0 hnone => ?_, fun W2 uid hl2 hm2 => ?_, ?_, ?_⟩
  · have hnm : ∀ pos ∈ W0.in_downcall (W0.msgs new).pipe,
        upcall_matches W0 (W0.msgs new).uid (W0.msgs new).service pos = false := by
      intro pos hpos
      have := hnone pos hpos
      simp only [upcall_matches]
      by_cases h1 : (W0.msgs pos).uid = (W0.msgs new).uid
      · have h2 : (W0.msgs pos).service ≠ (W0.msgs new).service := fun h => this ⟨h1, h⟩
        simp [h1, h2]
      · simp [h1]
    have hadd : gss_add_msg W0 new
        = (new, ((W0.setMsg new { W0.msgs new with count := (W0.msgs new).count + 1 }).setList
            (W0.msgs new).pipe
            (new :: W0.in_downcall (W0.msgs new).pipe))) := by
      unfold gss_add_msg
      simp only [gss_find_upcall_none W0 _ _ _ hnm]
      rfl
    rw [hadd]
    refine ⟨rfl, by simp [World.setList], by simp [World.setList, hold], ?_⟩
    exact fun h => hnone old hold ⟨huid0, h⟩
  · have hfun : downcall_matches W2 uid = downcall_matches W uid := by
      funext x
      simp only [downcall_matches, (hm2 x).1, (hm2 x).2]
    cases hf : (W.in_downcall pipe).find? (downcall_matches W uid) with
    | none =>
      rw [gss_find_downcall_none W pipe uid hf,
        gss_find_downcall_none W2 pipe uid (by rw [hl2, hfun]; exact hf)]
    | some m =>
      rw [gss_find_downcall_some W pipe uid m hf,
        gss_find_downcall_some W2 pipe uid m (by rw [hl2, hfun]; exact hf)]
  · rw [gss_find_downcall_some W pipe _ m2 hfind]
  · obtain ⟨hj, hmech, hc0, hl0, hx0⟩ := gss_pipe_downcall_world W ctx m2
    have hreach := gss_pipe_downcall_reach E K W pipe idb body buf ctx m2 hlen hbuf hcopy hctx
      hfit hid huid hfind
    obtain ⟨q, hq⟩ := hfill
    obtain ⟨W1, hres, hl, hd, hx, _⟩ := (gss_pipe_downcall_deliver_spec E
      ((W.setCtx ctx ctx_fresh).setMsg m2 { W.msgs m2 with count := (W.msgs m2).count + 1 })
      { addr := buf, bytes := idb ++ body } (buf + 4) (buf + (idb ++ body).length)
      (idb ++ body).length ctx m2).1 q (by rw [hj, hmech, hc0]; exact hq)
    refine ⟨W1, by rw [hreach, hres], ?_, ?_, fun m1 hm1 hne => ⟨?_, ?_⟩⟩
    · have := congrArg gss_upcall_msg.ctx hd
      simpa [gss_upcall_msg.data] using this
    · rw [hl, hl0]; simp
    · rw [hl, hl0]
      simp [hne, hm1]
    · rw [hx m1 hne, hx0 m1 hne]

/-- C29 exercised.  The upcall 6 (uid 1000, service 3) is added while the
upcall 5 (uid 1000, service 2) is pending; the success downcall for uid 1000
goes to 6, the one added last, and 5 stays pending.  With the upcall 9 of uid
2000 ahead of both in the list, the downcall for uid 1000 still goes to 6,
and 9 and 5 stay pending. -/
theorem gss_find_downcall_ignores_service_witness :
    W_two_services.in_downcall 0 = [6, 5] ∧
    (W_two_services.msgs 6).service ≠ (W_two_services.msgs 5).service ∧
    (gss_find_downcall W_two_services 0 1000).1 = some 6 ∧
    (∃ W1, gss_pipe_downcall E0 K0 W_two_services 0 (put_u32 1000 ++ downcall_success_body)
        = .ok (((put_u32 1000 ++ downcall_success_body).length : Int), W1) ∧
      (W1.msgs 6).ctx = some 42 ∧ 6 ∉ W1.in_downcall 0 ∧
      ∀ m1, m1 ∈ W_two_services.in_downcall 0 → m1 ≠ 6 →
        m1 ∈ W1.in_downcall 0 ∧ W1.msgs m1 = W_two_services.msgs m1) ∧
    W_other_first.in_downcall 0 = [9, 6, 5] ∧
    (W_other_first.msgs 9).uid = 2000 ∧
    (gss_find_downcall W_other_first 0 1000).1 = some 6 ∧
    (∃ W1, gss_pipe_downcall E0 K0 W_other_first 0 (put_u32 1000 ++ downcall_success_body)
        = .ok (((put_u32 1000 ++ downcall_success_body).length : Int), W1) ∧
      (W1.msgs 6).ctx = some 42 ∧ 6 ∉ W1.in_downcall 0 ∧
      ∀ m1, m1 ∈ W_other_first.in_downcall 0 → m1 ≠ 6 →
        m1 ∈ W1.in_downcall 0 ∧ W1.msgs m1 = W_other_first.msgs m1) :=
  ⟨rfl, by decide,
   (gss_find_downcall_ignores_service E0 K0 W_two_services 0 (put_u32 1000)
     downcall_success_body 4096 42 6 [] [5] rfl (fun x hx => by cases hx) rfl rfl
     (by decide) rfl rfl rfl (by decide) rfl (by decide) ⟨_, rfl⟩).2.2.1,
   (gss_find_downcall_ignores_service E0 K0 W_two_services 0 (put_u32 1000)
     downcall_success_body 4096 42 6 [] [5] rfl (fun x hx => by cases hx) rfl rfl
     (by decide) rfl rfl rfl (by decide) rfl (by decide) ⟨_, rfl⟩).2.2.2,
   rfl, rfl,
   (gss_find_downcall_ignores_service E0 K0 W_other_first 0 (put_u32 1000)
     downcall_success_body 4096 42 6 [9] [5] rfl
     (fun x hx => by
       have e : x = 9 := List.mem_singleton.mp hx
       subst e
       exact fun h => absurd h.1 (by decide))
     rfl rfl (by decide) rfl rfl rfl (by decide) rfl (by decide) ⟨_, rfl⟩).2.2.1,
   (gss_find_downcall_ignores_service E0 K0 W_other_first 0 (put_u32 1000)
     downcall_success_body 4096 42 6 [9] [5] rfl
     (fun x hx => by
       have e : x = 9 := List.mem_singleton.mp hx
       subst e
       exact fun h => absurd h.1 (by decide))
     rfl rfl (by decide) rfl rfl rfl (by decide) rfl (by decide) ⟨_, rfl⟩).2.2.2⟩


/-! ### C30: the byte range given to the mechanism import -/

/-- A read that succeeds ends at or before `end` and does not move the
pointer backwards. -/
theorem simple_get_bytes_ok (E : Env) (B : Buf) (p endp len q : Nat) (bs : List Nat)
    (h : simple_get_bytes E B p endp len = .ok (bs, q)) :
    p ≤ q ∧ q ≤ endp ∧ q < ULONG_MOD ∧ bs = B.read p len := by
  unfold simple_get_bytes at h
  dsimp only at h
  split at h
  · cases h
  · rename_i hc
    injection h with h
    injection h with hb hq
    have hlt : (p + len) % ULONG_MOD < ULONG_MOD := Nat.mod_lt _ (by unfold ULONG_MOD; norm_num)
    subst hq
    refine ⟨by omega, by omega, hlt, hb.symm⟩

/-- A netobj read that succeeds ends at or before `end` and does not move
the pointer backwards. -/
theorem simple_get_netobj_ok (E : Env) (B : Buf) (p endp q : Nat) (bs : List Nat)
    (h : simple_get_netobj E B p endp = .ok (bs, q)) :
    p ≤ q ∧ q ≤ endp := by
  unfold simple_get_netobj at h
  cases h1 : simple_get_bytes E B p endp 4 with
  | error e => rw [h1] at h; cases h
  | ok v =>
      obtain ⟨lb, p1⟩ := v
      rw [h1] at h
      dsimp only at h
      obtain ⟨hp1, _, _, _⟩ := simple_get_bytes_ok E B p endp 4 p1 lb h1
      split at h
      · cases h
      · split at h
        · cases h
        · rename_i hc _
          injection h with h
          injection h with _ hq
          subst hq
          omega

/-- The import is called at most once, and what `gss_fill_context_imports`
adds to `gss_fill_context` is the record of that call alone. -/
theorem gss_fill_context_imports_fst (E : Env) (now mech : Nat) (B : Buf) (p endp : Nat)
    (c : gss_cl_ctx) :
    (gss_fill_context_imports E now mech B p endp c).1
      = gss_fill_context E now mech B p endp c := by
  unfold gss_fill_context_imports gss_fill_context
  cases simple_get_bytes E B p endp 4 with
  | error e => rfl
  | ok v1 =>
    obtain ⟨tb, p1⟩ := v1
    dsimp only
    cases simple_get_bytes E B p1 endp 4 with
    | error e => rfl
    | ok v2 =>
      obtain ⟨wb, p2⟩ := v2
      dsimp only
      split
      · cases simple_get_bytes E B p2 endp 4 with
        | error e => rfl
        | ok v3 =>
          obtain ⟨rb, p3⟩ := v3
          dsimp only
          split <;> rfl
      · cases simple_get_netobj E B p2 endp with
        | error e => rfl
        | ok v3 =>
          obtain ⟨wire, p3⟩ := v3
          dsimp only
          cases simple_get_bytes E B p3 endp 4 with
          | error e => rfl
          | ok v4 =>
            obtain ⟨sb, p4⟩ := v4
            dsimp only
            split
            · rfl
            · split
              · rfl
              · split
                · rfl
                · cases simple_get_netobj E B ((p4 + get_u32 sb) % ULONG_MOD) endp with
                  | error e => rfl
                  | ok v5 => rfl

/-- Every call of the import recorded by `gss_fill_context_imports` is on a
range that starts at or after `p` and ends, without wrapping, at or before
`end`. -/
theorem gss_fill_context_imports_range (E : Env) (now mech : Nat) (B : Buf) (p endp : Nat)
    (c : gss_cl_ctx) (a len : Nat)
    (hmem : (a, len) ∈ (gss_fill_context_imports E now mech B p endp c).2) :
    p ≤ a ∧ a + len ≤ endp ∧ a + len < ULONG_MOD := by
  unfold gss_fill_context_imports at hmem
  cases h1 : simple_get_bytes E B p endp 4 with
  | error e => rw [h1] at hmem; simp at hmem
  | ok v1 =>
    obtain ⟨tb, p1⟩ := v1
    rw [h1] at hmem
    dsimp only at hmem
    cases h2 : simple_get_bytes E B p1 endp 4 with
    | error e => rw [h2] at hmem; simp at hmem
    | ok v2 =>
      obtain ⟨wb, p2⟩ := v2
      rw [h2] at hmem
      dsimp only at hmem
      split at hmem
      · cases h3 : simple_get_bytes E B p2 endp 4 with
        | error e => rw [h3] at hmem; simp at hmem
        | ok v3 =>
          obtain ⟨rb, p3⟩ := v3
          rw [h3] at hmem
          dsimp only at hmem
          split at hmem <;> simp at hmem
      · cases h3 : simple_get_netobj E B p2 endp with
        | error e => rw [h3] at hmem; simp at hmem
        | ok v3 =>
          obtain ⟨wire, p3⟩ := v3
          rw [h3] at hmem
          dsimp only at hmem
          cases h4 : simple_get_bytes E B p3 endp 4 with
          | error e => rw [h4] at hmem; simp at hmem
          | ok v4 =>
            obtain ⟨sb, p4⟩ := v4
            rw [h4] at hmem
            dsimp only at hmem
            obtain ⟨hp1, _, _, _⟩ := simple_get_bytes_ok E B p endp 4 p1 tb h1
            obtain ⟨hp2, _, _, _⟩ := simple_get_bytes_ok E B p1 endp 4 p2 wb h2
            obtain ⟨hp3, _⟩ := simple_get_netobj_ok E B p2 endp p3 wire h3
            obtain ⟨hp4, hp4e, hp4m, _⟩ := simple_get_bytes_ok E B p3 endp 4 p4 sb h4
            have hsec : get_u32 sb < U32_MOD := by
              unfold get_u32
              exact Nat.mod_lt _ (by unfold U32_MOD; norm_num)
            by_cases hover : (p4 + get_u32 sb) % ULONG_MOD > endp
                ∨ (p4 + get_u32 sb) % ULONG_MOD < p4
            · rw [if_pos hover] at hmem; simp at hmem
            · rw [if_neg hover] at hmem
              have hin : (a, len) = (p4, get_u32 sb) := by
                split at hmem
                · simpa using hmem
                · split at hmem
                  · simpa using hmem
                  · cases h5 : simple_get_netobj E B ((p4 + get_u32 sb) % ULONG_MOD) endp with
                    | error e => rw [h5] at hmem; simpa using hmem
                    | ok v5 => rw [h5] at hmem; simpa using hmem
              injection hin with ha hl
              subst ha
              subst hl
              unfold ULONG_MOD U32_MOD at *
              norm_num at *
              omega

/-- C30: `gss_fill_context` calls `gss_import_sec_context` only on a byte
range inside the downcall buffer: every call is on a range that starts at or
after `p` and ends at or before `end`, the sum `p + seclen` not wrapping
(`end` is a pointer, below 2^64).
When the payload reaches the `sec_context_len` field and the length declared
exceeds the bytes left, the function returns `-EFAULT` and has not called
the import.  When it fits and the import succeeds, the import was called
once, on that range; if nothing is left after the security context the parse
succeeds with the acceptor name as it was (empty in a context from
`gss_alloc_context`), and only if bytes are left is the acceptor name read
from them. -/
theorem gss_fill_context_import_in_bounds (E : Env) (now mech : Nat) (B : Buf)
    (p endp : Nat) (c : gss_cl_ctx) (hend : endp < ULONG_MOD) :
    (gss_fill_context_imports E now mech B p endp c).1
      = gss_fill_context E now mech B p endp c ∧
    (∀ a len, (a, len) ∈ (gss_fill_context_imports E now mech B p endp c).2 →
      p ≤ a ∧ a + len ≤ endp ∧ a + len < ULONG_MOD) ∧
    (∀ (p1 p2 p3 p4 : Nat) (tb wb wire sb : List Nat),
      simple_get_bytes E B p endp 4 = .ok (tb, p1) →
      simple_get_bytes E B p1 endp 4 = .ok (wb, p2) →
      get_u32 wb ≠ 0 →
      simple_get_netobj E B p2 endp = .ok (wire, p3) →
      simple_get_bytes E B p3 endp 4 = .ok (sb, p4) →
      (endp - p4 < get_u32 sb →
        (gss_fill_context E now mech B p endp c).1 = .error (-EFAULT) ∧
        (gss_fill_context E now mech B p endp c).2.gc_gss_ctx = c.gc_gss_ctx ∧
        (gss_fill_context_imports E now mech B p endp c).2 = []) ∧
      (get_u32 sb ≤ endp - p4 →
        0 ≤ (E.gss_import_sec_context mech (B.read p4 (get_u32 sb))).1 →
        (gss_fill_context_imports E now mech B p endp c).2 = [(p4, get_u32 sb)] ∧
        (p4 + get_u32 sb = endp →
          (gss_fill_context E now mech B p endp c).1 = .ok endp ∧
          (gss_fill_context E now mech B p endp c).2.gc_acceptor = c.gc_acceptor) ∧
        (p4 + get_u32 sb ≠ endp →
          (gss_fill_context E now mech B p endp c).1
            = match simple_get_netobj E B (p4 + get_u32 sb) endp with
              | .error e => .error e
              | .ok (_, p5) => .ok p5))) := by
  refine ⟨gss_fill_context_imports_fst E now mech B p endp c,
    fun a len h => gss_fill_context_imports_range E now mech B p endp c a len h,
    fun p1 p2 p3 p4 tb wb wire sb h1 h2 hw h3 h4 => ?_⟩
  obtain ⟨_, hp4e, hp4m, _⟩ := simple_get_bytes_ok E B p3 endp 4 p4 sb h4
  have hsec : get_u32 sb < U32_MOD := by
    unfold get_u32
    exact Nat.mod_lt _ (by unfold U32_MOD; norm_num)
  constructor
  · intro hex
    have hover : (p4 + get_u32 sb) % ULONG_MOD > endp
        ∨ (p4 + get_u32 sb) % ULONG_MOD < p4 := by
      unfold ULONG_MOD U32_MOD at *
      norm_num at *
      omega
    refine ⟨?_, ?_, ?_⟩
    · rw [gss_fill_context_seclen_overrun E now mech B p endp p1 p2 p3 p4 tb wb wire sb c
        h1 h2 hw h3 h4 hover]
    · rw [gss_fill_context_seclen_overrun E now mech B p endp p1 p2 p3 p4 tb wb wire sb c
        h1 h2 hw h3 h4 hover]
    · unfold gss_fill_context_imports
      simp only [h1, h2, h3, h4, hw, if_false, hover, if_true]
  · intro hfitq himp
    have hq : (p4 + get_u32 sb) % ULONG_MOD = p4 + get_u32 sb := by
      apply Nat.mod_eq_of_lt
      unfold ULONG_MOD U32_MOD at *
      norm_num at *
      omega
    have hover : ¬ (p4 + get_u32 sb > endp ∨ p4 + get_u32 sb < p4) := by omega
    have himp' : ¬ (E.gss_import_sec_context mech (B.read p4 (get_u32 sb))).1 < 0 := by omega
    refine ⟨?_, fun heq => ?_, fun hne => ?_⟩
    · unfold gss_fill_context_imports
      simp only [h1, h2, h3, h4, hw, if_false, hq, hover, himp']
      split
      · rfl
      · cases simple_get_netobj E B (p4 + get_u32 sb) endp with
        | error e => rfl
        | ok v => rfl
    · unfold gss_fill_context
      simp only [h1, h2, h3, h4, hw, if_false, hq, hover, himp']
      rw [if_pos heq]
      exact ⟨congrArg Except.ok heq, rfl⟩
    · unfold gss_fill_context
      simp only [h1, h2, h3, h4, hw, if_false, hq, hover, himp']
      rw [if_neg hne]
      cases simple_get_netobj E B (p4 + get_u32 sb) endp with
      | error e => rfl
      | ok v => rfl

/-- C30 exercised on the two downcalls for uid 1000: the one that declares
100 bytes with three left fails with `-EFAULT` without a call of the import;
the complete one calls it once, on the eight bytes at 4132, inside the
buffer of 60 bytes at 4096. -/
theorem gss_fill_context_import_in_bounds_witness :
    ((gss_fill_context E0 5000 0 { addr := 4096, bytes := put_u32 1000 ++ downcall_overrun_body }
        4100 (4096 + (put_u32 1000 ++ downcall_overrun_body).length) ctx_fresh).1
        = .error (-EFAULT) ∧
      (gss_fill_context E0 5000 0 { addr := 4096, bytes := put_u32 1000 ++ downcall_overrun_body }
        4100 (4096 + (put_u32 1000 ++ downcall_overrun_body).length) ctx_fresh).2.gc_gss_ctx
        = ctx_fresh.gc_gss_ctx ∧
      (gss_fill_context_imports E0 5000 0
        { addr := 4096, bytes := put_u32 1000 ++ downcall_overrun_body }
        4100 (4096 + (put_u32 1000 ++ downcall_overrun_body).length) ctx_fresh).2 = []) ∧
    (gss_fill_context_imports E0 5000 0
        { addr := 4096, bytes := put_u32 1000 ++ downcall_success_body }
        4100 (4096 + (put_u32 1000 ++ downcall_success_body).length) ctx_fresh).2
      = [(4124, 8)] ∧
    (4100 ≤ 4124 ∧ 4124 + 8 ≤ 4096 + (put_u32 1000 ++ downcall_success_body).length ∧
      4124 + 8 < ULONG_MOD) :=
  ⟨((gss_fill_context_import_in_bounds E0 5000 0
      { addr := 4096, bytes := put_u32 1000 ++ downcall_overrun_body } 4100
      (4096 + (put_u32 1000 ++ downcall_overrun_body).length) ctx_fresh (by decide)).2.2
      4104 4108 4120 4124 (put_u32 3600) (put_u32 128) [67, 84, 88, 66, 89, 84, 69, 83]
      (put_u32 100) rfl rfl (by decide) rfl rfl).1 (by decide),
   rfl,
   (gss_fill_context_import_in_bounds E0 5000 0
      { addr := 4096, bytes := put_u32 1000 ++ downcall_success_body } 4100
      (4096 + (put_u32 1000 ++ downcall_success_body).length) ctx_fresh (by decide)).2.1 4124 8
      (by decide)⟩


/-! ### C27: the length check of `gss_unwrap_resp_priv` -/

/-- C27, evaluated: a PRIVACY reply of 64 bytes carries the length word
4294967280 at offset 24, so `offset = 28`.  The sum `offset + opaque_len` is
4294967308, more than the 64 bytes received, but as a `u32` it is 12: the
check of line 1905 does not reject, `rcv_buf->len` becomes 12, less than
`offset`, and `gss_unwrap` is called on that buffer. -/
theorem gss_unwrap_resp_priv_length_wraps :
    rcv_wrap.word 24 = 4294967280 ∧ rcv_wrap.len = 64 ∧
    28 + rcv_wrap.word 24 > rcv_wrap.len ∧
    ¬ ((28 + rcv_wrap.word 24) % U32_MOD > rcv_wrap.len) ∧
    (gss_unwrap_resp_priv U_accept W_privacy 0 7 0 rcv_wrap 24).1 = 0 ∧
    (gss_unwrap_resp_priv U_accept W_privacy 0 7 0 rcv_wrap 24).2.2.1.len = 12 ∧
    (gss_unwrap_resp_priv U_accept W_privacy 0 7 0 rcv_wrap 24).2.2.1.len < 28 := by
  refine ⟨rfl, rfl, by decide, by decide, rfl, rfl, by decide⟩


/-! ### C28: UPTODATE and the context slot -/

/-- What one operation other than `destroy` does to UPTODATE and the context
slot of the credential: either UPTODATE is not newly set and the slot keeps
its value, or the operation installs a context through `gss_cred_set_ctx`. -/
theorem cred_op_uptodate (W : World) (cred : Nat) (o : CredOp) (ho : o ≠ .destroy) :
    ((test_bit .RPCAUTH_CRED_UPTODATE ((o.apply cred W).creds cred).cr_flags = true →
        test_bit .RPCAUTH_CRED_UPTODATE (W.creds cred).cr_flags = true) ∧
      ((o.apply cred W).creds cred).gc_ctx = (W.creds cred).gc_ctx) ∨
    (∃ ctx, ((o.apply cred W).creds cred).gc_ctx = some ctx ∧
      (o = .set_ctx ctx ∨ ∃ gss_msg, o = .downcall_result gss_msg ∧
        (W.msgs gss_msg).errno = 0 ∧ (W.msgs gss_msg).ctx = some ctx)) := by
  cases o with
  | set_ctx ctx =>
      rcases gss_cred_set_ctx_shape W cred ctx with ⟨_, h⟩ | ⟨_, _, h3, _⟩
      · left; simp only [CredOp.apply]; rw [h]; exact ⟨fun h => h, rfl⟩
      · right; exact ⟨ctx, h3, Or.inl rfl⟩
  | downcall_result gss_msg =>
      simp only [CredOp.apply, gss_handle_downcall_result]
      by_cases he : (W.msgs gss_msg).errno = 0
      · simp only [if_pos he]
        cases hc : (W.msgs gss_msg).ctx with
        | none => left; simp [World.setCred, test_bit]
        | some ctx =>
            rcases gss_cred_set_ctx_shape
              (W.setCred cred
                { W.creds cred with
                  cr_flags := clear_bit .RPCAUTH_CRED_NEGATIVE (W.creds cred).cr_flags })
              cred ctx with ⟨_, h⟩ | ⟨_, _, h3, _⟩
            · left
              simp only [h]
              simp [World.setCred, test_bit, clear_bit]
            · right
              refine ⟨ctx, ?_, Or.inr ⟨gss_msg, rfl, he, hc⟩⟩
              simpa [World.setCred] using h3
      · simp only [if_neg he]
        left
        by_cases hk : (W.msgs gss_msg).errno = -EKEYEXPIRED
        · simp [if_pos hk, World.setCred, test_bit, set_bit]
        · simp [if_neg hk, World.setCred, test_bit]
  | context_expired =>
      left; simp [CredOp.apply, clear_uptodate, World.setCred, test_bit, clear_bit]
  | get_ctx =>
      left
      simp [CredOp.apply, gss_cred_get_ctx_creds]
  | destroy => exact absurd rfl ho

/-- In every world that follows, without `gss_destroy_nullcred`, a world
where UPTODATE implies a context, UPTODATE implies a context. -/
theorem cred_reaches_uptodate_ctx (cred : Nat) (W W1 : World)
    (hreach : cred_reaches cred (fun o => o ≠ .destroy) W W1)
    (h0 : test_bit .RPCAUTH_CRED_UPTODATE (W.creds cred).cr_flags = true →
      (W.creds cred).gc_ctx ≠ none) :
    test_bit .RPCAUTH_CRED_UPTODATE (W1.creds cred).cr_flags = true →
      (W1.creds cred).gc_ctx ≠ none := by
  induction hreach with
  | refl => exact h0
  | op W1 o _ hall ih =>
      intro hu
      rcases cred_op_uptodate W1 cred o hall with ⟨h1, h2⟩ | ⟨ctx, h, _⟩
      · rw [h2]; exact ih (h1 hu)
      · rw [h]; simp
  | other W1 W2 _ heq ih =>
      rw [heq]; exact ih

/-- C28: UPTODATE goes from clear to set only in an operation that installs
a context through `gss_cred_set_ctx`, and a context slot that holds a
context is emptied only by `gss_destroy_nullcred`.  Hence, in every world
that follows `gss_create_cred` through `gss_cred_set_ctx`,
`gss_handle_downcall_result`, the clearing of UPTODATE, reads of the context
slot and events that leave the credential alone, that is as long as the
credential has not been handed to `gss_destroy_nullcred`, a credential with
UPTODATE set has a context, and `gss_destroying_context` and
`gss_destroy_cred` do not dereference NULL. -/
theorem uptodate_has_ctx :
    (∀ (W : World) (cred : Nat) (o : CredOp),
      test_bit .RPCAUTH_CRED_UPTODATE (W.creds cred).cr_flags = false →
      test_bit .RPCAUTH_CRED_UPTODATE ((o.apply cred W).creds cred).cr_flags = true →
      ∃ ctx, ((o.apply cred W).creds cred).gc_ctx = some ctx ∧
        (o = .set_ctx ctx ∨ ∃ gss_msg, o = .downcall_result gss_msg ∧
          (W.msgs gss_msg).errno = 0 ∧ (W.msgs gss_msg).ctx = some ctx)) ∧
    (∀ (W : World) (cred : Nat) (o : CredOp),
      (W.creds cred).gc_ctx ≠ none → ((o.apply cred W).creds cred).gc_ctx = none →
      o = .destroy) ∧
    (∀ (W0 W : World) (service : Nat) (acred : auth_cred) (cred : Nat),
      cred_reaches cred (fun o => o ≠ .destroy)
        (gss_create_cred W0 service acred (some cred)).2 W →
      (test_bit .RPCAUTH_CRED_UPTODATE (W.creds cred).cr_flags = true →
        (W.creds cred).gc_ctx ≠ none) ∧
      (∀ null_call, gss_destroying_context null_call W cred ≠ .bug) ∧
      (∀ null_call, gss_destroy_cred null_call W cred ≠ .bug)) := by
  refine ⟨fun W cred o h0 h1 => ?_, fun W cred o h0 h1 => ?_,
    fun W0 W service acred cred hreach => ?_⟩
  · by_cases ho : o = .destroy
    · subst ho
      have hf := (gss_destroy_nullcred_cred W cred).2
      simp only [CredOp.apply] at h1
      rw [hf, h0] at h1
      exact absurd h1 (by simp)
    · rcases cred_op_uptodate W cred o ho with ⟨h2, _⟩ | h2
      · rw [h2 h1] at h0; exact absurd h0 (by simp)
      · exact h2
  · by_contra ho
    rcases cred_op_uptodate W cred o ho with ⟨_, h2⟩ | ⟨ctx, h2, _⟩
    · rw [h2] at h1; exact h0 h1
    · rw [h2] at h1; cases h1
  · have hinv : test_bit .RPCAUTH_CRED_UPTODATE (W.creds cred).cr_flags = true →
        (W.creds cred).gc_ctx ≠ none := by
      apply cred_reaches_uptodate_ctx cred _ W hreach
      intro hu
      simp [gss_create_cred, World.setCred, test_bit, CRED_NEW_ONLY] at hu
    have hdc : ∀ null_call, gss_destroying_context null_call W cred ≠ .bug := by
      intro null_call
      unfold gss_destroying_context
      by_cases hu : test_bit .RPCAUTH_CRED_UPTODATE (W.creds cred).cr_flags = false
      · rw [if_pos hu]; simp
      · rw [if_neg hu]
        have hu' : test_bit .RPCAUTH_CRED_UPTODATE (W.creds cred).cr_flags = true := by
          simpa using hu
        cases hc : (W.creds cred).gc_ctx with
        | none => exact absurd hc (hinv hu')
        | some ctx => simp
    refine ⟨hinv, hdc, fun null_call => ?_⟩
    unfold gss_destroy_cred
    cases hd : gss_destroying_context null_call W cred with
    | bug => exact absurd hd (hdc null_call)
    | ok v =>
        obtain ⟨r, W1⟩ := v
        dsimp only
        split <;> simp

/-- C28 exercised on the credential 3 after `gss_cred_set_ctx` has installed
the context 7: UPTODATE is set, the slot holds 7, and
`gss_destroying_context` marks the context for destruction and returns 1. -/
theorem uptodate_has_ctx_witness :
    test_bit .RPCAUTH_CRED_UPTODATE
      (((CredOp.set_ctx 7).apply 3 W_created).creds 3).cr_flags = true ∧
    (((CredOp.set_ctx 7).apply 3 W_created).creds 3).gc_ctx ≠ none ∧
    gss_destroying_context (fun W _ => W) ((CredOp.set_ctx 7).apply 3 W_created) 3 ≠ .bug ∧
    (∃ W1, gss_destroying_context (fun W _ => W) ((CredOp.set_ctx 7).apply 3 W_created) 3
        = .ok (1, W1) ∧ (W1.ctxs 7).gc_proc = RPC_GSS_PROC_DESTROY) :=
  ⟨by decide,
   (uptodate_has_ctx.2.2 W_expired _ 2 acred_user 3
     (cred_reaches.op _ _ (.set_ctx 7) (cred_reaches.refl _) (by decide))).1 (by decide),
   (uptodate_has_ctx.2.2 W_expired _ 2 acred_user 3
     (cred_reaches.op _ _ (.set_ctx 7) (cred_reaches.refl _) (by decide))).2.1 _,
   ⟨_, rfl, rfl⟩⟩


/-! ### C23: the number of shadow pages -/

theorem priv_release_snd_buf_snd (r : rpc_rqst) :
    (if r.rq_release_snd_buf then priv_release_snd_buf r else r).rq_snd_buf = r.rq_snd_buf := by
  split <;> rfl

/-- C23, counterexample: with pages of 4096 bytes, a send buffer without
page data gets 0 shadow pages where `ceil((0 + 0) / 4096) + 1` is 1, and one
with 100 bytes of page data from `page_base = 4096` on gets 2 where
`ceil((4096 + 100) / 4096) + 1` is 3. -/
theorem alloc_enc_pages_num_counterexample :
    (alloc_enc_pages A0 (rq_pages 0 0)).1 = 0 ∧
    (alloc_enc_pages A0 (rq_pages 0 0)).2.rq_enc_pages_num = 0 ∧
    ((0 + 0 + 4096 - 1) / 4096 + 1 : Int) = 1 ∧
    (alloc_enc_pages A0 (rq_pages 4096 100)).1 = 0 ∧
    (alloc_enc_pages A0 (rq_pages 4096 100)).2.rq_enc_pages_num = 2 ∧
    ((4096 + 100 + 4096 - 1) / 4096 + 1 : Int) = 3 := by
  refine ⟨rfl, rfl, by decide, by decide, by decide, by decide⟩

/-- A value below 2^31 is the same as an `int`. -/
theorem int_of_u32_small (v : Nat) (h : v < 2 ^ 31) : int_of_u32 v = (v : Int) := by
  have hm : v % U32_MOD = v := Nat.mod_eq_of_lt (by unfold U32_MOD; omega)
  unfold int_of_u32
  rw [hm, if_pos h]

/-- The arithmetic of lines 1729-1731 for page data that ends within 32
bits, `P` being the size of a page. -/
theorem enc_pages_arith (base len P : Nat) (hP : 2 ≤ P) (hlen : len ≠ 0)
    (hfit : base + len ≤ U32_MOD) :
    int_of_u32 (((base + len + U32_MOD - 1) % U32_MOD) / P) - int_of_u32 (base / P) + 1 + 1
      = (((base + len - 1) / P : Nat) : Int) - ((base / P : Nat) : Int) + 2 ∧
    (base < P →
      int_of_u32 (((base + len + U32_MOD - 1) % U32_MOD) / P) - int_of_u32 (base / P) + 1 + 1
        = (((base + len + P - 1) / P : Nat) : Int) + 1) := by
  have hsum : (base + len + U32_MOD - 1) % U32_MOD = base + len - 1 := by
    unfold U32_MOD at *
    omega
  have hd1 : base / P ≤ base / 2 := Nat.div_le_div_left hP (by norm_num)
  have hd2 : (base + len - 1) / P ≤ (base + len - 1) / 2 := Nat.div_le_div_left hP (by norm_num)
  have hfirst : int_of_u32 (base / P) = ((base / P : Nat) : Int) := by
    apply int_of_u32_small
    unfold U32_MOD at hfit
    omega
  have hlast : int_of_u32 ((base + len - 1) / P) = (((base + len - 1) / P : Nat) : Int) := by
    apply int_of_u32_small
    unfold U32_MOD at hfit
    omega
  rw [hsum, hfirst, hlast]
  refine ⟨by omega, fun hb => ?_⟩
  have h1 : base / P = 0 := Nat.div_eq_of_lt hb
  have he : base + len + P - 1 = base + len - 1 + P := by omega
  have h2 : (base + len + P - 1) / P = (base + len - 1) / P + 1 := by
    rw [he, Nat.add_div_right _ (by omega : 0 < P)]
  rw [h1, h2]
  push_cast
  omega

/-- The loop of `alloc_enc_pages` fails with `-EAGAIN` or returns 0 and
leaves `rq_enc_pages_num` as it found it. -/
theorem alloc_enc_pages_fill_num (A : EncAlloc) (r2 : rpc_rqst) :
    (alloc_enc_pages_fill A r2).1 = -EAGAIN ∨
    ((alloc_enc_pages_fill A r2).1 = 0 ∧
      (alloc_enc_pages_fill A r2).2.rq_enc_pages_num = r2.rq_enc_pages_num) := by
  unfold alloc_enc_pages_fill
  cases List.find? _ _ with
  | some i => exact Or.inl rfl
  | none => exact Or.inr ⟨rfl, rfl⟩

/-- With page data, `alloc_enc_pages` fails with `-EAGAIN` or returns 0 with
`rq_enc_pages_num` as lines 1729-1731 compute it. -/
theorem alloc_enc_pages_with_pages (A : EncAlloc) (rqstp : rpc_rqst)
    (hlen : rqstp.rq_snd_buf.page_len ≠ 0) :
    (alloc_enc_pages A rqstp).1 = -EAGAIN ∨
    ((alloc_enc_pages A rqstp).1 = 0 ∧
      (alloc_enc_pages A rqstp).2.rq_enc_pages_num = enc_pages_num A rqstp.rq_snd_buf) := by
  have hsnd := priv_release_snd_buf_snd rqstp
  unfold alloc_enc_pages
  generalize (if rqstp.rq_release_snd_buf = true then priv_release_snd_buf rqstp else rqstp)
    = r0 at hsnd ⊢
  rw [← hsnd] at hlen
  simp only [hlen, if_false]
  cases A.kmalloc _ with
  | none => exact Or.inl rfl
  | some arr =>
      dsimp only
      rcases alloc_enc_pages_fill_num A
        { r0 with rq_enc_pages_num := enc_pages_num A r0.rq_snd_buf, rq_enc_pages := some arr }
        with h | ⟨h1, h2⟩
      · exact Or.inl h
      · exact Or.inr ⟨h1, by rw [h2, ← hsnd]⟩

/-- C23, amended: `alloc_enc_pages` returns 0 or `-EAGAIN`.  For a send
buffer without page data it returns 0 and sets `rq_enc_pages_num` to 0.  For
one with page data (`page_base + page_len` within 32 bits, pages of at least
two bytes), when it returns 0 it has set `rq_enc_pages_num` to
`last - first + 2`, where `first = floor(page_base / PAGE_SIZE)` and
`last = floor((page_base + page_len - 1) / PAGE_SIZE)`: one more than the
number of pages the data lies on.  That is
`ceil((page_base + page_len) / PAGE_SIZE) + 1` when `page_base` is less than
`PAGE_SIZE`. -/
theorem alloc_enc_pages_num (A : EncAlloc) (rqstp : rpc_rqst)
    (hshift : 1 ≤ A.PAGE_CACHE_SHIFT)
    (hfit : rqstp.rq_snd_buf.page_base + rqstp.rq_snd_buf.page_len ≤ U32_MOD) :
    ((alloc_enc_pages A rqstp).1 = 0 ∨ (alloc_enc_pages A rqstp).1 = -EAGAIN) ∧
    (rqstp.rq_snd_buf.page_len = 0 →
      (alloc_enc_pages A rqstp).1 = 0 ∧ (alloc_enc_pages A rqstp).2.rq_enc_pages_num = 0) ∧
    (rqstp.rq_snd_buf.page_len ≠ 0 → (alloc_enc_pages A rqstp).1 = 0 →
      (alloc_enc_pages A rqstp).2.rq_enc_pages_num
        = (((rqstp.rq_snd_buf.page_base + rqstp.rq_snd_buf.page_len - 1)
              / 2 ^ A.PAGE_CACHE_SHIFT : Nat) : Int)
          - ((rqstp.rq_snd_buf.page_base / 2 ^ A.PAGE_CACHE_SHIFT : Nat) : Int) + 2 ∧
      (rqstp.rq_snd_buf.page_base < 2 ^ A.PAGE_CACHE_SHIFT →
        (alloc_enc_pages A rqstp).2.rq_enc_pages_num
          = (((rqstp.rq_snd_buf.page_base + rqstp.rq_snd_buf.page_len
                + 2 ^ A.PAGE_CACHE_SHIFT - 1) / 2 ^ A.PAGE_CACHE_SHIFT : Nat) : Int) + 1)) := by
  have hsnd := priv_release_snd_buf_snd rqstp
  have hP : 2 ≤ 2 ^ A.PAGE_CACHE_SHIFT := by
    calc 2 = 2 ^ 1 := by norm_num
      _ ≤ 2 ^ A.PAGE_CACHE_SHIFT := Nat.pow_le_pow_right (by norm_num) hshift
  by_cases hlen : rqstp.rq_snd_buf.page_len = 0
  · have h0 : alloc_enc_pages A rqstp
        = (0, { (if rqstp.rq_release_snd_buf then priv_release_snd_buf rqstp else rqstp) with
                rq_enc_pages_num := 0 }) := by
      unfold alloc_enc_pages
      simp only [hsnd, hlen, if_true]
    rw [h0]
    exact ⟨Or.inl rfl, fun _ => ⟨rfl, rfl⟩, fun h => absurd hlen h⟩
  · have hnum : enc_pages_num A rqstp.rq_snd_buf
          = (((rqstp.rq_snd_buf.page_base + rqstp.rq_snd_buf.page_len - 1)
                / 2 ^ A.PAGE_CACHE_SHIFT : Nat) : Int)
            - ((rqstp.rq_snd_buf.page_base / 2 ^ A.PAGE_CACHE_SHIFT : Nat) : Int) + 2 ∧
        (rqstp.rq_snd_buf.page_base < 2 ^ A.PAGE_CACHE_SHIFT →
          enc_pages_num A rqstp.rq_snd_buf
            = (((rqstp.rq_snd_buf.page_base + rqstp.rq_snd_buf.page_len
                  + 2 ^ A.PAGE_CACHE_SHIFT - 1) / 2 ^ A.PAGE_CACHE_SHIFT : Nat) : Int) + 1) :=
      enc_pages_arith _ _ _ hP hlen hfit
    rcases alloc_enc_pages_with_pages A rqstp hlen with h | ⟨h1, h2⟩
    · refine ⟨Or.inr h, fun h0 => absurd h0 hlen, fun _ h0 => ?_⟩
      rw [h] at h0
      exact absurd h0 (by decide)
    · refine ⟨Or.inl h1, fun h0 => absurd h0 hlen, fun _ _ => ?_⟩
      rw [h2]
      exact hnum

/-- C23 exercised with pages of 4096 bytes: 5000 bytes of page data from
`page_base = 100` on lie on two pages and get three shadow pages,
`ceil(5100 / 4096) + 1`. -/
theorem alloc_enc_pages_num_witness :
    (alloc_enc_pages A0 (rq_pages 100 5000)).1 = 0 ∧
    (alloc_enc_pages A0 (rq_pages 100 5000)).2.rq_enc_pages_num = 3 ∧
    (alloc_enc_pages A0 (rq_pages 100 5000)).2.rq_enc_pages_num
      = (((100 + 5000 + 2 ^ 12 - 1) / 2 ^ 12 : Nat) : Int) + 1 :=
  ⟨by decide, by decide,
   ((alloc_enc_pages_num A0 (rq_pages 100 5000) (by decide) (by decide)).2.2
     (by decide) (by decide)).2 (by decide)⟩


/-! ### C22: the padding of `gss_wrap_req_priv` -/

/-- The padding of line 1811 for the wrapped length `L = len - offset` taken
in 32 bits: between 0 and 3, and the least number that brings `L` to a
multiple of 4. -/
theorem priv_pad_spec (len offset : Nat) :
    priv_pad len offset ≤ 3 ∧
    ((len + U32_MOD - offset % U32_MOD) % U32_MOD + priv_pad len offset) % 4 = 0 ∧
    (∀ k, k < priv_pad len offset →
      ((len + U32_MOD - offset % U32_MOD) % U32_MOD + k) % 4 ≠ 0) := by
  have hand : ∀ x : Nat, x &&& 3 = x % 4 := fun x => Nat.and_pow_two_sub_one_eq_mod x 2
  unfold priv_pad
  rw [hand]
  generalize (len + U32_MOD - offset % U32_MOD) % U32_MOD = L
  unfold U32_MOD
  refine ⟨by omega, by omega, fun k hk => by omega⟩

theorem kvec_store_iov_len (v : kvec) (off : Nat) (bs : List Nat) :
    (v.store off bs).iov_len = v.iov_len := rfl

theorem kvec_store_inside (v : kvec) (off : Nat) (bs : List Nat) (i : Nat)
    (hi : i < bs.length) : (v.store off bs).mem (off + i) = bs.getD i 0 := by
  unfold kvec.store
  simp [hi]

theorem kvec_store_below (v : kvec) (off : Nat) (bs : List Nat) (a : Nat)
    (ha : a < off) : (v.store off bs).mem a = v.mem a := by
  unfold kvec.store
  have : ¬ (off ≤ a ∧ a < off + bs.length) := by omega
  simp [this]

theorem kvec_store_above (v : kvec) (off : Nat) (bs : List Nat) (a : Nat)
    (ha : off + bs.length ≤ a) : (v.store off bs).mem a = v.mem a := by
  unfold kvec.store
  have : ¬ (off ≤ a ∧ a < off + bs.length) := by omega
  simp [this]


theorem replicate_getD_zero (n k : Nat) : (List.replicate n 0).getD k 0 = 0 := by
  rw [List.getD_eq_getElem?_getD, List.getElem?_replicate]
  split <;> rfl
/-- What `priv_pad_append` does to a send buffer that uses its tail: the
length word at `p` is the wrapped length, `pad` zero bytes follow the tail,
and `len` grows by `pad` in 32 bits. -/
theorem priv_pad_append_tail (snd : xdr_buf) (p : Nat) (ht : in_tail snd = true) :
    (priv_pad_append snd p).len = (snd.len + priv_pad snd.len ((p + 4) % U32_MOD)) % U32_MOD ∧
    (priv_pad_append snd p).tail.iov_len
      = snd.tail.iov_len + priv_pad snd.len ((p + 4) % U32_MOD) ∧
    (∀ k, k < priv_pad snd.len ((p + 4) % U32_MOD) →
      (priv_pad_append snd p).tail.mem (snd.tail.iov_len + k) = 0) ∧
    (∀ a, a < snd.tail.iov_len → (priv_pad_append snd p).tail.mem a = snd.tail.mem a) ∧
    (priv_pad_append snd p).head.iov_len = snd.head.iov_len ∧
    (∀ i, i < 4 → (priv_pad_append snd p).head.mem (p + i)
      = (htonl ((snd.len + U32_MOD - (p + 4) % U32_MOD) % U32_MOD)).getD i 0) := by
  have hl4 : (htonl ((snd.len + U32_MOD - (p + 4) % U32_MOD) % U32_MOD)).length = 4 := rfl
  have ht' : in_tail { snd with
      head := snd.head.store p
        (htonl ((snd.len + U32_MOD - (p + 4) % U32_MOD) % U32_MOD)) } = true := ht
  unfold priv_pad_append
  simp only [ht', if_true]
  generalize htonl ((snd.len + U32_MOD - (p + 4) % U32_MOD) % U32_MOD) = lw at hl4 ⊢
  generalize priv_pad snd.len ((p + 4) % U32_MOD) = pad
  simp only [kvec_store_iov_len]
  refine ⟨trivial, trivial, fun k hk => ?_, fun a ha => ?_, trivial, fun i hi => ?_⟩
  · rw [kvec_store_inside snd.tail snd.tail.iov_len (List.replicate pad 0) k
      (by rw [List.length_replicate]; exact hk)]
    exact replicate_getD_zero pad k
  · exact kvec_store_below snd.tail snd.tail.iov_len (List.replicate pad 0) a ha
  · exact kvec_store_inside snd.head p lw i (by rw [hl4]; exact hi)

/-- What `priv_pad_append` does to a send buffer without page data and tail:
`pad` zero bytes follow the head, `len` grows by `pad` in 32 bits, and the
length word at `p` is the wrapped length if the head reaches beyond it. -/
theorem priv_pad_append_head (snd : xdr_buf) (p : Nat) (ht : in_tail snd = false) :
    (priv_pad_append snd p).len = (snd.len + priv_pad snd.len ((p + 4) % U32_MOD)) % U32_MOD ∧
    (priv_pad_append snd p).head.iov_len
      = snd.head.iov_len + priv_pad snd.len ((p + 4) % U32_MOD) ∧
    (∀ k, k < priv_pad snd.len ((p + 4) % U32_MOD) →
      (priv_pad_append snd p).head.mem (snd.head.iov_len + k) = 0) ∧
    (p + 4 ≤ snd.head.iov_len →
      ∀ i, i < 4 → (priv_pad_append snd p).head.mem (p + i)
        = (htonl ((snd.len + U32_MOD - (p + 4) % U32_MOD) % U32_MOD)).getD i 0) ∧
    (priv_pad_append snd p).tail.iov_len = snd.tail.iov_len := by
  have hl4 : (htonl ((snd.len + U32_MOD - (p + 4) % U32_MOD) % U32_MOD)).length = 4 := rfl
  have ht' : in_tail { snd with
      head := snd.head.store p
        (htonl ((snd.len + U32_MOD - (p + 4) % U32_MOD) % U32_MOD)) } = false := ht
  unfold priv_pad_append
  simp only [ht', Bool.false_eq_true, if_false]
  generalize htonl ((snd.len + U32_MOD - (p + 4) % U32_MOD) % U32_MOD) = lw at hl4 ⊢
  generalize priv_pad snd.len ((p + 4) % U32_MOD) = pad
  simp only [kvec_store_iov_len]
  refine ⟨trivial, trivial, fun k hk => ?_, fun hp i hi => ?_, trivial⟩
  · rw [kvec_store_inside (snd.head.store p lw) snd.head.iov_len (List.replicate pad 0) k
      (by rw [List.length_replicate]; exact hk)]
    exact replicate_getD_zero pad k
  · rw [kvec_store_below (snd.head.store p lw) snd.head.iov_len (List.replicate pad 0) (p + i)
      (by omega)]
    exact kvec_store_inside snd.head p lw i (by rw [hl4]; exact hi)

/-- C22: whenever `gss_wrap_req_priv` returns 0, `gss_wrap` had returned
`GSS_S_COMPLETE` or `GSS_S_CONTEXT_EXPIRED` and left a buffer `w.2` within
`buflen`.  With `L = w.2.len - offset` taken in 32 bits, the pad
`3 - ((L - 1) & 3)` is between 0 and 3 and is the least number with
`(L + pad) mod 4 = 0`; exactly `pad` zero bytes are appended, to the tail or,
without page data and tail, to the head; `len` and the `iov_len` of that
part grow by `pad` (`len` in 32 bits); and the length word at `p` holds `L`,
the wrapped length without the padding. -/
theorem gss_wrap_req_priv_padding (C : WrapCalls) (A : EncAlloc)
    (encode : rpc_rqst → Nat → rpc_rqst) (W : World) (cred ctx : Nat) (rqstp : rpc_rqst)
    (p : Nat) (rq : rpc_rqst) (W1 : World)
    (h : gss_wrap_req_priv C A encode W cred ctx rqstp p = .ok (0, rq, W1)) :
    ∃ w : Nat × xdr_buf,
      (∃ snd2 inpages, w = C.gss_wrap (W.ctxs ctx).gc_gss_ctx ((p + 4) % U32_MOD) snd2 inpages) ∧
      (w.1 = GSS_S_CONTEXT_EXPIRED ∨ w.1 = 0) ∧ w.2.len ≤ w.2.buflen ∧
      priv_pad w.2.len ((p + 4) % U32_MOD)
        = 3 - (((w.2.len + U32_MOD - (p + 4) % U32_MOD) % U32_MOD + U32_MOD - 1) % U32_MOD
                &&& 3) ∧
      priv_pad w.2.len ((p + 4) % U32_MOD) ≤ 3 ∧
      ((w.2.len + U32_MOD - (p + 4) % U32_MOD) % U32_MOD
        + priv_pad w.2.len ((p + 4) % U32_MOD)) % 4 = 0 ∧
      (∀ k, k < priv_pad w.2.len ((p + 4) % U32_MOD) →
        ((w.2.len + U32_MOD - (p + 4) % U32_MOD) % U32_MOD + k) % 4 ≠ 0) ∧
      rq.rq_snd_buf.len = (w.2.len + priv_pad w.2.len ((p + 4) % U32_MOD)) % U32_MOD ∧
      (w.2.len + 3 < U32_MOD →
        rq.rq_snd_buf.len = w.2.len + priv_pad w.2.len ((p + 4) % U32_MOD)) ∧
      (in_tail w.2 = true →
        rq.rq_snd_buf.tail.iov_len
          = w.2.tail.iov_len + priv_pad w.2.len ((p + 4) % U32_MOD) ∧
        (∀ k, k < priv_pad w.2.len ((p + 4) % U32_MOD) →
          rq.rq_snd_buf.tail.mem (w.2.tail.iov_len + k) = 0) ∧
        (∀ a, a < w.2.tail.iov_len → rq.rq_snd_buf.tail.mem a = w.2.tail.mem a) ∧
        rq.rq_snd_buf.head.iov_len = w.2.head.iov_len ∧
        (∀ i, i < 4 → rq.rq_snd_buf.head.mem (p + i)
          = (htonl ((w.2.len + U32_MOD - (p + 4) % U32_MOD) % U32_MOD)).getD i 0)) ∧
      (in_tail w.2 = false →
        rq.rq_snd_buf.head.iov_len
          = w.2.head.iov_len + priv_pad w.2.len ((p + 4) % U32_MOD) ∧
        (∀ k, k < priv_pad w.2.len ((p + 4) % U32_MOD) →
          rq.rq_snd_buf.head.mem (w.2.head.iov_len + k) = 0) ∧
        (p + 4 ≤ w.2.head.iov_len →
          ∀ i, i < 4 → rq.rq_snd_buf.head.mem (p + i)
            = (htonl ((w.2.len + U32_MOD - (p + 4) % U32_MOD) % U32_MOD)).getD i 0) ∧
        rq.rq_snd_buf.tail.iov_len = w.2.tail.iov_len) := by
  have key : ∀ (r3 : rpc_rqst) (w : Nat × xdr_buf),
      gss_wrap_req_priv_finish W cred r3 p w = .ok (0, rq, W1) →
      (w.1 = GSS_S_CONTEXT_EXPIRED ∨ w.1 = 0) ∧ w.2.len ≤ w.2.buflen ∧
      rq.rq_snd_buf = priv_pad_append w.2 p := by
    intro r3 w hf
    unfold gss_wrap_req_priv_finish at hf
    by_cases hb : w.2.len > w.2.buflen
    · rw [if_pos hb] at hf; cases hf
    · rw [if_neg hb] at hf
      by_cases hs : w.1 = GSS_S_CONTEXT_EXPIRED ∨ w.1 = 0
      · rw [if_pos hs] at hf
        injection hf with hf
        injection hf with _ hf
        injection hf with hrq _
        refine ⟨hs, by omega, ?_⟩
        rw [← hrq]
      · rw [if_neg hs] at hf
        injection hf with hf
        injection hf with hf _
        exact absurd hf (by decide)
  have hfin : ∃ (r3 : rpc_rqst) (snd2 : xdr_buf) (inpages : Nat),
      gss_wrap_req_priv_finish W cred r3 p
        (C.gss_wrap (W.ctxs ctx).gc_gss_ctx ((p + 4) % U32_MOD) snd2 inpages)
        = .ok (0, rq, W1) := by
    unfold gss_wrap_req_priv at h
    dsimp only at h
    split at h
    · rename_i ha
      injection h with h
      injection h with h _
      exact absurd h ha
    · split at h
      · cases h
      · rename_i snd2 _
        exact ⟨_, snd2, _, h⟩
  obtain ⟨r3, snd2, inpages, hf⟩ := hfin
  obtain ⟨hstat, hlen, hrq⟩ := key r3 _ hf
  generalize hwdef : C.gss_wrap (W.ctxs ctx).gc_gss_ctx ((p + 4) % U32_MOD) snd2 inpages = w
    at hstat hlen hrq
  obtain ⟨hp1, hp2, hp3⟩ := priv_pad_spec w.2.len ((p + 4) % U32_MOD)
  rw [Nat.mod_mod] at hp2 hp3
  have hlen' : rq.rq_snd_buf.len
      = (w.2.len + priv_pad w.2.len ((p + 4) % U32_MOD)) % U32_MOD := by
    rw [hrq]
    cases ht : in_tail w.2
    · exact (priv_pad_append_head w.2 p ht).1
    · exact (priv_pad_append_tail w.2 p ht).1
  refine ⟨w, ⟨snd2, inpages, ?_⟩, hstat, hlen, ?_, hp1, hp2, hp3, hlen', fun hw => ?_,
    fun ht => ?_, fun ht => ?_⟩
  · exact hwdef.symm
  · unfold priv_pad; rw [Nat.mod_mod]
  · rw [hlen']
    apply Nat.mod_eq_of_lt
    omega
  · rw [hrq]
    exact (priv_pad_append_tail w.2 p ht).2
  · rw [hrq]
    exact (priv_pad_append_head w.2 p ht).2

/-- C22 exercised: a request with sequence number 41, a head of 40 bytes and
100 bytes of page data is wrapped from `p = 24` on by a mechanism that adds
21 bytes to the tail.  The wrapped length is 161 - 28 = 133, the pad is 3,
three zero bytes follow the 21 bytes of the tail, `len` becomes 164, and the
length word at 24 holds 133. -/
theorem gss_wrap_req_priv_padding_witness :
    gss_wrap_req_priv C0 A0 encode_none W_privacy 0 7 (rq_pages 0 100) 24
      = .ok (0, rq_padded, W_privacy) ∧
    rq_padded.rq_snd_buf.len = 164 ∧ rq_padded.rq_snd_buf.tail.iov_len = 24 ∧
    rq_padded.rq_snd_buf.tail.mem 20 = 255 ∧
    rq_padded.rq_snd_buf.tail.mem 21 = 0 ∧ rq_padded.rq_snd_buf.tail.mem 22 = 0 ∧
    rq_padded.rq_snd_buf.tail.mem 23 = 0 ∧
    rq_padded.rq_snd_buf.head.mem 27 = 133 ∧
    ∃ w : Nat × xdr_buf, (w.1 = GSS_S_CONTEXT_EXPIRED ∨ w.1 = 0) ∧
      priv_pad w.2.len ((24 + 4) % U32_MOD) ≤ 3 ∧
      rq_padded.rq_snd_buf.len
        = (w.2.len + priv_pad w.2.len ((24 + 4) % U32_MOD)) % U32_MOD :=
  ⟨rfl, by decide, by decide, by decide, by decide, by decide, by decide, by decide,
   (gss_wrap_req_priv_padding C0 A0 encode_none W_privacy 0 7 (rq_pages 0 100) 24
     rq_padded W_privacy rfl).elim
     (fun w hw => ⟨w, hw.2.1, hw.2.2.2.2.1, hw.2.2.2.2.2.2.2.1⟩)⟩

/-! ### C25: requests on a context that is not DATA are not wrapped -/

/-- C25: when the context of the credential carries a processing code other
than `RPC_GSS_PROC_DATA`, then whatever the service of the credential,
`gss_wrap_req` returns 0 with the request exactly as the encode callback
leaves it when called on the unchanged request at `p`, and `gss_unwrap_resp`
returns what the decode callback returns on the unchanged reply at `q`,
without setting `au_rslack`.  Neither result depends on the helpers of the
mechanism (`C`, `A`, `U`), and the world changes by the reference on the
context taken and dropped only. -/
theorem gss_wrap_req_not_data_unwrapped {δ : Type} (C : WrapCalls) (A : EncAlloc)
    (encode : rpc_rqst → Nat → rpc_rqst) (U : UnwrapCalls)
    (decode : RcvBuf → Nat → Int × δ) (W : World) (cred ctx : Nat)
    (rqstp : rpc_rqst) (p rq_seqno : Nat) (rcv : RcvBuf) (q : Nat) (au_verfsize : Int)
    (hctx : (W.creds cred).gc_ctx = some ctx)
    (hproc : (W.ctxs ctx).gc_proc ≠ RPC_GSS_PROC_DATA) :
    gss_wrap_req C A encode W cred rqstp p
      = .ok (0, encode rqstp p, gss_put_ctx (gss_get_ctx W ctx) ctx) ∧
    gss_unwrap_resp U decode W cred rq_seqno rcv q au_verfsize
      = .ok ({ status := (decode rcv q).1, decoded := some (decode rcv q).2,
               au_rslack := none },
             gss_put_ctx (gss_get_ctx W ctx) ctx) ∧
    (gss_put_ctx (gss_get_ctx W ctx) ctx).creds = W.creds := by
  have hp : ((gss_get_ctx W ctx).ctxs ctx).gc_proc ≠ RPC_GSS_PROC_DATA := by
    simpa [gss_get_ctx, World.setCtx] using hproc
  refine ⟨?_, ?_, ?_⟩
  · simp only [gss_wrap_req, gss_cred_get_ctx, hctx]
    rw [if_pos hp]
  · simp only [gss_unwrap_resp, gss_cred_get_ctx, hctx]
    rw [if_pos hp]
    rfl
  · rw [gss_put_ctx_creds, gss_get_ctx_creds]

theorem gss_wrap_req_not_data_unwrapped_witness :
    (W_destroy.creds 0).gc_ctx = some 7 ∧
    (W_destroy.creds 0).gc_service = RPC_GSS_SVC_PRIVACY ∧
    (W_destroy.ctxs 7).gc_proc ≠ RPC_GSS_PROC_DATA ∧
    gss_wrap_req C0 A0 encode_none W_destroy 0 (rq_pages 0 100) 24
      = .ok (0, rq_pages 0 100, gss_put_ctx (gss_get_ctx W_destroy 7) 7) ∧
    gss_unwrap_resp U_accept decode_offset W_destroy 0 41 rcv_reply 24 2
      = .ok ({ status := 0, decoded := some 24, au_rslack := none },
             gss_put_ctx (gss_get_ctx W_destroy 7) 7) :=
  ⟨rfl, rfl, by decide,
   (gss_wrap_req_not_data_unwrapped C0 A0 encode_none U_accept decode_offset W_destroy 0 7
      (rq_pages 0 100) 24 41 rcv_reply 24 2 rfl (by decide)).1,
   (gss_wrap_req_not_data_unwrapped C0 A0 encode_none U_accept decode_offset W_destroy 0 7
      (rq_pages 0 100) 24 41 rcv_reply 24 2 rfl (by decide)).2.1⟩

/-! ### C26: the credential after a mechanism call -/

theorem clear_uptodate_creds (W : World) (cred : Nat) :
    (clear_uptodate W cred).creds = Function.update W.creds cred
      { W.creds cred with
        cr_flags := { (W.creds cred).cr_flags with uptodate := false } } := rfl

theorem expired_frame_some (W : World) (cred s : Nat) (failed : Prop) (W1 : World)
    (h : W1.creds = (if s = GSS_S_CONTEXT_EXPIRED then clear_uptodate W cred else W).creds)
    (hf : s ≠ GSS_S_CONTEXT_EXPIRED → s ≠ GSS_S_COMPLETE → failed) :
    expired_frame W cred (some s) failed W1 := by
  unfold expired_frame
  refine ⟨fun hs => ?_, fun hs => ?_, fun t ht => ?_⟩
  · have hs1 : s = GSS_S_CONTEXT_EXPIRED := Option.some.inj hs
    rw [h, if_pos hs1, clear_uptodate_creds]
  · have hs1 : ¬ s = GSS_S_CONTEXT_EXPIRED := fun e => hs (congrArg some e)
    rw [h, if_neg hs1]
  · have hst : s = t := Option.some.inj ht
    rw [← hst]
    exact hf

theorem expired_frame_none (W : World) (cred : Nat) (failed : Prop) (W1 : World)
    (h : W1.creds = W.creds) :
    expired_frame W cred none failed W1 := by
  unfold expired_frame
  exact ⟨fun hs => (by cases hs), fun _ => h, fun t ht => (by cases ht)⟩

theorem ite_world_creds (c : Prop) [Decidable c] (W : World) (cred ctx : Nat) :
    (gss_put_ctx (if c then clear_uptodate W cred else W) ctx).creds
      = (if c then clear_uptodate W cred else W).creds := by
  rw [gss_put_ctx_creds]

theorem gss_marshal_frame (mic : Option Nat → List Nat → Nat × List Nat) (W : World)
    (cred ctx : Nat) (hdr : List Nat) (hctx : (W.creds cred).gc_ctx = some ctx) :
    ∃ r W1, gss_marshal mic W cred hdr = .ok (r, W1) ∧
      expired_frame W cred (gss_marshal_maj_stat mic W cred hdr) (r.ret = none) W1 := by
  have hget : gss_cred_get_ctx W cred = (some ctx, gss_get_ctx W ctx) := by
    simp [gss_cred_get_ctx, hctx]
  have hseq : ((gss_get_ctx W ctx).ctxs ctx).gc_seq = (W.ctxs ctx).gc_seq := by
    simp [gss_get_ctx, World.setCtx]
  have hcred : ∀ (s : Nat),
      gss_marshal_cred
        ((((gss_get_ctx W ctx).setCtx ctx
          { (gss_get_ctx W ctx).ctxs ctx with gc_seq := s })).ctxs ctx)
        (W.ctxs ctx).gc_seq
        (((gss_get_ctx W ctx).setCtx ctx
          { (gss_get_ctx W ctx).ctxs ctx with gc_seq := s }).creds cred).gc_service
      = gss_marshal_cred (W.ctxs ctx) (W.ctxs ctx).gc_seq (W.creds cred).gc_service := by
    intro s
    simp [gss_marshal_cred, gss_marshal_cred_body, gss_get_ctx, World.setCtx]
  have hgss : ∀ (s : Nat),
      ((((gss_get_ctx W ctx).setCtx ctx
          { (gss_get_ctx W ctx).ctxs ctx with gc_seq := s })).ctxs ctx).gc_gss_ctx
      = (W.ctxs ctx).gc_gss_ctx := by
    intro s
    simp [gss_get_ctx, World.setCtx]
  have hcr : ∀ (s : Nat),
      ((gss_get_ctx W ctx).setCtx ctx
          { (gss_get_ctx W ctx).ctxs ctx with gc_seq := s }).creds = W.creds := by
    intro s; rfl
  have hcl : ∀ (s : Nat),
      (clear_uptodate ((gss_get_ctx W ctx).setCtx ctx
          { (gss_get_ctx W ctx).ctxs ctx with gc_seq := s }) cred).creds
        = (clear_uptodate W cred).creds := by
    intro s; rfl
  have hm : gss_marshal_maj_stat mic W cred hdr
      = some (mic (W.ctxs ctx).gc_gss_ctx
          (hdr ++ gss_marshal_cred (W.ctxs ctx) (W.ctxs ctx).gc_seq
            (W.creds cred).gc_service)).1 := by
    simp only [gss_marshal_maj_stat, hctx]
  rw [hm]
  unfold gss_marshal
  rw [hget]
  simp only [hseq, hcred, hgss]
  generalize (mic (W.ctxs ctx).gc_gss_ctx
    (hdr ++ gss_marshal_cred (W.ctxs ctx) (W.ctxs ctx).gc_seq
      (W.creds cred).gc_service)) = m
  by_cases h1 : m.1 = GSS_S_CONTEXT_EXPIRED
  · rw [if_pos h1]
    refine ⟨_, _, rfl, expired_frame_some _ _ _ _ _ ?_ (fun h => absurd h1 h)⟩
    rw [gss_put_ctx_creds, if_pos h1, hcl]
  · rw [if_neg h1]
    by_cases h2 : m.1 ≠ 0
    · rw [if_pos h2]
      refine ⟨_, _, rfl, expired_frame_some _ _ _ _ _ ?_ (fun _ _ => rfl)⟩
      rw [gss_put_ctx_creds, if_neg h1, hcr]
    · rw [if_neg h2]
      refine ⟨_, _, rfl, expired_frame_some _ _ _ _ _ ?_ (fun _ h => absurd h h2)⟩
      rw [gss_put_ctx_creds, if_neg h1, hcr]

theorem gss_validate_frame (rpc_max_auth_size : Nat)
    (vmic : Option Nat → List Nat → RcvBuf → Nat → Nat → Nat)
    (W : World) (cred ctx rq_seqno : Nat) (rcv : RcvBuf) (p : Nat)
    (hctx : (W.creds cred).gc_ctx = some ctx) :
    ∃ r v W1, gss_validate rpc_max_auth_size vmic W cred rq_seqno rcv p = .ok (r, v, W1) ∧
      expired_frame W cred (gss_validate_maj_stat rpc_max_auth_size vmic W cred rq_seqno rcv p)
        (∃ e, r = .error e) W1 := by
  have hget : gss_cred_get_ctx W cred = (some ctx, gss_get_ctx W ctx) := by
    simp [gss_cred_get_ctx, hctx]
  have hgss : ((gss_get_ctx W ctx).ctxs ctx).gc_gss_ctx = (W.ctxs ctx).gc_gss_ctx := by
    simp [gss_get_ctx, World.setCtx]
  unfold gss_validate
  rw [hget]
  simp only [gss_validate_maj_stat, hctx, hgss]
  by_cases h1 : rcv.word (p + 4) > rpc_max_auth_size
  · rw [if_pos h1, if_pos h1]
    exact ⟨_, _, _, rfl, expired_frame_none _ _ _ _ (by rw [gss_put_ctx_creds]; rfl)⟩
  · rw [if_neg h1, if_neg h1]
    by_cases h2 : rcv.word p ≠ RPC_AUTH_GSS
    · rw [if_pos h2, if_pos h2]
      exact ⟨_, _, _, rfl, expired_frame_none _ _ _ _ (by rw [gss_put_ctx_creds]; rfl)⟩
    · rw [if_neg h2, if_neg h2]
      generalize vmic (W.ctxs ctx).gc_gss_ctx (htonl rq_seqno) rcv (p + 8)
        (rcv.word (p + 4)) = s
      have hc : (gss_put_ctx (if s = GSS_S_CONTEXT_EXPIRED
            then clear_uptodate (gss_get_ctx W ctx) cred else gss_get_ctx W ctx) ctx).creds
          = (if s = GSS_S_CONTEXT_EXPIRED then clear_uptodate W cred else W).creds := by
        rw [gss_put_ctx_creds]
        split <;> rfl
      by_cases h3 : s ≠ 0
      · rw [if_pos h3]
        exact ⟨_, _, _, rfl, expired_frame_some _ _ _ _ _ hc (fun _ _ => ⟨_, rfl⟩)⟩
      · rw [if_neg h3]
        exact ⟨_, _, _, rfl, expired_frame_some _ _ _ _ _ hc (fun _ h => absurd h h3)⟩

theorem gss_wrap_req_integ_frame (C : WrapCalls) (encode : rpc_rqst → Nat → rpc_rqst)
    (W : World) (cred ctx : Nat) (rqstp : rpc_rqst) (p : Nat) :
    expired_frame W cred (gss_wrap_req_integ_maj_stat C encode W ctx rqstp p)
      ((gss_wrap_req_integ C encode W cred ctx rqstp p).1 ≠ 0)
      (gss_wrap_req_integ C encode W cred ctx rqstp p).2.2 := by
  unfold gss_wrap_req_integ gss_wrap_req_integ_maj_stat
  dsimp only
  generalize encode _ (p + 8) = r2
  cases hseg : C.xdr_buf_subsegment r2.rq_snd_buf ((p + 4) % U32_MOD)
      ((r2.rq_snd_buf.len + U32_MOD - (p + 4) % U32_MOD) % U32_MOD) with
  | none => exact expired_frame_none _ _ _ _ rfl
  | some integ_buf =>
    dsimp only
    generalize C.gss_get_mic (W.ctxs ctx).gc_gss_ctx integ_buf = m
    by_cases h1 : m.1 = GSS_S_CONTEXT_EXPIRED
    · rw [if_pos (Or.inl h1)]
      refine expired_frame_some _ _ _ _ _ ?_ (fun h => absurd h1 h)
      dsimp only
    · by_cases h2 : m.1 = 0
      · rw [if_pos (Or.inr h2)]
        refine expired_frame_some _ _ _ _ _ ?_ (fun _ h => absurd h2 h)
        dsimp only
      · rw [if_neg (not_or.mpr ⟨h1, h2⟩)]
        refine expired_frame_some _ _ _ _ _ ?_ (fun _ _ => ?_)
        · rw [if_neg h1]
        · exact (by decide : (- EIO : Int) ≠ 0)

theorem gss_wrap_req_priv_finish_frame (W : World) (cred : Nat) (r3 : rpc_rqst) (p : Nat)
    (w : Nat × xdr_buf) :
    (w.2.len ≤ w.2.buflen →
      ∃ st rq W1, gss_wrap_req_priv_finish W cred r3 p w = .ok (st, rq, W1)) ∧
    ∀ st rq W1, gss_wrap_req_priv_finish W cred r3 p w = .ok (st, rq, W1) →
      expired_frame W cred (some w.1) (st ≠ 0) W1 := by
  unfold gss_wrap_req_priv_finish
  by_cases hb : w.2.len > w.2.buflen
  · rw [if_pos hb]
    exact ⟨fun h => absurd hb (by omega), fun st rq W1 h => by cases h⟩
  · rw [if_neg hb]
    by_cases hs : w.1 = GSS_S_CONTEXT_EXPIRED ∨ w.1 = 0
    · rw [if_pos hs]
      refine ⟨fun _ => ⟨_, _, _, rfl⟩, fun st rq W1 h => ?_⟩
      injection h with h
      injection h with h1 h
      injection h with h2 h3
      refine expired_frame_some _ _ _ _ _ (by rw [← h3]) (fun ha hb => ?_)
      cases hs with
      | inl hs => exact absurd hs ha
      | inr hs => exact absurd hs hb
    · rw [if_neg hs]
      refine ⟨fun _ => ⟨_, _, _, rfl⟩, fun st rq W1 h => ?_⟩
      injection h with h
      injection h with h1 h
      injection h with h2 h3
      refine expired_frame_some _ _ _ _ _ ?_ (fun _ _ => ?_)
      · rw [← h3, if_neg (fun e => hs (Or.inl e))]
      · rw [← h1]; decide

theorem gss_wrap_req_priv_cases (C : WrapCalls) (A : EncAlloc)
    (encode : rpc_rqst → Nat → rpc_rqst) (W : World) (cred ctx : Nat) (rqstp : rpc_rqst)
    (p : Nat) :
    (gss_wrap_req_priv_wrapped C A encode W ctx rqstp p = none ∧
      (gss_wrap_req_priv C A encode W cred ctx rqstp p = .bug ∨
       ∃ st rq, st ≠ 0 ∧ gss_wrap_req_priv C A encode W cred ctx rqstp p = .ok (st, rq, W))) ∨
    ∃ r3 w, gss_wrap_req_priv_wrapped C A encode W ctx rqstp p = some w ∧
      gss_wrap_req_priv C A encode W cred ctx rqstp p
        = gss_wrap_req_priv_finish W cred r3 p w := by
  unfold gss_wrap_req_priv gss_wrap_req_priv_wrapped
  dsimp only
  generalize alloc_enc_pages A _ = a
  by_cases ha : a.1 ≠ 0
  · rw [if_pos ha, if_pos ha]
    exact Or.inl ⟨rfl, Or.inr ⟨_, _, ha, rfl⟩⟩
  · rw [if_neg ha, if_neg ha]
    generalize (ite (in_tail _ = true) _ _ : Option xdr_buf) = moved
    cases moved with
    | none => exact Or.inl ⟨rfl, Or.inl rfl⟩
    | some snd2 => exact Or.inr ⟨_, _, rfl, rfl⟩

theorem gss_wrap_req_priv_frame (C : WrapCalls) (A : EncAlloc)
    (encode : rpc_rqst → Nat → rpc_rqst) (W : World) (cred ctx : Nat) (rqstp : rpc_rqst)
    (p : Nat) :
    (∀ w, gss_wrap_req_priv_wrapped C A encode W ctx rqstp p = some w →
      w.2.len ≤ w.2.buflen →
      ∃ st rq W1, gss_wrap_req_priv C A encode W cred ctx rqstp p = .ok (st, rq, W1)) ∧
    ∀ st rq W1, gss_wrap_req_priv C A encode W cred ctx rqstp p = .ok (st, rq, W1) →
      expired_frame W cred (gss_wrap_req_priv_maj_stat C A encode W ctx rqstp p)
        (st ≠ 0) W1 := by
  unfold gss_wrap_req_priv_maj_stat
  rcases gss_wrap_req_priv_cases C A encode W cred ctx rqstp p with
    ⟨hw, hr⟩ | ⟨r3, w, hw, hr⟩
  · rw [hw]
    refine ⟨fun w h => (by cases h), fun st rq W1 h => ?_⟩
    rcases hr with hr | ⟨st1, rq1, _, hr⟩
    · rw [hr] at h; cases h
    · rw [hr] at h
      injection h with h
      injection h with _ h
      injection h with _ h
      exact expired_frame_none _ _ _ _ (by rw [← h])
  · rw [hw, hr]
    refine ⟨fun w1 h hlen => ?_, fun st rq W1 h => ?_⟩
    · have hww : w = w1 := Option.some.inj h
      rw [← hww] at hlen
      exact (gss_wrap_req_priv_finish_frame W cred r3 p w).1 hlen
    · exact (gss_wrap_req_priv_finish_frame W cred r3 p w).2 st rq W1 h

theorem gss_unwrap_resp_integ_frame (U : UnwrapCalls) (W : World) (cred ctx rq_seqno : Nat)
    (rcv : RcvBuf) (p : Nat) :
    expired_frame W cred (gss_unwrap_resp_integ_maj_stat U W ctx rq_seqno rcv p)
      ((gss_unwrap_resp_integ U W cred ctx rq_seqno rcv p).1 ≠ 0)
      (gss_unwrap_resp_integ U W cred ctx rq_seqno rcv p).2.2.2 := by
  unfold gss_unwrap_resp_integ gss_unwrap_resp_integ_maj_stat
  dsimp only
  by_cases h1 : rcv.word p % 4 ≠ 0
  · rw [if_pos h1, if_pos h1]
    exact expired_frame_none _ _ _ _ rfl
  · rw [if_neg h1, if_neg h1]
    by_cases h2 : (rcv.word p + (p + 4) % U32_MOD) % U32_MOD > rcv.len
    · rw [if_pos h2, if_pos h2]
      exact expired_frame_none _ _ _ _ rfl
    · rw [if_neg h2, if_neg h2]
      by_cases h3 : rcv.word (p + 4) ≠ rq_seqno
      · rw [if_pos h3, if_pos h3]
        exact expired_frame_none _ _ _ _ rfl
      · rw [if_neg h3, if_neg h3]
        cases U.xdr_buf_subsegment rcv ((p + 4) % U32_MOD)
            (((rcv.word p + (p + 4) % U32_MOD) % U32_MOD + U32_MOD - (p + 4) % U32_MOD)
              % U32_MOD) with
        | none => exact expired_frame_none _ _ _ _ rfl
        | some integ_buf =>
          dsimp only
          cases U.xdr_buf_read_netobj rcv ((rcv.word p + (p + 4) % U32_MOD) % U32_MOD) with
          | none => exact expired_frame_none _ _ _ _ rfl
          | some mic =>
            dsimp only
            generalize U.gss_verify_mic (W.ctxs ctx).gc_gss_ctx integ_buf mic = s
            by_cases h4 : s ≠ GSS_S_COMPLETE
            · rw [if_pos h4]
              refine expired_frame_some _ _ _ _ _ rfl (fun _ _ => ?_)
              exact (by decide : (- EIO : Int) ≠ 0)
            · rw [if_neg h4]
              exact expired_frame_some _ _ _ _ _ rfl (fun _ h => absurd h h4)

theorem gss_unwrap_resp_priv_frame (U : UnwrapCalls) (W : World) (cred ctx rq_seqno : Nat)
    (rcv : RcvBuf) (p : Nat) :
    expired_frame W cred (gss_unwrap_resp_priv_maj_stat U W ctx rcv p)
      ((gss_unwrap_resp_priv U W cred ctx rq_seqno rcv p).1 ≠ 0)
      (gss_unwrap_resp_priv U W cred ctx rq_seqno rcv p).2.2.2 := by
  unfold gss_unwrap_resp_priv gss_unwrap_resp_priv_maj_stat
  dsimp only
  by_cases h1 : ((p + 4) % U32_MOD + rcv.word p) % U32_MOD > rcv.len
  · rw [if_pos h1, if_pos h1]
    exact expired_frame_none _ _ _ _ rfl
  · rw [if_neg h1, if_neg h1]
    generalize U.gss_unwrap (W.ctxs ctx).gc_gss_ctx ((p + 4) % U32_MOD)
      { rcv with len := ((p + 4) % U32_MOD + rcv.word p) % U32_MOD } = un
    by_cases h4 : un.1 ≠ GSS_S_COMPLETE
    · rw [if_pos h4]
      refine expired_frame_some _ _ _ _ _ rfl (fun _ _ => ?_)
      exact (by decide : (- EIO : Int) ≠ 0)
    · rw [if_neg h4]
      by_cases h5 : un.2.word (p + 4) ≠ rq_seqno
      · rw [if_pos h5]
        exact expired_frame_some _ _ _ _ _ rfl (fun _ h => absurd h h4)
      · rw [if_neg h5]
        exact expired_frame_some _ _ _ _ _ rfl (fun _ h => absurd h h4)

theorem expired_frame_cred (W : World) (cred : Nat) (maj_stat : Option Nat) (failed : Prop)
    (W1 : World) (h : expired_frame W cred maj_stat failed W1) :
    (W1.creds cred).gc_ctx = (W.creds cred).gc_ctx ∧
    (W1.creds cred).cr_flags.new = (W.creds cred).cr_flags.new ∧
    (W1.creds cred).cr_flags.negative = (W.creds cred).cr_flags.negative ∧
    (W1.creds cred).cr_flags.rest = (W.creds cred).cr_flags.rest ∧
    (W1.creds cred).cr_flags.uptodate
      = (if maj_stat = some GSS_S_CONTEXT_EXPIRED then false
         else (W.creds cred).cr_flags.uptodate) ∧
    ∀ c, c ≠ cred → W1.creds c = W.creds c := by
  unfold expired_frame at h
  by_cases hs : maj_stat = some GSS_S_CONTEXT_EXPIRED
  · rw [if_pos hs, h.1 hs]
    refine ⟨?_, ?_, ?_, ?_, ?_, fun c hc => ?_⟩
    · rw [Function.update_same]
    · rw [Function.update_same]
    · rw [Function.update_same]
    · rw [Function.update_same]
    · rw [Function.update_same]
    · rw [Function.update_noteq hc]
  · rw [if_neg hs, h.2.1 hs]
    exact ⟨rfl, rfl, rfl, rfl, rfl, fun _ _ => rfl⟩

/-- C26: for a credential `cred` that holds the context `ctx`, each of
`gss_marshal`, `gss_validate`, `gss_wrap_req_integ`, `gss_wrap_req_priv`,
`gss_unwrap_resp_integ` and `gss_unwrap_resp_priv` leaves the credentials in
the frame `expired_frame` of its mechanism call: when the call returned
`GSS_S_CONTEXT_EXPIRED` the bit UPTODATE of `cred` is cleared and nothing
else changes, on every other status and without a call no credential
changes, and a status other than `GSS_S_CONTEXT_EXPIRED` and
`GSS_S_COMPLETE` makes the function return an error (NULL from
`gss_marshal`, an `ERR_PTR` from `gss_validate`, a nonzero status from the
others).  `gss_marshal` and `gss_validate` always return;
`gss_wrap_req_priv` returns once `gss_wrap` has left `len` within `buflen`.
In every such frame the context slot of `cred`, its other flag bits and all
other credentials are as before. -/
theorem mechanism_call_cred_frame (mic : Option Nat → List Nat → Nat × List Nat)
    (rpc_max_auth_size : Nat) (vmic : Option Nat → List Nat → RcvBuf → Nat → Nat → Nat)
    (C : WrapCalls) (A : EncAlloc) (encode : rpc_rqst → Nat → rpc_rqst) (U : UnwrapCalls)
    (W : World) (cred ctx : Nat) (hdr : List Nat) (rq_seqno : Nat) (rcv : RcvBuf)
    (p : Nat) (rqstp : rpc_rqst) (q : Nat)
    (hctx : (W.creds cred).gc_ctx = some ctx) :
    (∃ r W1, gss_marshal mic W cred hdr = .ok (r, W1) ∧
      expired_frame W cred (gss_marshal_maj_stat mic W cred hdr) (r.ret = none) W1) ∧
    (∃ r v W1, gss_validate rpc_max_auth_size vmic W cred rq_seqno rcv p = .ok (r, v, W1) ∧
      expired_frame W cred
        (gss_validate_maj_stat rpc_max_auth_size vmic W cred rq_seqno rcv p)
        (∃ e, r = .error e) W1) ∧
    expired_frame W cred (gss_wrap_req_integ_maj_stat C encode W ctx rqstp q)
      ((gss_wrap_req_integ C encode W cred ctx rqstp q).1 ≠ 0)
      (gss_wrap_req_integ C encode W cred ctx rqstp q).2.2 ∧
    (∀ w, gss_wrap_req_priv_wrapped C A encode W ctx rqstp q = some w →
      w.2.len ≤ w.2.buflen →
      ∃ st rq W1, gss_wrap_req_priv C A encode W cred ctx rqstp q = .ok (st, rq, W1)) ∧
    (∀ st rq W1, gss_wrap_req_priv C A encode W cred ctx rqstp q = .ok (st, rq, W1) →
      expired_frame W cred (gss_wrap_req_priv_maj_stat C A encode W ctx rqstp q)
        (st ≠ 0) W1) ∧
    expired_frame W cred (gss_unwrap_resp_integ_maj_stat U W ctx rq_seqno rcv p)
      ((gss_unwrap_resp_integ U W cred ctx rq_seqno rcv p).1 ≠ 0)
      (gss_unwrap_resp_integ U W cred ctx rq_seqno rcv p).2.2.2 ∧
    expired_frame W cred (gss_unwrap_resp_priv_maj_stat U W ctx rcv p)
      ((gss_unwrap_resp_priv U W cred ctx rq_seqno rcv p).1 ≠ 0)
      (gss_unwrap_resp_priv U W cred ctx rq_seqno rcv p).2.2.2 ∧
    ∀ (maj_stat : Option Nat) (failed : Prop) (W1 : World),
      expired_frame W cred maj_stat failed W1 →
      (W1.creds cred).gc_ctx = (W.creds cred).gc_ctx ∧
      (W1.creds cred).cr_flags.new = (W.creds cred).cr_flags.new ∧
      (W1.creds cred).cr_flags.negative = (W.creds cred).cr_flags.negative ∧
      (W1.creds cred).cr_flags.rest = (W.creds cred).cr_flags.rest ∧
      (W1.creds cred).cr_flags.uptodate
        = (if maj_stat = some GSS_S_CONTEXT_EXPIRED then false
           else (W.creds cred).cr_flags.uptodate) ∧
      ∀ c, c ≠ cred → W1.creds c = W.creds c :=
  ⟨gss_marshal_frame mic W cred ctx hdr hctx,
   gss_validate_frame rpc_max_auth_size vmic W cred ctx rq_seqno rcv p hctx,
   gss_wrap_req_integ_frame C encode W cred ctx rqstp q,
   (gss_wrap_req_priv_frame C A encode W cred ctx rqstp q).1,
   (gss_wrap_req_priv_frame C A encode W cred ctx rqstp q).2,
   gss_unwrap_resp_integ_frame U W cred ctx rq_seqno rcv p,
   gss_unwrap_resp_priv_frame U W cred ctx rq_seqno rcv p,
   expired_frame_cred W cred⟩

/-- C26 exercised: the credential 0 of `W_privacy` holds the context 7 and is
up to date; the reply `rcv_reply` is unwrapped with a mechanism that reports
`GSS_S_CONTEXT_EXPIRED`.  `gss_unwrap_resp_priv` returns `-EIO`, the
credential is no longer up to date and still holds the context 7. -/
theorem mechanism_call_cred_frame_witness :
    (W_privacy.creds 0).gc_ctx = some 7 ∧
    (W_privacy.creds 0).cr_flags.uptodate = true ∧
    gss_unwrap_resp_priv_maj_stat U_expired W_privacy 7 rcv_reply 24
      = some GSS_S_CONTEXT_EXPIRED ∧
    (gss_unwrap_resp_priv U_expired W_privacy 0 7 41 rcv_reply 24).1 = - EIO ∧
    ((gss_unwrap_resp_priv U_expired W_privacy 0 7 41 rcv_reply 24).2.2.2.creds 0).cr_flags.uptodate
      = false ∧
    ((gss_unwrap_resp_priv U_expired W_privacy 0 7 41 rcv_reply 24).2.2.2.creds 0).gc_ctx
      = some 7 ∧
    expired_frame W_privacy 0 (gss_unwrap_resp_priv_maj_stat U_expired W_privacy 7 rcv_reply 24)
      ((gss_unwrap_resp_priv U_expired W_privacy 0 7 41 rcv_reply 24).1 ≠ 0)
      (gss_unwrap_resp_priv U_expired W_privacy 0 7 41 rcv_reply 24).2.2.2 :=
  ⟨rfl, rfl, by decide, by decide, by decide, by decide,
   (mechanism_call_cred_frame mic_const 400 (fun _ _ _ _ _ => 0) C0 A0 encode_none U_expired
      W_privacy 0 7 [] 41 rcv_reply 24 (rq_pages 0 100) 24 rfl).2.2.2.2.2.2.1⟩

/-! ### C24: the registry of authenticators -/

theorem target_name_differs_false (t a : Option String) :
    target_name_differs t a = false ↔ t = a := by
  cases t <;> cases a <;> simp [target_name_differs]

theorem atomic_inc_not_zero_fst (v : Int) :
    (atomic_inc_not_zero v).1 = true ↔ v ≠ 0 := by
  unfold atomic_inc_not_zero
  by_cases h : v = 0
  · rw [if_pos h]; simp [h]
  · rw [if_neg h]; simp [h]

theorem auth_hash_matches_iff (R : Registry) (args : rpc_auth_create_args) (clnt pos : Nat) :
    auth_hash_matches R args clnt pos = true ↔
      key_matches R args clnt pos ∧ (R.auths pos).au_count ≠ 0 := by
  unfold auth_hash_matches key_matches
  rw [Bool.and_eq_true, Bool.and_eq_true, Bool.and_eq_true, atomic_inc_not_zero_fst,
    Bool.not_eq_true', target_name_differs_false, beq_iff_eq, beq_iff_eq]
  tauto

/-- What `gss_auth_find_or_add_hashed` does: either it stops at an entry
`pos` of the bucket that has the key and a nonzero count, returns it and
changes its count only; or no entry of the bucket is such, and it returns
the candidate after `hash_add`, if there is one. -/
theorem gss_auth_find_or_add_hashed_spec (hash_min : Nat → Nat) (R : Registry)
    (args : rpc_auth_create_args) (clnt : Nat) (new : Option Nat) :
    (∃ pos, pos ∈ R.gss_auth_hash_table (hash_min clnt) ∧ key_matches R args clnt pos ∧
      (R.auths pos).au_count ≠ 0 ∧
      gss_auth_find_or_add_hashed hash_min R args clnt new
        = (some pos,
           { R with
             auths := Function.update R.auths pos
               ({ R.auths pos with
                  au_count := (atomic_inc_not_zero (R.auths pos).au_count).2 }) })) ∨
    ((∀ x, x ∈ R.gss_auth_hash_table (hash_min clnt) →
        ¬ (key_matches R args clnt x ∧ (R.auths x).au_count ≠ 0)) ∧
      gss_auth_find_or_add_hashed hash_min R args clnt new
        = (new, match new with
                | some n => hash_add hash_min R n clnt
                | none => R)) := by
  unfold gss_auth_find_or_add_hashed
  dsimp only
  cases hf : (R.gss_auth_hash_table (hash_min clnt)).find? (auth_hash_matches R args clnt) with
  | some pos =>
    left
    have hm := List.find?_some hf
    have hmem := List.mem_of_find?_eq_some hf
    rw [auth_hash_matches_iff] at hm
    exact ⟨pos, hmem, hm.1, hm.2, rfl⟩
  | none =>
    right
    refine ⟨fun x hx hk => ?_, ?_⟩
    · have := List.find?_eq_none.mp hf x hx
      rw [auth_hash_matches_iff] at this
      exact this hk
    · cases new <;> rfl

theorem set_count_inv (hash_min : Nat → Nat) (R : Registry) (pos : Nat) (c : Int)
    (hlive : c ≠ 0 → (R.auths pos).au_count ≠ 0)
    (hb : in_own_bucket hash_min R) (hu : live_keys_unique R) :
    in_own_bucket hash_min
      { R with auths := Function.update R.auths pos ({ R.auths pos with au_count := c }) } ∧
    live_keys_unique
      { R with auths := Function.update R.auths pos ({ R.auths pos with au_count := c }) } := by
  have hrec : ∀ a, ((Function.update R.auths pos ({ R.auths pos with au_count := c })) a).client
        = (R.auths a).client ∧
      ((Function.update R.auths pos ({ R.auths pos with au_count := c })) a).au_flavor
        = (R.auths a).au_flavor ∧
      ((Function.update R.auths pos ({ R.auths pos with au_count := c })) a).target_name
        = (R.auths a).target_name ∧
      (((Function.update R.auths pos ({ R.auths pos with au_count := c })) a).au_count ≠ 0 →
        (R.auths a).au_count ≠ 0) := by
    intro a
    by_cases ha : a = pos
    · subst ha
      rw [Function.update_same]
      exact ⟨rfl, rfl, rfl, fun h => hlive h⟩
    · rw [Function.update_noteq ha]
      exact ⟨rfl, rfl, rfl, fun h => h⟩
  constructor
  · intro b a ha
    show b = hash_min ((Function.update R.auths pos ({ R.auths pos with au_count := c })) a).client
    rw [(hrec a).1]
    exact hb b a ha
  · intro a1 a2 h1 h2 l1 l2 hk
    apply hu a1 a2 h1 h2 ((hrec a1).2.2.2 l1) ((hrec a2).2.2.2 l2)
    obtain ⟨k1, k2, k3⟩ := hk
    change ((Function.update R.auths pos ({ R.auths pos with au_count := c })) a1).client
      = ((Function.update R.auths pos ({ R.auths pos with au_count := c })) a2).client at k1
    change ((Function.update R.auths pos ({ R.auths pos with au_count := c })) a1).au_flavor
      = ((Function.update R.auths pos ({ R.auths pos with au_count := c })) a2).au_flavor at k2
    change ((Function.update R.auths pos ({ R.auths pos with au_count := c })) a1).target_name
      = ((Function.update R.auths pos ({ R.auths pos with au_count := c })) a2).target_name at k3
    rw [(hrec a1).1, (hrec a2).1] at k1
    rw [(hrec a1).2.1, (hrec a2).2.1] at k2
    rw [(hrec a1).2.2.1, (hrec a2).2.2.1] at k3
    exact ⟨k1, k2, k3⟩

theorem hash_add_auths (hash_min : Nat → Nat) (R : Registry) (n clnt a : Nat) :
    ((hash_add hash_min R n clnt).auths a).client = (R.auths a).client ∧
    ((hash_add hash_min R n clnt).auths a).au_flavor = (R.auths a).au_flavor ∧
    ((hash_add hash_min R n clnt).auths a).target_name = (R.auths a).target_name ∧
    ((hash_add hash_min R n clnt).auths a).au_count = (R.auths a).au_count := by
  unfold hash_add
  dsimp only
  by_cases ha : a = n
  · subst ha
    rw [Function.update_same]
    exact ⟨rfl, rfl, rfl, rfl⟩
  · rw [Function.update_noteq ha]
    exact ⟨rfl, rfl, rfl, rfl⟩

theorem hash_add_mem (hash_min : Nat → Nat) (R : Registry) (n clnt b a : Nat) :
    a ∈ (hash_add hash_min R n clnt).gss_auth_hash_table b ↔
      (a = n ∧ b = hash_min clnt) ∨ a ∈ R.gss_auth_hash_table b := by
  unfold hash_add
  dsimp only
  by_cases hbk : b = hash_min clnt
  · subst hbk
    rw [Function.update_same, List.mem_cons]
    constructor
    · rintro (h | h)
      · exact Or.inl ⟨h, rfl⟩
      · exact Or.inr h
    · rintro (⟨h, _⟩ | h)
      · exact Or.inl h
      · exact Or.inr h
  · rw [Function.update_noteq hbk]
    constructor
    · intro h; exact Or.inr h
    · rintro (⟨_, h⟩ | h)
      · exact absurd h hbk
      · exact h

theorem hash_add_inv (hash_min : Nat → Nat) (R : Registry) (n clnt : Nat)
    (hcl : (R.auths n).client = clnt)
    (hno : ∀ x, x ∈ R.gss_auth_hash_table (hash_min clnt) →
      ¬ (same_key (R.auths x) (R.auths n) ∧ (R.auths x).au_count ≠ 0))
    (hb : in_own_bucket hash_min R) (hu : live_keys_unique R) :
    in_own_bucket hash_min (hash_add hash_min R n clnt) ∧
    live_keys_unique (hash_add hash_min R n clnt) := by
  have key : ∀ a, registered R a → (R.auths a).au_count ≠ 0 →
      same_key (R.auths a) (R.auths n) → False := by
    intro a ⟨b, hab⟩ hl hk
    have hbk := hb b a hab
    rw [hk.1, hcl] at hbk
    rw [hbk] at hab
    exact hno a hab ⟨hk, hl⟩
  constructor
  · intro b a ha
    rw [(hash_add_auths hash_min R n clnt a).1]
    rcases (hash_add_mem hash_min R n clnt b a).mp ha with ⟨h1, h2⟩ | h
    · rw [h1, hcl]; exact h2
    · exact hb b a h
  · intro a1 a2 ⟨b1, h1⟩ ⟨b2, h2⟩ l1 l2 hk
    rw [(hash_add_auths hash_min R n clnt a1).2.2.2] at l1
    rw [(hash_add_auths hash_min R n clnt a2).2.2.2] at l2
    have hk' : same_key (R.auths a1) (R.auths a2) := by
      obtain ⟨k1, k2, k3⟩ := hk
      rw [(hash_add_auths hash_min R n clnt a1).1,
        (hash_add_auths hash_min R n clnt a2).1] at k1
      rw [(hash_add_auths hash_min R n clnt a1).2.1,
        (hash_add_auths hash_min R n clnt a2).2.1] at k2
      rw [(hash_add_auths hash_min R n clnt a1).2.2.1,
        (hash_add_auths hash_min R n clnt a2).2.2.1] at k3
      exact ⟨k1, k2, k3⟩
    rcases (hash_add_mem hash_min R n clnt b1 a1).mp h1 with ⟨e1, _⟩ | m1
    · rcases (hash_add_mem hash_min R n clnt b2 a2).mp h2 with ⟨e2, _⟩ | m2
      · rw [e1, e2]
      · rw [e1] at hk'
        exact (key a2 ⟨b2, m2⟩ l2 ⟨hk'.1.symm, hk'.2.1.symm, hk'.2.2.symm⟩).elim
    · rcases (hash_add_mem hash_min R n clnt b2 a2).mp h2 with ⟨e2, _⟩ | m2
      · rw [e2] at hk'
        exact (key a1 ⟨b1, m1⟩ l1 hk').elim
      · exact hu a1 a2 ⟨b1, m1⟩ ⟨b2, m2⟩ l1 l2 hk'

theorem gss_create_new_inv (hash_min : Nat → Nat) (made : Except Int Nat) (R : Registry)
    (args : rpc_auth_create_args) (clnt : Nat) (hfresh : made_fresh R made)
    (hb : in_own_bucket hash_min R) (hu : live_keys_unique R) :
    in_own_bucket hash_min (gss_create_new made R args clnt).2 ∧
    live_keys_unique (gss_create_new made R args clnt).2 := by
  unfold gss_create_new
  cases made with
  | error err => exact ⟨hb, hu⟩
  | ok n =>
    dsimp only
    have hn : ¬ registered R n := hfresh n rfl
    have hrec : ∀ (r : gss_auth) (a : Nat), registered R a →
        (Function.update R.auths n r) a = R.auths a := by
      intro r a ha
      by_cases e : a = n
      · rw [e] at ha; exact absurd ha hn
      · rw [Function.update_noteq e]
    constructor
    · intro b a ha
      show b = hash_min ((Function.update R.auths n _) a).client
      rw [hrec _ a ⟨b, ha⟩]
      exact hb b a ha
    · intro a1 a2 h1 h2 l1 l2 hk
      change ((Function.update R.auths n _) a1).au_count ≠ 0 at l1
      change ((Function.update R.auths n _) a2).au_count ≠ 0 at l2
      change same_key ((Function.update R.auths n _) a1) ((Function.update R.auths n _) a2) at hk
      rw [hrec _ a1 h1] at l1 hk
      rw [hrec _ a2 h2] at l2 hk
      exact hu a1 a2 h1 h2 l1 l2 hk

theorem gss_destroy_inv (hash_min : Nat → Nat) (R : Registry) (auth : Nat)
    (hb : in_own_bucket hash_min R) (hu : live_keys_unique R) :
    in_own_bucket hash_min (gss_destroy R auth) ∧ live_keys_unique (gss_destroy R auth) := by
  unfold gss_destroy
  split
  · unfold hash_del
    cases hh : (R.auths auth).hash with
    | none => exact ⟨hb, hu⟩
    | some bk =>
      dsimp only
      have hrec : ∀ a, ((Function.update R.auths auth
            ({ R.auths auth with hash := none })) a).client = (R.auths a).client ∧
          ((Function.update R.auths auth
            ({ R.auths auth with hash := none })) a).au_flavor = (R.auths a).au_flavor ∧
          ((Function.update R.auths auth
            ({ R.auths auth with hash := none })) a).target_name = (R.auths a).target_name ∧
          ((Function.update R.auths auth
            ({ R.auths auth with hash := none })) a).au_count = (R.auths a).au_count := by
        intro a
        by_cases e : a = auth
        · subst e
          rw [Function.update_same]
          exact ⟨rfl, rfl, rfl, rfl⟩
        · rw [Function.update_noteq e]
          exact ⟨rfl, rfl, rfl, rfl⟩
      have hmem : ∀ b a, a ∈ (Function.update R.gss_auth_hash_table bk
          ((R.gss_auth_hash_table bk).erase auth)) b → a ∈ R.gss_auth_hash_table b := by
        intro b a ha
        by_cases e : b = bk
        · subst e
          rw [Function.update_same] at ha
          exact List.mem_of_mem_erase ha
        · rw [Function.update_noteq e] at ha
          exact ha
      constructor
      · intro b a ha
        show b = hash_min ((Function.update R.auths auth _) a).client
        rw [(hrec a).1]
        exact hb b a (hmem b a ha)
      · intro a1 a2 ⟨b1, h1⟩ ⟨b2, h2⟩ l1 l2 hk
        change ((Function.update R.auths auth _) a1).au_count ≠ 0 at l1
        change ((Function.update R.auths auth _) a2).au_count ≠ 0 at l2
        rw [(hrec a1).2.2.2] at l1
        rw [(hrec a2).2.2.2] at l2
        obtain ⟨k1, k2, k3⟩ := hk
        change ((Function.update R.auths auth _) a1).client
          = ((Function.update R.auths auth _) a2).client at k1
        change ((Function.update R.auths auth _) a1).au_flavor
          = ((Function.update R.auths auth _) a2).au_flavor at k2
        change ((Function.update R.auths auth _) a1).target_name
          = ((Function.update R.auths auth _) a2).target_name at k3
        rw [(hrec a1).1, (hrec a2).1] at k1
        rw [(hrec a1).2.1, (hrec a2).2.1] at k2
        rw [(hrec a1).2.2.1, (hrec a2).2.2.1] at k3
        exact hu a1 a2 ⟨b1, hmem b1 a1 h1⟩ ⟨b2, hmem b2 a2 h2⟩ l1 l2 ⟨k1, k2, k3⟩
  · exact ⟨hb, hu⟩

theorem gss_auth_find_or_add_hashed_inv (hash_min : Nat → Nat) (R : Registry)
    (args : rpc_auth_create_args) (clnt : Nat) (new : Option Nat)
    (hc : candidate_of R args clnt new)
    (hb : in_own_bucket hash_min R) (hu : live_keys_unique R) :
    in_own_bucket hash_min (gss_auth_find_or_add_hashed hash_min R args clnt new).2 ∧
    live_keys_unique (gss_auth_find_or_add_hashed hash_min R args clnt new).2 := by
  rcases gss_auth_find_or_add_hashed_spec hash_min R args clnt new with
    ⟨pos, _, _, hl, hr⟩ | ⟨hno, hr⟩
  · rw [hr]
    exact set_count_inv hash_min R pos _ (fun _ => hl) hb hu
  · rw [hr]
    cases new with
    | none => exact ⟨hb, hu⟩
    | some n =>
      obtain ⟨_, hk, _⟩ := hc n rfl
      refine hash_add_inv hash_min R n clnt hk.1 (fun x hx hx2 => hno x hx ⟨?_, hx2.2⟩) hb hu
      exact ⟨hx2.1.1.trans hk.1, hx2.1.2.1.trans hk.2.1, hx2.1.2.2.trans hk.2.2⟩

/-- What `gss_create_hashed` does: it returns an entry of the bucket that has
the key and a nonzero count, with one more reference; or there is no such
entry, and it returns the errno of `gss_create_new`, or the authenticator
`gss_create_new` made, after `hash_add`. -/
theorem gss_create_hashed_cases (hash_min : Nat → Nat) (made : Except Int Nat)
    (R : Registry) (args : rpc_auth_create_args) (clnt : Nat)
    (hfresh : made_fresh R made) :
    (∃ pos, pos ∈ R.gss_auth_hash_table (hash_min clnt) ∧ key_matches R args clnt pos ∧
      (R.auths pos).au_count ≠ 0 ∧
      gss_create_hashed hash_min made R args clnt
        = (.ok (some pos),
           { R with
             auths := Function.update R.auths pos
               ({ R.auths pos with
                  au_count := (atomic_inc_not_zero (R.auths pos).au_count).2 }) })) ∨
    ((∀ x, x ∈ R.gss_auth_hash_table (hash_min clnt) →
        ¬ (key_matches R args clnt x ∧ (R.auths x).au_count ≠ 0)) ∧
      ((∃ err, made = .error err ∧
          gss_create_hashed hash_min made R args clnt = (.error err, R)) ∨
       (∃ n, made = .ok n ∧
          gss_create_hashed hash_min made R args clnt
            = (.ok (some n),
               hash_add hash_min (gss_create_new made R args clnt).2 n clnt)))) := by
  rcases gss_auth_find_or_add_hashed_spec hash_min R args clnt none with
    ⟨pos, hm, hk, hl, hr⟩ | ⟨hno, hr⟩
  · left
    refine ⟨pos, hm, hk, hl, ?_⟩
    unfold gss_create_hashed
    rw [hr]
  · right
    refine ⟨hno, ?_⟩
    cases made with
    | error err =>
      left
      refine ⟨err, rfl, ?_⟩
      unfold gss_create_hashed
      rw [hr]
      rfl
    | ok n =>
      right
      refine ⟨n, rfl, ?_⟩
      have hn : ¬ registered R n := hfresh n rfl
      unfold gss_create_hashed
      rw [hr]
      dsimp only
      generalize hR2 : (gss_create_new (Except.ok n) R args clnt) = cn
      have hcn1 : cn.1 = .ok n := by rw [← hR2]; rfl
      have htab : cn.2.gss_auth_hash_table = R.gss_auth_hash_table := by rw [← hR2]; rfl
      have hrec : ∀ a, a ≠ n → cn.2.auths a = R.auths a := by
        intro a ha
        rw [← hR2]
        show (Function.update R.auths n _) a = R.auths a
        rw [Function.update_noteq ha]
      obtain ⟨c1, c2⟩ := cn
      dsimp only at hcn1 htab hrec
      subst hcn1
      dsimp only
      rcases gss_auth_find_or_add_hashed_spec hash_min c2 args clnt (some n) with
        ⟨pos, hm, hk, hl, _⟩ | ⟨_, hr2⟩
      · rw [htab] at hm
        have hpn : pos ≠ n := fun e => hn ⟨_, e ▸ hm⟩
        unfold key_matches at hk
        rw [hrec pos hpn] at hk hl
        exact (hno pos hm ⟨hk, hl⟩).elim
      · rw [hr2]
        dsimp only
        rw [if_neg (fun h => h rfl)]

theorem gss_create_hashed_inv (hash_min : Nat → Nat) (made : Except Int Nat)
    (R : Registry) (args : rpc_auth_create_args) (clnt : Nat)
    (hfresh : made_fresh R made)
    (hb : in_own_bucket hash_min R) (hu : live_keys_unique R) :
    in_own_bucket hash_min (gss_create_hashed hash_min made R args clnt).2 ∧
    live_keys_unique (gss_create_hashed hash_min made R args clnt).2 := by
  rcases gss_create_hashed_cases hash_min made R args clnt hfresh with
    ⟨pos, _, _, hl, hr⟩ | ⟨hno, ⟨err, _, hr⟩ | ⟨n, hmade, hr⟩⟩
  · rw [hr]
    exact set_count_inv hash_min R pos _ (fun _ => hl) hb hu
  · rw [hr]
    exact ⟨hb, hu⟩
  · rw [hr]
    obtain ⟨hb2, hu2⟩ := gss_create_new_inv hash_min made R args clnt hfresh hb hu
    have hn : ¬ registered R n := hfresh n hmade
    subst hmade
    have hrn : (gss_create_new (Except.ok n) R args clnt).2.auths n
        = { client := clnt, au_flavor := args.pseudoflavor,
            target_name := args.target_name, au_count := 1, hash := none } := by
      show (Function.update R.auths n _) n = _
      rw [Function.update_same]
    have hrx : ∀ x, x ≠ n → (gss_create_new (Except.ok n) R args clnt).2.auths x
        = R.auths x := by
      intro x hx
      show (Function.update R.auths n _) x = _
      rw [Function.update_noteq hx]
    refine hash_add_inv hash_min _ n clnt (by rw [hrn]) (fun x hx hx2 => ?_) hb2 hu2
    have hx' : x ∈ R.gss_auth_hash_table (hash_min clnt) := hx
    have hxn : x ≠ n := fun e => hn ⟨_, e ▸ hx'⟩
    rw [hrx x hxn, hrn] at hx2
    exact hno x hx' ⟨hx2.1, hx2.2⟩

theorem registry_reaches_inv (hash_min : Nat → Nat) (R R1 : Registry)
    (hb : in_own_bucket hash_min R) (hu : live_keys_unique R)
    (h : registry_reaches hash_min R R1) :
    in_own_bucket hash_min R1 ∧ live_keys_unique R1 := by
  induction h with
  | refl => exact ⟨hb, hu⟩
  | create_new R1 made args clnt _ hf ih =>
    exact gss_create_new_inv hash_min made R1 args clnt hf ih.1 ih.2
  | find_or_add R1 args clnt new _ hc ih =>
    exact gss_auth_find_or_add_hashed_inv hash_min R1 args clnt new hc ih.1 ih.2
  | create R1 made args clnt _ hf ih =>
    exact gss_create_hashed_inv hash_min made R1 args clnt hf ih.1 ih.2
  | destroy R1 auth _ ih =>
    exact gss_destroy_inv hash_min R1 auth ih.1 ih.2
  | count R1 a c _ hc ih =>
    exact set_count_inv hash_min R1 a c hc ih.1 ih.2

theorem gss_auth_find_or_add_hashed_live (hash_min : Nat → Nat) (R : Registry)
    (args : rpc_auth_create_args) (clnt a : Nat) (new : Option Nat)
    (hb : in_own_bucket hash_min R) (hu : live_keys_unique R)
    (hr : registered R a) (hk : key_matches R args clnt a)
    (hl : (R.auths a).au_count ≠ 0) :
    gss_auth_find_or_add_hashed hash_min R args clnt new
      = (some a,
         { R with
           auths := Function.update R.auths a
             ({ R.auths a with
                au_count := (atomic_inc_not_zero (R.auths a).au_count).2 }) }) := by
  obtain ⟨b, hab⟩ := hr
  have hbk := hb b a hab
  rw [hk.1] at hbk
  rw [hbk] at hab
  rcases gss_auth_find_or_add_hashed_spec hash_min R args clnt new with
    ⟨pos, hm, hkp, hlp, hres⟩ | ⟨hno, _⟩
  · have e : pos = a :=
      hu pos a ⟨_, hm⟩ ⟨_, hab⟩ hlp hl
        ⟨hkp.1.trans hk.1.symm, hkp.2.1.trans hk.2.1.symm, hkp.2.2.trans hk.2.2.symm⟩
    rw [hres, e]
  · exact (hno a hab ⟨hk, hl⟩).elim

theorem gss_create_hashed_live (hash_min : Nat → Nat) (made : Except Int Nat) (R : Registry)
    (args : rpc_auth_create_args) (clnt a : Nat)
    (hb : in_own_bucket hash_min R) (hu : live_keys_unique R)
    (hr : registered R a) (hk : key_matches R args clnt a)
    (hl : (R.auths a).au_count ≠ 0) :
    gss_create_hashed hash_min made R args clnt
      = (.ok (some a),
         { R with
           auths := Function.update R.auths a
             ({ R.auths a with
                au_count := (atomic_inc_not_zero (R.auths a).au_count).2 }) }) := by
  unfold gss_create_hashed
  rw [gss_auth_find_or_add_hashed_live hash_min R args clnt a none hb hu hr hk hl]

theorem gss_create_hashed_result (hash_min : Nat → Nat) (made : Except Int Nat)
    (R : Registry) (args : rpc_auth_create_args) (clnt a : Nat) (R1 : Registry)
    (hfresh : made_fresh R made)
    (h : gss_create_hashed hash_min made R args clnt = (.ok (some a), R1)) :
    registered R1 a ∧ key_matches R1 args clnt a := by
  rcases gss_create_hashed_cases hash_min made R args clnt hfresh with
    ⟨pos, hm, hk, _, hr⟩ | ⟨_, ⟨err, _, hr⟩ | ⟨n, hmade, hr⟩⟩
  · rw [hr] at h
    injection h with h1 h2
    injection h1 with h1
    injection h1 with h1
    subst h1
    subst h2
    refine ⟨⟨_, hm⟩, ?_⟩
    unfold key_matches
    dsimp only
    rw [Function.update_same]
    exact hk
  · rw [hr] at h
    injection h with h1 _
    cases h1
  · rw [hr] at h
    injection h with h1 h2
    injection h1 with h1
    injection h1 with h1
    subst h1
    subst h2
    subst hmade
    refine ⟨⟨hash_min clnt, (hash_add_mem hash_min _ n clnt _ n).mpr (Or.inl ⟨rfl, rfl⟩)⟩, ?_⟩
    unfold key_matches
    rw [(hash_add_auths hash_min _ n clnt n).1, (hash_add_auths hash_min _ n clnt n).2.1,
      (hash_add_auths hash_min _ n clnt n).2.2.1]
    have hrn : (gss_create_new (Except.ok n) R args clnt).2.auths n
        = { client := clnt, au_flavor := args.pseudoflavor,
            target_name := args.target_name, au_count := 1, hash := none } := by
      show (Function.update R.auths n _) n = _
      rw [Function.update_same]
    rw [hrn]
    exact ⟨rfl, rfl, rfl⟩

theorem atomic_inc_not_zero_snd (c : Int) (h0 : c ≠ 0) (hlo : -2 ^ 31 ≤ c)
    (hhi : c < 2 ^ 31 - 1) : (atomic_inc_not_zero c).2 = c + 1 := by
  unfold atomic_inc_not_zero
  rw [if_neg h0]
  dsimp only
  norm_num at hlo hhi ⊢
  omega

theorem R_dying_registered (a : Nat) : registered R_dying a ↔ a = 10 := by
  constructor
  · rintro ⟨b, hab⟩
    by_cases hbk : b = 1
    · subst hbk
      exact List.mem_singleton.mp hab
    · have : R_dying.gss_auth_hash_table b = [] := if_neg hbk
      rw [this] at hab
      cases hab
  · intro e
    exact ⟨1, e ▸ List.mem_singleton.mpr rfl⟩

/-- C24, counterexample: the registry `R_dying` holds
one authenticator, 10, for the key (client 1, pseudoflavor 390003, no target
name); its `au_count` is 0.  A `gss_create_hashed` for that very key, with
`gss_create_new` making the authenticator 20, passes 10 over
(`atomic_inc_not_zero` fails, line 1143), returns 20 and inserts it: the
call does not return the registered authenticator, and afterwards the
registry holds two authenticators with the same key. -/
theorem gss_create_hashed_dying_entry_counterexample :
    registered R_dying 10 ∧ key_matches R_dying args_krb5 1 10 ∧
    in_own_bucket hash16 R_dying ∧ keys_unique R_dying ∧
    made_fresh R_dying (.ok 20) ∧
    (gss_create_hashed hash16 (.ok 20) R_dying args_krb5 1).1 = .ok (some 20) ∧
    (gss_create_hashed hash16 (.ok 20) R_dying args_krb5 1).2.gss_auth_hash_table 1
      = [20, 10] ∧
    same_key ((gss_create_hashed hash16 (.ok 20) R_dying args_krb5 1).2.auths 20)
      ((gss_create_hashed hash16 (.ok 20) R_dying args_krb5 1).2.auths 10) ∧
    ¬ keys_unique (gss_create_hashed hash16 (.ok 20) R_dying args_krb5 1).2 := by
  have hreg : ∀ a, registered R_dying a → a = 10 := fun a => (R_dying_registered a).mp
  refine ⟨(R_dying_registered 10).mpr rfl, ⟨rfl, rfl, rfl⟩, ?_, ?_, ?_, rfl, rfl,
    ⟨rfl, rfl, rfl⟩, ?_⟩
  · intro b a hab
    have ha : a = 10 := hreg a ⟨b, hab⟩
    subst ha
    by_cases hbk : b = 1
    · subst hbk; rfl
    · have : R_dying.gss_auth_hash_table b = [] := if_neg hbk
      rw [this] at hab
      cases hab
  · intro a1 a2 h1 h2 _
    rw [hreg a1 h1, hreg a2 h2]
  · intro a ha hr
    have e : a = 20 := by injection ha with ha; exact ha.symm
    have := hreg a hr
    omega
  · intro hu
    have h := hu 20 10 ⟨1, by decide⟩ ⟨1, by decide⟩ ⟨rfl, rfl, rfl⟩
    exact absurd h (by decide)

/-- C24, amended: in a registry whose entries sit in the bucket of their
client and in which no two authenticators with a nonzero `au_count` have the
same key,
* after any sequence of `gss_create_new`, `gss_auth_find_or_add_hashed`,
  `gss_create_hashed` and `gss_destroy` calls, and of references taken and
  dropped elsewhere, still no two registered authenticators with a nonzero
  `au_count` have the same key;
* a call whose key matches a registered authenticator `a` with a nonzero
  `au_count` returns `a`, takes a reference on it and changes nothing else:
  the candidate is not inserted;
* so two creates with identical tuples yield the same authenticator, as long
  as its `au_count` is not zero when the second runs;
* a registered authenticator whose `au_count` is zero is never returned by a
  lookup;
* the reference taken is `au_count + 1` as long as the 32-bit counter has
  room. -/
theorem gss_auth_registry_live_keys_unique (hash_min : Nat → Nat) (R : Registry)
    (hb : in_own_bucket hash_min R) (hu : live_keys_unique R) :
    (∀ R1, registry_reaches hash_min R R1 → live_keys_unique R1) ∧
    (∀ (args : rpc_auth_create_args) (clnt a : Nat) (new : Option Nat)
        (made : Except Int Nat),
      registered R a → key_matches R args clnt a → (R.auths a).au_count ≠ 0 →
      gss_auth_find_or_add_hashed hash_min R args clnt new
        = (some a,
           { R with
             auths := Function.update R.auths a
               ({ R.auths a with
                  au_count := (atomic_inc_not_zero (R.auths a).au_count).2 }) }) ∧
      gss_create_hashed hash_min made R args clnt
        = (.ok (some a),
           { R with
             auths := Function.update R.auths a
               ({ R.auths a with
                  au_count := (atomic_inc_not_zero (R.auths a).au_count).2 }) })) ∧
    (∀ (args : rpc_auth_create_args) (clnt : Nat) (made1 made2 : Except Int Nat)
        (a : Nat) (R1 : Registry),
      made_fresh R made1 →
      gss_create_hashed hash_min made1 R args clnt = (.ok (some a), R1) →
      (R1.auths a).au_count ≠ 0 →
      (gss_create_hashed hash_min made2 R1 args clnt).1 = .ok (some a) ∧
      (gss_create_hashed hash_min made2 R1 args clnt).2.gss_auth_hash_table
        = R1.gss_auth_hash_table) ∧
    (∀ (args : rpc_auth_create_args) (clnt x : Nat) (new : Option Nat),
      (R.auths x).au_count = 0 → new ≠ some x →
      (gss_auth_find_or_add_hashed hash_min R args clnt new).1 ≠ some x) ∧
    (∀ c : Int, c ≠ 0 → -2 ^ 31 ≤ c → c < 2 ^ 31 - 1 →
      (atomic_inc_not_zero c).2 = c + 1) := by
  refine ⟨fun R1 h => (registry_reaches_inv hash_min R R1 hb hu h).2,
    fun args clnt a new made hr hk hl =>
      ⟨gss_auth_find_or_add_hashed_live hash_min R args clnt a new hb hu hr hk hl,
       gss_create_hashed_live hash_min made R args clnt a hb hu hr hk hl⟩,
    fun args clnt made1 made2 a R1 hf h hl => ?_,
    fun args clnt x new hx hnew => ?_,
    atomic_inc_not_zero_snd⟩
  · obtain ⟨hr1, hk1⟩ := gss_create_hashed_result hash_min made1 R args clnt a R1 hf h
    have hinv := gss_create_hashed_inv hash_min made1 R args clnt hf hb hu
    rw [h] at hinv
    rw [gss_create_hashed_live hash_min made2 R1 args clnt a hinv.1 hinv.2 hr1 hk1 hl]
    exact ⟨rfl, rfl⟩
  · rcases gss_auth_find_or_add_hashed_spec hash_min R args clnt new with
      ⟨pos, _, _, hl, hres⟩ | ⟨_, hres⟩
    · rw [hres]
      intro e
      have e1 : pos = x := Option.some.inj e
      rw [e1] at hl
      exact hl hx
    · rw [hres]
      exact hnew

/-- C24 exercised on the empty registry: a create for the client 1 and the
pseudoflavor 390003 makes the authenticator 20 and registers it; a second
create with the same tuple, for which `gss_create_new` would make 30, returns
20 again and leaves the table as it is; and the live keys stay unique. -/
theorem gss_auth_registry_live_keys_unique_witness :
    in_own_bucket hash16 R_empty ∧ live_keys_unique R_empty ∧
    (gss_create_hashed hash16 (.ok 20) R_empty args_krb5 1).1 = .ok (some 20) ∧
    (gss_create_hashed hash16 (.ok 20) R_empty args_krb5 1).2.gss_auth_hash_table 1 = [20] ∧
    (gss_create_hashed hash16 (.ok 30)
      (gss_create_hashed hash16 (.ok 20) R_empty args_krb5 1).2 args_krb5 1).1
      = .ok (some 20) ∧
    live_keys_unique (gss_create_hashed hash16 (.ok 30)
      (gss_create_hashed hash16 (.ok 20) R_empty args_krb5 1).2 args_krb5 1).2 :=
  have hb : in_own_bucket hash16 R_empty := fun _ _ h => by cases h
  have hu : live_keys_unique R_empty := fun _ _ h => by
    obtain ⟨_, h⟩ := h
    cases h
  have hf : made_fresh R_empty (.ok 20) := fun _ _ h => by
    obtain ⟨_, h⟩ := h
    cases h
  ⟨hb, hu, rfl, rfl,
   ((gss_auth_registry_live_keys_unique hash16 R_empty hb hu).2.2.1 args_krb5 1
      (.ok 20) (.ok 30) 20 (gss_create_hashed hash16 (.ok 20) R_empty args_krb5 1).2
      hf rfl (by decide)).1,
   (gss_auth_registry_live_keys_unique hash16 R_empty hb hu).1 _
     (registry_reaches.create _ _ _ _ _
       (registry_reaches.create _ _ _ _ _ (registry_reaches.refl _) hf)
       (fun a ha hr => by
         have e : a = 30 := by injection ha with ha; exact ha.symm
         subst e
         obtain ⟨b, hb30⟩ := hr
         have hR1 : (gss_create_hashed hash16 (.ok 20) R_empty args_krb5 1).2
             = hash_add hash16 (gss_create_new (.ok 20) R_empty args_krb5 1).2 20 1 := rfl
         rw [hR1] at hb30
         rcases (hash_add_mem hash16 _ 20 1 b 30).mp hb30 with ⟨e, _⟩ | h
         · exact absurd e (by decide)
         · cases h))⟩

end AuthGss
